import Mathlib

/-!
Subtitle burn-in filter (libhb/rendersub.c): shallow embedding and properties.

Modelling conventions.

* A plane of an `hb_buffer_t` is a grid of samples addressed by (row, column).  The C code
  forms a row pointer `data + row * stride` and indexes it by a column; the model reads and
  stores the cell `(row, column)` of the plane.  Rows and columns are integers and the grid
  is total, so a store whose row or column lies outside `width x height` of the plane is
  visible as a store to a cell outside the plane extents; where such a store lands in memory
  (row padding, a neighbouring row, another plane) is not modelled.
* Samples are natural numbers.  A store into a `uint8_t` (`uint16_t`) lvalue reduces the
  value modulo `2^8` (`2^16`); `uint32_t` and `unsigned` arithmetic is reduced modulo `2^32`.
* `for (i = lo; i < hi; i++) body` is `forRange lo hi body`.
* `a >> s` on a signed `int` is the arithmetic (flooring) shift `Int.shiftRight`, and
  `a << s` is multiplication by `2 ^ s`.
-/

namespace RenderSub

/-! ## Loops -/

/-- Runs `body i`, `body (i+1)`, ... for `n` consecutive values of the loop counter. -/
def forN {σ : Type} (body : Int → σ → σ) : Nat → Int → σ → σ
  | 0, _, s => s
  | n + 1, i, s => forN body n (i + 1) (body i s)

/-- The loop `for (i = lo; i < hi; i++) body`, for a body that leaves `i` and `hi` alone. -/
def forRange {σ : Type} (lo hi : Int) (body : Int → σ → σ) (s : σ) : σ :=
  forN body (hi - lo).toNat lo s

/-! ## Frame buffers -/

/-- One plane of a frame buffer (`hb_buffer_t.plane[i]`): its extents and its samples,
addressed by row and column.  The row pitch `plane[i].stride` is not a field: the cell
`(r, c)` stands for the sample at `data + r * stride + c`, and for `0 <= c < stride` distinct
cells are distinct samples.  A column outside that range is a cell of its own here, whereas in
memory it is a sample of a neighbouring row; the luma loops of the blenders, which can store
there, are given on the memory itself as well (`blend8on8_luma_mem`, `blend8on1x_luma_mem`,
`blend8onbi1x_luma_mem`), and so is the chroma loop of `blend8on8` (`blend8on8_chroma_mem`). -/
structure Plane where
  width : Int
  height : Int
  data : Int → Int → Nat

/-- The pixel formats of libavutil (`enum AVPixelFormat`) that rendersub.c names; any other
value of the enumeration is `other`. -/
inductive AVPixelFormat where
  | AV_PIX_FMT_NV12 | AV_PIX_FMT_P010 | AV_PIX_FMT_P012 | AV_PIX_FMT_P016
  | AV_PIX_FMT_YUV420P | AV_PIX_FMT_YUV420P10 | AV_PIX_FMT_YUV420P12 | AV_PIX_FMT_YUV420P16
  | AV_PIX_FMT_NV16 | AV_PIX_FMT_P210 | AV_PIX_FMT_P212 | AV_PIX_FMT_P216
  | AV_PIX_FMT_YUV422P | AV_PIX_FMT_YUV422P10 | AV_PIX_FMT_YUV422P12 | AV_PIX_FMT_YUV422P16
  | AV_PIX_FMT_NV24 | AV_PIX_FMT_P410 | AV_PIX_FMT_P412 | AV_PIX_FMT_P416
  | AV_PIX_FMT_YUV444P | AV_PIX_FMT_YUV444P10 | AV_PIX_FMT_YUV444P12 | AV_PIX_FMT_YUV444P16
  | AV_PIX_FMT_YUVA420P | AV_PIX_FMT_YUVA422P | AV_PIX_FMT_YUVA444P
  | other (n : Int)
  deriving DecidableEq

/-- The fields of `hb_buffer_t` used by the filter: the timing `s.start`, `s.stop`, the flags
`s.flags`, the geometry `f.width`, `f.height`, `f.x`, `f.y`, `f.window_width`,
`f.window_height`, the planes, the pixel format `f.fmt` and, for a text subtitle, the payload
bytes `data` (of length `size`). -/
structure Buffer where
  s_start : Int
  s_stop : Int
  s_flags : Nat
  f_width : Int
  f_height : Int
  f_x : Int
  f_y : Int
  f_window_width : Int
  f_window_height : Int
  plane : Nat → Plane
  f_fmt : AVPixelFormat := AVPixelFormat.AV_PIX_FMT_YUVA420P
  data : List Nat := []

/-- Sample of plane `p` at row `r`, column `c`. -/
def Buffer.rd (b : Buffer) (p : Nat) (r c : Int) : Nat := (b.plane p).data r c

/-- Store of `v` into plane `p` at row `r`, column `c`: the store `row[c] = v` with
`row = plane[p].data + r * stride`, for a column inside the row (see `Plane`). -/
def Buffer.store (b : Buffer) (p : Nat) (r c : Int) (v : Nat) : Buffer :=
  { b with plane := fun q =>
      if q = p then
        { b.plane q with
          data := fun r' c' => if r' = r ∧ c' = c then v else (b.plane q).data r' c' }
      else b.plane q }

/-- Every sample of the buffer fits `uint8_t`. -/
def Buffer.IsU8 (b : Buffer) : Prop := ∀ p r c, b.rd p r c < 256

/-- Every sample of the buffer fits `uint16_t`. -/
def Buffer.IsU16 (b : Buffer) : Prop := ∀ p r c, b.rd p r c < 65536

/-! ## The four blenders (rendersub.c, lines 119-464) -/

/-- The start of the clipped source range: `x0 = 0; if (left < 0) x0 = -left;`. -/
def clipStart (left : Int) : Int := if left < 0 then -left else 0

/-- The end of the clipped source range:
`ww = src->f.width; if (src->f.width - x0 > dst->f.width - left) ww = dst->f.width - left + x0;`. -/
def clipEnd (srcW dstW left x0 : Int) : Int :=
  if srcW - x0 > dstW - left then dstW - left + x0 else srcW

/-- The chroma shift the blenders derive from the destination planes:
`if (dst->plane[1].height < dst->plane[0].height) hshift = 1;`. -/
def chromaShift (chromaDim lumaDim : Int) : Nat := if chromaDim < lumaDim then 1 else 0

/-- The 8-bit blend expression `(old * (255 - alpha) + s * alpha) / 255`, stored to `uint8_t`. -/
def blendSample8 (old s alpha : Nat) : Nat := (old * (255 - alpha) + s * alpha) / 255 % 256

/-- The deep blend expression `((uint32_t)old * (max - alpha) + s * alpha) / max`, computed in
`uint32_t` and stored to `uint16_t`. -/
def blendSample16 (max old s alpha : Nat) : Nat :=
  (old * (max - alpha) + s * alpha) % 4294967296 / max % 65536

/-- The constant `max = (256 << shift) - 1` of the deep blenders. -/
def deepMax (shift : Nat) : Nat := (256 <<< shift) - 1

/-- The deep blenders' `uint16_t alpha = a_in[xx] << shift`. -/
def deepAlpha (a shift : Nat) : Nat := (a <<< shift) % 65536

/-- The 16-bit byte swap `av_bswap16` of libavutil: `(x >> 8) | (x << 8)` on `uint16_t`. -/
def av_bswap16 (x : Nat) : Nat := ((x % 65536) >>> 8 ||| (x % 65536) <<< 8) % 65536

/-- The blender `blend8on8`: 8-bit YUVA source onto an 8-bit planar destination. -/
def blend8on8 (dst src : Buffer) (left top : Int) (_shift : Nat) : Buffer :=
  let x0 := clipStart left
  let y0 := clipStart top
  let ww := clipEnd src.f_width dst.f_width left x0
  let hh := clipEnd src.f_height dst.f_height top y0
  -- Blend luma
  let d1 := forRange y0 hh (fun yy d =>
    forRange x0 ww (fun xx d =>
      let alpha := src.rd 3 yy xx
      d.store 0 (yy + top) (left + xx)
        (blendSample8 (d.rd 0 (yy + top) (left + xx)) (src.rd 0 yy xx) alpha)) d) dst
  -- Blend U & V
  let hshift := chromaShift (dst.plane 1).height (dst.plane 0).height
  let wshift := chromaShift (dst.plane 1).width (dst.plane 0).width
  forRange (y0 >>> hshift) (hh >>> hshift) (fun yy d =>
    forRange (x0 >>> wshift) (ww >>> wshift) (fun xx d =>
      let alpha := src.rd 3 (yy * 2 ^ hshift) (xx * 2 ^ wshift)
      let d := d.store 1 (yy + (top >>> hshift)) ((left >>> wshift) + xx)
        (blendSample8 (d.rd 1 (yy + (top >>> hshift)) ((left >>> wshift) + xx))
          (src.rd 1 yy xx) alpha)
      d.store 2 (yy + (top >>> hshift)) ((left >>> wshift) + xx)
        (blendSample8 (d.rd 2 (yy + (top >>> hshift)) ((left >>> wshift) + xx))
          (src.rd 2 yy xx) alpha)) d) d1

/-- The blender `blend8on1x`: 8-bit YUVA source onto a planar destination of 16-bit samples. -/
def blend8on1x (dst src : Buffer) (left top : Int) (shift : Nat) : Buffer :=
  let x0 := clipStart left
  let y0 := clipStart top
  let ww := clipEnd src.f_width dst.f_width left x0
  let hh := clipEnd src.f_height dst.f_height top y0
  let max := deepMax shift
  -- Blend luma
  let d1 := forRange y0 hh (fun yy d =>
    forRange x0 ww (fun xx d =>
      let alpha := deepAlpha (src.rd 3 yy xx) shift
      d.store 0 (yy + top) (left + xx)
        (blendSample16 max (d.rd 0 (yy + top) (left + xx)) (src.rd 0 yy xx <<< shift) alpha))
      d) dst
  -- Blend U & V
  let hshift := chromaShift (dst.plane 1).height (dst.plane 0).height
  let wshift := chromaShift (dst.plane 1).width (dst.plane 0).width
  forRange (y0 >>> hshift) (hh >>> hshift) (fun yy d =>
    forRange (x0 >>> wshift) (ww >>> wshift) (fun xx d =>
      let alpha := deepAlpha (src.rd 3 (yy * 2 ^ hshift) (xx * 2 ^ wshift)) shift
      let d := d.store 1 (yy + (top >>> hshift)) ((left >>> wshift) + xx)
        (blendSample16 max (d.rd 1 (yy + (top >>> hshift)) ((left >>> wshift) + xx))
          (src.rd 1 yy xx <<< shift) alpha)
      d.store 2 (yy + (top >>> hshift)) ((left >>> wshift) + xx)
        (blendSample16 max (d.rd 2 (yy + (top >>> hshift)) ((left >>> wshift) + xx))
          (src.rd 2 yy xx <<< shift) alpha)) d) d1

/-- The blender `blend8onbi8`: 8-bit YUVA source onto an 8-bit semi-planar destination
(plane 1 holds U at even and V at odd columns). -/
def blend8onbi8 (dst src : Buffer) (left top : Int) (_shift : Nat) : Buffer :=
  let x0 := clipStart left
  let y0 := clipStart top
  let ww := clipEnd src.f_width dst.f_width left x0
  let hh := clipEnd src.f_height dst.f_height top y0
  -- Blend luma
  let d1 := forRange y0 hh (fun yy d =>
    forRange x0 ww (fun xx d =>
      let alpha := src.rd 3 yy xx
      d.store 0 (yy + top) (left + xx)
        (blendSample8 (d.rd 0 (yy + top) (left + xx)) (src.rd 0 yy xx) alpha)) d) dst
  -- Blend U & V
  let hshift := chromaShift (dst.plane 1).height (dst.plane 0).height
  let wshift := chromaShift (dst.plane 1).width (dst.plane 0).width
  forRange (y0 >>> hshift) (hh >>> hshift) (fun yy d =>
    forRange (x0 >>> wshift) (ww >>> wshift) (fun xx d =>
      let alpha := src.rd 3 (yy * 2 ^ hshift) (xx * 2 ^ wshift)
      let d := d.store 1 (yy + (top >>> hshift)) (((left >>> wshift) + xx) * 2)
        (blendSample8 (d.rd 1 (yy + (top >>> hshift)) (((left >>> wshift) + xx) * 2))
          (src.rd 1 yy xx) alpha)
      d.store 1 (yy + (top >>> hshift)) (((left >>> wshift) + xx) * 2 + 1)
        (blendSample8 (d.rd 1 (yy + (top >>> hshift)) (((left >>> wshift) + xx) * 2 + 1))
          (src.rd 2 yy xx) alpha)) d) d1

/-- The blender `blend8onbi1x`: 8-bit YUVA source onto a semi-planar destination of 16-bit
samples; the source samples go through `av_bswap16` instead of a shift. -/
def blend8onbi1x (dst src : Buffer) (left top : Int) (shift : Nat) : Buffer :=
  let x0 := clipStart left
  let y0 := clipStart top
  let ww := clipEnd src.f_width dst.f_width left x0
  let hh := clipEnd src.f_height dst.f_height top y0
  let max := deepMax shift
  -- Blend luma
  let d1 := forRange y0 hh (fun yy d =>
    forRange x0 ww (fun xx d =>
      let alpha := deepAlpha (src.rd 3 yy xx) shift
      d.store 0 (yy + top) (left + xx)
        (blendSample16 max (d.rd 0 (yy + top) (left + xx)) (av_bswap16 (src.rd 0 yy xx)) alpha))
      d) dst
  -- Blend U & V
  let hshift := chromaShift (dst.plane 1).height (dst.plane 0).height
  let wshift := chromaShift (dst.plane 1).width (dst.plane 0).width
  forRange (y0 >>> hshift) (hh >>> hshift) (fun yy d =>
    forRange (x0 >>> wshift) (ww >>> wshift) (fun xx d =>
      let alpha := deepAlpha (src.rd 3 (yy * 2 ^ hshift) (xx * 2 ^ wshift)) shift
      let d := d.store 1 (yy + (top >>> hshift)) (((left >>> wshift) + xx) * 2)
        (blendSample16 max (d.rd 1 (yy + (top >>> hshift)) (((left >>> wshift) + xx) * 2))
          (av_bswap16 (src.rd 1 yy xx)) alpha)
      d.store 1 (yy + (top >>> hshift)) (((left >>> wshift) + xx) * 2 + 1)
        (blendSample16 max (d.rd 1 (yy + (top >>> hshift)) (((left >>> wshift) + xx) * 2 + 1))
          (av_bswap16 (src.rd 2 yy xx)) alpha)) d) d1

/-! ## The luma loops on the memory of the destination plane

The blenders address a destination sample as `plane.data + row * stride + column`.  The
definitions below run the luma loops (and the chroma loop of `blend8on8`) on that memory, so
that a store past the end of a row is a store to the row below, and a store before its start a
store to the row above. -/

/-- Store of the sample `v` at offset `i` of a plane's memory. -/
def memStore (mem : Int → Nat) (i : Int) (v : Nat) : Int → Nat :=
  fun j => if j = i then v else mem j

/-- The luma loop of `blend8on8` (lines 149-165) on the memory of the destination luma plane:
`mem` maps an offset from `dst->plane[0].data` to the byte stored there, `stride` is
`dst->plane[0].stride`, `dstW` and `dstH` are `dst->f.width` and `dst->f.height`, and
`y_out[left + xx]` with
`y_out = dst->plane[0].data + (yy + top) * stride` is the byte at offset
`(yy + top) * stride + left + xx`.  The grid of `Buffer.store` agrees with this memory as long
as every store stays inside its row. -/
def blend8on8_luma_mem (mem : Int → Nat) (stride dstW dstH : Int) (src : Buffer)
    (left top : Int) : Int → Nat :=
  let x0 := clipStart left
  let y0 := clipStart top
  let ww := clipEnd src.f_width dstW left x0
  let hh := clipEnd src.f_height dstH top y0
  forRange y0 hh (fun yy m =>
    forRange x0 ww (fun xx m =>
      let alpha := src.rd 3 yy xx
      memStore m ((yy + top) * stride + (left + xx))
        (blendSample8 (m ((yy + top) * stride + (left + xx))) (src.rd 0 yy xx) alpha)) m) mem

/-- The chroma loop of `blend8on8` (lines 175-198) on the memory of the destination plane `p`
(1 for U, 2 for V): `u_out[(left >> wshift) + xx]` with
`u_out = dst->plane[1].data + (yy + (top >> hshift)) * stride` is the byte at offset
`(yy + (top >> hshift)) * stride + (left >> wshift) + xx` (likewise `v_out` in plane 2), and
`hshift`, `wshift` are the chroma shifts of the destination.  The stores of the same loop to
the other chroma plane go to the memory of that plane. -/
def blend8on8_chroma_mem (p : Nat) (mem : Int → Nat) (stride dstW dstH : Int)
    (hshift wshift : Nat) (src : Buffer) (left top : Int) : Int → Nat :=
  let x0 := clipStart left
  let y0 := clipStart top
  let ww := clipEnd src.f_width dstW left x0
  let hh := clipEnd src.f_height dstH top y0
  forRange (y0 >>> hshift) (hh >>> hshift) (fun yy m =>
    forRange (x0 >>> wshift) (ww >>> wshift) (fun xx m =>
      let alpha := src.rd 3 (yy * 2 ^ hshift) (xx * 2 ^ wshift)
      memStore m ((yy + (top >>> hshift)) * stride + ((left >>> wshift) + xx))
        (blendSample8 (m ((yy + (top >>> hshift)) * stride + ((left >>> wshift) + xx)))
          (src.rd p yy xx) alpha)) m) mem

/-- The luma loop of `blend8on1x` (lines 241-257) on the memory of the destination luma
plane: `mem` maps the byte offset of a 16-bit sample from `dst->plane[0].data` to that sample,
and `y_out[left + xx]` with `y_out = (uint16_t*)(dst->plane[0].data + (yy + top) * stride)`
is the sample at byte offset `(yy + top) * stride + 2 * (left + xx)`. -/
def blend8on1x_luma_mem (mem : Int → Nat) (stride dstW dstH : Int) (src : Buffer)
    (left top : Int) (shift : Nat) : Int → Nat :=
  let x0 := clipStart left
  let y0 := clipStart top
  let ww := clipEnd src.f_width dstW left x0
  let hh := clipEnd src.f_height dstH top y0
  let max := deepMax shift
  forRange y0 hh (fun yy m =>
    forRange x0 ww (fun xx m =>
      let alpha := deepAlpha (src.rd 3 yy xx) shift
      memStore m ((yy + top) * stride + 2 * (left + xx))
        (blendSample16 max (m ((yy + top) * stride + 2 * (left + xx)))
          (src.rd 0 yy xx <<< shift) alpha)) m) mem

/-- The luma loop of `blend8onbi1x` (lines 415-431) on the memory of the destination luma
plane, addressed as in `blend8on1x_luma_mem`. -/
def blend8onbi1x_luma_mem (mem : Int → Nat) (stride dstW dstH : Int) (src : Buffer)
    (left top : Int) (shift : Nat) : Int → Nat :=
  let x0 := clipStart left
  let y0 := clipStart top
  let ww := clipEnd src.f_width dstW left x0
  let hh := clipEnd src.f_height dstH top y0
  let max := deepMax shift
  forRange y0 hh (fun yy m =>
    forRange x0 ww (fun xx m =>
      let alpha := deepAlpha (src.rd 3 yy xx) shift
      memStore m ((yy + top) * stride + 2 * (left + xx))
        (blendSample16 max (m ((yy + top) * stride + 2 * (left + xx)))
          (av_bswap16 (src.rd 0 yy xx)) alpha)) m) mem

/-! ## Text overlay composition (rendersub.c, lines 718-839) -/

/-- Reduction of an `unsigned` (32-bit) value. -/
def u32 (n : Nat) : Nat := n % 4294967296

/-- The macro `div255(x)`, `(((x + ((x + 128) >> 8)) + 128) >> 8)`, on an `unsigned` argument. -/
def div255 (x : Nat) : Nat := u32 (u32 (x + (u32 (x + 128) >>> 8)) + 128) >>> 8

/-- The macro `ALPHA_BLEND(srcA, srcRGB, dstAc, dstRGB, outA)`,
`((srcA * srcRGB + dstRGB * dstAc + (outA >> 1)) / outA)`, on `unsigned` arguments. -/
def ALPHA_BLEND (srcA srcRGB dstAc dstRGB outA : Nat) : Nat :=
  u32 (srcA * srcRGB + dstRGB * dstAc + (outA >>> 1)) / outA

/-- One node of the image list returned by libass (`ASS_Image`): a `w x h` alpha bitmap with
row pitch `stride`, a packed colour `0xRRGGBBAA` and a destination position.  The `next`
links are modelled by a list of nodes. -/
structure ASS_Image where
  w : Int
  h : Int
  stride : Int
  bitmap : Int → Nat
  color : Nat
  dst_x : Int
  dst_y : Int

/-- The function `ssaAlpha`: frame opacity `255 - (color & 0xff)` times the glyph alpha,
divided by 255 with `div255` and returned as `uint8_t`. -/
def ssaAlpha (frame : ASS_Image) (x y : Int) : Nat :=
  let frameA := frame.color % 256
  let gliphA := frame.bitmap (y * frame.stride + x)
  div255 (u32 ((255 - frameA) * gliphA)) % 256

/-- Store of a `uint8_t` into the scratch array `compo`. -/
def poke (compo : Int → Nat) (i : Int) (v : Nat) : Int → Nat :=
  fun j => if j = i then v % 256 else compo j

/-- The body of the fragment loops of `ComposeSubsampleASS` (lines 761-778) for one fragment
pixel of alpha `frameA` and colour `(frameY, frameU, frameV)`, at offset `fx` of `compo`. -/
def composePixel (compo : Int → Nat) (fx : Int) (frameY frameU frameV frameA : Nat) :
    Int → Nat :=
  if frameA ≠ 0 then
    if compo (fx + 3) ≠ 0 then
      let alphaInScaled := u32 (frameA * 255)
      let alphaCompo := u32 (compo (fx + 3) * (255 - frameA))
      let resAlpha := u32 (alphaInScaled + alphaCompo)
      let c0 := poke compo fx (ALPHA_BLEND alphaInScaled frameY alphaCompo (compo fx) resAlpha)
      let c1 := poke c0 (fx + 1)
        (ALPHA_BLEND alphaInScaled frameU alphaCompo (c0 (fx + 1)) resAlpha)
      let c2 := poke c1 (fx + 2)
        (ALPHA_BLEND alphaInScaled frameV alphaCompo (c1 (fx + 2)) resAlpha)
      poke c2 (fx + 3) (div255 resAlpha)
    else
      poke (poke (poke (poke compo fx frameY) (fx + 1) frameU) (fx + 2) frameV) (fx + 3) frameA
  else compo

/-- An element of `pv->sub_list` or of the subtitle fifo: a subtitle buffer and the buffers
chained to it through `next`. -/
structure Subtitle where
  buf : Buffer
  next : List Buffer

/-- One call `ass_process_chunk(track, data, size, timecode, duration)`: the event it adds to
the libass track. -/
structure Chunk where
  data : List Nat
  timecode : Int
  duration : Int

/-- The subtitle sources (`subtitle->source`, stored in `pv->type`) that rendersub.c names; any
other value is `other`. -/
inductive subsource where
  | VOBSUB | SSASUB | IMPORTSRT | IMPORTSSA | UTF8SUB | TX3GSUB | CC608SUB | DVBSUB | PGSSUB
  | other (n : Int)
  deriving DecidableEq

/-- The filter state `struct hb_filter_private_s`.  The libass track `ssaTrack` is the list of
events given to it through `ass_process_chunk`, oldest first; `blend` is the blender selected
by `hb_rendersub_init`.  The scaler context `sws` is a cache and is not modelled. -/
structure hb_filter_private_t where
  hshift : Nat
  wshift : Nat
  chromaCoeffs : Nat → Nat → Nat
  pix_fmt_alpha : AVPixelFormat := AVPixelFormat.AV_PIX_FMT_YUVA420P
  depth : Int := 8
  crop : Nat → Int := fun _ => 0
  type : subsource := subsource.VOBSUB
  sub_list : List Subtitle := []
  ssaTrack : List Chunk := []
  script_initialized : Bool := false
  last_render : Option Buffer := none
  current_sub : Option Buffer := none
  blend : Buffer → Buffer → Int → Int → Nat → Buffer := blend8on8

/-- Composition of one fragment into `compo` (lines 745-781).  `rgb2yuv` stands for the helper
`hb_rgb2yuv_bt709`, which returns the packed value `(Y << 16) | (V << 8) | U`. -/
def composeFrame (rgb2yuv : Nat → Nat) (flatStride : Int) (x y : Nat) (compo : Int → Nat)
    (frame : ASS_Image) : Int → Nat :=
  if frame.w ≠ 0 ∧ frame.h ≠ 0 then
    let yuv := rgb2yuv (frame.color >>> 8)
    let frameY := (yuv >>> 16) % 256
    let frameV := (yuv >>> 8) % 256
    let frameU := yuv % 256
    let iniFx := ((frame.dst_x - x) * 4 + (frame.dst_y - y) * flatStride) % 4294967296
    forRange 0 frame.h (fun yy compo =>
      forRange 0 frame.w (fun xx compo =>
        let fx := (iniFx + yy * flatStride) % 4294967296 + 4 * xx
        composePixel compo fx frameY frameU frameV (ssaAlpha frame xx yy)) compo) compo
  else compo

/-- The accumulation loops of the chroma subsampling (lines 812-821) for the chroma sample
whose top-left composed pixel is at offset `fx` (column `xx`, row `yy`); the result is
`(accuA, accuB, accuC)`. -/
def chromaAccumulate (pv : hb_filter_private_t) (compo : Int → Nat) (flatStride : Int)
    (width height : Nat) (xx yy fx : Int) : Nat × Nat × Nat :=
  forRange 0 (min (2 ^ pv.hshift) ((height : Int) - yy)) (fun yz acc =>
    forRange 0 (min (2 ^ pv.wshift) ((width : Int) - xx)) (fun xz acc =>
      let coeff := u32 (pv.chromaCoeffs 0 xz.toNat * pv.chromaCoeffs 1 yz.toNat *
        compo (fx + yz * flatStride + 3))
      (u32 (acc.1 + coeff * compo (fx + yz * flatStride + 1)),
       u32 (acc.2.1 + coeff * compo (fx + yz * flatStride + 2)),
       u32 (acc.2.2 + coeff))) acc) (0, 0, 0)

/-- The second half of `ComposeSubsampleASS` (lines 802-835): copy of Y and A, and chroma
subsampling of the composed picture into the planes of `sub`.  The row pointers `y_out`,
`a_out` advance once per row and `u_out`, `v_out` once per chroma line, so that the stores go
to row `yy` of planes 0 and 3 and to row `ys` of planes 1 and 2. -/
def subsampleCompo (pv : hb_filter_private_t) (compo : Int → Nat) (flatStride : Int)
    (width height : Nat) (sub : Buffer) : Buffer :=
  forRange 0 height (fun yy sub =>
    let ys := yy >>> pv.hshift
    forRange 0 width (fun xx sub =>
      let xs := xx >>> pv.wshift
      let fx := (yy * flatStride) % 4294967296 + 4 * xx
      let sub := sub.store 0 yy xx (compo fx % 256)
      let sub := sub.store 3 yy xx (compo (fx + 3) % 256)
      if yy = ys * 2 ^ pv.hshift ∧ xx = xs * 2 ^ pv.wshift then
        let acc := chromaAccumulate pv compo flatStride width height xx yy fx
        if acc.2.2 ≠ 0 then
          (sub.store 1 ys xs (u32 (acc.1 + (acc.2.2 - 1)) / acc.2.2 % 256)).store 2 ys xs
            (u32 (acc.2.1 + (acc.2.2 - 1)) / acc.2.2 % 256)
        else sub
      else sub) sub) sub

/-- Conversion of an `unsigned` value to `int` (two-complement wrap-around, as the compilers
the library is built with define it). -/
def toSigned (n : Nat) : Int :=
  if n % 4294967296 < 2147483648 then (n % 4294967296 : Nat)
  else (n % 4294967296 : Nat) - 4294967296

/-- The function `ComposeSubsampleASS`.  `callocOk` tells whether the allocation of the scratch
array succeeded and `frameBuf` is the result of `hb_frame_buffer_init` (`none` for `NULL`);
the result is `none` where the C function returns `NULL`.  The assignments `sub->f.x = x;
sub->f.y = y;` convert the `unsigned` origin to `int`. -/
def ComposeSubsampleASS (pv : hb_filter_private_t) (rgb2yuv : Nat → Nat) (callocOk : Bool)
    (frameBuf : Option Buffer) (frameList : List ASS_Image) (width height x y : Nat) :
    Option Buffer :=
  let flatStride : Int := ((width <<< 2) % 4294967296 : Nat)
  if callocOk = false then none
  else
    let compo := frameList.foldl (composeFrame rgb2yuv flatStride x y) (fun _ => 0)
    match frameBuf with
    | none => none
    | some sub =>
      some (subsampleCompo pv compo flatStride width height { sub with f_x := toSigned x, f_y := toSigned y })

/-- The bound the three accumulators `(accuA, accuB, accuC)` of the chroma subsampling keep
after at most `k` terms: `accuC` is at most `k * 27 * 27 * 255`, and `accuA` and `accuB` are
at most `255 * accuC`. -/
def accuBound (k : Nat) (acc : Nat × Nat × Nat) : Prop :=
  acc.2.2 ≤ k * 185895 ∧ acc.1 ≤ 255 * acc.2.2 ∧ acc.2.1 ≤ 255 * acc.2.2

/-! ## The VOBSUB track (rendersub.c, lines 616-657) -/

/-- The constant `AV_NOPTS_VALUE` of libavutil, `INT64_MIN`: the stop time is not known. -/
def AV_NOPTS_VALUE : Int := -9223372036854775808

/-- The test `next != NULL && next->s.start <= buf->s.start` on the successor of the current
entry, `rest` being the entries after it. -/
def nextStarted (start : Int) : List Subtitle → Bool
  | [] => false
  | next :: _ => decide (next.buf.s_start ≤ start)

/-- The function `ApplyVOBSubs`, as a walk over `pv->sub_list` from index `ii`.  The argument
list is the part of the list from `ii` on, `start` is `buf->s.start` and `buf` the frame;
`render buf sub` stands for the three statements `scaled = ScaleSubtitle(pv, sub, buf);
ApplySub(pv, buf, scaled); hb_buffer_close(&scaled);`.  The result is the list left in
`pv->sub_list` and the frame. -/
def ApplyVOBSubs {φ : Type} (render : φ → Buffer → φ) (start : Int) :
    List Subtitle → φ → List Subtitle × φ
  | [], buf => ([], buf)
  | sub :: rest, buf =>
    if (sub.buf.s_stop ≠ AV_NOPTS_VALUE ∧ sub.buf.s_stop ≤ start) ∨
        (sub.buf.s_stop = AV_NOPTS_VALUE ∧ nextStarted start rest = true) then
      -- Subtitle stop is in the past, delete it
      ApplyVOBSubs render start rest buf
    else if sub.buf.s_start ≤ start then
      -- Render the subtitle (and the buffers chained to it) into the frame
      let r := ApplyVOBSubs render start rest ((sub.buf :: sub.next).foldl render buf)
      (sub :: r.1, r.2)
    else
      -- The subtitle starts in the future.  No need to continue.
      (sub :: rest, buf)

/-! ## Environment of the filter -/

/-- Outcome of a call of a C function of the filter: it returns a value, or it dereferences a
`NULL` buffer pointer. -/
inductive Run (α : Type) where
  | done (a : α)
  | nullDeref

/-- The functions rendersub.c calls and does not define: the frame allocator
`hb_frame_buffer_init(fmt, width, height)` and `hb_buffer_dup` (`none` for `NULL`),
`hb_buffer_is_writable`, the scaler `sws_scale` (the samples it writes into the planes of the
destination), the libass renderer `ass_render_frame` (the image list and the `changed`
flag, for the events of the track and a time in ms), `hb_rgb2yuv_bt709`, and whether `calloc`
succeeds. -/
structure Externals where
  hb_frame_buffer_init : AVPixelFormat → Int → Int → Option Buffer
  hb_buffer_dup : Buffer → Option Buffer
  hb_buffer_is_writable : Buffer → Bool
  sws_scale : Buffer → Buffer → Nat → Int → Int → Nat
  ass_render_frame : List Chunk → Int → List ASS_Image × Bool
  hb_rgb2yuv_bt709 : Nat → Nat
  calloc_ok : Bool

/-- Modelled from the spec: the frame flag `EOF` (`HB_BUF_FLAG_EOF`, a one-bit mask defined in
handbrake/internal.h, which is not among the sources). -/
def HB_BUF_FLAG_EOF : Nat := 0x0400

/-- Modelled from the spec: the frame flag `EOS` (`HB_BUF_FLAG_EOS`, a one-bit mask defined in
handbrake/internal.h, which is not among the sources). -/
def HB_BUF_FLAG_EOS : Nat := 0x0800

/-- Modelled from the spec: the status `OK` of the filter contract (`HB_FILTER_OK`, defined in
handbrake/common.h, which is not among the sources). -/
def HB_FILTER_OK : Int := 0

/-- Modelled from the spec: the status `DONE` of the filter contract (`HB_FILTER_DONE`, defined
in handbrake/common.h, which is not among the sources). -/
def HB_FILTER_DONE : Int := 4

/-! ## Placement and rescaling (rendersub.c, lines 466-612) -/

/-- The function `ApplySub`: `pv->blend(buf, sub, sub->f.x, sub->f.y, pv->depth - 8)`.  Both
pointers are dereferenced, `sub` for the arguments and `buf` by the blender. -/
def ApplySub (pv : hb_filter_private_t) (buf sub : Option Buffer) : Run Buffer :=
  match sub with
  | none => Run.nullDeref
  | some sub =>
    match buf with
    | none => Run.nullDeref
    | some buf => Run.done (pv.blend buf sub sub.f_x sub.f_y (pv.depth - 8).toNat)

/-- The macro `ABS(a)`, `((a) > 0 ? (a) : (-(a)))`. -/
def ABS (a : ℚ) : ℚ := if a > 0 then a else -a

/-- Conversion of a `double` to `int`: truncation toward zero. -/
def truncToInt (q : ℚ) : Int := if 0 ≤ q then ⌊q⌋ else ⌈q⌉

/-- The scale factors of `ScaleSubtitle` (lines 477-498); `double` arithmetic is modelled by
exact rational arithmetic.  The two agree where the quotient is exact in `double` (equal
extents give exactly 1) and can differ by a rounding otherwise, which shows only at the
threshold of line 499 and in the truncations of lines 505-513. -/
def scaleFactors (sub buf : Buffer) : ℚ × ℚ :=
  if sub.f_window_width > 0 ∧ sub.f_window_height > 0 then
    let xfactor : ℚ := (buf.f_width : ℚ) / (sub.f_window_width : ℚ)
    let yfactor : ℚ := (buf.f_height : ℚ) / (sub.f_window_height : ℚ)
    if xfactor > yfactor then (xfactor, xfactor) else (yfactor, yfactor)
  else (1, 1)

/-- The first half of `ScaleSubtitle` (lines 476-537): the buffer `scaled`, rescaled or
duplicated, before it is placed.  `Run.done none` is the `return NULL` after a failed
allocation; a failed `hb_buffer_dup` leaves `scaled == NULL`, which the placement code
dereferences. -/
def rescaleSubtitle (env : Externals) (sub buf : Buffer) : Run (Option Buffer) :=
  let xfactor := (scaleFactors sub buf).1
  let yfactor := (scaleFactors sub buf).2
  if ABS (xfactor - 1) > 1 / 100 ∨ ABS (yfactor - 1) > 1 / 100 then
    let width := truncToInt ((sub.f_width : ℚ) * xfactor)
    let height := truncToInt ((sub.f_height : ℚ) * yfactor)
    match env.hb_frame_buffer_init AVPixelFormat.AV_PIX_FMT_YUVA420P width height with
    | none => Run.done none
    | some scaled =>
      Run.done (some
        { scaled with
          f_x := truncToInt ((sub.f_x : ℚ) * xfactor)
          f_y := truncToInt ((sub.f_y : ℚ) * yfactor)
          plane := fun p => { scaled.plane p with data := env.sws_scale sub scaled p } })
  else
    match env.hb_buffer_dup sub with
    | none => Run.nullDeref
    | some scaled => Run.done (some scaled)

/-- The margin `margin_top` of `ScaleSubtitle` (lines 545-561): 2% of the uncropped height,
at most 20. -/
def marginTop (pv : hb_filter_private_t) (buf : Buffer) : Int :=
  let margin_percent := 2
  let margin_top := Int.tdiv ((buf.f_height - pv.crop 0 - pv.crop 1) * margin_percent) 100
  if margin_top > 20 then 20 else margin_top

/-- The vertical position `top` chosen by `ScaleSubtitle` (lines 563-596). -/
def placeTop (pv : hb_filter_private_t) (scaled buf : Buffer) : Int :=
  let margin_top := marginTop pv buf
  if scaled.f_height > buf.f_height - pv.crop 0 - pv.crop 1 - (margin_top * 2) then
    pv.crop 0 + Int.tdiv (buf.f_height - pv.crop 0 - pv.crop 1 - scaled.f_height) 2
  else if scaled.f_y < pv.crop 0 + margin_top then
    pv.crop 0 + margin_top
  else if scaled.f_y > buf.f_height - pv.crop 1 - margin_top - scaled.f_height then
    buf.f_height - pv.crop 1 - margin_top - scaled.f_height
  else
    scaled.f_y

/-- The horizontal position `left` chosen by `ScaleSubtitle` (lines 598-606). -/
def placeLeft (pv : hb_filter_private_t) (scaled buf : Buffer) : Int :=
  if scaled.f_width > buf.f_width - pv.crop 2 - pv.crop 3 - 40 then
    pv.crop 2 + Int.tdiv (buf.f_width - pv.crop 2 - pv.crop 3 - scaled.f_width) 2
  else if scaled.f_x < pv.crop 2 + 20 then
    pv.crop 2 + 20
  else if scaled.f_x > buf.f_width - pv.crop 3 - 20 - scaled.f_width then
    buf.f_width - pv.crop 3 - 20 - scaled.f_width
  else
    scaled.f_x

/-- The function `ScaleSubtitle`.  `Run.done none` is the result `NULL`. -/
def ScaleSubtitle (env : Externals) (pv : hb_filter_private_t) (sub buf : Buffer) :
    Run (Option Buffer) :=
  match rescaleSubtitle env sub buf with
  | Run.nullDeref => Run.nullDeref
  | Run.done none => Run.done none
  | Run.done (some scaled) =>
    Run.done (some { scaled with f_x := placeLeft pv scaled buf, f_y := placeTop pv scaled buf })

/-- The three statements `scaled = ScaleSubtitle(pv, sub, buf); ApplySub(pv, buf, scaled);
hb_buffer_close(&scaled);` of `ApplyVOBSubs` and `ApplyPGSSubs`, on a frame that is still
being processed (`Run.done buf`) or after a `NULL` dereference. -/
def renderSub (env : Externals) (pv : hb_filter_private_t) (rbuf : Run Buffer) (sub : Buffer) :
    Run Buffer :=
  match rbuf with
  | Run.nullDeref => Run.nullDeref
  | Run.done buf =>
    match ScaleSubtitle env pv sub buf with
    | Run.nullDeref => Run.nullDeref
    | Run.done scaled => ApplySub pv (some buf) scaled

/-! ## The PGS/DVB track (rendersub.c, lines 1298-1405) -/

/-- The inner loop of `ApplyPGSSubs` (lines 1312-1318):
`while (index > 0) { remove item index - 1; index--; }`. -/
def removeOlder : Nat → List Subtitle → List Subtitle
  | 0, l => l
  | index + 1, l => removeOlder index (l.eraseIdx index)

/-- The first loop of `ApplyPGSSubs` (lines 1307-1320), entered with the given `index`:
`for (; index > 0; index--)`, where the inner loop leaves `index == 0`. -/
def supersede (start : Int) : Nat → List Subtitle → List Subtitle
  | 0, l => l
  | index + 1, l =>
    match l[index + 1]? with
    | some sub =>
      if sub.buf.s_start ≤ start then removeOlder (index + 1) l
      else supersede start index l
    | none => l

/-- The second loop of `ApplyPGSSubs` (lines 1325-1333): entries without content are removed
from the front of the list. -/
def dropClear : List Subtitle → List Subtitle
  | [] => []
  | sub :: rest =>
    if sub.buf.f_width ≠ 0 ∧ sub.buf.f_height ≠ 0 then sub :: rest else dropClear rest

/-- The function `ApplyPGSSubs`.  `l` is `pv->sub_list`, `start` is `buf->s.start` and
`render` stands for the three statements of `renderSub`.  The result is the list left in
`pv->sub_list` and the frame. -/
def ApplyPGSSubs {φ : Type} (render : φ → Buffer → φ) (start : Int) (l : List Subtitle)
    (buf : φ) : List Subtitle × φ :=
  let l1 := supersede start (l.length - 1) l
  let l2 := dropClear l1
  match l2 with
  | [] => (l2, buf)
  | sub :: _ =>
    if sub.buf.s_start ≤ start then (l2, render buf sub.buf) else (l2, buf)

/-- The fifo loop of `vobsub_work` and `pgssub_work`:
`while ((sub = hb_fifo_get(fifo))) { if (EOF) { close; break; } hb_list_add(sub_list, sub); }`.
The result is what is left in the fifo, and the list. -/
def drainFifo : List Subtitle → List Subtitle → List Subtitle × List Subtitle
  | [], l => ([], l)
  | sub :: fifo, l =>
    if sub.buf.s_flags &&& HB_BUF_FLAG_EOF ≠ 0 then (fifo, l)
    else drainFifo fifo (l ++ [sub])

/-- The result of a work function: the status, the filter state, what is left in the
subtitle fifo, and `*buf_out`. -/
abbrev WorkResult := Run (Int × hb_filter_private_t × List Subtitle × Option Buffer)

/-- The function `vobsub_work`. -/
def vobsub_work (env : Externals) (pv : hb_filter_private_t) (fifo : List Subtitle)
    (inb : Buffer) : WorkResult :=
  if inb.s_flags &&& HB_BUF_FLAG_EOF ≠ 0 then
    Run.done (HB_FILTER_DONE, pv, fifo, some inb)
  else
    let d := drainFifo fifo pv.sub_list
    let r := ApplyVOBSubs (renderSub env pv) inb.s_start d.2 (Run.done inb)
    match r.2 with
    | Run.nullDeref => Run.nullDeref
    | Run.done out => Run.done (HB_FILTER_OK, { pv with sub_list := r.1 }, d.1, some out)

/-- The function `pgssub_work`. -/
def pgssub_work (env : Externals) (pv : hb_filter_private_t) (fifo : List Subtitle)
    (inb : Buffer) : WorkResult :=
  if inb.s_flags &&& HB_BUF_FLAG_EOF ≠ 0 then
    Run.done (HB_FILTER_DONE, pv, fifo, some inb)
  else
    let d := drainFifo fifo pv.sub_list
    let r := ApplyPGSSubs (renderSub env pv) inb.s_start d.2 (Run.done inb)
    match r.2 with
    | Run.nullDeref => Run.nullDeref
    | Run.done out => Run.done (HB_FILTER_OK, { pv with sub_list := r.1 }, d.1, some out)

/-! ## The text tracks (rendersub.c, lines 908-962 and 1074-1296) -/

/-- Conversion of an `int` to `unsigned`. -/
def toUnsigned (i : Int) : Nat := (i % 4294967296).toNat

/-- The bounding box loop of `render_ssa_subs` (lines 925-937): `(x1, y1, x2, y2)` over the
fragments with `w && h`, in `unsigned` arithmetic. -/
def boundingBox (frameList : List ASS_Image) : Nat × Nat × Nat × Nat :=
  frameList.foldl (fun (b : Nat × Nat × Nat × Nat) frame =>
    if frame.w ≠ 0 ∧ frame.h ≠ 0 then
      let x2 := if b.2.2.1 > toUnsigned (frame.dst_x + frame.w) then b.2.2.1
        else toUnsigned (frame.dst_x + frame.w)
      let y2 := if b.2.2.2 > toUnsigned (frame.dst_y + frame.h) then b.2.2.2
        else toUnsigned (frame.dst_y + frame.h)
      let x1 := if b.1 > toUnsigned frame.dst_x then toUnsigned frame.dst_x else b.1
      let y1 := if b.2.1 > toUnsigned frame.dst_y then toUnsigned frame.dst_y else b.2.1
      (x1, y1, x2, y2)
    else b) (4294967295, 4294967295, 0, 0)

/-- The padding of the box origin to the chroma grid (lines 942-943):
`x1 -= (x1 + crop) & ((1 << shift) - 1)`, in `unsigned` arithmetic. -/
def padOrigin (x1 : Nat) (crop : Int) (shift : Nat) : Nat :=
  u32 (x1 + 4294967296 - (toUnsigned (x1 + crop) &&& toUnsigned (2 ^ shift - 1)))

/-- The function `render_ssa_subs`: the overlay to blend (`none` for `NULL`) and the filter
state with the updated `last_render`. -/
def render_ssa_subs (env : Externals) (pv : hb_filter_private_t) (start : Int) :
    Option Buffer × hb_filter_private_t :=
  let r := env.ass_render_frame pv.ssaTrack (Int.tdiv start 90)
  match r.1 with
  | [] => (none, pv)
  | frame :: frames =>
    if r.2 = true then
      let b := boundingBox (frame :: frames)
      if b.2.2.1 > 0 then
        let x1 := padOrigin b.1 (pv.crop 2) pv.wshift
        let y1 := padOrigin b.2.1 (pv.crop 0) pv.hshift
        let width := u32 (b.2.2.1 + 4294967296 - x1)
        let height := u32 (b.2.2.2 + 4294967296 - y1)
        let composed := ComposeSubsampleASS pv env.hb_rgb2yuv_bt709 env.calloc_ok
          (env.hb_frame_buffer_init pv.pix_fmt_alpha width height) (frame :: frames)
          width height x1 y1
        let last_render := composed.map (fun sub =>
          { sub with f_x := sub.f_x + pv.crop 2, f_y := sub.f_y + pv.crop 0 })
        (last_render, { pv with last_render := last_render })
      else (none, { pv with last_render := none })
    else (pv.last_render, pv)

/-- The end of `ssa_work` and `textsub_work` (lines 1279-1293): the frame is duplicated when
there is an overlay and the frame is not writable, and the overlay is blended. -/
def applyRendered (env : Externals) (pv : hb_filter_private_t) (inb : Buffer)
    (rendered_subs : Option Buffer) : Run (Option Buffer) :=
  match rendered_subs with
  | none => Run.done (some inb)
  | some sub =>
    let out := if env.hb_buffer_is_writable inb = false then env.hb_buffer_dup inb
      else some inb
    match ApplySub pv out (some sub) with
    | Run.nullDeref => Run.nullDeref
    | Run.done b => Run.done (some b)

/-- The fifo loop of `ssa_work` (lines 1106-1120): every event is given to libass with its
times divided by 90. -/
def ssa_ingest : List Subtitle → hb_filter_private_t → List Subtitle × hb_filter_private_t
  | [], pv => ([], pv)
  | sub :: fifo, pv =>
    if sub.buf.s_flags &&& HB_BUF_FLAG_EOF ≠ 0 then (fifo, pv)
    else
      ssa_ingest fifo
        { pv with ssaTrack := pv.ssaTrack ++
            [{ data := sub.buf.data, timecode := Int.tdiv sub.buf.s_start 90,
               duration := Int.tdiv (sub.buf.s_stop - sub.buf.s_start) 90 }] }

/-- The function `ssa_work`. -/
def ssa_work (env : Externals) (pv : hb_filter_private_t) (fifo : List Subtitle)
    (inb : Buffer) : WorkResult :=
  let pv := { pv with script_initialized := true }
  if inb.s_flags &&& HB_BUF_FLAG_EOF ≠ 0 then
    Run.done (HB_FILTER_DONE, pv, fifo, some inb)
  else
    let d := ssa_ingest fifo pv
    let r := render_ssa_subs env d.2 inb.s_start
    match applyRendered env r.2 inb r.1 with
    | Run.nullDeref => Run.nullDeref
    | Run.done out => Run.done (HB_FILTER_OK, r.2, d.1, out)

/-- The function `process_sub`: the event is given to libass with its times as they are. -/
def process_sub (pv : hb_filter_private_t) (sub : Buffer) : hb_filter_private_t :=
  { pv with ssaTrack := pv.ssaTrack ++
      [{ data := sub.data, timecode := sub.s_start, duration := sub.s_stop - sub.s_start }] }

/-- The fifo loop of `textsub_work` (lines 1208-1266).  The result is what is left in the
fifo, and the filter state. -/
def textsub_ingest : List Subtitle → hb_filter_private_t → List Subtitle × hb_filter_private_t
  | [], pv => ([], pv)
  | sub :: fifo, pv =>
    if sub.buf.s_flags &&& HB_BUF_FLAG_EOF ≠ 0 then
      match pv.current_sub with
      | some current_sub =>
        -- Make us some duration for final sub
        (fifo, { process_sub pv { current_sub with s_stop := current_sub.s_start + 90000 * 10 }
                 with current_sub := none })
      | none => (fifo, pv)
    else
      -- convert to ms immediately
      let sub : Buffer :=
        { sub.buf with
          s_start := Int.tdiv sub.buf.s_start 90
          s_stop := if sub.buf.s_stop ≠ AV_NOPTS_VALUE then Int.tdiv sub.buf.s_stop 90
            else sub.buf.s_stop }
      let pv :=
        match pv.current_sub with
        | some current_sub =>
          -- Next sub start time tells us the stop time of the current sub
          { process_sub pv { current_sub with s_stop := sub.s_start } with current_sub := none }
        | none => pv
      if sub.s_flags &&& HB_BUF_FLAG_EOS ≠ 0 then
        textsub_ingest fifo pv
      else if sub.s_stop = AV_NOPTS_VALUE then
        textsub_ingest fifo { pv with current_sub := some { sub with s_stop := sub.s_start } }
      else
        textsub_ingest fifo (process_sub pv sub)

/-- Conversion of an integer to `int` (32 bits): reduction modulo 2^32 into
`-2^31 .. 2^31 - 1`, which is what narrowing an `int64_t` to `int` gives on the compilers the
library is built with (the conversion is implementation-defined).  The same reduction stands
for the `int` sum `in_start_ms + 1`, whose overflow at `in_start_ms = 2^31 - 1` is undefined
in C; the statements about that sum exclude this value. -/
def toInt (i : Int) : Int := toSigned (toUnsigned i)

/-- The per-frame step of `textsub_work` on the pending subtitle (lines 1267-1275).
`in_start_ms` is the `int` of line 1204; the test compares the 64-bit `s.start` with it, and
the sum `in_start_ms + 1` is an `int` before it is stored in the 64-bit `s.stop`. -/
def textsub_tick (pv : hb_filter_private_t) (in_start_ms : Int) : hb_filter_private_t :=
  match pv.current_sub with
  | some current_sub =>
    if current_sub.s_start ≤ in_start_ms then
      let current_sub := { current_sub with s_start := current_sub.s_stop }
      let current_sub := { current_sub with s_stop := toInt (in_start_ms + 1) }
      { process_sub pv current_sub with current_sub := some current_sub }
    else pv
  | none => pv

/-- The function `textsub_work`.  The frame time `in->s.start / 90` is stored in the `int`
variable `in_start_ms` (line 1204). -/
def textsub_work (env : Externals) (pv : hb_filter_private_t) (fifo : List Subtitle)
    (inb : Buffer) : WorkResult :=
  let pv := { pv with script_initialized := true }
  if inb.s_flags &&& HB_BUF_FLAG_EOF ≠ 0 then
    Run.done (HB_FILTER_DONE, pv, fifo, some inb)
  else
    let in_start_ms := toInt (Int.tdiv inb.s_start 90)
    let d := textsub_ingest fifo pv
    let pv := textsub_tick d.2 in_start_ms
    let r := render_ssa_subs env pv inb.s_start
    match applyRendered env r.2 inb r.1 with
    | Run.nullDeref => Run.nullDeref
    | Run.done out => Run.done (HB_FILTER_OK, r.2, d.1, out)

/-- Following the claim's words: the slices `[prev, f1 + 1)`, `[f1 + 1, f2 + 1)`, ... with
which an open-ended event of payload `data` is to be covered at the frame times `f1, f2, ...`
(ms), each slice starting where the previous one stopped. -/
def tickSlices (data : List Nat) (prev : Int) : List Int → List Chunk
  | [] => []
  | f :: fs => ⟨data, prev, f + 1 - prev⟩ :: tickSlices data (f + 1) fs

/-! ## Initialisation (rendersub.c, lines 1407-1540) -/

/-- The chroma sample locations of libavutil (`enum AVChromaLocation`); any other value of the
enumeration is `other`. -/
inductive AVChromaLocation where
  | AVCHROMA_LOC_UNSPECIFIED | AVCHROMA_LOC_LEFT | AVCHROMA_LOC_CENTER | AVCHROMA_LOC_TOPLEFT
  | AVCHROMA_LOC_TOP | AVCHROMA_LOC_BOTTOMLEFT | AVCHROMA_LOC_BOTTOM
  | other (n : Int)
  deriving DecidableEq

/-- The fields of `AVPixFmtDescriptor` that `hb_rendersub_init` reads: `comp[0].depth`,
`log2_chroma_w` and `log2_chroma_h`. -/
structure AVPixFmtDescriptor where
  depth : Int
  log2_chroma_w : Nat
  log2_chroma_h : Nat

/-- The fields of `hb_filter_init_t` that `hb_rendersub_init` reads. -/
structure hb_filter_init_t where
  pix_fmt : AVPixelFormat
  chroma_location : AVChromaLocation

/-- The fields of `hb_subtitle_t` that `hb_rendersub_init` reads: `source`, and whether
`config.dest == RENDERSUB`. -/
structure hb_subtitle_t where
  source : subsource
  burned : Bool

/-- The array `baseCoefficients` of `hb_rendersub_init`. -/
def baseCoefficients : List Nat := [1, 3, 9, 27, 9, 3, 1]

/-- The read `baseCoefficients[i]`; `none` when the index is outside the array. -/
def baseAt (i : Int) : Option Nat := if 0 ≤ i then baseCoefficients[i.toNat]? else none

/-- The offsets `wX`, `wY` of `hb_rendersub_init` (lines 1428-1449).  In the switch, the case
`TOPLEFT` falls through into `TOP`, and the case `BOTTOMLEFT` falls through into `BOTTOM`,
which falls through into `CENTER` and `default`. -/
def chromaOffsets (chroma_location : AVChromaLocation) (log2_chroma_w log2_chroma_h : Nat) :
    Int × Int :=
  let wX : Int := 4 - 2 ^ log2_chroma_w
  let wY : Int := 4 - 2 ^ log2_chroma_h
  match chroma_location with
  | AVChromaLocation.AVCHROMA_LOC_TOPLEFT =>
    (wX + (2 ^ log2_chroma_w - 1), wY + (2 ^ log2_chroma_h - 1))
  | AVChromaLocation.AVCHROMA_LOC_TOP => (wX, wY + (2 ^ log2_chroma_h - 1))
  | AVChromaLocation.AVCHROMA_LOC_LEFT => (wX + (2 ^ log2_chroma_w - 1), wY)
  | AVChromaLocation.AVCHROMA_LOC_BOTTOMLEFT =>
    (wX + (2 ^ log2_chroma_w - 1), wY + (2 ^ log2_chroma_h - 1))
  | AVChromaLocation.AVCHROMA_LOC_BOTTOM => (wX, wY + (2 ^ log2_chroma_h - 1))
  | _ => (wX, wY)

/-- One coefficient of the table (lines 1454-1455):
`(baseCoefficients[x + w] + baseCoefficients[x + w + !(w & 0x1)]) >> 1`, in `unsigned`
arithmetic; `none` when one of the two reads is outside the array. -/
def chromaCoeff (w : Int) (x : Int) : Option Nat :=
  match baseAt (x + w), baseAt (x + w + (if w % 2 = 0 then 1 else 0)) with
  | some a, some b => some (u32 (a + b) >>> 1)
  | _, _ => none

/-- The loop that fills `pv->chromaCoeffs` (lines 1453-1456): the table, whose entries other
than `[0..1][0..3]` keep the zero of `calloc`, or `none` when a read is outside
`baseCoefficients`. -/
def initChromaCoeffs (wX wY : Int) : Option (Nat → Nat → Nat) :=
  match [0, 1, 2, 3].mapM (chromaCoeff wX), [0, 1, 2, 3].mapM (chromaCoeff wY) with
  | some cx, some cy =>
    some (fun axis x => if axis = 0 then cx.getD x 0 else if axis = 1 then cy.getD x 0 else 0)
  | _, _ => none

/-- The switch on `init->pix_fmt` that selects `pv->pix_fmt_alpha` (lines 1458-1491). -/
def pixFmtAlpha (pix_fmt : AVPixelFormat) : AVPixelFormat :=
  match pix_fmt with
  | AVPixelFormat.AV_PIX_FMT_NV12 | AVPixelFormat.AV_PIX_FMT_P010
  | AVPixelFormat.AV_PIX_FMT_P012 | AVPixelFormat.AV_PIX_FMT_P016
  | AVPixelFormat.AV_PIX_FMT_YUV420P | AVPixelFormat.AV_PIX_FMT_YUV420P10
  | AVPixelFormat.AV_PIX_FMT_YUV420P12 | AVPixelFormat.AV_PIX_FMT_YUV420P16 =>
    AVPixelFormat.AV_PIX_FMT_YUVA420P
  | AVPixelFormat.AV_PIX_FMT_NV16 | AVPixelFormat.AV_PIX_FMT_P210
  | AVPixelFormat.AV_PIX_FMT_P212 | AVPixelFormat.AV_PIX_FMT_P216
  | AVPixelFormat.AV_PIX_FMT_YUV422P | AVPixelFormat.AV_PIX_FMT_YUV422P10
  | AVPixelFormat.AV_PIX_FMT_YUV422P12 | AVPixelFormat.AV_PIX_FMT_YUV422P16 =>
    AVPixelFormat.AV_PIX_FMT_YUVA422P
  | _ => AVPixelFormat.AV_PIX_FMT_YUVA444P

/-- The two nested switches that select `pv->blend` (lines 1495-1518); `planes_count` is the
result of `av_pix_fmt_count_planes`. -/
def selectBlend (depth planes_count : Int) : Buffer → Buffer → Int → Int → Nat → Buffer :=
  if depth = 8 then
    if planes_count = 2 then blend8onbi8 else blend8on8
  else
    if planes_count = 2 then blend8onbi1x else blend8on1x

/-- The function `hb_rendersub_init`: the status it returns and the private data it leaves in
`filter->private_data` (`none` when `calloc` failed).  `desc` is the descriptor
`av_pix_fmt_desc_get(init->pix_fmt)`, `planes_count` the result of `av_pix_fmt_count_planes`
and `list_subtitle` the list `init->job->list_subtitle` (`none` for a `NULL` item).  The
result is `none` when the coefficient loop reads outside `baseCoefficients`. -/
def hb_rendersub_init (calloc_ok : Bool) (desc : AVPixFmtDescriptor) (planes_count : Int)
    (init : hb_filter_init_t) (list_subtitle : List (Option hb_subtitle_t)) :
    Option (Int × Option hb_filter_private_t) :=
  if calloc_ok = false then some (-1, none)
  else
    let w := chromaOffsets init.chroma_location desc.log2_chroma_w desc.log2_chroma_h
    match initChromaCoeffs w.1 w.2 with
    | none => none
    | some coeffs =>
      let pv : hb_filter_private_t :=
        { hshift := desc.log2_chroma_h, wshift := desc.log2_chroma_w, chromaCoeffs := coeffs,
          pix_fmt_alpha := pixFmtAlpha init.pix_fmt, depth := desc.depth,
          blend := selectBlend desc.depth planes_count }
      -- Find the subtitle we need
      match list_subtitle.find? (fun s => match s with
          | some sub => sub.burned
          | none => false) with
      | some (some subtitle) => some (0, some { pv with type := subtitle.source })
      | _ => some (1, some pv)

/-- The four entries `t[axis][0]`, ..., `t[axis][3]` of a coefficient table. -/
def coeffRow (t : Nat → Nat → Nat) (axis : Nat) : List Nat :=
  [t axis 0, t axis 1, t axis 2, t axis 3]

/-! ## The entry point (rendersub.c, lines 1590-1628) -/

/-- The function `hb_rendersub_work`; for a subtitle type it does not handle it returns 1 and
leaves `*buf_out` alone. -/
def hb_rendersub_work (env : Externals) (pv : hb_filter_private_t) (fifo : List Subtitle)
    (inb : Buffer) : WorkResult :=
  match pv.type with
  | subsource.VOBSUB => vobsub_work env pv fifo inb
  | subsource.SSASUB => ssa_work env pv fifo inb
  | subsource.IMPORTSRT => textsub_work env pv fifo inb
  | subsource.IMPORTSSA => textsub_work env pv fifo inb
  | subsource.CC608SUB => textsub_work env pv fifo inb
  | subsource.UTF8SUB => textsub_work env pv fifo inb
  | subsource.TX3GSUB => textsub_work env pv fifo inb
  | subsource.DVBSUB => pgssub_work env pv fifo inb
  | subsource.PGSSUB => pgssub_work env pv fifo inb
  | subsource.other _ => Run.done (1, pv, fifo, none)

/-- The contract of a work function, for its result `w` on the state `pv`, the queue `fifo`
and the frame `inb`: with the EOF flag the status is `HB_FILTER_DONE`, the frame is forwarded,
the queue, the active list, the track and `current_sub` are unchanged; without it the status is
`HB_FILTER_OK` whenever the function returns, and it returns when no allocation fails. -/
def WorkContract (env : Externals) (pv : hb_filter_private_t) (fifo : List Subtitle)
    (inb : Buffer) (w : WorkResult) : Prop :=
  (inb.s_flags &&& HB_BUF_FLAG_EOF ≠ 0 →
    ∃ pv2, w = Run.done (HB_FILTER_DONE, pv2, fifo, some inb) ∧
      pv2.sub_list = pv.sub_list ∧ pv2.current_sub = pv.current_sub ∧
      pv2.ssaTrack = pv.ssaTrack) ∧
  (inb.s_flags &&& HB_BUF_FLAG_EOF = 0 →
    (∀ b, env.hb_buffer_dup b ≠ none) → (∀ f w h, env.hb_frame_buffer_init f w h ≠ none) →
    ∃ pv2 fifo2 out, w = Run.done (HB_FILTER_OK, pv2, fifo2, some out)) ∧
  (∀ st pv2 fifo2 out, w = Run.done (st, pv2, fifo2, out) →
    (st = HB_FILTER_OK ∨ st = HB_FILTER_DONE) ∧
    (st = HB_FILTER_DONE ↔ inb.s_flags &&& HB_BUF_FLAG_EOF ≠ 0))

/-! ## Index safety of a blender call -/

/-- The cell `(r, c)` lies inside plane `p` of `b`.  In the interleaved chroma plane of a
semi-planar buffer (`bi`, plane 1) a row holds `2 * width` samples. -/
def Buffer.Inside (b : Buffer) (bi : Bool) (p : Nat) (r c : Int) : Prop :=
  (0 ≤ r ∧ r < (b.plane p).height) ∧ 0 ≤ c ∧
    c < (if bi = true ∧ p = 1 then 2 * (b.plane p).width else (b.plane p).width)

/-- Plane `p` of `b` has the luma extents `f.width x f.height`. -/
def Buffer.LumaSized (b : Buffer) (p : Nat) : Prop :=
  (b.plane p).width = b.f_width ∧ (b.plane p).height = b.f_height

/-- Plane `p` of `b` has the chroma extents of a format with chroma shifts `(fw, fh)`: the
luma extents shifted right, rounding up. -/
def Buffer.ChromaSized (b : Buffer) (fw fh : Nat) (p : Nat) : Prop :=
  (b.plane p).width = (b.f_width + 2 ^ fw - 1) / 2 ^ fw ∧
  (b.plane p).height = (b.f_height + 2 ^ fh - 1) / 2 ^ fh

/-- Index safety of the call `blend(dst, src, left, top, shift)`, stated on its effect: no
sample outside the planes of `dst` is changed; the result does not depend on anything outside
the planes of `src` (a source that agrees with `src` inside its planes gives the same
result); and nothing is changed when `src` is placed at or beyond the right or bottom edge of
`dst`. -/
def IndexSafe (blend : Buffer → Buffer → Int → Int → Nat → Buffer) (bi : Bool)
    (dst src : Buffer) (left top : Int) (shift : Nat) : Prop :=
  (∀ p r c, ¬ dst.Inside bi p r c → (blend dst src left top shift).rd p r c = dst.rd p r c) ∧
  (∀ src2 : Buffer, src2.f_width = src.f_width → src2.f_height = src.f_height →
    (∀ p r c, src.Inside false p r c → src2.rd p r c = src.rd p r c) →
    ∀ p r c, (blend dst src2 left top shift).rd p r c = (blend dst src left top shift).rd p r c) ∧
  (dst.f_width ≤ left ∨ dst.f_height ≤ top →
    ∀ p r c, (blend dst src left top shift).rd p r c = dst.rd p r c)

/-- Every store of the luma loop of a blender call lies inside plane 0 of `dst`: for each
`(xx, yy)` of the clipped source rectangle, the cell `(yy + top, left + xx)` the loop stores to
is inside the plane. -/
def LumaStoresInside (dst src : Buffer) (left top : Int) : Prop :=
  ∀ xx yy : Int,
    clipStart left ≤ xx → xx < clipEnd src.f_width dst.f_width left (clipStart left) →
    clipStart top ≤ yy → yy < clipEnd src.f_height dst.f_height top (clipStart top) →
    dst.Inside false 0 (yy + top) (left + xx)

/-- Every store of the chroma loop of a blender call lies inside the chroma planes of `dst`:
for each `(xx, yy)` of the chroma loop, the cells `(yy + (top >> hshift), (left >> wshift) + xx)`
of planes 1 and 2 for a planar destination, the cells at columns
`((left >> wshift) + xx) * 2` and `((left >> wshift) + xx) * 2 + 1` of plane 1 for a
semi-planar one (`bi`). -/
def ChromaStoresInside (bi : Bool) (dst src : Buffer) (left top : Int) : Prop :=
  ∀ xx yy : Int,
    clipStart left >>> chromaShift (dst.plane 1).width (dst.plane 0).width ≤ xx →
    xx < clipEnd src.f_width dst.f_width left (clipStart left) >>>
          chromaShift (dst.plane 1).width (dst.plane 0).width →
    clipStart top >>> chromaShift (dst.plane 1).height (dst.plane 0).height ≤ yy →
    yy < clipEnd src.f_height dst.f_height top (clipStart top) >>>
          chromaShift (dst.plane 1).height (dst.plane 0).height →
    (bi = false →
      dst.Inside false 1 (yy + top >>> chromaShift (dst.plane 1).height (dst.plane 0).height)
          (left >>> chromaShift (dst.plane 1).width (dst.plane 0).width + xx) ∧
      dst.Inside false 2 (yy + top >>> chromaShift (dst.plane 1).height (dst.plane 0).height)
          (left >>> chromaShift (dst.plane 1).width (dst.plane 0).width + xx)) ∧
    (bi = true →
      dst.Inside true 1 (yy + top >>> chromaShift (dst.plane 1).height (dst.plane 0).height)
          ((left >>> chromaShift (dst.plane 1).width (dst.plane 0).width + xx) * 2) ∧
      dst.Inside true 1 (yy + top >>> chromaShift (dst.plane 1).height (dst.plane 0).height)
          ((left >>> chromaShift (dst.plane 1).width (dst.plane 0).width + xx) * 2 + 1))

/-- Every store of a blender call lies inside the planes of `dst`: what the clipping of the
blenders is for, and what it achieves except when `left` or `top` is negative and the source
overhangs the opposite edge (or `left`, `top` is odd and negative, for the chroma planes). -/
def StoresInside (bi : Bool) (dst src : Buffer) (left top : Int) : Prop :=
  LumaStoresInside dst src left top ∧ ChromaStoresInside bi dst src left top

/-! ## Inputs of the concrete scenarios -/

/-- A buffer of the given luma and chroma extents whose planes 0..3 are filled with the
constants `y`, `u`, `v`, `a`; used for the concrete scenarios. -/
def constBuffer (w h cw ch : Int) (y u v a : Nat) : Buffer :=
  { s_start := 0, s_stop := 0, s_flags := 0,
    f_width := w, f_height := h, f_x := 0, f_y := 0, f_window_width := 0, f_window_height := 0,
    plane := fun p =>
      if p = 0 then { width := w, height := h, data := fun _ _ => y }
      else if p = 1 then { width := cw, height := ch, data := fun _ _ => u }
      else if p = 2 then { width := cw, height := ch, data := fun _ _ => v }
      else { width := w, height := h, data := fun _ _ => a } }

/-- A semi-planar destination of the given extents: plane 0 is filled with `y`, plane 1 holds
`u` at even and `v` at odd columns. -/
def constSemiPlanar (w h cw ch : Int) (y u v : Nat) : Buffer :=
  { s_start := 0, s_stop := 0, s_flags := 0,
    f_width := w, f_height := h, f_x := 0, f_y := 0, f_window_width := 0, f_window_height := 0,
    plane := fun p =>
      if p = 0 then { width := w, height := h, data := fun _ _ => y }
      else { width := cw, height := ch, data := fun _ c => if c % 2 = 0 then u else v } }

/-- A source of alpha 255 whose luma and chroma samples are 10 on row 0 and 20 on the other
rows of their planes; used for the concrete scenarios. -/
def twoRowSource (w h cw ch : Int) : Buffer :=
  { constBuffer w h cw ch 0 0 0 255 with
    plane := fun p =>
      if p = 0 then { width := w, height := h, data := fun r _ => if r = 0 then 10 else 20 }
      else if p = 1 ∨ p = 2 then
        { width := cw, height := ch, data := fun r _ => if r = 0 then 10 else 20 }
      else (constBuffer w h cw ch 0 0 0 255).plane p }

/-- A subtitle entry with the given start and stop time and no chained buffer; used for the
concrete scenarios. -/
def subAt (start stop : Int) : Subtitle :=
  { buf := { constBuffer 0 0 0 0 0 0 0 0 with s_start := start, s_stop := stop }, next := [] }

/-- A 1x1 fragment with glyph alpha 255 at `(x, y)`; used for the concrete scenarios. -/
def fragAt (x y : Int) (color : Nat) : ASS_Image :=
  { w := 1, h := 1, stride := 1, bitmap := fun _ => 255, color := color, dst_x := x, dst_y := y }

/-- Filter state for 8-bit 4:2:0 video with the chroma coefficients `(18, 18, 6, 2)` on both
axes, those `hb_rendersub_init` computes for the chroma location CENTER; used for the concrete
scenarios. -/
def pv420 : hb_filter_private_t :=
  { hshift := 1, wshift := 1,
    chromaCoeffs := fun _ i => if i = 0 then 18 else if i = 1 then 18 else if i = 2 then 6 else 2 }

/-- An entry of a PGS/DVB track with the given times and size and no chained buffer; used for
the concrete scenarios. -/
def pgsAt (start stop w h : Int) : Subtitle :=
  { buf := { constBuffer w h 0 0 0 0 0 0 with s_start := start, s_stop := stop }, next := [] }

/-- An event of a text track as read from the subtitle fifo, times in 90 kHz ticks; used for
the concrete scenarios. -/
def textEv (start stop : Int) (flags : Nat) (data : List Nat) : Subtitle :=
  { buf := { constBuffer 0 0 0 0 0 0 0 0 with
      s_start := start, s_stop := stop, s_flags := flags, data := data },
    next := [] }

/-- A zeroed frame of the given format and size, with the chroma planes of a 4:2:0 format
halved in both directions (rounded up), those of a 4:2:2 format halved in width, and full size
chroma planes otherwise; used for the concrete scenarios. -/
def allocFrame (fmt : AVPixelFormat) (w h : Int) : Buffer :=
  { constBuffer w h
      (if pixFmtAlpha fmt = AVPixelFormat.AV_PIX_FMT_YUVA444P ∧
          fmt ≠ AVPixelFormat.AV_PIX_FMT_YUVA420P ∧ fmt ≠ AVPixelFormat.AV_PIX_FMT_YUVA422P
        then w else (w + 1) / 2)
      (if pixFmtAlpha fmt = AVPixelFormat.AV_PIX_FMT_YUVA420P ∨
          fmt = AVPixelFormat.AV_PIX_FMT_YUVA420P then (h + 1) / 2 else h) 0 0 0 0 with
    f_fmt := fmt }

/-- An environment in which every allocation succeeds and libass renders nothing; used for
the concrete scenarios. -/
def envOk : Externals :=
  { hb_frame_buffer_init := fun fmt w h => some (allocFrame fmt w h)
    hb_buffer_dup := fun b => some b
    hb_buffer_is_writable := fun _ => true
    sws_scale := fun _ _ _ _ _ => 0
    ass_render_frame := fun _ _ => ([], false)
    hb_rgb2yuv_bt709 := fun _ => 0
    calloc_ok := true }

/-- An environment in which every allocation fails; used for the concrete scenarios. -/
def envNoMem : Externals :=
  { envOk with
    hb_frame_buffer_init := fun _ _ _ => none
    hb_buffer_dup := fun _ => none
    calloc_ok := false }

/-- Filter state of a CC608 text track on 4:2:0 video; used for the concrete scenarios. -/
def pvText : hb_filter_private_t := { pv420 with type := subsource.CC608SUB }

/-- A video frame of 1280x720 at time `start`; used for the concrete scenarios. -/
def frame720 (start : Int) : Buffer :=
  { constBuffer 1280 720 640 360 16 128 128 0 with s_start := start }

/-- A 2x2 overlay authored for a 1920x1080 window, shown from 0 to 90000; used for the
concrete scenarios. -/
def winSub : Subtitle :=
  { buf := { constBuffer 2 2 1 1 235 128 128 255 with
      s_start := 0, s_stop := 90000, f_window_width := 1920, f_window_height := 1080 },
    next := [] }

/-- Filter state for 4:2:0 video cropped by 50 rows at the top and at the bottom; used for the
concrete scenarios. -/
def pvCrop50 : hb_filter_private_t := { pv420 with crop := fun i => if i < 2 then 50 else 0 }

/-- An overlay of the given size at `(x, y)` without an authoring window (it is not
rescaled), shown from 0 to 90000; used for the concrete scenarios. -/
def overlayAt (w h x y : Int) : Buffer :=
  { constBuffer w h ((w + 1) / 2) ((h + 1) / 2) 235 128 128 255 with
    s_start := 0, s_stop := 90000, f_x := x, f_y := y }

/-- The environment `envOk` with a libass that renders the given image list and reports a
change; used for the concrete scenarios. -/
def envAss (frames : List ASS_Image) : Externals :=
  { envOk with ass_render_frame := fun _ _ => (frames, true) }

/-- Filter state for 8-bit 4:4:4 video, with the overlay format `hb_rendersub_init` selects
for it; used for the concrete scenarios. -/
def pv444 : hb_filter_private_t :=
  { pv420 with
    hshift := 0, wshift := 0,
    pix_fmt_alpha := pixFmtAlpha AVPixelFormat.AV_PIX_FMT_YUV444P }

/-- The overlay `winSub` in the format YUVA444P; used for the concrete scenarios. -/
def winSub444 : Subtitle :=
  { buf := { constBuffer 2 2 2 2 235 128 128 255 with
      s_start := 0, s_stop := 90000, f_window_width := 1920, f_window_height := 1080,
      f_fmt := AVPixelFormat.AV_PIX_FMT_YUVA444P },
    next := [] }

/-! ## Loop lemmas -/

theorem rd_store (b : Buffer) (p : Nat) (r c : Int) (v : Nat) (p' : Nat) (r' c' : Int) :
    (b.store p r c v).rd p' r' c' = if p' = p ∧ r' = r ∧ c' = c then v else b.rd p' r' c' := by
  unfold Buffer.store Buffer.rd
  by_cases hp : p' = p
  · subst hp; simp
  · simp [hp]

theorem store_rd_self (b : Buffer) (p : Nat) (r c : Int) (v : Nat) (hv : v = b.rd p r c) :
    b.store p r c v = b := by
  subst hv
  cases b with
  | mk st sp fl fw fh fx fy ww wh pl fmt dat =>
    simp only [Buffer.store, Buffer.rd, Buffer.mk.injEq, true_and, and_true]
    funext q
    by_cases hq : q = p
    · subst hq
      simp only [if_true]
      cases hpl : pl q with
      | mk w h dat =>
        simp only [Plane.mk.injEq, true_and]
        funext r' c'
        by_cases hc : r' = r ∧ c' = c
        · simp [hc]
        · simp [hc]
    · simp [hq]

theorem forN_sim {σ τ : Type} (rd : σ → τ) (body : Int → σ → σ) (u : Int → τ → τ)
    (h : ∀ i s, rd (body i s) = u i (rd s)) :
    ∀ (n : Nat) (i : Int) (s : σ), rd (forN body n i s) = forN u n i (rd s) := by
  intro n
  induction n with
  | zero => intro i s; rfl
  | succ n ih => intro i s; simp only [forN]; rw [ih, h]

theorem forN_id {τ : Type} (u : Int → τ → τ) :
    ∀ (n : Nat) (i : Int) (v : τ), (∀ j, i ≤ j → j < i + n → u j v = v) → forN u n i v = v := by
  intro n
  induction n with
  | zero => intro i v _; rfl
  | succ n ih =>
    intro i v h
    simp only [forN]
    rw [h i (le_refl _) (by push_cast; omega)]
    exact ih (i + 1) v (fun j h1 h2 => h j (by omega) (by push_cast; omega))

theorem forN_single {τ : Type} (u : Int → τ → τ) (j0 : Int) :
    ∀ (n : Nat) (i : Int) (v : τ), (∀ j w, j ≠ j0 → u j w = w) →
      forN u n i v = if i ≤ j0 ∧ j0 < i + n then u j0 v else v := by
  intro n
  induction n with
  | zero =>
    intro i v _
    have : ¬ (i ≤ j0 ∧ j0 < i + ((0 : Nat) : Int)) := by omega
    rw [if_neg this]; rfl
  | succ n ih =>
    intro i v h
    simp only [forN]
    rw [ih (i + 1) _ h]
    by_cases hi : i = j0
    · subst hi
      have : ¬ (i + 1 ≤ i ∧ i < i + 1 + (n : Int)) := by omega
      rw [if_neg this, if_pos (by push_cast; omega)]
    · rw [h i v hi]
      by_cases hc : i + 1 ≤ j0 ∧ j0 < i + 1 + (n : Int)
      · rw [if_pos hc, if_pos (by push_cast; omega)]
      · rw [if_neg hc, if_neg (by push_cast; omega)]

theorem forRange_id {τ : Type} (u : Int → τ → τ) (lo hi : Int) (v : τ)
    (h : ∀ j, lo ≤ j → j < hi → u j v = v) : forRange lo hi u v = v :=
  forN_id u _ _ _ (fun j h1 h2 => h j h1 (by omega))

theorem forRange_sim {σ τ : Type} (rd : σ → τ) (body : Int → σ → σ) (u : Int → τ → τ)
    (h : ∀ i s, rd (body i s) = u i (rd s)) (lo hi : Int) (s : σ) :
    rd (forRange lo hi body s) = forRange lo hi u (rd s) :=
  forN_sim rd body u h _ _ _

theorem forRange_single {τ : Type} (u : Int → τ → τ) (j0 : Int) (lo hi : Int) (v : τ)
    (h : ∀ j w, j ≠ j0 → u j w = w) :
    forRange lo hi u v = if lo ≤ j0 ∧ j0 < hi then u j0 v else v := by
  unfold forRange
  rw [forN_single u j0 _ _ _ h]
  by_cases hc : lo ≤ j0 ∧ j0 < hi
  · rw [if_pos hc, if_pos (by omega)]
  · rw [if_neg hc, if_neg (by omega)]

/-- A value-level loop nest in which only the iteration `(y0, x0)` has an effect. -/
theorem forRange2_single {τ : Type} (F : Int → Int → τ → τ) (y0 x0 : Int)
    (ylo yhi xlo xhi : Int) (v : τ)
    (h : ∀ yy xx w, (yy ≠ y0 ∨ xx ≠ x0) → F yy xx w = w) :
    forRange ylo yhi (fun yy w => forRange xlo xhi (fun xx w => F yy xx w) w) v =
      if (ylo ≤ y0 ∧ y0 < yhi) ∧ (xlo ≤ x0 ∧ x0 < xhi) then F y0 x0 v else v := by
  rw [forRange_single _ y0]
  · rw [forRange_single _ x0]
    · by_cases h1 : ylo ≤ y0 ∧ y0 < yhi <;> by_cases h2 : xlo ≤ x0 ∧ x0 < xhi <;> simp [h1, h2]
    · intro j w hj; exact h y0 j w (Or.inr hj)
  · intro j w hj
    exact forRange_id _ _ _ _ (fun k _ _ => h j k w (Or.inl hj))

theorem forRange2_sim {σ τ : Type} (rd : σ → τ) (B : Int → Int → σ → σ)
    (F : Int → Int → τ → τ)
    (h : ∀ yy xx s, rd (B yy xx s) = F yy xx (rd s)) (ylo yhi xlo xhi : Int) (s : σ) :
    rd (forRange ylo yhi (fun yy d => forRange xlo xhi (fun xx d => B yy xx d) d) s) =
      forRange ylo yhi (fun yy w => forRange xlo xhi (fun xx w => F yy xx w) w) (rd s) := by
  apply forRange_sim rd _ (fun yy w => forRange xlo xhi (fun xx w => F yy xx w) w)
  intro yy s'
  exact forRange_sim rd _ (fun xx w => F yy xx w) (fun xx s'' => h yy xx s'') _ _ _

/-- Reading one cell after a loop nest of stores: the nest acts on the cell through the
single iteration `(y0, x0)` that can reach it. -/
theorem nest_rd (B : Int → Int → Buffer → Buffer) (F : Int → Int → Nat → Nat)
    (p : Nat) (r c : Int) (y0 x0 : Int) (ylo yhi xlo xhi : Int) (s : Buffer)
    (h : ∀ yy xx d, (B yy xx d).rd p r c = F yy xx (d.rd p r c))
    (hF : ∀ yy xx w, (yy ≠ y0 ∨ xx ≠ x0) → F yy xx w = w) :
    (forRange ylo yhi (fun yy d => forRange xlo xhi (fun xx d => B yy xx d) d) s).rd p r c =
      if (ylo ≤ y0 ∧ y0 < yhi) ∧ (xlo ≤ x0 ∧ x0 < xhi) then F y0 x0 (s.rd p r c)
      else s.rd p r c := by
  have h1 := forRange2_sim (fun d : Buffer => d.rd p r c) B F h ylo yhi xlo xhi s
  simp only [] at h1
  rw [h1]
  exact forRange2_single F y0 x0 ylo yhi xlo xhi _ hF

theorem nest_rd_id (B : Int → Int → Buffer → Buffer) (p : Nat) (r c : Int)
    (ylo yhi xlo xhi : Int) (s : Buffer)
    (h : ∀ yy xx d, (B yy xx d).rd p r c = d.rd p r c) :
    (forRange ylo yhi (fun yy d => forRange xlo xhi (fun xx d => B yy xx d) d) s).rd p r c =
      s.rd p r c := by
  have h1 := nest_rd B (fun _ _ w => w) p r c 0 0 ylo yhi xlo xhi s h (fun _ _ _ _ => rfl)
  simpa using h1

/-- A loop nest whose every iteration inside the ranges leaves the state `s` fixed. -/
theorem nest_fixed {σ : Type} (B : Int → Int → σ → σ) (ylo yhi xlo xhi : Int) (s : σ)
    (h : ∀ yy xx, ylo ≤ yy → yy < yhi → xlo ≤ xx → xx < xhi → B yy xx s = s) :
    forRange ylo yhi (fun yy d => forRange xlo xhi (fun xx d => B yy xx d) d) s = s :=
  forRange_id _ _ _ _ (fun yy h1 h2 =>
    forRange_id _ _ _ _ (fun xx h3 h4 => h yy xx h1 h2 h3 h4))

theorem blend8on8_rd0 (dst src : Buffer) (left top : Int) (shift : Nat) (r c : Int) :
    (blend8on8 dst src left top shift).rd 0 r c =
      if (clipStart top ≤ r - top ∧
            r - top < clipEnd src.f_height dst.f_height top (clipStart top)) ∧
         (clipStart left ≤ c - left ∧
            c - left < clipEnd src.f_width dst.f_width left (clipStart left))
      then blendSample8 (dst.rd 0 r c) (src.rd 0 (r - top) (c - left))
             (src.rd 3 (r - top) (c - left))
      else dst.rd 0 r c := by
  unfold blend8on8
  simp only []
  rw [nest_rd_id _ 0 r c _ _ _ _ _ (by intro yy xx d; simp [rd_store])]
  rw [nest_rd _ (fun yy xx w => if r = yy + top ∧ c = left + xx then
            blendSample8 w (src.rd 0 yy xx) (src.rd 3 yy xx) else w) 0 r c (r - top) (c - left)
        _ _ _ _ _
        (by
          intro yy xx s
          simp only [rd_store, true_and]
          split
          · next h => rw [h.1, h.2]
          · rfl)
        (by
          intro yy xx w h
          have : ¬ (r = yy + top ∧ c = left + xx) := by omega
          simp only [this, if_false])]
  have e : r = r - top + top ∧ c = left + (c - left) := by omega
  rw [if_pos e]

/-- Chroma planes of the planar 8-bit blender. -/
theorem blend8on8_rdc (dst src : Buffer) (left top : Int) (shift : Nat) (p : Nat)
    (hp : p = 1 ∨ p = 2) (r c : Int) :
    (blend8on8 dst src left top shift).rd p r c =
      let hs := chromaShift (dst.plane 1).height (dst.plane 0).height
      let ws := chromaShift (dst.plane 1).width (dst.plane 0).width
      let yy := r - top >>> hs
      let xx := c - left >>> ws
      if (clipStart top >>> hs ≤ yy ∧
            yy < clipEnd src.f_height dst.f_height top (clipStart top) >>> hs) ∧
         (clipStart left >>> ws ≤ xx ∧
            xx < clipEnd src.f_width dst.f_width left (clipStart left) >>> ws)
      then blendSample8 (dst.rd p r c) (src.rd p yy xx) (src.rd 3 (yy * 2 ^ hs) (xx * 2 ^ ws))
      else dst.rd p r c := by
  unfold blend8on8
  simp only []
  generalize chromaShift (dst.plane 1).height (dst.plane 0).height = hs
  generalize chromaShift (dst.plane 1).width (dst.plane 0).width = ws
  rw [nest_rd _ (fun yy xx w => if r = yy + top >>> hs ∧ c = left >>> ws + xx then
            blendSample8 w (src.rd p yy xx) (src.rd 3 (yy * 2 ^ hs) (xx * 2 ^ ws)) else w)
        p r c (r - top >>> hs) (c - left >>> ws) _ _ _ _ _
        (by
          intro yy xx s
          rcases hp with hp | hp <;> subst hp <;> simp only [rd_store] <;> simp
          · split
            · next h => rw [h.1, h.2]
            · rfl
          · split
            · next h => rw [h.1, h.2]
            · rfl)
        (by
          intro yy xx w h
          have : ¬ (r = yy + top >>> hs ∧ c = left >>> ws + xx) := by omega
          simp only [this, if_false])]
  rw [nest_rd_id _ p r c _ _ _ _ _
        (by intro yy xx d; rcases hp with hp | hp <;> subst hp <;> simp [rd_store])]
  have e : r = r - top >>> hs + top >>> hs ∧ c = left >>> ws + (c - left >>> ws) := by omega
  rw [if_pos e]

theorem blend8onbi8_rd0 (dst src : Buffer) (left top : Int) (shift : Nat) (r c : Int) :
    (blend8onbi8 dst src left top shift).rd 0 r c =
      if (clipStart top ≤ r - top ∧
            r - top < clipEnd src.f_height dst.f_height top (clipStart top)) ∧
         (clipStart left ≤ c - left ∧
            c - left < clipEnd src.f_width dst.f_width left (clipStart left))
      then blendSample8 (dst.rd 0 r c) (src.rd 0 (r - top) (c - left))
             (src.rd 3 (r - top) (c - left))
      else dst.rd 0 r c := by
  unfold blend8onbi8
  simp only []
  rw [nest_rd_id _ 0 r c _ _ _ _ _ (by intro yy xx d; simp [rd_store])]
  rw [nest_rd _ (fun yy xx w => if r = yy + top ∧ c = left + xx then
            blendSample8 w (src.rd 0 yy xx) (src.rd 3 yy xx) else w) 0 r c (r - top) (c - left)
        _ _ _ _ _
        (by
          intro yy xx s
          simp only [rd_store, true_and]
          split
          · next h => rw [h.1, h.2]
          · rfl)
        (by
          intro yy xx w h
          have : ¬ (r = yy + top ∧ c = left + xx) := by omega
          simp only [this, if_false])]
  have e : r = r - top + top ∧ c = left + (c - left) := by omega
  rw [if_pos e]

/-- The interleaved chroma plane of the semi-planar 8-bit blender. -/
theorem blend8onbi8_rd1 (dst src : Buffer) (left top : Int) (shift : Nat) (r c : Int) :
    (blend8onbi8 dst src left top shift).rd 1 r c =
      let hs := chromaShift (dst.plane 1).height (dst.plane 0).height
      let ws := chromaShift (dst.plane 1).width (dst.plane 0).width
      let yy := r - top >>> hs
      let xx := c / 2 - left >>> ws
      if (clipStart top >>> hs ≤ yy ∧
            yy < clipEnd src.f_height dst.f_height top (clipStart top) >>> hs) ∧
         (clipStart left >>> ws ≤ xx ∧
            xx < clipEnd src.f_width dst.f_width left (clipStart left) >>> ws)
      then blendSample8 (dst.rd 1 r c) (src.rd (if c % 2 = 0 then 1 else 2) yy xx)
             (src.rd 3 (yy * 2 ^ hs) (xx * 2 ^ ws))
      else dst.rd 1 r c := by
  unfold blend8onbi8
  simp only []
  generalize chromaShift (dst.plane 1).height (dst.plane 0).height = hs
  generalize chromaShift (dst.plane 1).width (dst.plane 0).width = ws
  rw [nest_rd _ (fun yy xx w =>
          if r = yy + top >>> hs ∧ c / 2 = left >>> ws + xx then
            blendSample8 w (src.rd (if c % 2 = 0 then 1 else 2) yy xx)
              (src.rd 3 (yy * 2 ^ hs) (xx * 2 ^ ws)) else w)
        1 r c (r - top >>> hs) (c / 2 - left >>> ws) _ _ _ _ _
        (by
          intro yy xx s
          simp only [rd_store, true_and]
          by_cases h1 : r = yy + top >>> hs ∧ c = (left >>> ws + xx) * 2
          · have h2 : ¬ (r = yy + top >>> hs ∧ c = (left >>> ws + xx) * 2 + 1) := by omega
            have h3 : r = yy + top >>> hs ∧ c / 2 = left >>> ws + xx := by omega
            have h4 : c % 2 = 0 := by omega
            rw [if_neg h2, if_pos h1, if_pos h3, if_pos h4, h1.1, h1.2]
          · by_cases h2 : r = yy + top >>> hs ∧ c = (left >>> ws + xx) * 2 + 1
            · have h3 : r = yy + top >>> hs ∧ c / 2 = left >>> ws + xx := by omega
              have h4 : ¬ (c % 2 = 0) := by omega
              rw [if_pos h2, if_pos h3, if_neg h4, if_neg (by omega), h2.1, h2.2]
            · have h3 : ¬ (r = yy + top >>> hs ∧ c / 2 = left >>> ws + xx) := by omega
              rw [if_neg h2, if_neg h1, if_neg h3])
        (by
          intro yy xx w h
          have : ¬ (r = yy + top >>> hs ∧ c / 2 = left >>> ws + xx) := by omega
          simp only [this, if_false])]
  rw [nest_rd_id _ 1 r c _ _ _ _ _ (by intro yy xx d; simp [rd_store])]
  have e : r = r - top >>> hs + top >>> hs ∧ c / 2 = left >>> ws + (c / 2 - left >>> ws) := by
    omega
  rw [if_pos e]

theorem blend8on1x_rd0 (dst src : Buffer) (left top : Int) (shift : Nat) (r c : Int) :
    (blend8on1x dst src left top shift).rd 0 r c =
      if (clipStart top ≤ r - top ∧
            r - top < clipEnd src.f_height dst.f_height top (clipStart top)) ∧
         (clipStart left ≤ c - left ∧
            c - left < clipEnd src.f_width dst.f_width left (clipStart left))
      then blendSample16 (deepMax shift) (dst.rd 0 r c) (src.rd 0 (r - top) (c - left) <<< shift)
             (deepAlpha (src.rd 3 (r - top) (c - left)) shift)
      else dst.rd 0 r c := by
  unfold blend8on1x
  simp only []
  rw [nest_rd_id _ 0 r c _ _ _ _ _ (by intro yy xx d; simp [rd_store])]
  rw [nest_rd _ (fun yy xx w => if r = yy + top ∧ c = left + xx then
            blendSample16 (deepMax shift) w (src.rd 0 yy xx <<< shift)
              (deepAlpha (src.rd 3 yy xx) shift) else w) 0 r c (r - top) (c - left)
        _ _ _ _ _
        (by
          intro yy xx s
          simp only [rd_store, true_and]
          split
          · next h => rw [h.1, h.2]
          · rfl)
        (by
          intro yy xx w h
          have : ¬ (r = yy + top ∧ c = left + xx) := by omega
          simp only [this, if_false])]
  have e : r = r - top + top ∧ c = left + (c - left) := by omega
  rw [if_pos e]

theorem blend8on1x_rdc (dst src : Buffer) (left top : Int) (shift : Nat) (p : Nat)
    (hp : p = 1 ∨ p = 2) (r c : Int) :
    (blend8on1x dst src left top shift).rd p r c =
      let hs := chromaShift (dst.plane 1).height (dst.plane 0).height
      let ws := chromaShift (dst.plane 1).width (dst.plane 0).width
      let yy := r - top >>> hs
      let xx := c - left >>> ws
      if (clipStart top >>> hs ≤ yy ∧
            yy < clipEnd src.f_height dst.f_height top (clipStart top) >>> hs) ∧
         (clipStart left >>> ws ≤ xx ∧
            xx < clipEnd src.f_width dst.f_width left (clipStart left) >>> ws)
      then blendSample16 (deepMax shift) (dst.rd p r c) (src.rd p yy xx <<< shift)
             (deepAlpha (src.rd 3 (yy * 2 ^ hs) (xx * 2 ^ ws)) shift)
      else dst.rd p r c := by
  unfold blend8on1x
  simp only []
  generalize chromaShift (dst.plane 1).height (dst.plane 0).height = hs
  generalize chromaShift (dst.plane 1).width (dst.plane 0).width = ws
  rw [nest_rd _ (fun yy xx w => if r = yy + top >>> hs ∧ c = left >>> ws + xx then
            blendSample16 (deepMax shift) w (src.rd p yy xx <<< shift)
              (deepAlpha (src.rd 3 (yy * 2 ^ hs) (xx * 2 ^ ws)) shift) else w)
        p r c (r - top >>> hs) (c - left >>> ws) _ _ _ _ _
        (by
          intro yy xx s
          rcases hp with hp | hp <;> subst hp <;> simp only [rd_store] <;> simp
          · split
            · next h => rw [h.1, h.2]
            · rfl
          · split
            · next h => rw [h.1, h.2]
            · rfl)
        (by
          intro yy xx w h
          have : ¬ (r = yy + top >>> hs ∧ c = left >>> ws + xx) := by omega
          simp only [this, if_false])]
  rw [nest_rd_id _ p r c _ _ _ _ _
        (by intro yy xx d; rcases hp with hp | hp <;> subst hp <;> simp [rd_store])]
  have e : r = r - top >>> hs + top >>> hs ∧ c = left >>> ws + (c - left >>> ws) := by omega
  rw [if_pos e]

theorem blend8onbi1x_rd0 (dst src : Buffer) (left top : Int) (shift : Nat) (r c : Int) :
    (blend8onbi1x dst src left top shift).rd 0 r c =
      if (clipStart top ≤ r - top ∧
            r - top < clipEnd src.f_height dst.f_height top (clipStart top)) ∧
         (clipStart left ≤ c - left ∧
            c - left < clipEnd src.f_width dst.f_width left (clipStart left))
      then blendSample16 (deepMax shift) (dst.rd 0 r c)
             (av_bswap16 (src.rd 0 (r - top) (c - left)))
             (deepAlpha (src.rd 3 (r - top) (c - left)) shift)
      else dst.rd 0 r c := by
  unfold blend8onbi1x
  simp only []
  rw [nest_rd_id _ 0 r c _ _ _ _ _ (by intro yy xx d; simp [rd_store])]
  rw [nest_rd _ (fun yy xx w => if r = yy + top ∧ c = left + xx then
            blendSample16 (deepMax shift) w (av_bswap16 (src.rd 0 yy xx))
              (deepAlpha (src.rd 3 yy xx) shift) else w) 0 r c (r - top) (c - left)
        _ _ _ _ _
        (by
          intro yy xx s
          simp only [rd_store, true_and]
          split
          · next h => rw [h.1, h.2]
          · rfl)
        (by
          intro yy xx w h
          have : ¬ (r = yy + top ∧ c = left + xx) := by omega
          simp only [this, if_false])]
  have e : r = r - top + top ∧ c = left + (c - left) := by omega
  rw [if_pos e]

theorem clip_bounds (w W left xx : Int) (h1 : clipStart left ≤ xx)
    (h2 : xx < clipEnd w W left (clipStart left)) : 0 ≤ xx ∧ xx < w := by
  unfold clipEnd at h2
  unfold clipStart at h1 h2
  split_ifs at h1 h2 <;> omega

theorem chromaShift_cases (a b : Int) : chromaShift a b = 0 ∨ chromaShift a b = 1 := by
  unfold chromaShift; split_ifs <;> simp

theorem chroma_bounds (s : Nat) (hs : s = 0 ∨ s = 1) (w W left xx : Int)
    (h1 : clipStart left >>> s ≤ xx)
    (h2 : xx < clipEnd w W left (clipStart left) >>> s) :
    0 ≤ xx ∧ 0 ≤ xx * 2 ^ s ∧ xx * 2 ^ s < w := by
  have h0 : 0 ≤ clipStart left := by unfold clipStart; split_ifs <;> omega
  have h3 : clipEnd w W left (clipStart left) ≤ w := by unfold clipEnd; split_ifs <;> omega
  rcases hs with hs | hs <;> subst hs <;>
    simp only [Int.shiftRight_eq_div_pow, pow_zero, pow_one, Int.ediv_one, mul_one] at * <;>
    omega

theorem blendSample8_zero (old s : Nat) (h : old < 256) : blendSample8 old s 0 = old := by
  unfold blendSample8
  simp only [Nat.sub_zero, Nat.mul_zero, Nat.add_zero]
  omega

theorem deepMax_cases (shift : Nat) (h : shift = 0 ∨ shift = 2 ∨ shift = 4 ∨ shift = 8) :
    deepMax shift = 255 ∨ deepMax shift = 1023 ∨ deepMax shift = 4095 ∨
      deepMax shift = 65535 := by
  rcases h with h | h | h | h <;> subst h <;> decide

theorem blendSample16_exact (max old s alpha : Nat) (hm0 : 0 < max) (hm : max ≤ 65535)
    (ho : old < 65536) (hs : s < 65536) (ha : alpha ≤ max) :
    blendSample16 max old s alpha = (old * (max - alpha) + s * alpha) / max := by
  unfold blendSample16
  have h1 : old * (max - alpha) ≤ 65535 * (max - alpha) := Nat.mul_le_mul_right _ (by omega)
  have h2 : s * alpha ≤ 65535 * alpha := Nat.mul_le_mul_right _ (by omega)
  have h3 : 65535 * (max - alpha) + 65535 * alpha = 65535 * max := by
    rw [← Nat.mul_add, Nat.sub_add_cancel ha]
  have h4 : 65535 * max ≤ 65535 * 65535 := Nat.mul_le_mul_left _ hm
  have h5 : old * (max - alpha) + s * alpha ≤ 65535 * max := by omega
  rw [Nat.mod_eq_of_lt (show old * (max - alpha) + s * alpha < 4294967296 by omega)]
  have h6 : (old * (max - alpha) + s * alpha) / max ≤ 65535 :=
    Nat.div_le_of_le_mul (by rw [Nat.mul_comm max]; exact h5)
  exact Nat.mod_eq_of_lt (show (old * (max - alpha) + s * alpha) / max < 65536 by omega)

theorem blendSample16_zero (shift old s : Nat)
    (h : shift = 0 ∨ shift = 2 ∨ shift = 4 ∨ shift = 8) (ho : old < 65536) :
    blendSample16 (deepMax shift) old s (deepAlpha 0 shift) = old := by
  have ha : deepAlpha 0 shift = 0 := by simp [deepAlpha]
  rw [ha]
  have hm : 0 < deepMax shift ∧ deepMax shift ≤ 65535 := by
    rcases deepMax_cases shift h with e | e | e | e <;> rw [e] <;> omega
  unfold blendSample16
  simp only [Nat.sub_zero, Nat.mul_zero, Nat.add_zero]
  have h4 : old * deepMax shift ≤ 65535 * 65535 := Nat.mul_le_mul (by omega) hm.2
  rw [Nat.mod_eq_of_lt (show old * deepMax shift < 4294967296 by omega),
    Nat.mul_div_cancel _ hm.1]
  exact Nat.mod_eq_of_lt ho

theorem blend8on8_zero_alpha (dst src : Buffer) (left top : Int) (shift : Nat)
    (hd : dst.IsU8)
    (ha : ∀ r c, 0 ≤ r → r < src.f_height → 0 ≤ c → c < src.f_width → src.rd 3 r c = 0) :
    blend8on8 dst src left top shift = dst := by
  unfold blend8on8
  simp only []
  have hl : forRange (clipStart top) (clipEnd src.f_height dst.f_height top (clipStart top))
      (fun yy d => forRange (clipStart left)
        (clipEnd src.f_width dst.f_width left (clipStart left)) (fun xx d =>
          d.store 0 (yy + top) (left + xx)
            (blendSample8 (d.rd 0 (yy + top) (left + xx)) (src.rd 0 yy xx) (src.rd 3 yy xx)))
          d) dst = dst := by
    apply nest_fixed
    intro yy xx h1 h2 h3 h4
    have hy := clip_bounds _ _ _ _ h1 h2
    have hx := clip_bounds _ _ _ _ h3 h4
    rw [ha yy xx hy.1 hy.2 hx.1 hx.2]
    exact store_rd_self _ _ _ _ _ (blendSample8_zero _ _ (hd _ _ _))
  rw [hl]
  apply nest_fixed
  intro yy xx h1 h2 h3 h4
  have hy := chroma_bounds _ (chromaShift_cases _ _) _ _ _ _ h1 h2
  have hx := chroma_bounds _ (chromaShift_cases _ _) _ _ _ _ h3 h4
  rw [ha _ _ hy.2.1 hy.2.2 hx.2.1 hx.2.2]
  rw [store_rd_self dst 1 _ _ _ (blendSample8_zero _ _ (hd _ _ _))]
  exact store_rd_self _ _ _ _ _ (blendSample8_zero _ _ (hd _ _ _))

theorem blend8onbi8_zero_alpha (dst src : Buffer) (left top : Int) (shift : Nat)
    (hd : dst.IsU8)
    (ha : ∀ r c, 0 ≤ r → r < src.f_height → 0 ≤ c → c < src.f_width → src.rd 3 r c = 0) :
    blend8onbi8 dst src left top shift = dst := by
  unfold blend8onbi8
  simp only []
  have hl : forRange (clipStart top) (clipEnd src.f_height dst.f_height top (clipStart top))
      (fun yy d => forRange (clipStart left)
        (clipEnd src.f_width dst.f_width left (clipStart left)) (fun xx d =>
          d.store 0 (yy + top) (left + xx)
            (blendSample8 (d.rd 0 (yy + top) (left + xx)) (src.rd 0 yy xx) (src.rd 3 yy xx)))
          d) dst = dst := by
    apply nest_fixed
    intro yy xx h1 h2 h3 h4
    have hy := clip_bounds _ _ _ _ h1 h2
    have hx := clip_bounds _ _ _ _ h3 h4
    rw [ha yy xx hy.1 hy.2 hx.1 hx.2]
    exact store_rd_self _ _ _ _ _ (blendSample8_zero _ _ (hd _ _ _))
  rw [hl]
  apply nest_fixed
  intro yy xx h1 h2 h3 h4
  have hy := chroma_bounds _ (chromaShift_cases _ _) _ _ _ _ h1 h2
  have hx := chroma_bounds _ (chromaShift_cases _ _) _ _ _ _ h3 h4
  rw [ha _ _ hy.2.1 hy.2.2 hx.2.1 hx.2.2]
  rw [store_rd_self dst 1 _ _ _ (blendSample8_zero _ _ (hd _ _ _))]
  exact store_rd_self _ _ _ _ _ (blendSample8_zero _ _ (hd _ _ _))

theorem blend8on1x_zero_alpha (dst src : Buffer) (left top : Int) (shift : Nat)
    (hshift : shift = 0 ∨ shift = 2 ∨ shift = 4 ∨ shift = 8) (hd : dst.IsU16)
    (ha : ∀ r c, 0 ≤ r → r < src.f_height → 0 ≤ c → c < src.f_width → src.rd 3 r c = 0) :
    blend8on1x dst src left top shift = dst := by
  unfold blend8on1x
  simp only []
  have hl : forRange (clipStart top) (clipEnd src.f_height dst.f_height top (clipStart top))
      (fun yy d => forRange (clipStart left)
        (clipEnd src.f_width dst.f_width left (clipStart left)) (fun xx d =>
          d.store 0 (yy + top) (left + xx)
            (blendSample16 (deepMax shift) (d.rd 0 (yy + top) (left + xx))
              (src.rd 0 yy xx <<< shift) (deepAlpha (src.rd 3 yy xx) shift)))
          d) dst = dst := by
    apply nest_fixed
    intro yy xx h1 h2 h3 h4
    have hy := clip_bounds _ _ _ _ h1 h2
    have hx := clip_bounds _ _ _ _ h3 h4
    rw [ha yy xx hy.1 hy.2 hx.1 hx.2]
    exact store_rd_self _ _ _ _ _ (blendSample16_zero _ _ _ hshift (hd _ _ _))
  rw [hl]
  apply nest_fixed
  intro yy xx h1 h2 h3 h4
  have hy := chroma_bounds _ (chromaShift_cases _ _) _ _ _ _ h1 h2
  have hx := chroma_bounds _ (chromaShift_cases _ _) _ _ _ _ h3 h4
  rw [ha _ _ hy.2.1 hy.2.2 hx.2.1 hx.2.2]
  rw [store_rd_self dst 1 _ _ _ (blendSample16_zero _ _ _ hshift (hd _ _ _))]
  exact store_rd_self _ _ _ _ _ (blendSample16_zero _ _ _ hshift (hd _ _ _))

theorem blend8onbi1x_zero_alpha (dst src : Buffer) (left top : Int) (shift : Nat)
    (hshift : shift = 0 ∨ shift = 2 ∨ shift = 4 ∨ shift = 8) (hd : dst.IsU16)
    (ha : ∀ r c, 0 ≤ r → r < src.f_height → 0 ≤ c → c < src.f_width → src.rd 3 r c = 0) :
    blend8onbi1x dst src left top shift = dst := by
  unfold blend8onbi1x
  simp only []
  have hl : forRange (clipStart top) (clipEnd src.f_height dst.f_height top (clipStart top))
      (fun yy d => forRange (clipStart left)
        (clipEnd src.f_width dst.f_width left (clipStart left)) (fun xx d =>
          d.store 0 (yy + top) (left + xx)
            (blendSample16 (deepMax shift) (d.rd 0 (yy + top) (left + xx))
              (av_bswap16 (src.rd 0 yy xx)) (deepAlpha (src.rd 3 yy xx) shift)))
          d) dst = dst := by
    apply nest_fixed
    intro yy xx h1 h2 h3 h4
    have hy := clip_bounds _ _ _ _ h1 h2
    have hx := clip_bounds _ _ _ _ h3 h4
    rw [ha yy xx hy.1 hy.2 hx.1 hx.2]
    exact store_rd_self _ _ _ _ _ (blendSample16_zero _ _ _ hshift (hd _ _ _))
  rw [hl]
  apply nest_fixed
  intro yy xx h1 h2 h3 h4
  have hy := chroma_bounds _ (chromaShift_cases _ _) _ _ _ _ h1 h2
  have hx := chroma_bounds _ (chromaShift_cases _ _) _ _ _ _ h3 h4
  rw [ha _ _ hy.2.1 hy.2.2 hx.2.1 hx.2.2]
  rw [store_rd_self dst 1 _ _ _ (blendSample16_zero _ _ _ hshift (hd _ _ _))]
  exact store_rd_self _ _ _ _ _ (blendSample16_zero _ _ _ hshift (hd _ _ _))

theorem constBuffer_rd (w h cw ch : Int) (y u v a : Nat) (p : Nat) (r c : Int) :
    (constBuffer w h cw ch y u v a).rd p r c =
      if p = 0 then y else if p = 1 then u else if p = 2 then v else a := by
  unfold constBuffer Buffer.rd
  simp only []
  split_ifs <;> rfl

/-- C2. Alpha = 0 is a no-op: for each of the four blenders, every `left`, `top` and every
`shift` in {0, 2, 4, 8}, if every alpha sample of `src` is 0 then the destination after the
blend equals the destination before it, in every plane (the destination samples being
`uint8_t` for the 8-bit blenders and `uint16_t` for the deep ones). -/
theorem blend_alpha_zero_noop (dst src : Buffer) (left top : Int) (shift : Nat)
    (hshift : shift = 0 ∨ shift = 2 ∨ shift = 4 ∨ shift = 8)
    (ha : ∀ r c, 0 ≤ r → r < src.f_height → 0 ≤ c → c < src.f_width → src.rd 3 r c = 0) :
    (dst.IsU8 → blend8on8 dst src left top shift = dst ∧
        blend8onbi8 dst src left top shift = dst) ∧
    (dst.IsU16 → blend8on1x dst src left top shift = dst ∧
        blend8onbi1x dst src left top shift = dst) :=
  ⟨fun hd => ⟨blend8on8_zero_alpha dst src left top shift hd ha,
              blend8onbi8_zero_alpha dst src left top shift hd ha⟩,
   fun hd => ⟨blend8on1x_zero_alpha dst src left top shift hshift hd ha,
              blend8onbi1x_zero_alpha dst src left top shift hshift hd ha⟩⟩

theorem blend_alpha_zero_noop_witness :
    blend8on8 (constBuffer 8 8 4 4 16 128 128 0) (constBuffer 4 4 2 2 235 90 240 0) (-1) 5 0 =
        constBuffer 8 8 4 4 16 128 128 0 ∧
    blend8onbi1x (constBuffer 8 8 4 4 16 128 128 0) (constBuffer 4 4 2 2 235 90 240 0) (-1) 5 2 =
        constBuffer 8 8 4 4 16 128 128 0 :=
  have h0 := blend_alpha_zero_noop (constBuffer 8 8 4 4 16 128 128 0)
    (constBuffer 4 4 2 2 235 90 240 0) (-1) 5 0 (Or.inl rfl)
    (fun r c _ _ _ _ => by rw [constBuffer_rd]; rfl)
  have h2 := blend_alpha_zero_noop (constBuffer 8 8 4 4 16 128 128 0)
    (constBuffer 4 4 2 2 235 90 240 0) (-1) 5 2 (Or.inr (Or.inl rfl))
    (fun r c _ _ _ _ => by rw [constBuffer_rd]; rfl)
  ⟨(h0.1 (fun p r c => by rw [constBuffer_rd]; split_ifs <;> omega)).1,
   (h2.2 (fun p r c => by rw [constBuffer_rd]; split_ifs <;> omega)).2⟩

theorem blendSample8_exact (old s a : Nat) (ho : old < 256) (hs : s < 256) (ha : a < 256) :
    blendSample8 old s a = (old * (255 - a) + s * a) / 255 := by
  unfold blendSample8
  have h1 : old * (255 - a) ≤ 255 * (255 - a) := Nat.mul_le_mul_right _ (by omega)
  have h2 : s * a ≤ 255 * a := Nat.mul_le_mul_right _ (by omega)
  have h6 : (old * (255 - a) + s * a) / 255 ≤ 255 :=
    Nat.div_le_of_le_mul (by omega)
  exact Nat.mod_eq_of_lt (show (old * (255 - a) + s * a) / 255 < 256 by omega)

theorem blendSample8_full (old s : Nat) (hs : s < 256) : blendSample8 old s 255 = s := by
  unfold blendSample8
  simp only [Nat.sub_self, Nat.mul_zero, Nat.zero_add]
  omega

theorem clipStart_eq_max (left : Int) : clipStart left = max 0 (-left) := by
  unfold clipStart; split_ifs <;> omega

theorem clipEnd_eq_min (w W left x0 : Int) : clipEnd w W left x0 = min w (W - left + x0) := by
  unfold clipEnd; split_ifs <;> omega

/-- C1. Evaluation of the blenders on a 100x100 destination (4:2:0) with an opaque source wider
than the destination, placed where the horizontal centring of `ScaleSubtitle` puts it.
For a 120x40 source at `left = -10`, `top = 30`: `x0 = 10` and `ww = 120`, the luma loop of
each of the four blenders stores to columns `0 .. 109`, so the cell at row 30, column 100
(outside the 100-wide luma plane) is overwritten with the blended source luma.  For a 122x40
source at `left = -11`: the chroma loop of `blend8on8` starts at `xx = x0 >> 1 = 5` and stores
to column `(left >> 1) + 5 = -1` of plane 1. -/
theorem blend_stores_outside_dst :
    ((constBuffer 100 100 50 50 16 128 128 0).plane 0).width = 100 ∧
    (constBuffer 100 100 50 50 16 128 128 0).rd 0 30 100 = 16 ∧
    (blend8on8 (constBuffer 100 100 50 50 16 128 128 0)
        (constBuffer 120 40 60 20 235 90 240 255) (-10) 30 0).rd 0 30 100 = 235 ∧
    (blend8onbi8 (constBuffer 100 100 50 50 16 128 128 0)
        (constBuffer 120 40 60 20 235 90 240 255) (-10) 30 0).rd 0 30 100 = 235 ∧
    (blend8on1x (constBuffer 100 100 50 50 16 128 128 0)
        (constBuffer 120 40 60 20 235 90 240 255) (-10) 30 2).rd 0 30 100 = 937 ∧
    (blend8onbi1x (constBuffer 100 100 50 50 16 128 128 0)
        (constBuffer 120 40 60 20 235 90 240 255) (-10) 30 2).rd 0 30 100 = 59983 ∧
    (constBuffer 100 100 50 50 16 128 128 0).rd 1 15 (-1) = 128 ∧
    (blend8on8 (constBuffer 100 100 50 50 16 128 128 0)
        (constBuffer 122 40 61 20 235 90 240 255) (-11) 30 0).rd 1 15 (-1) = 90 := by
  refine ⟨rfl, rfl, ?_, ?_, ?_, ?_, rfl, ?_⟩
  · rw [blend8on8_rd0]
    simp only [constBuffer_rd]
    decide
  · rw [blend8onbi8_rd0]
    simp only [constBuffer_rd]
    decide
  · rw [blend8on1x_rd0]
    simp only [constBuffer_rd]
    decide
  · rw [blend8onbi1x_rd0]
    simp only [constBuffer_rd]
    decide
  · rw [blend8on8_rdc _ _ _ _ _ 1 (Or.inl rfl)]
    simp only [constBuffer_rd]
    decide

/-! ## The grid of cells and the memory of a plane -/

theorem forN_rel {σ τ : Type} (R : σ → τ → Prop) (b1 : Int → σ → σ) (b2 : Int → τ → τ) :
    ∀ (n : Nat) (i : Int) (s : σ) (t : τ),
      (∀ j s t, i ≤ j → j < i + n → R s t → R (b1 j s) (b2 j t)) → R s t →
      R (forN b1 n i s) (forN b2 n i t) := by
  intro n
  induction n with
  | zero => intro i s t _ h; exact h
  | succ n ih =>
    intro i s t h hst
    simp only [forN]
    refine ih (i + 1) _ _ (fun j s t h1 h2 hr => h j s t (by omega) (by push_cast; omega) hr) ?_
    exact h i s t (le_refl _) (by push_cast; omega) hst

theorem forRange_rel {σ τ : Type} (R : σ → τ → Prop) (b1 : Int → σ → σ) (b2 : Int → τ → τ)
    (lo hi : Int) (s : σ) (t : τ)
    (h : ∀ j s t, lo ≤ j → j < hi → R s t → R (b1 j s) (b2 j t)) (hst : R s t) :
    R (forRange lo hi b1 s) (forRange lo hi b2 t) :=
  forN_rel R b1 b2 _ _ _ _ (fun j s t h1 h2 hr => h j s t h1 (by omega) hr) hst

/-- Two samples of `k` bytes that lie inside their rows of pitch `stride` are at the same
offset only if they are the same sample. -/
theorem row_addr_inj (stride k r c r2 c2 : Int) (hk : 0 < k) (hc0 : 0 ≤ c)
    (hc : k * c + k ≤ stride) (hd0 : 0 ≤ c2) (hd : k * c2 + k ≤ stride)
    (h : r * stride + k * c = r2 * stride + k * c2) : r = r2 ∧ c = c2 := by
  have hs : 0 < stride := by nlinarith
  have h1 : 0 ≤ k * c := Int.mul_nonneg (le_of_lt hk) hc0
  have h2 : 0 ≤ k * c2 := Int.mul_nonneg (le_of_lt hk) hd0
  have e1 : (r * stride + k * c) / stride = r ∧ (r * stride + k * c) % stride = k * c :=
    (Int.ediv_emod_unique hs).mpr ⟨by ring, h1, by omega⟩
  have e2 : (r2 * stride + k * c2) / stride = r2 ∧
      (r2 * stride + k * c2) % stride = k * c2 :=
    (Int.ediv_emod_unique hs).mpr ⟨by ring, h2, by omega⟩
  have hr : r = r2 := by
    have := e1.1
    rw [h, e2.1] at this
    exact this.symm
  have hkc : k * c = k * c2 := by
    have := e1.2
    rw [h, e2.2] at this
    exact this.symm
  exact ⟨hr, Int.eq_of_mul_eq_mul_left (ne_of_gt hk) hkc⟩

/-- A loop nest of read-modify-write stores on the memory of a plane gives, at every sample
inside a row, the value that the same nest gives on the grid of `Buffer.store`, provided every
store of the nest stays inside its row. -/
theorem nest_mem_agrees (val : Int → Int → Nat → Nat) (addr : Int → Int → Int)
    (InRow : Int → Prop)
    (hinj : ∀ r c r2 c2, InRow c → InRow c2 → addr r c = addr r2 c2 → r = r2 ∧ c = c2)
    (dst : Buffer) (p : Nat) (mem : Int → Nat) (left top ylo yhi xlo xhi : Int)
    (hrow : ∀ yy xx, ylo ≤ yy → yy < yhi → xlo ≤ xx → xx < xhi → InRow (left + xx))
    (hrep : ∀ r c, InRow c → mem (addr r c) = dst.rd p r c) :
    ∀ r c, InRow c →
      (forRange ylo yhi (fun yy m =>
        forRange xlo xhi (fun xx m =>
          memStore m (addr (yy + top) (left + xx))
            (val yy xx (m (addr (yy + top) (left + xx))))) m) mem) (addr r c) =
      (forRange ylo yhi (fun yy d =>
        forRange xlo xhi (fun xx d =>
          d.store p (yy + top) (left + xx)
            (val yy xx (d.rd p (yy + top) (left + xx)))) d) dst).rd p r c := by
  refine forRange_rel (fun (m : Int → Nat) (d : Buffer) =>
    ∀ r c, InRow c → m (addr r c) = d.rd p r c) _ _ _ _ _ _ ?_ hrep
  intro yy m d hy0 hy1 hmd
  refine forRange_rel (fun (m : Int → Nat) (d : Buffer) =>
    ∀ r c, InRow c → m (addr r c) = d.rd p r c) _ _ _ _ _ _ ?_ hmd
  intro xx m2 d2 hx0 hx1 hmd2 r c hc
  have hin := hrow yy xx hy0 hy1 hx0 hx1
  rw [rd_store, hmd2 _ _ hin]
  simp only [memStore, true_and]
  by_cases hcell : r = yy + top ∧ c = left + xx
  · rw [if_pos hcell, if_pos (by rw [hcell.1, hcell.2])]
  · rw [if_neg hcell, if_neg (fun h => hcell (hinj _ _ _ _ hc hin h))]
    exact hmd2 r c hc

/-- The grid model of `blend8on8` is the memory of the luma plane when every luma store stays
inside its row: with `stride` the pitch of the rows, the memory after the luma loop holds, at
every byte inside a row, the luma sample of `blend8on8`. -/
theorem blend8on8_luma_agrees (dst src : Buffer) (left top stride : Int) (shift : Nat)
    (mem : Int → Nat)
    (hrow : ∀ yy xx, clipStart top ≤ yy →
      yy < clipEnd src.f_height dst.f_height top (clipStart top) → clipStart left ≤ xx →
      xx < clipEnd src.f_width dst.f_width left (clipStart left) →
      0 ≤ left + xx ∧ left + xx < stride)
    (hrep : ∀ r c, 0 ≤ c ∧ c < stride → mem (r * stride + c) = dst.rd 0 r c) :
    ∀ r c, 0 ≤ c ∧ c < stride →
      blend8on8_luma_mem mem stride dst.f_width dst.f_height src left top (r * stride + c) =
        (blend8on8 dst src left top shift).rd 0 r c := by
  intro r c hc
  unfold blend8on8_luma_mem blend8on8
  simp only []
  rw [nest_rd_id _ 0 r c _ _ _ _ _ (by intro yy xx d; simp [rd_store])]
  exact nest_mem_agrees
    (fun yy xx old => blendSample8 old (src.rd 0 yy xx) (src.rd 3 yy xx))
    (fun r c => r * stride + c) (fun c => 0 ≤ c ∧ c < stride)
    (fun r c r2 c2 h1 h2 h => by
      have h3 : r * stride + c = r2 * stride + c2 := h
      exact row_addr_inj stride 1 r c r2 c2 (by decide) h1.1 (by omega) h2.1 (by omega)
        (by omega))
    dst 0 mem left top _ _ _ _ hrow hrep r c hc

/-- The grid model of `blend8on1x` is the memory of the luma plane when every luma store stays
inside its row of `stride` bytes. -/
theorem blend8on1x_luma_agrees (dst src : Buffer) (left top stride : Int) (shift : Nat)
    (mem : Int → Nat)
    (hrow : ∀ yy xx, clipStart top ≤ yy →
      yy < clipEnd src.f_height dst.f_height top (clipStart top) → clipStart left ≤ xx →
      xx < clipEnd src.f_width dst.f_width left (clipStart left) →
      0 ≤ left + xx ∧ 2 * (left + xx) + 2 ≤ stride)
    (hrep : ∀ r c, 0 ≤ c ∧ 2 * c + 2 ≤ stride → mem (r * stride + 2 * c) = dst.rd 0 r c) :
    ∀ r c, 0 ≤ c ∧ 2 * c + 2 ≤ stride →
      blend8on1x_luma_mem mem stride dst.f_width dst.f_height src left top shift
          (r * stride + 2 * c) =
        (blend8on1x dst src left top shift).rd 0 r c := by
  intro r c hc
  unfold blend8on1x_luma_mem blend8on1x
  simp only []
  rw [nest_rd_id _ 0 r c _ _ _ _ _ (by intro yy xx d; simp [rd_store])]
  exact nest_mem_agrees
    (fun yy xx old => blendSample16 (deepMax shift) old (src.rd 0 yy xx <<< shift)
      (deepAlpha (src.rd 3 yy xx) shift))
    (fun r c => r * stride + 2 * c) (fun c => 0 ≤ c ∧ 2 * c + 2 ≤ stride)
    (fun r c r2 c2 h1 h2 h => by
      have h3 : r * stride + 2 * c = r2 * stride + 2 * c2 := h
      exact row_addr_inj stride 2 r c r2 c2 (by decide) h1.1 h1.2 h2.1 h2.2 h3)
    dst 0 mem left top _ _ _ _ hrow hrep r c hc

/-- The grid model of `blend8onbi1x` is the memory of the luma plane when every luma store
stays inside its row of `stride` bytes. -/
theorem blend8onbi1x_luma_agrees (dst src : Buffer) (left top stride : Int) (shift : Nat)
    (mem : Int → Nat)
    (hrow : ∀ yy xx, clipStart top ≤ yy →
      yy < clipEnd src.f_height dst.f_height top (clipStart top) → clipStart left ≤ xx →
      xx < clipEnd src.f_width dst.f_width left (clipStart left) →
      0 ≤ left + xx ∧ 2 * (left + xx) + 2 ≤ stride)
    (hrep : ∀ r c, 0 ≤ c ∧ 2 * c + 2 ≤ stride → mem (r * stride + 2 * c) = dst.rd 0 r c) :
    ∀ r c, 0 ≤ c ∧ 2 * c + 2 ≤ stride →
      blend8onbi1x_luma_mem mem stride dst.f_width dst.f_height src left top shift
          (r * stride + 2 * c) =
        (blend8onbi1x dst src left top shift).rd 0 r c := by
  intro r c hc
  unfold blend8onbi1x_luma_mem blend8onbi1x
  simp only []
  rw [nest_rd_id _ 0 r c _ _ _ _ _ (by intro yy xx d; simp [rd_store])]
  exact nest_mem_agrees
    (fun yy xx old => blendSample16 (deepMax shift) old (av_bswap16 (src.rd 0 yy xx))
      (deepAlpha (src.rd 3 yy xx) shift))
    (fun r c => r * stride + 2 * c) (fun c => 0 ≤ c ∧ 2 * c + 2 ≤ stride)
    (fun r c r2 c2 h1 h2 h => by
      have h3 : r * stride + 2 * c = r2 * stride + 2 * c2 := h
      exact row_addr_inj stride 2 r c r2 c2 (by decide) h1.1 h1.2 h2.1 h2.2 h3)
    dst 0 mem left top _ _ _ _ hrow hrep r c hc

/-- A sufficient condition for `StoresInside`, on the ends of the loop ranges: the last luma
column and row and the first and last chroma column and row the loops reach lie inside the
planes (the first luma column and row always do, `left + x0` being `max(left, 0)`). -/
theorem storesInside_of_range (bi : Bool) (dst src : Buffer) (left top : Int)
    (hx : left + clipEnd src.f_width dst.f_width left (clipStart left) ≤ (dst.plane 0).width)
    (hy : top + clipEnd src.f_height dst.f_height top (clipStart top) ≤ (dst.plane 0).height)
    (hcx0 : 0 ≤ left >>> chromaShift (dst.plane 1).width (dst.plane 0).width +
      clipStart left >>> chromaShift (dst.plane 1).width (dst.plane 0).width)
    (hcx : left >>> chromaShift (dst.plane 1).width (dst.plane 0).width +
      clipEnd src.f_width dst.f_width left (clipStart left) >>>
        chromaShift (dst.plane 1).width (dst.plane 0).width ≤ (dst.plane 1).width)
    (hcy0 : 0 ≤ top >>> chromaShift (dst.plane 1).height (dst.plane 0).height +
      clipStart top >>> chromaShift (dst.plane 1).height (dst.plane 0).height)
    (hcy : top >>> chromaShift (dst.plane 1).height (dst.plane 0).height +
      clipEnd src.f_height dst.f_height top (clipStart top) >>>
        chromaShift (dst.plane 1).height (dst.plane 0).height ≤ (dst.plane 1).height)
    (hp2 : bi = false → (dst.plane 2).width = (dst.plane 1).width ∧
      (dst.plane 2).height = (dst.plane 1).height) :
    StoresInside bi dst src left top := by
  constructor
  · intro xx yy h1 h2 h3 h4
    unfold Buffer.Inside
    simp only [Bool.false_eq_true, false_and, if_false]
    unfold clipStart at h1 h3
    split_ifs at h1 h3 <;> omega
  · intro xx yy h1 h2 h3 h4
    constructor
    · intro hb
      have h2p := hp2 hb
      unfold Buffer.Inside
      simp only [Bool.false_eq_true, false_and, if_false]
      omega
    · intro _
      unfold Buffer.Inside
      simp only [true_and, if_true]
      omega

/-! ## The blenders against the reference blend -/

/-- C3. `blend8on8` against the reference blend.  First part: when every store of the call lies
inside the planes of `dst` (`StoresInside`), the claim holds.  With `x0 = max(0, -left)`,
`y0 = max(0, -top)`, `ww = min(w, W - left + x0)`, `hh = min(h, H - top + y0)`: every luma
sample at `(left+xx, top+yy)` with `x0 <= xx < ww`, `y0 <= yy < hh` becomes
`(old*(255 - a) + srcY[yy][xx]*a) / 255` with `a = srcA[yy][xx]`; every U and V sample at
`((left >> wshift)+xx, (top >> hshift)+yy)` with `(x0 >> wshift) <= xx < (ww >> wshift)`,
`(y0 >> hshift) <= yy < (hh >> hshift)` becomes `(old*(255 - a) + srcC[yy][xx]*a) / 255` with
the single alpha sample `a = srcA[yy << hshift][xx << wshift]`; and an all-black destination
blended with a source of Y = 255, A = 128 has luma 128 on every overlapped pixel.
Second part: under the same condition on the luma stores, the luma samples of `blend8on8` are
the bytes of the luma plane after the loop of lines 149-165, for every row pitch
`stride >= plane[0].width`.
Third part: without the condition the claim fails on the code.  For a 128x72 destination of
row pitch 128, all black, and a 130x2 source of Y = 255, A = 128 at `left = -1`, `top = 0`:
`x0 = 1`, the test `129 > 129` leaves `ww = 130`, `hh = 2`; the iteration `yy = 0`,
`xx = 129` stores 128 to `y_out[128]`, which is the sample of row 1, column 0, and the
iteration `yy = 1`, `xx = 1` blends that sample again: it ends as 191, where the claim (and
the grid of cells) gives `(0*127 + 255*128) / 255 = 128`. -/
theorem blend8on8_reference :
    (∀ (dst src : Buffer) (left top : Int) (shift : Nat), dst.IsU8 → src.IsU8 →
      StoresInside false dst src left top →
      (∀ xx yy : Int,
        max 0 (-left) ≤ xx → xx < min src.f_width (dst.f_width - left + max 0 (-left)) →
        max 0 (-top) ≤ yy → yy < min src.f_height (dst.f_height - top + max 0 (-top)) →
        (blend8on8 dst src left top shift).rd 0 (top + yy) (left + xx) =
          (dst.rd 0 (top + yy) (left + xx) * (255 - src.rd 3 yy xx) +
            src.rd 0 yy xx * src.rd 3 yy xx) / 255) ∧
      (∀ xx yy : Int,
        max 0 (-left) >>> chromaShift (dst.plane 1).width (dst.plane 0).width ≤ xx →
        xx < min src.f_width (dst.f_width - left + max 0 (-left)) >>>
              chromaShift (dst.plane 1).width (dst.plane 0).width →
        max 0 (-top) >>> chromaShift (dst.plane 1).height (dst.plane 0).height ≤ yy →
        yy < min src.f_height (dst.f_height - top + max 0 (-top)) >>>
              chromaShift (dst.plane 1).height (dst.plane 0).height →
        ∀ p, p = 1 ∨ p = 2 →
        (blend8on8 dst src left top shift).rd p
            (top >>> chromaShift (dst.plane 1).height (dst.plane 0).height + yy)
            (left >>> chromaShift (dst.plane 1).width (dst.plane 0).width + xx) =
          (dst.rd p (top >>> chromaShift (dst.plane 1).height (dst.plane 0).height + yy)
                (left >>> chromaShift (dst.plane 1).width (dst.plane 0).width + xx) *
              (255 - src.rd 3 (yy * 2 ^ chromaShift (dst.plane 1).height (dst.plane 0).height)
                      (xx * 2 ^ chromaShift (dst.plane 1).width (dst.plane 0).width)) +
            src.rd p yy xx *
              src.rd 3 (yy * 2 ^ chromaShift (dst.plane 1).height (dst.plane 0).height)
                      (xx * 2 ^ chromaShift (dst.plane 1).width (dst.plane 0).width)) / 255) ∧
      ((∀ r c, dst.rd 0 r c = 0) →
        (∀ r c, 0 ≤ r → r < src.f_height → 0 ≤ c → c < src.f_width →
          src.rd 0 r c = 255 ∧ src.rd 3 r c = 128) →
        ∀ xx yy : Int,
          max 0 (-left) ≤ xx → xx < min src.f_width (dst.f_width - left + max 0 (-left)) →
          max 0 (-top) ≤ yy → yy < min src.f_height (dst.f_height - top + max 0 (-top)) →
          (blend8on8 dst src left top shift).rd 0 (top + yy) (left + xx) = 128)) ∧
    (∀ (dst src : Buffer) (left top stride : Int) (shift : Nat) (mem : Int → Nat),
      LumaStoresInside dst src left top → (dst.plane 0).width ≤ stride →
      (∀ r c, 0 ≤ c ∧ c < stride → mem (r * stride + c) = dst.rd 0 r c) →
      ∀ r c, 0 ≤ c ∧ c < stride →
        blend8on8_luma_mem mem stride dst.f_width dst.f_height src left top (r * stride + c) =
          (blend8on8 dst src left top shift).rd 0 r c) ∧
    (clipStart (-1) = 1 ∧ clipEnd 130 128 (-1) 1 = 130 ∧ clipEnd 2 72 0 0 = 2 ∧
      (0 + 0) * 128 + (-1 + 129) = ((1 + 0) * 128 + (-1 + 1) : Int) ∧
      blend8on8_luma_mem (fun _ => 0) 128 128 72 (constBuffer 130 2 65 1 255 128 128 128)
          (-1) 0 ((1 + 0) * 128 + (-1 + 1)) = 191 ∧
      (0 * (255 - 128) + 255 * 128) / 255 = 128 ∧
      (blend8on8 (constBuffer 128 72 64 36 0 128 128 0) (constBuffer 130 2 65 1 255 128 128 128)
          (-1) 0 0).rd 0 (0 + 1) (-1 + 1) = 128) := by
  refine ⟨fun dst src left top shift hd hs _ => ?_, ?_, ?_⟩
  · simp only [← clipStart_eq_max, ← clipEnd_eq_min]
    have luma : ∀ xx yy : Int,
        clipStart left ≤ xx → xx < clipEnd src.f_width dst.f_width left (clipStart left) →
        clipStart top ≤ yy → yy < clipEnd src.f_height dst.f_height top (clipStart top) →
        (blend8on8 dst src left top shift).rd 0 (top + yy) (left + xx) =
          (dst.rd 0 (top + yy) (left + xx) * (255 - src.rd 3 yy xx) +
            src.rd 0 yy xx * src.rd 3 yy xx) / 255 := by
      intro xx yy h1 h2 h3 h4
      rw [blend8on8_rd0]
      have e1 : top + yy - top = yy := by omega
      have e2 : left + xx - left = xx := by omega
      rw [e1, e2, if_pos ⟨⟨h3, h4⟩, h1, h2⟩]
      exact blendSample8_exact _ _ _ (hd _ _ _) (hs _ _ _) (hs _ _ _)
    refine ⟨luma, ?_, ?_⟩
    · intro xx yy h1 h2 h3 h4 p hp
      rw [blend8on8_rdc _ _ _ _ _ p hp]
      simp only []
      have e1 : top >>> chromaShift (dst.plane 1).height (dst.plane 0).height + yy -
          top >>> chromaShift (dst.plane 1).height (dst.plane 0).height = yy := by omega
      have e2 : left >>> chromaShift (dst.plane 1).width (dst.plane 0).width + xx -
          left >>> chromaShift (dst.plane 1).width (dst.plane 0).width = xx := by omega
      rw [e1, e2, if_pos ⟨⟨h3, h4⟩, h1, h2⟩]
      exact blendSample8_exact _ _ _ (hd _ _ _) (hs _ _ _) (hs _ _ _)
    · intro hblack hsrc xx yy h1 h2 h3 h4
      have hy := clip_bounds _ _ _ _ h3 h4
      have hx := clip_bounds _ _ _ _ h1 h2
      rw [luma xx yy h1 h2 h3 h4, hblack, (hsrc yy xx hy.1 hy.2 hx.1 hx.2).1,
        (hsrc yy xx hy.1 hy.2 hx.1 hx.2).2]
  · intro dst src left top stride shift mem hin hw hrep
    refine blend8on8_luma_agrees dst src left top stride shift mem ?_ hrep
    intro yy xx h1 h2 h3 h4
    have h := hin xx yy h3 h4 h1 h2
    unfold Buffer.Inside at h
    simp only [Bool.false_eq_true, false_and, if_false] at h
    omega
  · refine ⟨by decide, by decide, by decide, by decide, ?_, by decide, ?_⟩
    · set_option maxRecDepth 100000 in decide
    rw [blend8on8_rd0]
    simp only [constBuffer_rd]
    decide

theorem blend8on8_reference_witness :
    StoresInside false (constBuffer 16 16 8 8 0 128 128 0)
      (constBuffer 10 10 5 5 255 90 240 128) 3 4 ∧
    (blend8on8 (constBuffer 16 16 8 8 0 128 128 0) (constBuffer 10 10 5 5 255 90 240 128)
        3 4 0).rd 0 (4 + 2) (3 + 1) = 128 ∧
    (blend8on8 (constBuffer 16 16 8 8 0 128 128 0) (constBuffer 10 10 5 5 255 90 240 128)
        3 4 0).rd 1 (2 + 1) (1 + 1) = 108 ∧
    (blend8on8 (constBuffer 16 16 8 8 0 128 128 0) (constBuffer 10 10 5 5 255 90 240 128)
        3 4 0).rd 0 (4 + 2) (3 + 1) = 128 := by
  have hin : StoresInside false (constBuffer 16 16 8 8 0 128 128 0)
      (constBuffer 10 10 5 5 255 90 240 128) 3 4 :=
    storesInside_of_range _ _ _ _ _ (by decide) (by decide) (by decide) (by decide)
      (by decide) (by decide) (fun _ => ⟨rfl, rfl⟩)
  have h := blend8on8_reference.1 (constBuffer 16 16 8 8 0 128 128 0)
    (constBuffer 10 10 5 5 255 90 240 128) 3 4 0
    (fun p r c => by rw [constBuffer_rd]; split_ifs <;> omega)
    (fun p r c => by rw [constBuffer_rd]; split_ifs <;> omega) hin
  refine ⟨hin, ?_, ?_, ?_⟩
  · have h1 := h.1 1 2 (by decide) (by decide) (by decide) (by decide)
    simpa [constBuffer_rd] using h1
  · have h2 := h.2.1 1 1 (by decide) (by decide) (by decide) (by decide) 1 (Or.inl rfl)
    have e1 : (3 : Int) >>> chromaShift ((constBuffer 16 16 8 8 0 128 128 0).plane 1).width
        ((constBuffer 16 16 8 8 0 128 128 0).plane 0).width = 1 := by decide
    have e2 : (4 : Int) >>> chromaShift ((constBuffer 16 16 8 8 0 128 128 0).plane 1).height
        ((constBuffer 16 16 8 8 0 128 128 0).plane 0).height = 2 := by decide
    rw [e1, e2] at h2
    simpa [constBuffer_rd] using h2
  · exact h.2.2 (fun r c => by rw [constBuffer_rd]; rfl)
      (fun r c _ _ _ _ => by constructor <;> (rw [constBuffer_rd]; rfl))
      1 2 (by decide) (by decide) (by decide) (by decide)

/-- C4. Alpha = 255 overwrites (8-bit blenders).  First part: when every alpha sample of `src`
is 255 and every store of the call lies inside the planes of `dst` (`StoresInside`), then
after `blend8on8` and after `blend8onbi8` every luma sample of the clipped region equals the
source luma sample at the corresponding source position, and every U and V sample the
blender stores equals the corresponding source U and V sample (planes 1 and 2 for
`blend8on8`; even and odd columns of plane 1 for `blend8onbi8`), whatever the destination
held before.
Second part: without the condition on the stores the claim fails on the code.  For a 128x72
destination (4:2:0, luma pitch 128, chroma pitch 64) and a 130x4 source of alpha 255 whose
samples are 10 on row 0 and 20 on the other rows of each plane, at `left = -1`, `top = 0`:
`x0 = 1`, `ww = 130`, `hh = 4`.  Chroma: `left >> 1 = -1`, the loop runs `xx = 0 .. 64`,
`yy = 0, 1`; the iteration `yy = 0`, `xx = 64` stores `srcU[0][64] = 10` to `u_out[63]`, the
sample of row 0, column 63, and the iteration `yy = 1`, `xx = 0` stores `srcU[1][0] = 20` to
`u_out[-1]` of row 1, the same byte: the U sample at row 0, column 63 ends as 20, not as the
source sample of its position.  Luma: the iteration `yy = 0`, `xx = 129` stores
`srcY[0][129] = 10` to `y_out[128]`, the sample of row 1, column 0, and the iteration `yy = 1`,
`xx = 1` stores `srcY[1][1] = 20` over it. -/
theorem blend8_alpha255_overwrite :
    (∀ (dst src : Buffer) (left top : Int) (shift : Nat), src.IsU8 →
      (∀ r c, 0 ≤ r → r < src.f_height → 0 ≤ c → c < src.f_width → src.rd 3 r c = 255) →
      (StoresInside false dst src left top →
        (∀ xx yy : Int,
          clipStart left ≤ xx → xx < clipEnd src.f_width dst.f_width left (clipStart left) →
          clipStart top ≤ yy → yy < clipEnd src.f_height dst.f_height top (clipStart top) →
          (blend8on8 dst src left top shift).rd 0 (yy + top) (left + xx) = src.rd 0 yy xx) ∧
        (∀ xx yy : Int,
          clipStart left >>> chromaShift (dst.plane 1).width (dst.plane 0).width ≤ xx →
          xx < clipEnd src.f_width dst.f_width left (clipStart left) >>>
                chromaShift (dst.plane 1).width (dst.plane 0).width →
          clipStart top >>> chromaShift (dst.plane 1).height (dst.plane 0).height ≤ yy →
          yy < clipEnd src.f_height dst.f_height top (clipStart top) >>>
                chromaShift (dst.plane 1).height (dst.plane 0).height →
          (blend8on8 dst src left top shift).rd 1
              (yy + top >>> chromaShift (dst.plane 1).height (dst.plane 0).height)
              (left >>> chromaShift (dst.plane 1).width (dst.plane 0).width + xx) =
            src.rd 1 yy xx ∧
          (blend8on8 dst src left top shift).rd 2
              (yy + top >>> chromaShift (dst.plane 1).height (dst.plane 0).height)
              (left >>> chromaShift (dst.plane 1).width (dst.plane 0).width + xx) =
            src.rd 2 yy xx)) ∧
      (StoresInside true dst src left top →
        (∀ xx yy : Int,
          clipStart left ≤ xx → xx < clipEnd src.f_width dst.f_width left (clipStart left) →
          clipStart top ≤ yy → yy < clipEnd src.f_height dst.f_height top (clipStart top) →
          (blend8onbi8 dst src left top shift).rd 0 (yy + top) (left + xx) = src.rd 0 yy xx) ∧
        (∀ xx yy : Int,
          clipStart left >>> chromaShift (dst.plane 1).width (dst.plane 0).width ≤ xx →
          xx < clipEnd src.f_width dst.f_width left (clipStart left) >>>
                chromaShift (dst.plane 1).width (dst.plane 0).width →
          clipStart top >>> chromaShift (dst.plane 1).height (dst.plane 0).height ≤ yy →
          yy < clipEnd src.f_height dst.f_height top (clipStart top) >>>
                chromaShift (dst.plane 1).height (dst.plane 0).height →
          (blend8onbi8 dst src left top shift).rd 1
              (yy + top >>> chromaShift (dst.plane 1).height (dst.plane 0).height)
              ((left >>> chromaShift (dst.plane 1).width (dst.plane 0).width + xx) * 2) =
            src.rd 1 yy xx ∧
          (blend8onbi8 dst src left top shift).rd 1
              (yy + top >>> chromaShift (dst.plane 1).height (dst.plane 0).height)
              ((left >>> chromaShift (dst.plane 1).width (dst.plane 0).width + xx) * 2 + 1) =
            src.rd 2 yy xx))) ∧
    ((∀ p r c, (twoRowSource 130 4 65 2).rd p r c < 256) ∧
      (∀ r c, (twoRowSource 130 4 65 2).rd 3 r c = 255) ∧
      clipStart (-1) = 1 ∧ clipEnd 130 128 (-1) 1 = 130 ∧ clipEnd 4 72 0 0 = 4 ∧
      chromaShift 64 128 = 1 ∧ chromaShift 36 72 = 1 ∧ (-1 : Int) >>> 1 = -1 ∧
      (1 : Int) >>> 1 = 0 ∧ (130 : Int) >>> 1 = 65 ∧ (4 : Int) >>> 1 = 2 ∧
      (twoRowSource 130 4 65 2).rd 1 0 64 = 10 ∧
      (twoRowSource 130 4 65 2).rd 1 1 0 = 20 ∧
      (0 + 0) * 64 + (-1 + 64) = ((1 + 0) * 64 + (-1 + 0) : Int) ∧
      blend8on8_chroma_mem 1 (fun _ => 0) 64 128 72 1 1 (twoRowSource 130 4 65 2)
          (-1) 0 ((0 + 0) * 64 + (-1 + 64)) = 20 ∧
      (twoRowSource 130 4 65 2).rd 0 0 129 = 10 ∧
      (twoRowSource 130 4 65 2).rd 0 1 1 = 20 ∧
      (0 + 0) * 128 + (-1 + 129) = ((1 + 0) * 128 + (-1 + 1) : Int) ∧
      blend8on8_luma_mem (fun _ => 0) 128 128 72 (twoRowSource 130 4 65 2)
          (-1) 0 ((0 + 0) * 128 + (-1 + 129)) = 20) := by
  refine ⟨fun dst src left top shift hs ha => ⟨fun _ => ⟨?_, ?_⟩, fun _ => ⟨?_, ?_⟩⟩, ?_⟩
  · intro xx yy h1 h2 h3 h4
    have hy := clip_bounds _ _ _ _ h3 h4
    have hx := clip_bounds _ _ _ _ h1 h2
    have e1 : yy + top - top = yy := by omega
    have e2 : left + xx - left = xx := by omega
    rw [blend8on8_rd0, e1, e2, if_pos ⟨⟨h3, h4⟩, h1, h2⟩, ha yy xx hy.1 hy.2 hx.1 hx.2]
    exact blendSample8_full _ _ (hs _ _ _)
  · intro xx yy h1 h2 h3 h4
    have hy := chroma_bounds _ (chromaShift_cases _ _) _ _ _ _ h3 h4
    have hx := chroma_bounds _ (chromaShift_cases _ _) _ _ _ _ h1 h2
    have hα := ha _ _ hy.2.1 hy.2.2 hx.2.1 hx.2.2
    have e1 : ∀ a b : Int, a + b - b = a := by intros; omega
    have e2 : ∀ a b : Int, b + a - b = a := by intros; omega
    refine ⟨?_, ?_⟩
    · rw [blend8on8_rdc _ _ _ _ _ 1 (Or.inl rfl)]
      simp only []
      rw [e1, e2, if_pos ⟨⟨h3, h4⟩, h1, h2⟩, hα]
      exact blendSample8_full _ _ (hs _ _ _)
    · rw [blend8on8_rdc _ _ _ _ _ 2 (Or.inr rfl)]
      simp only []
      rw [e1, e2, if_pos ⟨⟨h3, h4⟩, h1, h2⟩, hα]
      exact blendSample8_full _ _ (hs _ _ _)
  · intro xx yy h1 h2 h3 h4
    have hy := clip_bounds _ _ _ _ h3 h4
    have hx := clip_bounds _ _ _ _ h1 h2
    have e1 : yy + top - top = yy := by omega
    have e2 : left + xx - left = xx := by omega
    rw [blend8onbi8_rd0, e1, e2, if_pos ⟨⟨h3, h4⟩, h1, h2⟩, ha yy xx hy.1 hy.2 hx.1 hx.2]
    exact blendSample8_full _ _ (hs _ _ _)
  · intro xx yy h1 h2 h3 h4
    have hy := chroma_bounds _ (chromaShift_cases _ _) _ _ _ _ h3 h4
    have hx := chroma_bounds _ (chromaShift_cases _ _) _ _ _ _ h1 h2
    have hα := ha _ _ hy.2.1 hy.2.2 hx.2.1 hx.2.2
    have e1 : ∀ a b : Int, a + b - b = a := by intros; omega
    have e3 : ∀ a b : Int, (b + a) * 2 / 2 - b = a := by intros; omega
    have e4 : ∀ a b : Int, ((b + a) * 2 + 1) / 2 - b = a := by intros; omega
    have e5 : ∀ a : Int, a * 2 % 2 = 0 := by intros; omega
    have e6 : ∀ a : Int, ¬ ((a * 2 + 1) % 2 = 0) := by intros; omega
    refine ⟨?_, ?_⟩
    · rw [blend8onbi8_rd1]
      simp only []
      rw [e1, e3, if_pos ⟨⟨h3, h4⟩, h1, h2⟩, hα, if_pos (e5 _)]
      exact blendSample8_full _ _ (hs _ _ _)
    · rw [blend8onbi8_rd1]
      simp only []
      rw [e1, e4, if_pos ⟨⟨h3, h4⟩, h1, h2⟩, hα, if_neg (e6 _)]
      exact blendSample8_full _ _ (hs _ _ _)
  · refine ⟨?_, fun r c => rfl, by decide, by decide, by decide, by decide, by decide,
      by decide, by decide, by decide, by decide, rfl, rfl, by decide, ?_, rfl, rfl,
      by decide, ?_⟩
    · intro p r c
      simp only [Buffer.rd, twoRowSource, constBuffer]
      split_ifs <;> simp only [] <;> first | omega | (split_ifs <;> omega)
    · set_option maxRecDepth 100000 in decide
    · set_option maxRecDepth 100000 in decide

theorem blend8_alpha255_overwrite_witness :
    StoresInside false (constBuffer 16 16 8 8 16 128 128 0)
      (constBuffer 10 10 5 5 235 90 240 255) (-2) 4 ∧
    StoresInside true (constBuffer 16 16 8 8 16 128 128 0)
      (constBuffer 10 10 5 5 235 90 240 255) (-2) 4 ∧
    (blend8on8 (constBuffer 16 16 8 8 16 128 128 0) (constBuffer 10 10 5 5 235 90 240 255)
        (-2) 4 0).rd 0 (3 + 4) (-2 + 5) = 235 ∧
    (blend8onbi8 (constBuffer 16 16 8 8 16 128 128 0) (constBuffer 10 10 5 5 235 90 240 255)
        (-2) 4 0).rd 1 (1 + 2) ((-1 + 2) * 2 + 1) = 240 := by
  have hin : ∀ bi, StoresInside bi (constBuffer 16 16 8 8 16 128 128 0)
      (constBuffer 10 10 5 5 235 90 240 255) (-2) 4 := fun bi =>
    storesInside_of_range _ _ _ _ _ (by decide) (by decide) (by decide) (by decide)
      (by decide) (by decide) (fun _ => ⟨rfl, rfl⟩)
  have h := blend8_alpha255_overwrite.1 (constBuffer 16 16 8 8 16 128 128 0)
    (constBuffer 10 10 5 5 235 90 240 255) (-2) 4 0
    (fun p r c => by rw [constBuffer_rd]; split_ifs <;> omega)
    (fun r c _ _ _ _ => by rw [constBuffer_rd]; rfl)
  refine ⟨hin false, hin true, ?_, ?_⟩
  · have h1 := (h.1 (hin false)).1 5 3 (by decide) (by decide) (by decide) (by decide)
    simpa [constBuffer_rd] using h1
  · have h2 := ((h.2 (hin true)).2 2 1 (by decide) (by decide) (by decide) (by decide)).2
    have e1 : (-2 : Int) >>> chromaShift ((constBuffer 16 16 8 8 16 128 128 0).plane 1).width
        ((constBuffer 16 16 8 8 16 128 128 0).plane 0).width = -1 := by decide
    have e2 : (4 : Int) >>> chromaShift ((constBuffer 16 16 8 8 16 128 128 0).plane 1).height
        ((constBuffer 16 16 8 8 16 128 128 0).plane 0).height = 2 := by decide
    rw [e1, e2] at h2
    simpa [constBuffer_rd] using h2

/-- C5. A blend changes only the destination samples covered by the placed source.  First
part: when every luma store of the call lies inside plane 0 of `dst` (`LumaStoresInside`),
after `blend8on8` with destination `W x H` and source `w x h` placed at `(left, top)`, every
destination luma sample outside
`[max(0,left), min(W, left+w)) x [max(0,top), min(H, top+h))` is unchanged; and scenario S1:
for a 100x100 destination and a 40x40 source with Y = 200, A = 255 placed at `left = -10`,
`top = -10`, the result has Y = 200 on columns 0..29 of rows 0..29, and every luma sample in
columns 30..99 or rows 30..99 is unchanged.
Second part: without the condition the claim fails on the code.  For a 128x72 destination of
row pitch 128, all black, and a 130x1 source of Y = 255, A = 128 at `left = -1`, `top = 0`:
`x0 = 1`, `ww = 130`, `hh = 1`, the rectangle of the claim is `[0, 128) x [0, 1)`; the
iteration `yy = 0`, `xx = 129` stores to `y_out[128]`, the sample of row 1, column 0, which
lies outside the rectangle and changes from 0 to 128. -/
theorem blend8on8_frame :
    (∀ (dst src : Buffer) (shift : Nat),
      (∀ (left top : Int), LumaStoresInside dst src left top →
        ∀ r c : Int, 0 ≤ r → r < dst.f_height → 0 ≤ c → c < dst.f_width →
        ¬ ((max 0 left ≤ c ∧ c < min dst.f_width (left + src.f_width)) ∧
            (max 0 top ≤ r ∧ r < min dst.f_height (top + src.f_height))) →
        (blend8on8 dst src left top shift).rd 0 r c = dst.rd 0 r c) ∧
      (dst.f_width = 100 → dst.f_height = 100 → src.f_width = 40 → src.f_height = 40 →
        LumaStoresInside dst src (-10) (-10) →
        (∀ r c, 0 ≤ r → r < 40 → 0 ≤ c → c < 40 → src.rd 0 r c = 200 ∧ src.rd 3 r c = 255) →
        (∀ r c : Int, 0 ≤ r → r < 30 → 0 ≤ c → c < 30 →
          (blend8on8 dst src (-10) (-10) shift).rd 0 r c = 200) ∧
        (∀ r c : Int, 0 ≤ r → r < 100 → 0 ≤ c → c < 100 → (30 ≤ c ∨ 30 ≤ r) →
          (blend8on8 dst src (-10) (-10) shift).rd 0 r c = dst.rd 0 r c))) ∧
    (clipStart (-1) = 1 ∧ clipEnd 130 128 (-1) 1 = 130 ∧ clipEnd 1 72 0 0 = 1 ∧
      (0 + 0) * 128 + (-1 + 129) = (1 * 128 + 0 : Int) ∧
      ¬ ((max 0 (-1) ≤ (0 : Int) ∧ (0 : Int) < min 128 (-1 + 130)) ∧
          (max 0 0 ≤ (1 : Int) ∧ (1 : Int) < min 72 (0 + 1))) ∧
      blend8on8_luma_mem (fun _ => 0) 128 128 72 (constBuffer 130 1 65 1 255 128 128 128)
          (-1) 0 (1 * 128 + 0) = 128) := by
  refine ⟨fun dst src shift => ⟨?_, ?_⟩, ?_⟩
  · intro left top _ r c h1 h2 h3 h4 hout
    rw [blend8on8_rd0, if_neg]
    intro hin
    apply hout
    unfold clipEnd clipStart at hin
    split_ifs at hin <;> omega
  · intro hW hH hw hh _ hsrc
    constructor
    · intro r c h1 h2 h3 h4
      rw [blend8on8_rd0, hW, hH, hw, hh, if_pos]
      · rw [(hsrc (r - -10) (c - -10) (by omega) (by omega) (by omega) (by omega)).1,
          (hsrc (r - -10) (c - -10) (by omega) (by omega) (by omega) (by omega)).2]
        exact blendSample8_full _ _ (by omega)
      · unfold clipEnd clipStart
        split_ifs <;> omega
    · intro r c h1 h2 h3 h4 hout
      rw [blend8on8_rd0, hW, hH, hw, hh, if_neg]
      unfold clipEnd clipStart
      split_ifs <;> omega
  · refine ⟨by decide, by decide, by decide, by decide, by decide, ?_⟩
    set_option maxRecDepth 100000 in decide

theorem blend8on8_frame_witness :
    LumaStoresInside (constBuffer 100 100 50 50 16 128 128 0)
      (constBuffer 40 40 20 20 200 128 128 255) (-10) (-10) ∧
    LumaStoresInside (constBuffer 100 100 50 50 16 128 128 0)
      (constBuffer 40 40 20 20 200 128 128 255) 7 90 ∧
    (blend8on8 (constBuffer 100 100 50 50 16 128 128 0) (constBuffer 40 40 20 20 200 128 128 255)
        (-10) (-10) 0).rd 0 29 29 = 200 ∧
    (blend8on8 (constBuffer 100 100 50 50 16 128 128 0) (constBuffer 40 40 20 20 200 128 128 255)
        (-10) (-10) 0).rd 0 29 30 = 16 ∧
    (blend8on8 (constBuffer 100 100 50 50 16 128 128 0) (constBuffer 40 40 20 20 200 128 128 255)
        7 90 0).rd 0 89 7 = 16 := by
  have hin1 : LumaStoresInside (constBuffer 100 100 50 50 16 128 128 0)
      (constBuffer 40 40 20 20 200 128 128 255) (-10) (-10) :=
    (storesInside_of_range false _ _ _ _ (by decide) (by decide) (by decide) (by decide)
      (by decide) (by decide) (fun _ => ⟨rfl, rfl⟩)).1
  have hin2 : LumaStoresInside (constBuffer 100 100 50 50 16 128 128 0)
      (constBuffer 40 40 20 20 200 128 128 255) 7 90 :=
    (storesInside_of_range false _ _ _ _ (by decide) (by decide) (by decide) (by decide)
      (by decide) (by decide) (fun _ => ⟨rfl, rfl⟩)).1
  have h := blend8on8_frame.1 (constBuffer 100 100 50 50 16 128 128 0)
    (constBuffer 40 40 20 20 200 128 128 255) 0
  have hS := h.2 rfl rfl rfl rfl hin1
    (fun r c _ _ _ _ => by constructor <;> (rw [constBuffer_rd]; rfl))
  refine ⟨hin1, hin2, hS.1 29 29 (by decide) (by decide) (by decide) (by decide), ?_, ?_⟩
  · have h2 := hS.2 29 30 (by decide) (by decide) (by decide) (by decide) (Or.inl (by decide))
    simpa [constBuffer_rd] using h2
  · have h3 := h.1 7 90 hin2 89 7 (by decide) (by decide) (by decide) (by decide) (by decide)
    simpa [constBuffer_rd] using h3

theorem deep_exact (shift old y a : Nat) (hshift : shift = 2 ∨ shift = 4 ∨ shift = 8)
    (ho : old < 65536) (hy : y < 256) (ha : a < 256) :
    blendSample16 (deepMax shift) old (y <<< shift) (deepAlpha a shift) =
      (old * ((256 <<< shift) - 1 - (a <<< shift)) + (y <<< shift) * (a <<< shift)) /
        ((256 <<< shift) - 1) := by
  have h1 : deepAlpha a shift = a <<< shift := by
    unfold deepAlpha
    apply Nat.mod_eq_of_lt
    rcases hshift with h | h | h <;> subst h <;> simp only [Nat.shiftLeft_eq] <;> omega
  rw [h1]
  unfold deepMax
  apply blendSample16_exact
  · rcases hshift with h | h | h <;> subst h <;> simp only [Nat.shiftLeft_eq] <;> omega
  · rcases hshift with h | h | h <;> subst h <;> simp only [Nat.shiftLeft_eq] <;> omega
  · exact ho
  · rcases hshift with h | h | h <;> subst h <;> simp only [Nat.shiftLeft_eq] <;> omega
  · rcases hshift with h | h | h <;> subst h <;> simp only [Nat.shiftLeft_eq] <;> omega

/-- C6. The deep planar blender `blend8on1x` with `shift = depth - 8` in {2, 4, 8}.  First
part: when every store of the call lies inside the planes of `dst` (`StoresInside`), for
every `(xx, yy)` of the clipped source rectangle the new 16-bit luma sample is
`(old*(max - alpha) + (srcY << shift)*alpha) / max` with `alpha = srcA << shift` and
`max = (256 << shift) - 1`, and the same formula gives the U and V samples it stores (with
the alpha sample at `(xx << wshift, yy << hshift)`).
Second part: under the same condition on the luma stores, the luma samples of `blend8on1x`
are the 16-bit samples of the luma plane after the loop of lines 241-257, for every row pitch
of at least `2 * plane[0].width` bytes.
Third part: without the condition the claim fails on the code.  For a 128x72 destination of
row pitch 256 bytes, all zero, and a 130x2 source of Y = 255, A = 128 at `left = -1`,
`top = 0`, `shift = 2`: `x0 = 1`, `ww = 130`, `hh = 2`; the iteration `yy = 0`, `xx = 129`
stores 510 to `y_out[128]`, the sample of row 1, column 0 at byte offset 256, and the
iteration `yy = 1`, `xx = 1` blends that sample again: it ends as 765, where the claim (and
the grid of cells) gives `(0*511 + 1020*512) / 1023 = 510`. -/
theorem blend8on1x_reference :
    (∀ (dst src : Buffer) (left top : Int) (shift : Nat),
      shift = 2 ∨ shift = 4 ∨ shift = 8 → dst.IsU16 → src.IsU8 →
      StoresInside false dst src left top →
      (∀ xx yy : Int,
        clipStart left ≤ xx → xx < clipEnd src.f_width dst.f_width left (clipStart left) →
        clipStart top ≤ yy → yy < clipEnd src.f_height dst.f_height top (clipStart top) →
        (blend8on1x dst src left top shift).rd 0 (yy + top) (left + xx) =
          (dst.rd 0 (yy + top) (left + xx) *
              ((256 <<< shift) - 1 - (src.rd 3 yy xx <<< shift)) +
            (src.rd 0 yy xx <<< shift) * (src.rd 3 yy xx <<< shift)) /
            ((256 <<< shift) - 1)) ∧
      (∀ xx yy : Int,
        clipStart left >>> chromaShift (dst.plane 1).width (dst.plane 0).width ≤ xx →
        xx < clipEnd src.f_width dst.f_width left (clipStart left) >>>
              chromaShift (dst.plane 1).width (dst.plane 0).width →
        clipStart top >>> chromaShift (dst.plane 1).height (dst.plane 0).height ≤ yy →
        yy < clipEnd src.f_height dst.f_height top (clipStart top) >>>
              chromaShift (dst.plane 1).height (dst.plane 0).height →
        ∀ p, p = 1 ∨ p = 2 →
        (blend8on1x dst src left top shift).rd p
            (yy + top >>> chromaShift (dst.plane 1).height (dst.plane 0).height)
            (left >>> chromaShift (dst.plane 1).width (dst.plane 0).width + xx) =
          (dst.rd p (yy + top >>> chromaShift (dst.plane 1).height (dst.plane 0).height)
                (left >>> chromaShift (dst.plane 1).width (dst.plane 0).width + xx) *
              ((256 <<< shift) - 1 -
                (src.rd 3 (yy * 2 ^ chromaShift (dst.plane 1).height (dst.plane 0).height)
                      (xx * 2 ^ chromaShift (dst.plane 1).width (dst.plane 0).width) <<<
                    shift)) +
            (src.rd p yy xx <<< shift) *
              (src.rd 3 (yy * 2 ^ chromaShift (dst.plane 1).height (dst.plane 0).height)
                      (xx * 2 ^ chromaShift (dst.plane 1).width (dst.plane 0).width) <<<
                  shift)) /
            ((256 <<< shift) - 1))) ∧
    (∀ (dst src : Buffer) (left top stride : Int) (shift : Nat) (mem : Int → Nat),
      LumaStoresInside dst src left top → 2 * (dst.plane 0).width ≤ stride →
      (∀ r c, 0 ≤ c ∧ 2 * c + 2 ≤ stride → mem (r * stride + 2 * c) = dst.rd 0 r c) →
      ∀ r c, 0 ≤ c ∧ 2 * c + 2 ≤ stride →
        blend8on1x_luma_mem mem stride dst.f_width dst.f_height src left top shift
            (r * stride + 2 * c) =
          (blend8on1x dst src left top shift).rd 0 r c) ∧
    (clipStart (-1) = 1 ∧ clipEnd 130 128 (-1) 1 = 130 ∧ clipEnd 2 72 0 0 = 2 ∧
      (0 + 0) * 256 + 2 * (-1 + 129) = ((1 + 0) * 256 + 2 * (-1 + 1) : Int) ∧
      blend8on1x_luma_mem (fun _ => 0) 256 128 72 (constBuffer 130 2 65 1 255 128 128 128)
          (-1) 0 2 ((1 + 0) * 256 + 2 * (-1 + 1)) = 765 ∧
      (0 * ((256 <<< 2) - 1 - (128 <<< 2)) + (255 <<< 2) * (128 <<< 2)) / ((256 <<< 2) - 1) =
        510 ∧
      (blend8on1x (constBuffer 128 72 64 36 0 512 512 0) (constBuffer 130 2 65 1 255 128 128 128)
          (-1) 0 2).rd 0 (1 + 0) (-1 + 1) = 510) := by
  have e1 : ∀ a b : Int, a + b - b = a := by intros; omega
  have e2 : ∀ a b : Int, b + a - b = a := by intros; omega
  refine ⟨fun dst src left top shift hshift hd hs _ => ⟨?_, ?_⟩, ?_, ?_⟩
  · intro xx yy h1 h2 h3 h4
    rw [blend8on1x_rd0, e1, e2, if_pos ⟨⟨h3, h4⟩, h1, h2⟩]
    exact deep_exact _ _ _ _ hshift (hd _ _ _) (hs _ _ _) (hs _ _ _)
  · intro xx yy h1 h2 h3 h4 p hp
    rw [blend8on1x_rdc _ _ _ _ _ p hp]
    simp only []
    rw [e1, e2, if_pos ⟨⟨h3, h4⟩, h1, h2⟩]
    exact deep_exact _ _ _ _ hshift (hd _ _ _) (hs _ _ _) (hs _ _ _)
  · intro dst src left top stride shift mem hin hw hrep
    refine blend8on1x_luma_agrees dst src left top stride shift mem ?_ hrep
    intro yy xx h1 h2 h3 h4
    have h := hin xx yy h3 h4 h1 h2
    unfold Buffer.Inside at h
    simp only [Bool.false_eq_true, false_and, if_false] at h
    omega
  · refine ⟨by decide, by decide, by decide, by decide, ?_, by decide, ?_⟩
    · set_option maxRecDepth 100000 in decide
    rw [blend8on1x_rd0]
    simp only [constBuffer_rd]
    decide

theorem blend8on1x_reference_witness :
    StoresInside false (constBuffer 16 16 8 8 64 512 512 0)
      (constBuffer 10 10 5 5 235 90 240 128) 3 4 ∧
    (blend8on1x (constBuffer 16 16 8 8 64 512 512 0) (constBuffer 10 10 5 5 235 90 240 128)
        3 4 2).rd 0 (2 + 4) (3 + 1) = 502 ∧
    (blend8on1x (constBuffer 16 16 8 8 64 512 512 0) (constBuffer 10 10 5 5 235 90 240 128)
        3 4 2).rd 2 (1 + 2) (1 + 1) = 736 := by
  have hin : StoresInside false (constBuffer 16 16 8 8 64 512 512 0)
      (constBuffer 10 10 5 5 235 90 240 128) 3 4 :=
    storesInside_of_range _ _ _ _ _ (by decide) (by decide) (by decide) (by decide)
      (by decide) (by decide) (fun _ => ⟨rfl, rfl⟩)
  have h := blend8on1x_reference.1 (constBuffer 16 16 8 8 64 512 512 0)
    (constBuffer 10 10 5 5 235 90 240 128) 3 4 2 (Or.inl rfl)
    (fun p r c => by rw [constBuffer_rd]; split_ifs <;> omega)
    (fun p r c => by rw [constBuffer_rd]; split_ifs <;> omega) hin
  refine ⟨hin, ?_, ?_⟩
  · have h1 := h.1 1 2 (by decide) (by decide) (by decide) (by decide)
    simpa [constBuffer_rd] using h1
  · have h2 := h.2 1 1 (by decide) (by decide) (by decide) (by decide) 2 (Or.inr rfl)
    have e1 : (3 : Int) >>> chromaShift ((constBuffer 16 16 8 8 64 512 512 0).plane 1).width
        ((constBuffer 16 16 8 8 64 512 512 0).plane 0).width = 1 := by decide
    have e2 : (4 : Int) >>> chromaShift ((constBuffer 16 16 8 8 64 512 512 0).plane 1).height
        ((constBuffer 16 16 8 8 64 512 512 0).plane 0).height = 2 := by decide
    rw [e1, e2] at h2
    simpa [constBuffer_rd] using h2

theorem forRange_one {σ : Type} (body : Int → σ → σ) (s : σ) :
    forRange 0 1 body s = body 0 s := rfl

theorem forRange_two {σ : Type} (body : Int → σ → σ) (s : σ) :
    forRange 0 2 body s = body 1 (body 0 s) := rfl

theorem div255_full : div255 (u32 ((255 - 0) * 255)) % 256 = 255 := by decide

theorem ssaAlpha_fragAt (x y : Int) (c : Nat) (hc : c % 256 = 0) (xx yy : Int) :
    ssaAlpha (fragAt x y c) xx yy = 255 := by
  unfold ssaAlpha
  simp only [fragAt, hc]
  exact div255_full

theorem compo_two (f : Nat → Nat) (rgb1 : Nat) :
    [fragAt 0 0 0xFF000000, fragAt 1 0 (rgb1 * 256)].foldl
        (composeFrame f 8 0 0) (fun _ => 0) =
      poke (poke (poke (poke (poke (poke (poke (poke (fun _ => 0) 0 ((f 0xFF0000 >>> 16) % 256))
        1 (f 0xFF0000 % 256)) 2 ((f 0xFF0000 >>> 8) % 256)) 3 255)
        4 ((f rgb1 >>> 16) % 256)) 5 (f rgb1 % 256)) 6 ((f rgb1 >>> 8) % 256)) 7 255 := by
  simp only [List.foldl, composeFrame]
  have h1 : (fragAt 0 0 0xFF000000).w = 1 := rfl
  have h2 : (fragAt 0 0 0xFF000000).h = 1 := rfl
  have h3 : (fragAt 1 0 (rgb1 * 256)).w = 1 := rfl
  have h4 : (fragAt 1 0 (rgb1 * 256)).h = 1 := rfl
  have h5 : (fragAt 1 0 (rgb1 * 256)).color >>> 8 = rgb1 := by
    simp [fragAt, Nat.shiftRight_eq_div_pow]
  simp only [h1, h2, h3, h4, h5, forRange_one,
    ssaAlpha_fragAt _ _ _ (by decide : 0xFF000000 % 256 = 0),
    ssaAlpha_fragAt _ _ _ (Nat.mul_mod_left rgb1 256)]
  simp [composePixel, poke, fragAt]

/-- C8. Evaluation of `ComposeSubsampleASS` for 4:2:0 video with coefficients `(18, 18, 6, 2)` on
a 2x1 overlay made of two opaque 1x1 fragments, red at column 0 and any colour `rgb1` at
column 1: the chroma sample `(0, 0)`, whose block covers both columns, is stored with the U
and V of the column-0 pixel alone, whatever the colour at column 1 and whatever the colour
conversion `rgb2yuv`.  The accumulation reads `compo[fx + yz*flatStride + ...]` without the
column offset `xz`, so every column of the block contributes the pixel of its first column. -/
theorem ComposeSubsampleASS_chroma_reads_first_column (rgb2yuv : Nat → Nat) (rgb1 : Nat)
    (sub0 : Buffer) :
    (ComposeSubsampleASS pv420 rgb2yuv true (some sub0)
        [fragAt 0 0 0xFF000000, fragAt 1 0 (rgb1 * 256)] 2 1 0 0).map
      (fun b => (b.rd 1 0 0, b.rd 2 0 0)) =
      some (rgb2yuv 0xFF0000 % 256, (rgb2yuv 0xFF0000 >>> 8) % 256) := by
  have hfs : (((2 <<< 2) % 4294967296 : Nat) : Int) = 8 := by decide
  simp only [ComposeSubsampleASS, hfs, if_false, Bool.true_eq_false, Option.map_some']
  rw [compo_two]
  have hU : rgb2yuv 0xFF0000 % 256 < 256 := Nat.mod_lt _ (by decide)
  have hV : (rgb2yuv 0xFF0000 >>> 8) % 256 < 256 := Nat.mod_lt _ (by decide)
  generalize rgb2yuv 0xFF0000 % 256 = U0 at *
  generalize (rgb2yuv 0xFF0000 >>> 8) % 256 = V0 at *
  simp only [subsampleCompo, Nat.cast_one, Nat.cast_ofNat, forRange_one, forRange_two, pv420]
  have e1 : (1 : Int) >>> (1 : Nat) = 0 := by decide
  have key : ∀ u : Nat, u < 256 →
      (82620 * (u % 256) + 82620 * (u % 256) + 165239) % 4294967296 / 165240 % 256 = u := by
    intro u hu
    have h1 : 82620 * (u % 256) + 82620 * (u % 256) + 165239 = 165240 * u + 165239 := by omega
    rw [h1, Nat.mod_eq_of_lt (show 165240 * u + 165239 < 4294967296 by omega),
      Nat.mul_add_div (by decide : 165240 > 0)]
    omega
  simp [rd_store, chromaAccumulate, forRange_one, forRange_two, poke, u32, e1]
  exact ⟨key U0 hU, key V0 hV⟩

theorem div255_arith (x : Nat) (h : x ≤ 65025) :
    (x + (x + 128) / 256 + 128) / 256 = (x + 127) / 255 := by
  omega

theorem div255_round (x : Nat) (h : x ≤ 65025) : div255 x % 256 = (x + 127) / 255 := by
  unfold div255
  have e1 : u32 (x + 128) = x + 128 := Nat.mod_eq_of_lt (by omega)
  have e2 : (x + 128) >>> 8 = (x + 128) / 256 := by simp [Nat.shiftRight_eq_div_pow]
  rw [e1, e2]
  have e3 : u32 (x + (x + 128) / 256) = x + (x + 128) / 256 := Nat.mod_eq_of_lt (by omega)
  rw [e3]
  have e4 : u32 (x + (x + 128) / 256 + 128) = x + (x + 128) / 256 + 128 :=
    Nat.mod_eq_of_lt (by omega)
  rw [e4]
  have e5 : (x + (x + 128) / 256 + 128) >>> 8 = (x + (x + 128) / 256 + 128) / 256 := by
    simp [Nat.shiftRight_eq_div_pow]
  rw [e5, div255_arith x h]
  exact Nat.mod_eq_of_lt (by omega)

theorem alpha_blend_exact (a Y c dstA : Nat) (ha0 : 0 < a) (ha : a < 256) (hY : Y < 256)
    (hc : c < 256) (hd : dstA < 256) :
    ALPHA_BLEND (u32 (a * 255)) Y (u32 (dstA * (255 - a))) c
        (u32 (u32 (a * 255) + u32 (dstA * (255 - a)))) % 256 =
      (a * 255 * Y + (255 - a) * dstA * c + (a * 255 + dstA * (255 - a)) / 2) /
        (a * 255 + dstA * (255 - a)) := by
  have hB : dstA * (255 - a) ≤ 255 * (255 - a) := Nat.mul_le_mul_right _ (by omega)
  have e1 : u32 (a * 255) = a * 255 := Nat.mod_eq_of_lt (by omega)
  have e2 : u32 (dstA * (255 - a)) = dstA * (255 - a) := Nat.mod_eq_of_lt (by omega)
  rw [e1, e2]
  have e3 : u32 (a * 255 + dstA * (255 - a)) = a * 255 + dstA * (255 - a) :=
    Nat.mod_eq_of_lt (by omega)
  rw [e3]
  generalize hA : a * 255 = A at *
  generalize hBB : dstA * (255 - a) = B at *
  have h1 : A * Y ≤ A * 255 := Nat.mul_le_mul_left _ (by omega)
  have h2 : c * B ≤ 255 * B := Nat.mul_le_mul_right _ (by omega)
  have e4 : (255 - a) * dstA * c = c * B := by rw [← hBB]; ring
  rw [e4]
  unfold ALPHA_BLEND
  simp only [Nat.shiftRight_eq_div_pow, pow_one]
  have e5 : u32 (A * Y + c * B + (A + B) / 2) = A * Y + c * B + (A + B) / 2 :=
    Nat.mod_eq_of_lt (by omega)
  rw [e5]
  apply Nat.mod_eq_of_lt
  apply Nat.div_lt_of_lt_mul
  omega

/-- C9. Compositing one fragment pixel of effective alpha `a` and colour `(Y, U, V)` onto the
accumulator pixel at offset `fx` of `compo`: if `a = 0` the accumulator is unchanged; if
`a > 0` and the accumulator alpha is 0 the pixel becomes `(Y, U, V, a)`; if `a > 0` and the
accumulator alpha `dst_a` is positive then, with `out_a = a*255 + dst_a*(255 - a)`, each
component becomes `(a*255*c_src + (255 - a)*dst_a*c_dst + out_a/2) / out_a` and the alpha
becomes `out_a / 255` rounded to nearest.  No other byte of `compo` changes. -/
theorem composePixel_over (compo : Int → Nat) (fx : Int) (Y U V a : Nat)
    (hY : Y < 256) (hU : U < 256) (hV : V < 256) (ha : a < 256) (hc : ∀ i, compo i < 256) :
    (a = 0 → composePixel compo fx Y U V a = compo) ∧
    (0 < a → compo (fx + 3) = 0 →
      composePixel compo fx Y U V a fx = Y ∧
      composePixel compo fx Y U V a (fx + 1) = U ∧
      composePixel compo fx Y U V a (fx + 2) = V ∧
      composePixel compo fx Y U V a (fx + 3) = a) ∧
    (0 < a → 0 < compo (fx + 3) →
      composePixel compo fx Y U V a fx =
        (a * 255 * Y + (255 - a) * compo (fx + 3) * compo fx +
            (a * 255 + compo (fx + 3) * (255 - a)) / 2) /
          (a * 255 + compo (fx + 3) * (255 - a)) ∧
      composePixel compo fx Y U V a (fx + 1) =
        (a * 255 * U + (255 - a) * compo (fx + 3) * compo (fx + 1) +
            (a * 255 + compo (fx + 3) * (255 - a)) / 2) /
          (a * 255 + compo (fx + 3) * (255 - a)) ∧
      composePixel compo fx Y U V a (fx + 2) =
        (a * 255 * V + (255 - a) * compo (fx + 3) * compo (fx + 2) +
            (a * 255 + compo (fx + 3) * (255 - a)) / 2) /
          (a * 255 + compo (fx + 3) * (255 - a)) ∧
      composePixel compo fx Y U V a (fx + 3) =
        (a * 255 + compo (fx + 3) * (255 - a) + 127) / 255 ∧
      255 * composePixel compo fx Y U V a (fx + 3) ≤
        a * 255 + compo (fx + 3) * (255 - a) + 127 ∧
      a * 255 + compo (fx + 3) * (255 - a) ≤
        255 * composePixel compo fx Y U V a (fx + 3) + 127) ∧
    (∀ j, (j < fx ∨ fx + 3 < j) → composePixel compo fx Y U V a j = compo j) := by
  have n1 : ¬ (fx = fx + 1) := by omega
  have n2 : ¬ (fx = fx + 2) := by omega
  have n3 : ¬ (fx = fx + 3) := by omega
  have n4 : ¬ (fx + 1 = fx + 2) := by omega
  have n5 : ¬ (fx + 1 = fx + 3) := by omega
  have n6 : ¬ (fx + 2 = fx + 3) := by omega
  have n7 : ¬ (fx + 1 = fx) := by omega
  have n8 : ¬ (fx + 2 = fx) := by omega
  have n9 : ¬ (fx + 2 = fx + 1) := by omega
  refine ⟨?_, ?_, ?_, ?_⟩
  · intro h0
    simp [composePixel, h0]
  · intro h0 hz
    have h0' : a ≠ 0 := by omega
    simp only [composePixel, h0', hz, ne_eq, not_false_eq_true, not_true_eq_false, if_true,
      if_false, poke, n1, n2, n3, n4, n5, n6, n7, n8, n9]
    refine ⟨?_, ?_, ?_, ?_⟩ <;> omega
  · intro h0 hz
    have h0' : a ≠ 0 := by omega
    have hz' : compo (fx + 3) ≠ 0 := by omega
    have hB : compo (fx + 3) * (255 - a) ≤ 255 * (255 - a) :=
      Nat.mul_le_mul_right _ (by have := hc (fx + 3); omega)
    have hA : u32 (u32 (a * 255) + u32 (compo (fx + 3) * (255 - a))) =
        a * 255 + compo (fx + 3) * (255 - a) := by
      unfold u32
      rw [Nat.mod_eq_of_lt (show a * 255 < 4294967296 by omega),
        Nat.mod_eq_of_lt (show compo (fx + 3) * (255 - a) < 4294967296 by omega)]
      exact Nat.mod_eq_of_lt (by omega)
    have hR : composePixel compo fx Y U V a (fx + 3) =
        (a * 255 + compo (fx + 3) * (255 - a) + 127) / 255 := by
      simp only [composePixel, h0', hz', ne_eq, not_false_eq_true, if_true, poke]
      rw [hA]
      exact div255_round (a * 255 + compo (fx + 3) * (255 - a)) (by omega)
    refine ⟨?_, ?_, ?_, hR, ?_, ?_⟩
    · simp only [composePixel, h0', hz', ne_eq, not_false_eq_true, if_true, poke, n1, n2, n3,
        if_false]
      exact alpha_blend_exact a Y (compo fx) (compo (fx + 3)) h0 ha hY (hc _) (hc _)
    · simp only [composePixel, h0', hz', ne_eq, not_false_eq_true, if_true, poke, n4, n5, n7,
        if_false]
      exact alpha_blend_exact a U (compo (fx + 1)) (compo (fx + 3)) h0 ha hU (hc _) (hc _)
    · simp only [composePixel, h0', hz', ne_eq, not_false_eq_true, if_true, poke, n6, n8, n9,
        if_false]
      exact alpha_blend_exact a V (compo (fx + 2)) (compo (fx + 3)) h0 ha hV (hc _) (hc _)
    · rw [hR]; omega
    · rw [hR]; omega
  · intro j hj
    have m0 : ¬ (j = fx) := by omega
    have m1 : ¬ (j = fx + 1) := by omega
    have m2 : ¬ (j = fx + 2) := by omega
    have m3 : ¬ (j = fx + 3) := by omega
    unfold composePixel
    split_ifs <;> simp [poke, m0, m1, m2, m3]

theorem composePixel_over_witness :
    composePixel (fun _ => 100) 0 200 50 60 128 0 = 172 ∧
    composePixel (fun _ => 100) 0 200 50 60 128 3 = 178 ∧
    composePixel (fun _ => 0) 8 200 50 60 128 (8 + 1) = 50 ∧
    composePixel (fun _ => 100) 0 200 50 60 0 = (fun _ => 100) := by
  have h := composePixel_over (fun _ => 100) 0 200 50 60 128 (by decide) (by decide)
    (by decide) (by decide) (fun _ => by norm_num)
  have h0 := composePixel_over (fun _ => 0) 8 200 50 60 128 (by decide) (by decide)
    (by decide) (by decide) (fun _ => by norm_num)
  have hz := composePixel_over (fun _ => 100) 0 200 50 60 0 (by decide) (by decide)
    (by decide) (by decide) (fun _ => by norm_num)
  have h3 := h.2.2.1 (by decide) (by decide)
  refine ⟨?_, ?_, (h0.2.1 (by decide) rfl).2.1, hz.1 rfl⟩
  · exact h3.1.trans (by decide)
  · exact h3.2.2.2.1.trans (by decide)

theorem ApplyVOBSubs_finite {φ : Type} (render : φ → Buffer → φ) (t : Int) :
    ∀ (l : List Subtitle) (buf : φ),
      l.Pairwise (fun a b => a.buf.s_start ≤ b.buf.s_start) →
      (∀ e ∈ l, e.buf.s_stop ≠ AV_NOPTS_VALUE ∧ e.buf.s_start < e.buf.s_stop) →
      ApplyVOBSubs render t l buf =
        (l.filter (fun e => decide (t < e.buf.s_stop)),
         (l.filter (fun e => decide (e.buf.s_start ≤ t ∧ t < e.buf.s_stop))).foldl
           (fun b e => (e.buf :: e.next).foldl render b) buf) := by
  intro l
  induction l with
  | nil => intro buf _ _; rfl
  | cons sub rest ih =>
    intro buf hsorted hfin
    have hs := hfin sub (List.mem_cons_self _ _)
    have hrest : ∀ e ∈ rest, e.buf.s_stop ≠ AV_NOPTS_VALUE ∧ e.buf.s_start < e.buf.s_stop :=
      fun e he => hfin e (List.mem_cons_of_mem _ he)
    have hsr := List.pairwise_cons.mp hsorted
    unfold ApplyVOBSubs
    by_cases h1 : sub.buf.s_stop ≤ t
    · have hc : (sub.buf.s_stop ≠ AV_NOPTS_VALUE ∧ sub.buf.s_stop ≤ t) ∨
          (sub.buf.s_stop = AV_NOPTS_VALUE ∧ nextStarted t rest = true) := Or.inl ⟨hs.1, h1⟩
      rw [if_pos hc, ih buf hsr.2 hrest]
      have f1 : ¬ (t < sub.buf.s_stop) := by omega
      simp [List.filter_cons, f1]
    · have hc : ¬ ((sub.buf.s_stop ≠ AV_NOPTS_VALUE ∧ sub.buf.s_stop ≤ t) ∨
          (sub.buf.s_stop = AV_NOPTS_VALUE ∧ nextStarted t rest = true)) := by
        rintro (h | h)
        · exact h1 h.2
        · exact hs.1 h.1
      rw [if_neg hc]
      have f1 : t < sub.buf.s_stop := by omega
      by_cases h2 : sub.buf.s_start ≤ t
      · rw [if_pos h2, ih _ hsr.2 hrest]
        simp [List.filter_cons, f1, h2]
      · rw [if_neg h2]
        have hall : ∀ e ∈ sub :: rest, t < e.buf.s_start ∧ t < e.buf.s_stop := by
          intro e he
          rcases List.mem_cons.mp he with he | he
          · subst he; omega
          · have := hsr.1 e he
            have := (hrest e he).2
            omega
        have e1 : (sub :: rest).filter (fun e => decide (t < e.buf.s_stop)) = sub :: rest := by
          rw [List.filter_eq_self]
          intro e he
          simpa using (hall e he).2
        have e2 : (sub :: rest).filter
            (fun e => decide (e.buf.s_start ≤ t ∧ t < e.buf.s_stop)) = [] := by
          rw [List.filter_eq_nil_iff]
          intro e he
          have := (hall e he).1
          simp only [decide_eq_true_eq, not_and]
          omega
        rw [e1, e2]
        rfl

theorem trace_foldl (l : List Subtitle) (tr : List Buffer) :
    l.foldl (fun (b : List Buffer) e => (e.buf :: e.next).foldl (fun tr s => tr ++ [s]) b) tr =
      tr ++ l.flatMap (fun e => e.buf :: e.next) := by
  have h : ∀ (c : List Buffer) (tr : List Buffer),
      c.foldl (fun tr s => tr ++ [s]) tr = tr ++ c := by
    intro c
    induction c with
    | nil => intro tr; simp
    | cons a c ih => intro tr; simp [List.foldl_cons, ih]
  induction l generalizing tr with
  | nil => simp
  | cons e l ih =>
    rw [List.foldl_cons, ih, h]
    simp [List.flatMap_cons]


/-- C10. VOBSUB policy. For an active list sorted by start time in which every entry has a
finite stop greater than its start, `ApplyVOBSubs` on a frame at time `t` leaves in the list
exactly the entries with `t < stop` (those with `stop <= t` are removed), in their original
order, and composites onto the frame exactly the entries with `start <= t < stop`, in list
order (each with the buffers chained to it).  Hence two entries whose lifetimes both contain
`t` are both composited, and after a frame with `t >= ` every stop the list is empty.  For
the list `[A(0, 90000), B(45000, 135000)]` and `t = 100000`, A is removed and B composited. -/
theorem ApplyVOBSubs_policy {φ : Type} (render : φ → Buffer → φ) (t : Int)
    (l : List Subtitle) (buf : φ)
    (hsorted : l.Pairwise (fun a b => a.buf.s_start ≤ b.buf.s_start))
    (hfin : ∀ e ∈ l, e.buf.s_stop ≠ AV_NOPTS_VALUE ∧ e.buf.s_start < e.buf.s_stop) :
    (ApplyVOBSubs render t l buf).1 = l.filter (fun e => decide (t < e.buf.s_stop)) ∧
    (ApplyVOBSubs render t l buf).2 =
      (l.filter (fun e => decide (e.buf.s_start ≤ t ∧ t < e.buf.s_stop))).foldl
        (fun b e => (e.buf :: e.next).foldl render b) buf ∧
    (ApplyVOBSubs (fun (tr : List Buffer) s => tr ++ [s]) t l []).2 =
      (l.filter (fun e => decide (e.buf.s_start ≤ t ∧ t < e.buf.s_stop))).flatMap
        (fun e => e.buf :: e.next) ∧
    (∀ a ∈ l, ∀ b ∈ l, a.buf.s_start ≤ t → t < a.buf.s_stop →
      b.buf.s_start ≤ t → t < b.buf.s_stop →
      a.buf ∈ (ApplyVOBSubs (fun (tr : List Buffer) s => tr ++ [s]) t l []).2 ∧
      b.buf ∈ (ApplyVOBSubs (fun (tr : List Buffer) s => tr ++ [s]) t l []).2) ∧
    ((∀ e ∈ l, e.buf.s_stop ≤ t) → (ApplyVOBSubs render t l buf).1 = []) ∧
    ApplyVOBSubs render 100000 [subAt 0 90000, subAt 45000 135000] buf =
      ([subAt 45000 135000], render buf (subAt 45000 135000).buf) := by
  have htr : (ApplyVOBSubs (fun (tr : List Buffer) s => tr ++ [s]) t l []).2 =
      (l.filter (fun e => decide (e.buf.s_start ≤ t ∧ t < e.buf.s_stop))).flatMap
        (fun e => e.buf :: e.next) := by
    rw [ApplyVOBSubs_finite _ t l [] hsorted hfin]
    simp only [trace_foldl, List.nil_append]
  have hmem : ∀ a ∈ l, a.buf.s_start ≤ t → t < a.buf.s_stop →
      a.buf ∈ (ApplyVOBSubs (fun (tr : List Buffer) s => tr ++ [s]) t l []).2 := by
    intro a ha h1 h2
    rw [htr, List.mem_flatMap]
    exact ⟨a, List.mem_filter.mpr ⟨ha, by simp [h1, h2]⟩, List.mem_cons_self _ _⟩
  refine ⟨?_, ?_, htr, ?_, ?_, ?_⟩
  · rw [ApplyVOBSubs_finite render t l buf hsorted hfin]
  · rw [ApplyVOBSubs_finite render t l buf hsorted hfin]
  · intro a ha b hb h1 h2 h3 h4
    exact ⟨hmem a ha h1 h2, hmem b hb h3 h4⟩
  · intro hall
    rw [ApplyVOBSubs_finite render t l buf hsorted hfin]
    simp only [List.filter_eq_nil_iff, decide_eq_true_eq]
    intro e he
    have := hall e he
    omega
  · rfl

theorem ApplyVOBSubs_policy_witness :
    (ApplyVOBSubs (fun (tr : List Buffer) s => tr ++ [s]) 50000
        [subAt 0 90000, subAt 45000 135000] []).2 =
      [(subAt 0 90000).buf, (subAt 45000 135000).buf] ∧
    (ApplyVOBSubs (fun (tr : List Buffer) s => tr ++ [s]) 135000
        [subAt 0 90000, subAt 45000 135000] []).1 = [] := by
  have hs : [subAt 0 90000, subAt 45000 135000].Pairwise
      (fun a b => a.buf.s_start ≤ b.buf.s_start) := by
    simp [subAt]
  have hf : ∀ e ∈ [subAt 0 90000, subAt 45000 135000],
      e.buf.s_stop ≠ AV_NOPTS_VALUE ∧ e.buf.s_start < e.buf.s_stop := by
    intro e he
    simp only [List.mem_cons, List.mem_singleton, List.not_mem_nil, or_false] at he
    rcases he with he | he <;> subst he <;> simp [subAt, AV_NOPTS_VALUE]
  constructor
  · have h := (ApplyVOBSubs_policy (fun (tr : List Buffer) s => tr ++ [s]) 50000
      [subAt 0 90000, subAt 45000 135000] [] hs hf).2.2.1
    rw [h]
    simp [subAt]
  · exact (ApplyVOBSubs_policy (fun (tr : List Buffer) s => tr ++ [s]) 135000
      [subAt 0 90000, subAt 45000 135000] [] hs hf).2.2.2.2.1
      (by
        intro e he
        simp only [List.mem_cons, List.mem_singleton, List.not_mem_nil, or_false] at he
        rcases he with he | he <;> subst he <;> simp [subAt])

/-! ## The PGS/DVB and VOBSUB policies on the active list -/

theorem removeOlder_eq_drop : ∀ (i : Nat) (l : List Subtitle), i ≤ l.length →
    removeOlder i l = l.drop i := by
  intro i
  induction i with
  | zero => intro l _; rfl
  | succ i ih =>
    intro l hl
    simp only [removeOlder]
    rw [ih _ (by rw [List.length_eraseIdx]; split_ifs <;> omega)]
    rw [List.eraseIdx_eq_take_drop_succ]
    rw [List.drop_append_of_le_length (by rw [List.length_take]; omega)]
    rw [List.drop_take]
    simp

/-- The first loop of `ApplyPGSSubs` keeps the list from the last started entry on. -/
theorem supersede_spec (t : Int) (pre : List Subtitle) (e : Subtitle) (post : List Subtitle)
    (he : pre ≠ [] → e.buf.s_start ≤ t) (hpost : ∀ x ∈ post, t < x.buf.s_start) :
    ∀ k : Nat, pre.length ≤ k → k ≤ (pre ++ e :: post).length - 1 →
      supersede t k (pre ++ e :: post) = e :: post := by
  intro k
  induction k with
  | zero =>
    intro h1 _
    have : pre = [] := List.length_eq_zero.mp (by omega)
    subst this
    rfl
  | succ k ih =>
    intro h1 h2
    simp only [List.length_append, List.length_cons] at h2
    by_cases hk : pre.length = k + 1
    · have hget : (pre ++ e :: post)[k + 1]? = some e := by
        rw [← hk, List.getElem?_append_right (le_refl _)]
        simp
      simp only [supersede, hget]
      have hne : pre ≠ [] := by
        intro h; rw [h] at hk; simp at hk
      rw [if_pos (he hne), removeOlder_eq_drop _ _ (by simp; omega), ← hk]
      simp
    · have hlt : pre.length ≤ k := by omega
      have hget : ∃ x ∈ post, (pre ++ e :: post)[k + 1]? = some x := by
        rw [List.getElem?_append_right (by omega)]
        obtain ⟨m, hm⟩ : ∃ m, k + 1 - pre.length = m + 1 := ⟨k - pre.length, by omega⟩
        rw [hm, List.getElem?_cons_succ]
        have hm2 : m < post.length := by omega
        exact ⟨post[m], List.getElem_mem hm2, List.getElem?_eq_getElem hm2⟩
      obtain ⟨x, hx, hgetx⟩ := hget
      simp only [supersede, hgetx]
      have hfut := hpost x hx
      rw [if_neg (by omega)]
      exact ih hlt (by simp only [List.length_append, List.length_cons]; omega)

theorem dropClear_suffix : ∀ l : List Subtitle, dropClear l <:+ l := by
  intro l
  induction l with
  | nil => exact List.suffix_refl _
  | cons a l ih =>
    unfold dropClear
    split_ifs
    · exact List.suffix_refl _
    · exact ih.trans (List.suffix_cons a l)

theorem ApplyPGSSubs_decomp {φ : Type} (render : φ → Buffer → φ) (t : Int)
    (pre : List Subtitle) (e : Subtitle) (post : List Subtitle) (buf : φ)
    (he : pre ≠ [] → e.buf.s_start ≤ t) (hpost : ∀ x ∈ post, t < x.buf.s_start) :
    ApplyPGSSubs render t (pre ++ e :: post) buf =
      (dropClear (e :: post),
       if (e.buf.f_width ≠ 0 ∧ e.buf.f_height ≠ 0) ∧ e.buf.s_start ≤ t then render buf e.buf
       else buf) := by
  unfold ApplyPGSSubs
  simp only []
  rw [supersede_spec t pre e post he hpost _ (by simp) (le_refl _)]
  by_cases hz : e.buf.f_width ≠ 0 ∧ e.buf.f_height ≠ 0
  · have hd : dropClear (e :: post) = e :: post := by
      simp only [dropClear]; rw [if_pos hz]
    rw [hd]
    by_cases hs : e.buf.s_start ≤ t
    · simp only []
      rw [if_pos hs, if_pos ⟨hz, hs⟩]
    · simp only []
      rw [if_neg hs, if_neg (fun h => hs h.2)]
  · have hd : dropClear (e :: post) = dropClear post := by
      simp only [dropClear]; rw [if_neg hz]
    rw [hd, if_neg (fun h => hz h.1)]
    cases hdp : dropClear post with
    | nil => rfl
    | cons x r =>
      have hx : x ∈ post := by
        have := dropClear_suffix post
        rw [hdp] at this
        exact this.subset (List.mem_cons_self _ _)
      have := hpost x hx
      simp only []
      rw [if_neg (by omega)]

theorem last_started (t : Int) : ∀ l : List Subtitle, (∃ x ∈ l, x.buf.s_start ≤ t) →
    ∃ pre e post, l = pre ++ e :: post ∧ e.buf.s_start ≤ t ∧
      ∀ x ∈ post, t < x.buf.s_start := by
  intro l
  induction l with
  | nil => rintro ⟨x, hx, _⟩; cases hx
  | cons a l ih =>
    intro h
    by_cases hl : ∃ x ∈ l, x.buf.s_start ≤ t
    · obtain ⟨pre, e, post, h1, h2, h3⟩ := ih hl
      exact ⟨a :: pre, e, post, by rw [h1]; rfl, h2, h3⟩
    · obtain ⟨x, hx, hxs⟩ := h
      rcases List.mem_cons.mp hx with hx | hx
      · subst hx
        refine ⟨[], x, l, rfl, hxs, ?_⟩
        intro y hy
        by_contra hc
        exact hl ⟨y, hy, by omega⟩
      · exact absurd ⟨x, hx, hxs⟩ hl

/-- C11. PGS/DVB policy, last wins. For an active list sorted by start time and a frame at
time `t`: if some entry has `start <= t`, the list splits as `pre ++ e :: post` where `e` is
the newest started entry (every entry of `pre` is older, every entry of `post` starts after
`t`); after `ApplyPGSSubs` every entry of `pre` is gone (the list left is `e :: post` without
its leading entries of zero size), and the frame is composited with `e` exactly when `e` has
non-zero width and height, and is untouched otherwise.  If no entry has `start <= t`, nothing
is composited.  In every case at most one overlay is composited. -/
theorem ApplyPGSSubs_last_wins {φ : Type} (render : φ → Buffer → φ) (t : Int)
    (l : List Subtitle) (buf : φ)
    (hsorted : l.Pairwise (fun a b => a.buf.s_start ≤ b.buf.s_start)) :
    ((∃ x ∈ l, x.buf.s_start ≤ t) →
      ∃ pre e post, l = pre ++ e :: post ∧ e.buf.s_start ≤ t ∧
        (∀ x ∈ pre, x.buf.s_start ≤ e.buf.s_start) ∧
        (∀ x ∈ post, t < x.buf.s_start) ∧
        (ApplyPGSSubs render t l buf).1 = dropClear (e :: post) ∧
        (ApplyPGSSubs render t l buf).1 <:+ e :: post ∧
        (ApplyPGSSubs render t l buf).2 =
          if e.buf.f_width ≠ 0 ∧ e.buf.f_height ≠ 0 then render buf e.buf else buf) ∧
    ((∀ x ∈ l, t < x.buf.s_start) → (ApplyPGSSubs render t l buf).2 = buf) ∧
    (ApplyPGSSubs (fun (tr : List Buffer) s => tr ++ [s]) t l []).2.length ≤ 1 := by
  refine ⟨?_, ?_, ?_⟩
  · intro h
    obtain ⟨pre, e, post, h1, h2, h3⟩ := last_started t l h
    refine ⟨pre, e, post, h1, h2, ?_, h3, ?_, ?_, ?_⟩
    · intro x hx
      rw [h1] at hsorted
      exact (List.pairwise_append.mp hsorted).2.2 x hx e (List.mem_cons_self _ _)
    · rw [h1, ApplyPGSSubs_decomp render t pre e post buf (fun _ => h2) h3]
    · rw [h1, ApplyPGSSubs_decomp render t pre e post buf (fun _ => h2) h3]
      exact dropClear_suffix _
    · rw [h1, ApplyPGSSubs_decomp render t pre e post buf (fun _ => h2) h3]
      simp only [h2, and_true]
  · intro h
    cases l with
    | nil => rfl
    | cons a l =>
      have := ApplyPGSSubs_decomp render t [] a l buf (fun hne => absurd rfl hne)
        (fun x hx => h x (List.mem_cons_of_mem _ hx))
      simp only [List.nil_append] at this
      rw [this]
      have ha := h a (List.mem_cons_self _ _)
      simp only []
      rw [if_neg (fun hc => by omega)]
  · unfold ApplyPGSSubs
    simp only []
    split
    · simp
    · split_ifs <;> simp

theorem ApplyVOBSubs_live {φ : Type} (render : φ → Buffer → φ) (t : Int) :
    ∀ (l : List Subtitle) (buf : φ),
      l.Pairwise (fun a b => a.buf.s_start ≤ b.buf.s_start) →
      (∀ e ∈ l, e.buf.s_stop ≠ AV_NOPTS_VALUE → e.buf.s_start < e.buf.s_stop) →
      (∀ e ∈ (ApplyVOBSubs render t l buf).1,
        ¬ (e.buf.s_stop ≠ AV_NOPTS_VALUE ∧ e.buf.s_stop ≤ t)) ∧
      ∃ shown : List Subtitle, shown.Sublist l ∧
        (∀ e ∈ shown, ¬ (e.buf.s_stop ≠ AV_NOPTS_VALUE ∧ e.buf.s_stop ≤ t)) ∧
        (ApplyVOBSubs render t l buf).2 =
          shown.foldl (fun b e => (e.buf :: e.next).foldl render b) buf := by
  intro l
  induction l with
  | nil =>
    intro buf _ _
    refine ⟨?_, [], List.Sublist.refl _, ?_, rfl⟩
    · intro e he; cases he
    · intro e he; cases he
  | cons sub rest ih =>
    intro buf hsorted hstop
    have hrest : ∀ e ∈ rest, e.buf.s_stop ≠ AV_NOPTS_VALUE → e.buf.s_start < e.buf.s_stop :=
      fun e he => hstop e (List.mem_cons_of_mem _ he)
    have hsr := List.pairwise_cons.mp hsorted
    unfold ApplyVOBSubs
    by_cases hc : (sub.buf.s_stop ≠ AV_NOPTS_VALUE ∧ sub.buf.s_stop ≤ t) ∨
        (sub.buf.s_stop = AV_NOPTS_VALUE ∧ nextStarted t rest = true)
    · rw [if_pos hc]
      obtain ⟨h1, shown, h2, h3, h4⟩ := ih buf hsr.2 hrest
      exact ⟨h1, shown, List.Sublist.cons _ h2, h3, h4⟩
    · rw [if_neg hc]
      have hlive : ¬ (sub.buf.s_stop ≠ AV_NOPTS_VALUE ∧ sub.buf.s_stop ≤ t) :=
        fun h => hc (Or.inl h)
      by_cases h2 : sub.buf.s_start ≤ t
      · rw [if_pos h2]
        obtain ⟨h1, shown, h3, h4, h5⟩ :=
          ih ((sub.buf :: sub.next).foldl render buf) hsr.2 hrest
        refine ⟨?_, sub :: shown, List.Sublist.cons₂ _ h3, ?_, ?_⟩
        · intro e he
          rcases List.mem_cons.mp he with he | he
          · subst he; exact hlive
          · exact h1 e he
        · intro e he
          rcases List.mem_cons.mp he with he | he
          · subst he; exact hlive
          · exact h4 e he
        · simp only [List.foldl_cons] at h5 ⊢
          exact h5
      · rw [if_neg h2]
        refine ⟨?_, [], List.nil_sublist _, ?_, rfl⟩
        · intro e he hexp
          have hst := hstop e he hexp.1
          rcases List.mem_cons.mp he with he | he
          · subst he; omega
          · have := hsr.1 e he
            omega
        · intro e he; cases he

/-- C12 (as stated). With the active list holding A (start 10), B (start 20) and C (start 30),
all of size 1x1, `ApplyPGSSubs` on a frame at `t = 25` leaves two entries in the list, B and
C: the list is not `[B]`. -/
theorem ApplyPGSSubs_keeps_future :
    (ApplyPGSSubs (fun (tr : List Buffer) s => tr ++ [s]) 25
        [pgsAt 10 AV_NOPTS_VALUE 1 1, pgsAt 20 AV_NOPTS_VALUE 1 1,
          pgsAt 30 AV_NOPTS_VALUE 1 1] []).1 =
      [pgsAt 20 AV_NOPTS_VALUE 1 1, pgsAt 30 AV_NOPTS_VALUE 1 1] ∧
    (ApplyPGSSubs (fun (tr : List Buffer) s => tr ++ [s]) 25
        [pgsAt 10 AV_NOPTS_VALUE 1 1, pgsAt 20 AV_NOPTS_VALUE 1 1,
          pgsAt 30 AV_NOPTS_VALUE 1 1] []).1 ≠ [pgsAt 20 AV_NOPTS_VALUE 1 1] := by
  have h : (ApplyPGSSubs (fun (tr : List Buffer) s => tr ++ [s]) 25
        [pgsAt 10 AV_NOPTS_VALUE 1 1, pgsAt 20 AV_NOPTS_VALUE 1 1,
          pgsAt 30 AV_NOPTS_VALUE 1 1] []).1 =
      [pgsAt 20 AV_NOPTS_VALUE 1 1, pgsAt 30 AV_NOPTS_VALUE 1 1] := rfl
  refine ⟨h, ?_⟩
  rw [h]
  intro hc
  have := congrArg List.length hc
  simp at this

/-- C12 (amended). With the active list holding A, B (start 20) and C (start 30) in that
order, A being the oldest entry (start 10 in the scenario) and B of non-zero size,
`ApplyPGSSubs` on a frame at `t = 25` removes A, leaves B and C in the active list, and
composites B only. -/
theorem ApplyPGSSubs_supersession {φ : Type} (render : φ → Buffer → φ) (A B C : Subtitle)
    (buf : φ) (hB : B.buf.s_start = 20) (hC : C.buf.s_start = 30)
    (hw : B.buf.f_width ≠ 0) (hh : B.buf.f_height ≠ 0) :
    ApplyPGSSubs render 25 [A, B, C] buf = ([B, C], render buf B.buf) ∧
    (ApplyPGSSubs (fun (tr : List Buffer) s => tr ++ [s]) 25 [A, B, C] []).2 = [B.buf] := by
  have key : ∀ {ψ : Type} (r : ψ → Buffer → ψ) (b : ψ),
      ApplyPGSSubs r 25 [A, B, C] b = ([B, C], r b B.buf) := by
    intro ψ r b
    have h := ApplyPGSSubs_decomp r 25 [A] B [C] b (fun _ => by omega)
      (fun x hx => by
        rw [List.mem_singleton] at hx
        subst hx; omega)
    simp only [List.singleton_append] at h
    rw [h, if_pos ⟨⟨hw, hh⟩, by omega⟩]
    simp only [dropClear]
    rw [if_pos ⟨hw, hh⟩]
  refine ⟨key render buf, ?_⟩
  rw [key]
  rfl

theorem ApplyPGSSubs_supersession_witness :
    ApplyPGSSubs (fun (tr : List Buffer) s => tr ++ [s]) 25
        [pgsAt 10 AV_NOPTS_VALUE 1 1, pgsAt 20 AV_NOPTS_VALUE 1 1,
          pgsAt 30 AV_NOPTS_VALUE 1 1] [] =
      ([pgsAt 20 AV_NOPTS_VALUE 1 1, pgsAt 30 AV_NOPTS_VALUE 1 1],
        [(pgsAt 20 AV_NOPTS_VALUE 1 1).buf]) :=
  (ApplyPGSSubs_supersession (fun (tr : List Buffer) s => tr ++ [s])
    (pgsAt 10 AV_NOPTS_VALUE 1 1) (pgsAt 20 AV_NOPTS_VALUE 1 1) (pgsAt 30 AV_NOPTS_VALUE 1 1)
    [] rfl rfl (by decide) (by decide)).1

/-- C13 (as stated). Under the PGS/DVB policy an entry A with start 0 and known stop 10
(`start < stop`), alone in the active list, is composited onto a frame at `t = 100` and
remains in the list afterwards although `stop <= t`. -/
theorem ApplyPGSSubs_keeps_expired :
    (pgsAt 0 10 1 1).buf.s_stop ≠ AV_NOPTS_VALUE ∧ (pgsAt 0 10 1 1).buf.s_stop ≤ 100 ∧
    (pgsAt 0 10 1 1).buf.s_start < (pgsAt 0 10 1 1).buf.s_stop ∧
    ApplyPGSSubs (fun (tr : List Buffer) s => tr ++ [s]) 100 [pgsAt 0 10 1 1] [] =
      ([pgsAt 0 10 1 1], [(pgsAt 0 10 1 1).buf]) :=
  ⟨by decide, by decide, by decide, rfl⟩

/-- C13 (amended). Under the VOBSUB policy, for an active list sorted by start time in which
every entry with a known stop has `start < stop`, `ApplyVOBSubs` on a frame at time `t`
leaves no entry with a known `stop <= t` in the list and composites no such entry (the frame
is the fold of the render step over a sublist of entries none of which has expired).  Under
the PGS/DVB policy the stop time is not consulted: the newest started entry `e`, if of
non-zero size, is composited and stays at the head of the list whatever its stop time. -/
theorem bitmap_expiry {φ : Type} (render : φ → Buffer → φ) (t : Int) (l : List Subtitle)
    (buf : φ) (hsorted : l.Pairwise (fun a b => a.buf.s_start ≤ b.buf.s_start))
    (hstop : ∀ e ∈ l, e.buf.s_stop ≠ AV_NOPTS_VALUE → e.buf.s_start < e.buf.s_stop) :
    (∀ e ∈ (ApplyVOBSubs render t l buf).1,
      ¬ (e.buf.s_stop ≠ AV_NOPTS_VALUE ∧ e.buf.s_stop ≤ t)) ∧
    (∃ shown : List Subtitle, shown.Sublist l ∧
      (∀ e ∈ shown, ¬ (e.buf.s_stop ≠ AV_NOPTS_VALUE ∧ e.buf.s_stop ≤ t)) ∧
      (ApplyVOBSubs render t l buf).2 =
        shown.foldl (fun b e => (e.buf :: e.next).foldl render b) buf) ∧
    (∀ pre e post, l = pre ++ e :: post → e.buf.s_start ≤ t →
      (∀ x ∈ post, t < x.buf.s_start) → e.buf.f_width ≠ 0 → e.buf.f_height ≠ 0 →
      ApplyPGSSubs render t l buf = (e :: post, render buf e.buf)) := by
  obtain ⟨h1, h2⟩ := ApplyVOBSubs_live render t l buf hsorted hstop
  refine ⟨h1, h2, ?_⟩
  intro pre e post hl he hpost hw hh
  rw [hl, ApplyPGSSubs_decomp render t pre e post buf (fun _ => he) hpost,
    if_pos ⟨⟨hw, hh⟩, he⟩]
  simp only [dropClear]
  rw [if_pos ⟨hw, hh⟩]

theorem bitmap_expiry_witness :
    (∀ e ∈ (ApplyVOBSubs (fun (tr : List Buffer) s => tr ++ [s]) 100000
        [subAt 0 90000, subAt 45000 135000] []).1,
      ¬ (e.buf.s_stop ≠ AV_NOPTS_VALUE ∧ e.buf.s_stop ≤ 100000)) ∧
    ApplyPGSSubs (fun (tr : List Buffer) s => tr ++ [s]) 100 ([] ++ pgsAt 0 10 1 1 :: []) [] =
      ([pgsAt 0 10 1 1], [] ++ [(pgsAt 0 10 1 1).buf]) := by
  have hs : [subAt 0 90000, subAt 45000 135000].Pairwise
      (fun a b => a.buf.s_start ≤ b.buf.s_start) := by
    simp [subAt]
  have hf : ∀ e ∈ [subAt 0 90000, subAt 45000 135000],
      e.buf.s_stop ≠ AV_NOPTS_VALUE → e.buf.s_start < e.buf.s_stop := by
    intro e he _
    simp only [List.mem_cons, List.mem_singleton, List.not_mem_nil, or_false] at he
    rcases he with he | he <;> subst he <;> simp [subAt]
  refine ⟨(bitmap_expiry (fun (tr : List Buffer) s => tr ++ [s]) 100000
      [subAt 0 90000, subAt 45000 135000] [] hs hf).1, ?_⟩
  exact (bitmap_expiry (fun (tr : List Buffer) s => tr ++ [s]) 100
    ([] ++ pgsAt 0 10 1 1 :: []) [] (by simp) (by
      intro e he _
      simp only [List.nil_append, List.mem_singleton] at he
      subst he; decide)).2.2 [] (pgsAt 0 10 1 1) [] rfl (by decide)
    (fun x hx => by cases hx) (by decide) (by decide)

theorem ApplyPGSSubs_last_wins_witness :
    (ApplyPGSSubs (fun (tr : List Buffer) s => tr ++ [s]) 25
        [pgsAt 10 AV_NOPTS_VALUE 1 1, pgsAt 20 AV_NOPTS_VALUE 1 1,
          pgsAt 30 AV_NOPTS_VALUE 1 1] []).2.length ≤ 1 :=
  (ApplyPGSSubs_last_wins (fun (tr : List Buffer) s => tr ++ [s]) 25
    [pgsAt 10 AV_NOPTS_VALUE 1 1, pgsAt 20 AV_NOPTS_VALUE 1 1, pgsAt 30 AV_NOPTS_VALUE 1 1]
    [] (by simp [pgsAt])).2.2

/-! ## The text track -/

theorem render_ssa_subs_text (env : Externals) (pv : hb_filter_private_t) (start : Int) :
    (render_ssa_subs env pv start).2.ssaTrack = pv.ssaTrack ∧
    (render_ssa_subs env pv start).2.current_sub = pv.current_sub := by
  unfold render_ssa_subs
  simp only []
  split
  · exact ⟨rfl, rfl⟩
  · split_ifs <;> exact ⟨rfl, rfl⟩

theorem tdiv_ne_nopts (s : Int) (h : AV_NOPTS_VALUE < s) : Int.tdiv s 90 ≠ AV_NOPTS_VALUE := by
  unfold AV_NOPTS_VALUE at *
  rcases le_or_lt 0 s with h0 | h0
  · have := Int.tdiv_nonneg h0 (by norm_num : (0 : Int) ≤ 90)
    omega
  · obtain ⟨m, hm⟩ : ∃ m : Int, s = -m := ⟨-s, by omega⟩
    subst hm
    rw [Int.neg_tdiv, Int.tdiv_eq_ediv (by omega) (by norm_num)]
    omega

/-- C14 (as stated). E1 (start 1000 ms, stop unknown) is ingested with a frame at 4999 ms, and
E2 (start 5000 ms, EOS) with the next frame: E1 is submitted with stop 5000 twice, once by the
tick of the first frame and once when E2 closes it. -/
theorem textsub_double_submission :
    ∃ pv1 pv2 out1 out2,
      textsub_work envOk pvText [textEv 90000 AV_NOPTS_VALUE 0 [65]] (frame720 449910) =
        Run.done (HB_FILTER_OK, pv1, [], out1) ∧
      textsub_work envOk pv1 [textEv 450000 AV_NOPTS_VALUE HB_BUF_FLAG_EOS []]
          (frame720 453600) =
        Run.done (HB_FILTER_OK, pv2, [], out2) ∧
      pv2.ssaTrack = [⟨[65], 1000, 4000⟩, ⟨[65], 1000, 4000⟩] ∧ pv2.current_sub = none :=
  ⟨_, _, _, _, rfl, rfl, rfl, rfl⟩

/-- C14 (amended). When an event E2 that is not the EOF marker, with start time `S`, is read
from the queue while `current_sub` holds a pending event `c`, that ingestion submits `c`
exactly once, as the chunk from `c.start` to `S / 90`, and `current_sub` no longer holds `c`:
it is empty if E2 carries EOS (E2 is then discarded, nothing is submitted for it) or has a
known stop (a 64-bit value other than `AV_NOPTS_VALUE`; E2 is then submitted with its own
times), and holds E2 if E2 is open-ended.
An open-ended event read while nothing is pending is stored in `current_sub` with
`stop = start` and nothing is submitted; a per-frame tick keeps the data of the pending event and
keeps it pending.  For E1 (1000 ms, unknown stop) and E2 (5000 ms, EOS) read in the same
call, the only chunk submitted is E1 with start 1000 and duration 4000. -/
theorem textsub_closure (pv : hb_filter_private_t) (c : Buffer) (E2 : Subtitle)
    (fifo : List Subtitle) (hc : pv.current_sub = some c)
    (hE : E2.buf.s_flags &&& HB_BUF_FLAG_EOF = 0) :
    (E2.buf.s_flags &&& HB_BUF_FLAG_EOS ≠ 0 →
      textsub_ingest (E2 :: fifo) pv = textsub_ingest fifo
        { pv with
          ssaTrack := pv.ssaTrack ++
            [⟨c.data, c.s_start, Int.tdiv E2.buf.s_start 90 - c.s_start⟩]
          current_sub := none }) ∧
    (E2.buf.s_flags &&& HB_BUF_FLAG_EOS = 0 → E2.buf.s_stop = AV_NOPTS_VALUE →
      textsub_ingest (E2 :: fifo) pv = textsub_ingest fifo
        { pv with
          ssaTrack := pv.ssaTrack ++
            [⟨c.data, c.s_start, Int.tdiv E2.buf.s_start 90 - c.s_start⟩]
          current_sub := some { E2.buf with
            s_start := Int.tdiv E2.buf.s_start 90, s_stop := Int.tdiv E2.buf.s_start 90 } }) ∧
    (E2.buf.s_flags &&& HB_BUF_FLAG_EOS = 0 → AV_NOPTS_VALUE < E2.buf.s_stop →
      textsub_ingest (E2 :: fifo) pv = textsub_ingest fifo
        { pv with
          ssaTrack := pv.ssaTrack ++
            [⟨c.data, c.s_start, Int.tdiv E2.buf.s_start 90 - c.s_start⟩,
             ⟨E2.buf.data, Int.tdiv E2.buf.s_start 90,
               Int.tdiv E2.buf.s_stop 90 - Int.tdiv E2.buf.s_start 90⟩]
          current_sub := none }) ∧
    (∀ (pv0 : hb_filter_private_t) (E1 : Subtitle), pv0.current_sub = none →
      E1.buf.s_flags &&& HB_BUF_FLAG_EOF = 0 → E1.buf.s_flags &&& HB_BUF_FLAG_EOS = 0 →
      E1.buf.s_stop = AV_NOPTS_VALUE →
      textsub_ingest (E1 :: fifo) pv0 = textsub_ingest fifo
        { pv0 with current_sub := some { E1.buf with
            s_start := Int.tdiv E1.buf.s_start 90, s_stop := Int.tdiv E1.buf.s_start 90 } }) ∧
    (∀ f : Int, ∃ c2, (textsub_tick pv f).current_sub = some c2 ∧ c2.data = c.data) ∧
    textsub_ingest [textEv 90000 AV_NOPTS_VALUE 0 [65],
        textEv 450000 AV_NOPTS_VALUE HB_BUF_FLAG_EOS [66]] pvText =
      ([], { pvText with ssaTrack := [⟨[65], 1000, 4000⟩], current_sub := none }) := by
  refine ⟨?_, ?_, ?_, ?_, ?_, rfl⟩
  · intro hS
    simp only [textsub_ingest]
    rw [if_neg (by simpa using hE)]
    simp only [hc, process_sub]
    rw [if_pos hS]
  · intro hS hN
    simp only [textsub_ingest]
    rw [if_neg (by simpa using hE)]
    simp only [hc, process_sub]
    rw [if_neg (by simpa using hS)]
    simp only [hN, ne_eq, not_true_eq_false, if_false, if_true]
  · intro hS hR
    have hN : E2.buf.s_stop ≠ AV_NOPTS_VALUE := ne_of_gt hR
    simp only [textsub_ingest]
    rw [if_neg (by simpa using hE)]
    simp only [hc, process_sub]
    rw [if_neg (by simpa using hS)]
    simp only [hN, ne_eq, not_false_eq_true, if_false, if_true, List.append_assoc,
      List.singleton_append]
    rw [if_neg (tdiv_ne_nopts _ hR)]
  · intro pv0 E1 h0 hE1 hS hN
    simp only [textsub_ingest]
    rw [if_neg (by simpa using hE1)]
    simp only [h0]
    rw [if_neg (by simpa using hS)]
    simp only [hN, ne_eq, not_true_eq_false, if_false, if_true]
  · intro f
    simp only [textsub_tick, hc]
    split_ifs
    · exact ⟨_, rfl, rfl⟩
    · exact ⟨c, hc, rfl⟩

theorem textsub_closure_witness :
    textsub_ingest [textEv 450000 AV_NOPTS_VALUE HB_BUF_FLAG_EOS [66]]
        { pvText with current_sub := some (textEv 1000 1000 0 [65]).buf } =
      textsub_ingest []
        { pvText with
          ssaTrack := [] ++ [⟨[65], 1000, 4000⟩]
          current_sub := none } :=
  (textsub_closure { pvText with current_sub := some (textEv 1000 1000 0 [65]).buf }
    (textEv 1000 1000 0 [65]).buf (textEv 450000 AV_NOPTS_VALUE HB_BUF_FLAG_EOS [66]) []
    rfl (by decide)).1 (by decide)

/-- C15. The EOF flush of `textsub_work`: when the EOF marker is read from the queue while
`current_sub` holds a pending event `c` (times already in milliseconds), the chunk given to
the renderer has the start of `c` and a duration of `90000 * 10 = 900000` ms (900 seconds), not
10000 ms; `current_sub` is then empty and the rest of the queue is left unread.  For
E1 (start 1000 ms, stop unknown) followed by the EOF marker, the chunk is (1000, 900000). -/
theorem textsub_eof_flush_duration (pv : hb_filter_private_t) (c : Buffer) (b : Buffer)
    (n : List Buffer) (fifo : List Subtitle) :
    textsub_ingest ({ buf := { b with s_flags := HB_BUF_FLAG_EOF }, next := n } :: fifo)
        { pv with current_sub := some c } =
      (fifo, { pv with
        ssaTrack := pv.ssaTrack ++ [⟨c.data, c.s_start, 900000⟩], current_sub := none }) ∧
    (900000 : Int) ≠ 10000 ∧
    textsub_ingest [textEv 90000 AV_NOPTS_VALUE 0 [65], textEv 0 0 HB_BUF_FLAG_EOF [],
        textEv 180000 270000 0 [66]] pvText =
      ([textEv 180000 270000 0 [66]],
       { pvText with ssaTrack := [⟨[65], 1000, 900000⟩], current_sub := none }) := by
  refine ⟨?_, by decide, rfl⟩
  simp only [textsub_ingest]
  rw [if_pos (by decide)]
  simp only [process_sub]
  have : c.s_start + 90000 * 10 - c.s_start = 900000 := by omega
  rw [this]

theorem toInt_id (i : Int) (h0 : -2147483648 ≤ i) (h1 : i < 2147483648) : toInt i = i := by
  unfold toInt toSigned toUnsigned
  split_ifs <;> omega

/-- C16, as stated, fails for a frame time beyond the `int` range.  A frame at
`90 * 2^31` ticks has `start / 90 = 2^31` ms; an event pending since 1000 ms has
`current_sub.start <= 2^31`, so the claim has one chunk submitted for it.  The function keeps
the frame time in the `int` of line 1204, where it is `-2^31`: the test of line 1267 fails,
no chunk is submitted and `current_sub` is left as it was. -/
theorem textsub_tick_skips_frame_beyond_int :
    Int.tdiv (frame720 (90 * 2147483648)).s_start 90 = 2147483648 ∧
    (textEv 1000 1000 0 [65]).buf.s_start ≤ Int.tdiv (frame720 (90 * 2147483648)).s_start 90 ∧
    toInt 2147483648 = -2147483648 ∧
    (∃ pv2 out,
      textsub_work envOk { pvText with current_sub := some (textEv 1000 1000 0 [65]).buf } []
          (frame720 (90 * 2147483648)) = Run.done (HB_FILTER_OK, pv2, [], out) ∧
      pv2.ssaTrack = [] ∧ pv2.current_sub = some (textEv 1000 1000 0 [65]).buf) :=
  ⟨by decide, by decide, by decide, ⟨_, _, rfl, rfl, rfl⟩⟩

/-- C16. The per-frame tick of `textsub_work` for a frame at `f` milliseconds, `f` being the
`int` in which the function keeps `start / 90`: if `current_sub` holds `c` and `c.start <= f`,
exactly one chunk is submitted, with start `c.stop` (the previous stop) and duration
`f + 1 - c.stop`, and `current_sub` becomes `c` with `start = c.stop` and `stop = f + 1`, still
pending (for `f` in the `int` range and below `2^31 - 1`, so that `f + 1` is an `int`); if
`c.start > f` or there is no `current_sub`, the state is unchanged and nothing is submitted.
The state `textsub_work` returns for a frame without the EOF flag has the track and
`current_sub` of this tick, applied to the state after ingestion with `f = start / 90`
converted to `int`, which is `start / 90` itself whenever that lies in `-2^31 .. 2^31 - 1`. -/
theorem textsub_tick_slice (pv : hb_filter_private_t) (f : Int) :
    (∀ c, pv.current_sub = some c → c.s_start ≤ f → -2147483648 ≤ f → f < 2147483647 →
      textsub_tick pv f =
        { pv with
          ssaTrack := pv.ssaTrack ++ [⟨c.data, c.s_stop, f + 1 - c.s_stop⟩]
          current_sub := some { c with s_start := c.s_stop, s_stop := f + 1 } }) ∧
    (∀ c, pv.current_sub = some c → f < c.s_start → textsub_tick pv f = pv) ∧
    (pv.current_sub = none → textsub_tick pv f = pv) ∧
    (∀ (env : Externals) (fifo : List Subtitle) (inb : Buffer) st pv2 fifo2 out,
      inb.s_flags &&& HB_BUF_FLAG_EOF = 0 →
      textsub_work env pv fifo inb = Run.done (st, pv2, fifo2, out) →
      pv2.ssaTrack = (textsub_tick (textsub_ingest fifo
          { pv with script_initialized := true }).2
            (toInt (Int.tdiv inb.s_start 90))).ssaTrack ∧
      pv2.current_sub = (textsub_tick (textsub_ingest fifo
          { pv with script_initialized := true }).2
            (toInt (Int.tdiv inb.s_start 90))).current_sub ∧
      (-2147483648 ≤ Int.tdiv inb.s_start 90 → Int.tdiv inb.s_start 90 < 2147483648 →
        toInt (Int.tdiv inb.s_start 90) = Int.tdiv inb.s_start 90)) := by
  refine ⟨?_, ?_, ?_, ?_⟩
  · intro c hc hle h0 h1
    simp only [textsub_tick, hc]
    rw [if_pos hle, toInt_id (f + 1) (by omega) (by omega)]
    rfl
  · intro c hc hlt
    simp only [textsub_tick, hc]
    rw [if_neg (by omega)]
  · intro hc
    simp only [textsub_tick, hc]
  · intro env fifo inb st pv2 fifo2 out hE h
    unfold textsub_work at h
    simp only [] at h
    rw [if_neg (by simpa using hE)] at h
    split at h
    · cases h
    · injection h with h
      injection h with _ h
      injection h with h _
      subst h
      exact ⟨(render_ssa_subs_text env _ _).1, (render_ssa_subs_text env _ _).2,
        toInt_id _⟩

theorem textsub_tick_slice_witness :
    textsub_tick { pvText with current_sub := some (textEv 1000 1000 0 [65]).buf } 1040 =
      { pvText with
        ssaTrack := [] ++ [⟨[65], 1000, 1040 + 1 - 1000⟩]
        current_sub := some { (textEv 1000 1000 0 [65]).buf with
          s_start := 1000, s_stop := 1040 + 1 } } :=
  (textsub_tick_slice { pvText with current_sub := some (textEv 1000 1000 0 [65]).buf }
    1040).1 (textEv 1000 1000 0 [65]).buf rfl (by decide) (by decide) (by decide)

/-! ## The entry point and placement -/

theorem rescale_dup (env : Externals) (sub buf : Buffer)
    (h : ¬ (sub.f_window_width > 0 ∧ sub.f_window_height > 0)) :
    rescaleSubtitle env sub buf =
      match env.hb_buffer_dup sub with
      | none => Run.nullDeref
      | some scaled => Run.done (some scaled) := by
  have hf : scaleFactors sub buf = (1, 1) := by
    unfold scaleFactors
    rw [if_neg h]
  unfold rescaleSubtitle
  simp only [hf]
  rw [if_neg (by simp [ABS])]

theorem rescale_alloc_fails (env : Externals) (sub buf : Buffer)
    (hw : sub.f_window_width = 1920) (hh : sub.f_window_height = 1080)
    (bw : buf.f_width = 1280) (bh : buf.f_height = 720)
    (ha : ∀ f w h, env.hb_frame_buffer_init f w h = none) :
    rescaleSubtitle env sub buf = Run.done none := by
  have hf : scaleFactors sub buf = (2 / 3, 2 / 3) := by
    unfold scaleFactors
    rw [hw, hh, bw, bh]
    norm_num
  unfold rescaleSubtitle
  simp only [hf]
  rw [if_pos (by norm_num [ABS])]
  simp only [ha]


theorem renderSub_done (env : Externals) (pv : hb_filter_private_t)
    (hdup : ∀ b, env.hb_buffer_dup b ≠ none)
    (halloc : ∀ f w h, env.hb_frame_buffer_init f w h ≠ none) (r : Run Buffer) (sub : Buffer)
    (hr : ∃ b, r = Run.done b) : ∃ b, renderSub env pv r sub = Run.done b := by
  obtain ⟨b, rfl⟩ := hr
  unfold renderSub ScaleSubtitle rescaleSubtitle
  simp only []
  split_ifs
  · cases ha : env.hb_frame_buffer_init AVPixelFormat.AV_PIX_FMT_YUVA420P
        (truncToInt (↑sub.f_width * (scaleFactors sub b).1))
        (truncToInt (↑sub.f_height * (scaleFactors sub b).2)) with
    | none => exact absurd ha (halloc _ _ _)
    | some scaled => exact ⟨_, rfl⟩
  · cases hd : env.hb_buffer_dup sub with
    | none => exact absurd hd (hdup _)
    | some scaled => exact ⟨_, rfl⟩

theorem foldl_inv {φ : Type} (render : φ → Buffer → φ) (P : φ → Prop)
    (hr : ∀ b s, P b → P (render b s)) : ∀ (c : List Buffer) (buf : φ), P buf →
      P (c.foldl render buf) := by
  intro c
  induction c with
  | nil => intro buf h; exact h
  | cons a c ih => intro buf h; exact ih _ (hr _ _ h)

theorem ApplyVOBSubs_inv {φ : Type} (render : φ → Buffer → φ) (P : φ → Prop)
    (hr : ∀ b s, P b → P (render b s)) (t : Int) : ∀ (l : List Subtitle) (buf : φ), P buf →
      P (ApplyVOBSubs render t l buf).2 := by
  intro l
  induction l with
  | nil => intro buf h; exact h
  | cons sub rest ih =>
    intro buf h
    unfold ApplyVOBSubs
    split_ifs
    · exact ih buf h
    · exact ih _ (foldl_inv render P hr _ _ h)
    · exact h

theorem ApplyPGSSubs_inv {φ : Type} (render : φ → Buffer → φ) (P : φ → Prop)
    (hr : ∀ b s, P b → P (render b s)) (t : Int) (l : List Subtitle) (buf : φ) (h : P buf) :
    P (ApplyPGSSubs render t l buf).2 := by
  unfold ApplyPGSSubs
  simp only []
  split
  · exact h
  · split_ifs
    · exact hr _ _ h
    · exact h

theorem applyRendered_some (env : Externals) (pv : hb_filter_private_t) (inb : Buffer)
    (rs : Option Buffer) :
    ((∀ b, env.hb_buffer_dup b ≠ none) → ∃ out, applyRendered env pv inb rs = Run.done (some out)) ∧
    (∀ o, applyRendered env pv inb rs = Run.done o → ∃ out, o = some out) := by
  unfold applyRendered
  cases rs with
  | none => exact ⟨fun _ => ⟨inb, rfl⟩, fun o h => ⟨inb, by injection h with h; exact h.symm⟩⟩
  | some sub =>
    simp only []
    constructor
    · intro hdup
      split_ifs
      · cases hd : env.hb_buffer_dup inb with
        | none => exact absurd hd (hdup _)
        | some d => exact ⟨_, rfl⟩
      · exact ⟨_, rfl⟩
    · intro o h
      split at h
      · cases h
      · injection h with h
        exact ⟨_, h.symm⟩

theorem status_ne : HB_FILTER_OK ≠ HB_FILTER_DONE := by decide

theorem contract_eof (env : Externals) (pv pv2 : hb_filter_private_t) (fifo : List Subtitle)
    (inb : Buffer) (hE : inb.s_flags &&& HB_BUF_FLAG_EOF ≠ 0)
    (h1 : pv2.sub_list = pv.sub_list) (h2 : pv2.current_sub = pv.current_sub)
    (h3 : pv2.ssaTrack = pv.ssaTrack) :
    WorkContract env pv fifo inb (Run.done (HB_FILTER_DONE, pv2, fifo, some inb)) := by
  refine ⟨fun _ => ⟨pv2, rfl, h1, h2, h3⟩, fun h => absurd h hE, ?_⟩
  intro st p f o h
  injection h with h
  injection h with h _
  subst h
  exact ⟨Or.inr rfl, ⟨fun _ => hE, fun _ => rfl⟩⟩

theorem contract_ok (env : Externals) (pv : hb_filter_private_t) (fifo : List Subtitle)
    (inb : Buffer) (w : WorkResult) (hE : inb.s_flags &&& HB_BUF_FLAG_EOF = 0)
    (h2 : (∀ b, env.hb_buffer_dup b ≠ none) → (∀ f w h, env.hb_frame_buffer_init f w h ≠ none) →
      ∃ pv2 fifo2 out, w = Run.done (HB_FILTER_OK, pv2, fifo2, some out))
    (h3 : ∀ st pv2 fifo2 out, w = Run.done (st, pv2, fifo2, out) → st = HB_FILTER_OK) :
    WorkContract env pv fifo inb w := by
  refine ⟨fun h => absurd hE h, fun _ => h2, ?_⟩
  intro st p f o h
  have := h3 st p f o h
  subst this
  exact ⟨Or.inl rfl, ⟨fun h => absurd h status_ne, fun h => absurd hE h⟩⟩

theorem bitmap_tail (env : Externals) (pv pv2 : hb_filter_private_t) (fifo fifo2 : List Subtitle)
    (inb : Buffer) (r2 : Run Buffer) (hE : inb.s_flags &&& HB_BUF_FLAG_EOF = 0) :
    ((∀ b, env.hb_buffer_dup b ≠ none) →
      (∀ f w h, env.hb_frame_buffer_init f w h ≠ none) → ∃ b, r2 = Run.done b) →
    WorkContract env pv fifo inb
      (match r2 with
       | Run.nullDeref => Run.nullDeref
       | Run.done out => Run.done (HB_FILTER_OK, pv2, fifo2, some out)) := by
  intro hd
  apply contract_ok env pv fifo inb _ hE
  · intro a b
    obtain ⟨o, rfl⟩ := hd a b
    exact ⟨_, _, _, rfl⟩
  · intro st p f o h
    cases r2 with
    | nullDeref => cases h
    | done out =>
      injection h with h
      injection h with h _
      exact h.symm

theorem vobsub_work_contract (env : Externals) (pv : hb_filter_private_t)
    (fifo : List Subtitle) (inb : Buffer) :
    WorkContract env pv fifo inb (vobsub_work env pv fifo inb) := by
  unfold vobsub_work
  by_cases hE : inb.s_flags &&& HB_BUF_FLAG_EOF = 0
  · rw [if_neg (by simpa using hE)]
    exact bitmap_tail env pv _ fifo _ inb _ hE (fun a b =>
      ApplyVOBSubs_inv (renderSub env pv) (fun r => ∃ b, r = Run.done b)
        (fun r s h => renderSub_done env pv a b r s h) _ _ _ ⟨inb, rfl⟩)
  · rw [if_pos hE]
    exact contract_eof env pv pv fifo inb hE rfl rfl rfl

theorem pgssub_work_contract (env : Externals) (pv : hb_filter_private_t)
    (fifo : List Subtitle) (inb : Buffer) :
    WorkContract env pv fifo inb (pgssub_work env pv fifo inb) := by
  unfold pgssub_work
  by_cases hE : inb.s_flags &&& HB_BUF_FLAG_EOF = 0
  · rw [if_neg (by simpa using hE)]
    exact bitmap_tail env pv _ fifo _ inb _ hE (fun a b =>
      ApplyPGSSubs_inv (renderSub env pv) (fun r => ∃ b, r = Run.done b)
        (fun r s h => renderSub_done env pv a b r s h) _ _ _ ⟨inb, rfl⟩)
  · rw [if_pos hE]
    exact contract_eof env pv pv fifo inb hE rfl rfl rfl

theorem text_tail (env : Externals) (pv pv2 pv3 : hb_filter_private_t)
    (fifo fifo2 : List Subtitle) (inb : Buffer) (rs : Option Buffer)
    (hE : inb.s_flags &&& HB_BUF_FLAG_EOF = 0) :
    WorkContract env pv fifo inb
      (match applyRendered env pv3 inb rs with
       | Run.nullDeref => Run.nullDeref
       | Run.done out => Run.done (HB_FILTER_OK, pv2, fifo2, out)) := by
  apply contract_ok env pv fifo inb _ hE
  · intro a _
    obtain ⟨o, ho⟩ := (applyRendered_some env pv3 inb rs).1 a
    rw [ho]
    exact ⟨_, _, _, rfl⟩
  · intro st p f o h
    cases hr : applyRendered env pv3 inb rs with
    | nullDeref => rw [hr] at h; cases h
    | done out =>
      rw [hr] at h
      injection h with h
      injection h with h _
      exact h.symm

theorem ssa_work_contract (env : Externals) (pv : hb_filter_private_t)
    (fifo : List Subtitle) (inb : Buffer) :
    WorkContract env pv fifo inb (ssa_work env pv fifo inb) := by
  unfold ssa_work
  simp only []
  by_cases hE : inb.s_flags &&& HB_BUF_FLAG_EOF = 0
  · rw [if_neg (by simpa using hE)]
    exact text_tail env pv _ _ fifo _ inb _ hE
  · rw [if_pos hE]
    exact contract_eof env pv _ fifo inb hE rfl rfl rfl

theorem textsub_work_contract (env : Externals) (pv : hb_filter_private_t)
    (fifo : List Subtitle) (inb : Buffer) :
    WorkContract env pv fifo inb (textsub_work env pv fifo inb) := by
  unfold textsub_work
  simp only []
  by_cases hE : inb.s_flags &&& HB_BUF_FLAG_EOF = 0
  · rw [if_neg (by simpa using hE)]
    exact text_tail env pv _ _ fifo _ inb _ hE
  · rw [if_pos hE]
    exact contract_eof env pv _ fifo inb hE rfl rfl rfl

/-- C17 (as stated). With a subtitle type that the filter does not handle,
`hb_rendersub_work` returns 1, which is neither `HB_FILTER_OK` nor `HB_FILTER_DONE`, also for
a frame that carries the EOF flag, and the frame is not forwarded. -/
theorem hb_rendersub_work_unsupported :
    hb_rendersub_work envOk { pv420 with type := subsource.other 99 } []
        { frame720 0 with s_flags := HB_BUF_FLAG_EOF } =
      Run.done (1, { pv420 with type := subsource.other 99 }, [], none) ∧
    (1 : Int) ≠ HB_FILTER_OK ∧ (1 : Int) ≠ HB_FILTER_DONE :=
  ⟨rfl, by decide, by decide⟩

/-- C17 (amended). For every filter state whose subtitle type is one of the nine the filter
handles, every queue and every input frame: if the frame carries the EOF flag,
`hb_rendersub_work` returns `HB_FILTER_DONE`, forwards the frame as the output unchanged,
takes nothing from the queue and leaves the active list, the text track and `current_sub`
unchanged; if it does not, `hb_rendersub_work` returns `HB_FILTER_OK` with an output frame
provided `hb_buffer_dup` and `hb_frame_buffer_init` do not fail; and whenever it returns, the
status is `HB_FILTER_OK` or `HB_FILTER_DONE`, and `HB_FILTER_DONE` exactly when the frame
carries the EOF flag. -/
theorem hb_rendersub_work_status (env : Externals) (pv : hb_filter_private_t)
    (fifo : List Subtitle) (inb : Buffer) (htype : ∀ n, pv.type ≠ subsource.other n) :
    (inb.s_flags &&& HB_BUF_FLAG_EOF ≠ 0 →
      ∃ pv2, hb_rendersub_work env pv fifo inb =
          Run.done (HB_FILTER_DONE, pv2, fifo, some inb) ∧
        pv2.sub_list = pv.sub_list ∧ pv2.current_sub = pv.current_sub ∧
        pv2.ssaTrack = pv.ssaTrack) ∧
    (inb.s_flags &&& HB_BUF_FLAG_EOF = 0 →
      (∀ b, env.hb_buffer_dup b ≠ none) → (∀ f w h, env.hb_frame_buffer_init f w h ≠ none) →
      ∃ pv2 fifo2 out, hb_rendersub_work env pv fifo inb =
        Run.done (HB_FILTER_OK, pv2, fifo2, some out)) ∧
    (∀ st pv2 fifo2 out, hb_rendersub_work env pv fifo inb = Run.done (st, pv2, fifo2, out) →
      (st = HB_FILTER_OK ∨ st = HB_FILTER_DONE) ∧
      (st = HB_FILTER_DONE ↔ inb.s_flags &&& HB_BUF_FLAG_EOF ≠ 0)) := by
  have key : WorkContract env pv fifo inb (hb_rendersub_work env pv fifo inb) := by
    unfold hb_rendersub_work
    cases hty : pv.type with
    | VOBSUB => exact vobsub_work_contract env pv fifo inb
    | SSASUB => exact ssa_work_contract env pv fifo inb
    | IMPORTSRT => exact textsub_work_contract env pv fifo inb
    | IMPORTSSA => exact textsub_work_contract env pv fifo inb
    | UTF8SUB => exact textsub_work_contract env pv fifo inb
    | TX3GSUB => exact textsub_work_contract env pv fifo inb
    | CC608SUB => exact textsub_work_contract env pv fifo inb
    | DVBSUB => exact pgssub_work_contract env pv fifo inb
    | PGSSUB => exact pgssub_work_contract env pv fifo inb
    | other n => exact absurd hty (htype n)
  exact key

theorem hb_rendersub_work_status_witness :
    (∃ pv2, hb_rendersub_work envOk pvText [textEv 90000 AV_NOPTS_VALUE 0 [65]]
          { frame720 0 with s_flags := HB_BUF_FLAG_EOF } =
        Run.done (HB_FILTER_DONE, pv2, [textEv 90000 AV_NOPTS_VALUE 0 [65]],
          some { frame720 0 with s_flags := HB_BUF_FLAG_EOF }) ∧
      pv2.sub_list = pvText.sub_list ∧ pv2.current_sub = pvText.current_sub ∧
      pv2.ssaTrack = pvText.ssaTrack) ∧
    (∃ pv2 fifo2 out, hb_rendersub_work envOk { pv420 with sub_list := [winSub] } []
        (frame720 0) = Run.done (HB_FILTER_OK, pv2, fifo2, some out)) :=
  ⟨(hb_rendersub_work_status envOk pvText [textEv 90000 AV_NOPTS_VALUE 0 [65]]
      { frame720 0 with s_flags := HB_BUF_FLAG_EOF }
      (fun n h => by simp [pvText] at h)).1 (by decide),
   (hb_rendersub_work_status envOk { pv420 with sub_list := [winSub] } [] (frame720 0)
      (fun n h => by simp [pv420] at h)).2.1 (by decide) (fun b => by simp [envOk])
      (fun f w h => by simp [envOk])⟩

/-- C18. When `ScaleSubtitle` cannot allocate the scaled buffer it returns `NULL`, and the
bitmap tracks pass that result to `ApplySub`, which dereferences it: the composite is not
skipped.  For a 1280x720 frame and an active overlay authored for a 1920x1080 window, with a
failing allocator, `ScaleSubtitle` returns `NULL` and `vobsub_work` and `pgssub_work` end in a
`NULL` dereference instead of returning. -/
theorem bitmap_alloc_failure_not_skipped :
    (∀ (pv : hb_filter_private_t) (buf : Buffer), ApplySub pv (some buf) none = Run.nullDeref) ∧
    ScaleSubtitle envNoMem pv420 winSub.buf (frame720 0) = Run.done none ∧
    vobsub_work envNoMem { pv420 with sub_list := [winSub] } [] (frame720 0) =
      Run.nullDeref ∧
    pgssub_work envNoMem { pv420 with type := subsource.PGSSUB, sub_list := [winSub] } []
      (frame720 0) = Run.nullDeref := by
  have hs : ∀ pv, ScaleSubtitle envNoMem pv winSub.buf (frame720 0) = Run.done none := by
    intro pv
    unfold ScaleSubtitle
    rw [rescale_alloc_fails envNoMem winSub.buf (frame720 0) rfl rfl rfl rfl (fun _ _ _ => rfl)]
  have hr : ∀ pv, renderSub envNoMem pv (Run.done (frame720 0)) winSub.buf = Run.nullDeref := by
    intro pv
    unfold renderSub
    simp only [hs]
    rfl
  refine ⟨fun _ _ => rfl, hs pv420, ?_, ?_⟩
  · have h : (ApplyVOBSubs (renderSub envNoMem { pv420 with sub_list := [winSub] }) 0 [winSub]
        (Run.done (frame720 0))).2 = Run.nullDeref := by
      unfold ApplyVOBSubs
      rw [if_neg (by decide), if_pos (by decide)]
      exact hr _
    unfold vobsub_work
    rw [if_neg (by decide)]
    show (match (ApplyVOBSubs (renderSub envNoMem { pv420 with sub_list := [winSub] }) 0 [winSub]
        (Run.done (frame720 0))).2 with
      | Run.nullDeref => Run.nullDeref
      | Run.done out => _) = _
    rw [h]
  · have h : (ApplyPGSSubs (renderSub envNoMem
          { pv420 with type := subsource.PGSSUB, sub_list := [winSub] }) 0 [winSub]
        (Run.done (frame720 0))).2 = Run.nullDeref := by
      have e : ApplyPGSSubs (renderSub envNoMem
            { pv420 with type := subsource.PGSSUB, sub_list := [winSub] }) 0 [winSub]
          (Run.done (frame720 0)) =
          ([winSub], renderSub envNoMem
            { pv420 with type := subsource.PGSSUB, sub_list := [winSub] }
            (Run.done (frame720 0)) winSub.buf) := rfl
      rw [e]
      exact hr _
    unfold pgssub_work
    rw [if_neg (by decide)]
    show (match (ApplyPGSSubs (renderSub envNoMem
          { pv420 with type := subsource.PGSSUB, sub_list := [winSub] }) 0 [winSub]
        (Run.done (frame720 0))).2 with
      | Run.nullDeref => Run.nullDeref
      | Run.done out => _) = _
    rw [h]

theorem marginTop_eq (pv : hb_filter_private_t) (buf : Buffer) :
    marginTop pv buf = min 20 (Int.tdiv (2 * (buf.f_height - pv.crop 0 - pv.crop 1)) 100) := by
  unfold marginTop
  simp only []
  rw [mul_comm]
  split_ifs with h
  · exact (min_eq_left (le_of_lt h)).symm
  · exact (min_eq_right (not_lt.mp h)).symm

/-- C19. Placement monotonicity. With `margin = min(20, (2 * (video_h - crop_top -
crop_bottom)) / 100)`, when the rescaled (or duplicated) overlay has height `h` and position
`y` with `crop_top + margin <= y` and `y + h <= video_h - crop_bottom - margin`,
`ScaleSubtitle` returns a buffer whose `y` is `y`. -/
theorem ScaleSubtitle_keeps_y (env : Externals) (pv : hb_filter_private_t) (sub buf : Buffer)
    (scaled : Buffer) (hs : rescaleSubtitle env sub buf = Run.done (some scaled))
    (h1 : pv.crop 0 + min 20 (Int.tdiv (2 * (buf.f_height - pv.crop 0 - pv.crop 1)) 100)
      ≤ scaled.f_y)
    (h2 : scaled.f_y + scaled.f_height ≤ buf.f_height - pv.crop 1 -
      min 20 (Int.tdiv (2 * (buf.f_height - pv.crop 0 - pv.crop 1)) 100)) :
    ∃ out, ScaleSubtitle env pv sub buf = Run.done (some out) ∧ out.f_y = scaled.f_y ∧
      out.f_height = scaled.f_height := by
  rw [← marginTop_eq] at h1 h2
  unfold ScaleSubtitle
  rw [hs]
  refine ⟨_, rfl, ?_, rfl⟩
  show placeTop pv scaled buf = scaled.f_y
  unfold placeTop
  simp only []
  rw [if_neg (by omega), if_neg (by omega), if_neg (by omega)]

theorem ScaleSubtitle_keeps_y_witness :
    ∃ out, ScaleSubtitle envOk pv420 (overlayAt 100 40 600 300) (frame720 0) =
        Run.done (some out) ∧ out.f_y = (overlayAt 100 40 600 300).f_y ∧
      out.f_height = (overlayAt 100 40 600 300).f_height :=
  ScaleSubtitle_keeps_y envOk pv420 (overlayAt 100 40 600 300) (frame720 0)
    (overlayAt 100 40 600 300)
    (by rw [rescale_dup _ _ _ (by decide)]; rfl) (by decide) (by decide)

/-- C20. Vertical centering. With `margin = min(20, (2 * (video_h - crop_top - crop_bottom))
/ 100)`, when the rescaled (or duplicated) overlay has a height `h` greater than
`video_h - crop_top - crop_bottom - 2 * margin`, `ScaleSubtitle` returns a buffer whose `y` is
`crop_top + (video_h - crop_top - crop_bottom - h) / 2` (C division), whatever the
own `y` of the overlay.  For video height 500, `crop_top = crop_bottom = 50` and `h = 450`, the margin is 8
and the returned `y` is 25. -/
theorem ScaleSubtitle_centers (env : Externals) (pv : hb_filter_private_t) (sub buf : Buffer)
    (scaled : Buffer) (hs : rescaleSubtitle env sub buf = Run.done (some scaled))
    (h : scaled.f_height > buf.f_height - pv.crop 0 - pv.crop 1 -
      2 * min 20 (Int.tdiv (2 * (buf.f_height - pv.crop 0 - pv.crop 1)) 100)) :
    (∃ out, ScaleSubtitle env pv sub buf = Run.done (some out) ∧
      out.f_y = pv.crop 0 +
        Int.tdiv (buf.f_height - pv.crop 0 - pv.crop 1 - scaled.f_height) 2) ∧
    (buf.f_height = 500 → pv.crop 0 = 50 → pv.crop 1 = 50 → scaled.f_height = 450 →
      marginTop pv buf = 8 ∧
      ∃ out, ScaleSubtitle env pv sub buf = Run.done (some out) ∧ out.f_y = 25) := by
  rw [← marginTop_eq] at h
  have hy : placeTop pv scaled buf = pv.crop 0 +
      Int.tdiv (buf.f_height - pv.crop 0 - pv.crop 1 - scaled.f_height) 2 := by
    unfold placeTop
    simp only []
    rw [if_pos (by omega)]
  have hS : ScaleSubtitle env pv sub buf = Run.done (some
      { scaled with f_x := placeLeft pv scaled buf, f_y := placeTop pv scaled buf }) := by
    unfold ScaleSubtitle
    rw [hs]
  refine ⟨⟨_, hS, hy⟩, ?_⟩
  intro hH h0 h1 hh
  refine ⟨?_, _, hS, ?_⟩
  · unfold marginTop
    rw [hH, h0, h1]
    decide
  · show placeTop pv scaled buf = 25
    rw [hy, hH, h0, h1, hh]
    decide

theorem ScaleSubtitle_centers_witness :
    ∃ out, ScaleSubtitle envOk pvCrop50 (overlayAt 200 450 400 30)
        (constBuffer 1000 500 500 250 16 128 128 0) = Run.done (some out) ∧ out.f_y = 25 :=
  (ScaleSubtitle_centers envOk pvCrop50 (overlayAt 200 450 400 30)
    (constBuffer 1000 500 500 250 16 128 128 0) (overlayAt 200 450 400 30)
    (by rw [rescale_dup _ _ _ (by decide)]; rfl) (by decide)).2 rfl rfl rfl rfl |>.2

/-! ## Placement of the rescaled overlay -/

/-- C21. Safe-region clamp. With `margin = min(20, (2 * (video_h - crop_top - crop_bottom)) /
100)` and `w`, `h` the size of the rescaled (or duplicated) overlay, the buffer returned by
`ScaleSubtitle` has that size and, whatever the position of the overlay: if
`h <= video_h - crop_top - crop_bottom - 2 * margin` then
`crop_top + margin <= y <= video_h - crop_bottom - margin - h` for the returned `y`, and if
`w <= video_w - crop_left - crop_right - 40` then
`crop_left + 20 <= x <= video_w - crop_right - 20 - w` for the returned `x`. -/
theorem ScaleSubtitle_safe_region (env : Externals) (pv : hb_filter_private_t)
    (sub buf : Buffer) (scaled : Buffer)
    (hs : rescaleSubtitle env sub buf = Run.done (some scaled)) :
    ∃ out, ScaleSubtitle env pv sub buf = Run.done (some out) ∧
      out.f_width = scaled.f_width ∧ out.f_height = scaled.f_height ∧
      (scaled.f_height ≤ buf.f_height - pv.crop 0 - pv.crop 1 -
          2 * min 20 (Int.tdiv (2 * (buf.f_height - pv.crop 0 - pv.crop 1)) 100) →
        pv.crop 0 + min 20 (Int.tdiv (2 * (buf.f_height - pv.crop 0 - pv.crop 1)) 100)
            ≤ out.f_y ∧
          out.f_y ≤ buf.f_height - pv.crop 1 -
            min 20 (Int.tdiv (2 * (buf.f_height - pv.crop 0 - pv.crop 1)) 100) -
            scaled.f_height) ∧
      (scaled.f_width ≤ buf.f_width - pv.crop 2 - pv.crop 3 - 40 →
        pv.crop 2 + 20 ≤ out.f_x ∧
          out.f_x ≤ buf.f_width - pv.crop 3 - 20 - scaled.f_width) := by
  rw [← marginTop_eq]
  unfold ScaleSubtitle
  rw [hs]
  refine ⟨_, rfl, rfl, rfl, ?_, ?_⟩
  · intro h
    show pv.crop 0 + marginTop pv buf ≤ placeTop pv scaled buf ∧
      placeTop pv scaled buf ≤ buf.f_height - pv.crop 1 - marginTop pv buf - scaled.f_height
    unfold placeTop
    simp only []
    rw [if_neg (by omega)]
    split_ifs <;> omega
  · intro h
    show pv.crop 2 + 20 ≤ placeLeft pv scaled buf ∧
      placeLeft pv scaled buf ≤ buf.f_width - pv.crop 3 - 20 - scaled.f_width
    unfold placeLeft
    rw [if_neg (by omega)]
    split_ifs <;> omega

theorem ScaleSubtitle_safe_region_witness :
    ∃ out, ScaleSubtitle envOk pv420 (overlayAt 100 40 5 700) (frame720 0) =
        Run.done (some out) ∧ (14 ≤ out.f_y ∧ out.f_y ≤ 666) ∧ (20 ≤ out.f_x ∧ out.f_x ≤ 1160) := by
  obtain ⟨out, h1, _, _, h4, h5⟩ := ScaleSubtitle_safe_region envOk pv420
    (overlayAt 100 40 5 700) (frame720 0) (overlayAt 100 40 5 700)
    (by rw [rescale_dup _ _ _ (by decide)]; rfl)
  have h4b : (0 : Int) + 14 ≤ out.f_y ∧ out.f_y ≤ 720 - 0 - 14 - 40 := h4 (by decide)
  have h5b : (0 : Int) + 20 ≤ out.f_x ∧ out.f_x ≤ 1280 - 0 - 20 - 100 := h5 (by decide)
  exact ⟨out, h1, ⟨by omega, by omega⟩, ⟨by omega, by omega⟩⟩

theorem scaleFactors_same_window (sub buf : Buffer)
    (hw : sub.f_window_width = buf.f_width) (hh : sub.f_window_height = buf.f_height) :
    scaleFactors sub buf = (1, 1) := by
  unfold scaleFactors
  split_ifs with h
  · have h1 : (buf.f_width : ℚ) / (sub.f_window_width : ℚ) = 1 := by
      rw [hw]; exact div_self (by exact_mod_cast (by omega : buf.f_width ≠ 0))
    have h2 : (buf.f_height : ℚ) / (sub.f_window_height : ℚ) = 1 := by
      rw [hh]; exact div_self (by exact_mod_cast (by omega : buf.f_height ≠ 0))
    simp only [h1, h2]
    simp
  · rfl

/-- C22. Pass-through. If the reference window of the subtitle equals the video dimensions
(`window_width` is the frame width and `window_height` the frame height), `ScaleSubtitle` does
not rescale: it duplicates the subtitle buffer and, when `hb_buffer_dup` returns a copy, the
returned buffer has the width, the height and the planes of the input; only `x` and `y` are
set by the placement. -/
theorem ScaleSubtitle_pass_through (env : Externals) (pv : hb_filter_private_t)
    (sub buf : Buffer) (hw : sub.f_window_width = buf.f_width)
    (hh : sub.f_window_height = buf.f_height) (hd : env.hb_buffer_dup sub = some sub) :
    rescaleSubtitle env sub buf = Run.done (some sub) ∧
    ScaleSubtitle env pv sub buf =
      Run.done (some { sub with f_x := placeLeft pv sub buf, f_y := placeTop pv sub buf }) ∧
    ∃ out, ScaleSubtitle env pv sub buf = Run.done (some out) ∧
      out.f_width = sub.f_width ∧ out.f_height = sub.f_height ∧ out.plane = sub.plane := by
  have h1 : rescaleSubtitle env sub buf = Run.done (some sub) := by
    unfold rescaleSubtitle
    simp only [scaleFactors_same_window sub buf hw hh]
    rw [if_neg (by simp [ABS])]
    rw [hd]
  have h2 : ScaleSubtitle env pv sub buf =
      Run.done (some { sub with f_x := placeLeft pv sub buf, f_y := placeTop pv sub buf }) := by
    unfold ScaleSubtitle
    rw [h1]
  exact ⟨h1, h2, _, h2, rfl, rfl, rfl⟩

theorem ScaleSubtitle_pass_through_witness :
    ∃ out, ScaleSubtitle envOk pv420
        { overlayAt 100 40 600 300 with f_window_width := 1280, f_window_height := 720 }
        (frame720 0) = Run.done (some out) ∧
      out.f_width = 100 ∧ out.f_height = 40 :=
  let ⟨out, h, hw, hh, _⟩ := (ScaleSubtitle_pass_through envOk pv420
    { overlayAt 100 40 600 300 with f_window_width := 1280, f_window_height := 720 }
    (frame720 0) rfl rfl rfl).2.2
  ⟨out, h, hw, hh⟩

/-! ## Initialisation -/

/-- The result of `hb_rendersub_init` when `calloc` succeeds and the coefficient loop stays
inside `baseCoefficients`. -/
theorem hb_rendersub_init_result (desc : AVPixFmtDescriptor) (planes_count : Int)
    (init : hb_filter_init_t) (list_subtitle : List (Option hb_subtitle_t))
    (t : Nat → Nat → Nat)
    (ht : initChromaCoeffs
        (chromaOffsets init.chroma_location desc.log2_chroma_w desc.log2_chroma_h).1
        (chromaOffsets init.chroma_location desc.log2_chroma_w desc.log2_chroma_h).2 = some t) :
    ∃ st pv, hb_rendersub_init true desc planes_count init list_subtitle = some (st, some pv) ∧
      (st = 0 ∨ st = 1) ∧ pv.chromaCoeffs = t ∧ pv.wshift = desc.log2_chroma_w ∧
      pv.hshift = desc.log2_chroma_h ∧ pv.pix_fmt_alpha = pixFmtAlpha init.pix_fmt ∧
      pv.depth = desc.depth ∧ pv.blend = selectBlend desc.depth planes_count := by
  unfold hb_rendersub_init
  simp only [ht, Bool.true_eq_false, if_false]
  split
  · exact ⟨_, _, rfl, Or.inl rfl, rfl, rfl, rfl, rfl, rfl, rfl⟩
  · exact ⟨_, _, rfl, Or.inr rfl, rfl, rfl, rfl, rfl, rfl, rfl⟩

theorem initChromaCoeffs_even : initChromaCoeffs 2 2 =
    some (fun axis x => if axis = 0 then [18, 18, 6, 2].getD x 0
      else if axis = 1 then [18, 18, 6, 2].getD x 0 else 0) := rfl

/-- C25 (as stated). For CENTER siting and 4:2:0, the first coefficient computed by
`hb_rendersub_init` is `(baseCoefficients[2] + baseCoefficients[3]) >> 1 = (9 + 27) / 2 = 18`,
not 6: the arrays are `(18, 18, 6, 2)`, not `(6, 18, 6, 2)`. -/
theorem chroma_kernel_center_first_tap :
    chromaOffsets AVChromaLocation.AVCHROMA_LOC_CENTER 1 1 = (2, 2) ∧
    chromaCoeff 2 0 = some 18 ∧
    (initChromaCoeffs 2 2).map (fun t => coeffRow t 0) = some [18, 18, 6, 2] ∧
    (initChromaCoeffs 2 2).map (fun t => coeffRow t 0) ≠ some [6, 18, 6, 2] := by
  refine ⟨rfl, rfl, rfl, ?_⟩
  decide

/-- C25 (amended). Chroma kernel for CENTER siting with 4:2:0 (`wshift = hshift = 1`):
`hb_rendersub_init` computes `wX = wY = 2` and `chromaCoeffs[0] = ((base[2]+base[3])/2,
(base[3]+base[4])/2, (base[4]+base[5])/2, (base[5]+base[6])/2) = (18, 18, 6, 2)` with
`base = [1, 3, 9, 27, 9, 3, 1]`, and `chromaCoeffs[1]` is the same, whatever the depth, the
pixel format and the subtitle list. -/
theorem chroma_kernel_center_420 (depth planes_count : Int) (pix_fmt : AVPixelFormat)
    (list_subtitle : List (Option hb_subtitle_t)) :
    chromaOffsets AVChromaLocation.AVCHROMA_LOC_CENTER 1 1 = (2, 2) ∧
    [(baseCoefficients.getD 2 0 + baseCoefficients.getD 3 0) / 2,
     (baseCoefficients.getD 3 0 + baseCoefficients.getD 4 0) / 2,
     (baseCoefficients.getD 4 0 + baseCoefficients.getD 5 0) / 2,
     (baseCoefficients.getD 5 0 + baseCoefficients.getD 6 0) / 2] = [18, 18, 6, 2] ∧
    ∃ st pv, hb_rendersub_init true ⟨depth, 1, 1⟩ planes_count
        ⟨pix_fmt, AVChromaLocation.AVCHROMA_LOC_CENTER⟩ list_subtitle = some (st, some pv) ∧
      coeffRow pv.chromaCoeffs 0 = [18, 18, 6, 2] ∧
      coeffRow pv.chromaCoeffs 1 = [18, 18, 6, 2] := by
  refine ⟨rfl, by decide, ?_⟩
  obtain ⟨st, pv, h, _, ht, _⟩ := hb_rendersub_init_result ⟨depth, 1, 1⟩ planes_count
    ⟨pix_fmt, AVChromaLocation.AVCHROMA_LOC_CENTER⟩ list_subtitle _ initChromaCoeffs_even
  refine ⟨st, pv, h, ?_, ?_⟩ <;> rw [ht] <;> rfl

/-- C26 (as stated). For CENTER siting and 4:2:0 the coefficient array computed by
`hb_rendersub_init` is `(18, 18, 6, 2)`: its entry 0 differs from its entry 3 and its entry 1
from its entry 2, so it is not palindromic. -/
theorem chroma_kernel_not_palindromic :
    ∃ st pv, hb_rendersub_init true ⟨8, 1, 1⟩ 3
        ⟨AVPixelFormat.AV_PIX_FMT_YUV420P, AVChromaLocation.AVCHROMA_LOC_CENTER⟩
        [some ⟨subsource.SSASUB, true⟩] = some (st, some pv) ∧
      pv.chromaCoeffs 0 0 = 18 ∧ pv.chromaCoeffs 0 3 = 2 ∧
      pv.chromaCoeffs 0 1 = 18 ∧ pv.chromaCoeffs 0 2 = 6 ∧
      pv.chromaCoeffs 0 0 ≠ pv.chromaCoeffs 0 3 ∧ pv.chromaCoeffs 0 1 ≠ pv.chromaCoeffs 0 2 :=
  ⟨_, _, rfl, rfl, rfl, rfl, rfl, by decide, by decide⟩

/-- C26 (amended). Chroma coefficient symmetry: for `chroma_location = CENTER` with 4:2:0
input, the two coefficient arrays computed by `hb_rendersub_init` are equal
(`chromaCoeffs[0][x] = chromaCoeffs[1][x]` for every `x`), and in each array the two taps of
the 2-sample block are equal (`coeff[0] = coeff[1]`), while the length-4 array
`(18, 18, 6, 2)` is not palindromic (`coeff[0] > coeff[3]` and `coeff[1] > coeff[2]`). -/
theorem chroma_kernel_center_symmetry (depth planes_count : Int) (pix_fmt : AVPixelFormat)
    (list_subtitle : List (Option hb_subtitle_t)) :
    ∃ st pv, hb_rendersub_init true ⟨depth, 1, 1⟩ planes_count
        ⟨pix_fmt, AVChromaLocation.AVCHROMA_LOC_CENTER⟩ list_subtitle = some (st, some pv) ∧
      (∀ x, pv.chromaCoeffs 0 x = pv.chromaCoeffs 1 x) ∧
      (∀ axis, axis < 2 → pv.chromaCoeffs axis 0 = pv.chromaCoeffs axis 1 ∧
        pv.chromaCoeffs axis 3 < pv.chromaCoeffs axis 0 ∧
        pv.chromaCoeffs axis 2 < pv.chromaCoeffs axis 1) := by
  obtain ⟨st, pv, h, _, ht, _⟩ := hb_rendersub_init_result ⟨depth, 1, 1⟩ planes_count
    ⟨pix_fmt, AVChromaLocation.AVCHROMA_LOC_CENTER⟩ list_subtitle _ initChromaCoeffs_even
  refine ⟨st, pv, h, ?_, ?_⟩
  · intro x
    rw [ht]
    rfl
  · intro axis ha
    rw [ht]
    interval_cases axis <;> decide

theorem initChromaCoeffs_defined (loc : AVChromaLocation) (w h : Nat) (hw : w ≤ 1)
    (hh : h ≤ 1) :
    ∃ cx cy, [0, 1, 2, 3].mapM (chromaCoeff (chromaOffsets loc w h).1) = some cx ∧
      [0, 1, 2, 3].mapM (chromaCoeff (chromaOffsets loc w h).2) = some cy ∧
      initChromaCoeffs (chromaOffsets loc w h).1 (chromaOffsets loc w h).2 =
        some (fun axis x => if axis = 0 then cx.getD x 0
          else if axis = 1 then cy.getD x 0 else 0) := by
  interval_cases w <;> interval_cases h <;> cases loc <;> exact ⟨_, _, rfl, rfl, rfl⟩

/-- C29. Chroma-location fall-through in `hb_rendersub_init`, for `wshift`, `hshift` in
`{0, 1}`: the result computed for BOTTOM equals the one for TOP and the result for BOTTOMLEFT
the one for TOPLEFT (same offsets, same coefficient arrays); for TOPLEFT the horizontal array
`chromaCoeffs[0]` equals the horizontal array of LEFT and the vertical array `chromaCoeffs[1]`
the vertical array of TOP; CENTER, UNSPECIFIED and any other location add no offset
(`wX = 4 - (1 << wshift)`, `wY = 4 - (1 << hshift)`). -/
theorem chroma_location_fall_through (desc : AVPixFmtDescriptor) (planes_count : Int)
    (pix_fmt : AVPixelFormat) (list_subtitle : List (Option hb_subtitle_t))
    (hw : desc.log2_chroma_w ≤ 1) (hh : desc.log2_chroma_h ≤ 1) :
    hb_rendersub_init true desc planes_count ⟨pix_fmt, AVChromaLocation.AVCHROMA_LOC_BOTTOM⟩
        list_subtitle =
      hb_rendersub_init true desc planes_count ⟨pix_fmt, AVChromaLocation.AVCHROMA_LOC_TOP⟩
        list_subtitle ∧
    hb_rendersub_init true desc planes_count
        ⟨pix_fmt, AVChromaLocation.AVCHROMA_LOC_BOTTOMLEFT⟩ list_subtitle =
      hb_rendersub_init true desc planes_count
        ⟨pix_fmt, AVChromaLocation.AVCHROMA_LOC_TOPLEFT⟩ list_subtitle ∧
    (∃ s1 s2 s3 pTL pL pT,
      hb_rendersub_init true desc planes_count
          ⟨pix_fmt, AVChromaLocation.AVCHROMA_LOC_TOPLEFT⟩ list_subtitle =
        some (s1, some pTL) ∧
      hb_rendersub_init true desc planes_count
          ⟨pix_fmt, AVChromaLocation.AVCHROMA_LOC_LEFT⟩ list_subtitle = some (s2, some pL) ∧
      hb_rendersub_init true desc planes_count
          ⟨pix_fmt, AVChromaLocation.AVCHROMA_LOC_TOP⟩ list_subtitle = some (s3, some pT) ∧
      (∀ x, pTL.chromaCoeffs 0 x = pL.chromaCoeffs 0 x) ∧
      (∀ x, pTL.chromaCoeffs 1 x = pT.chromaCoeffs 1 x)) ∧
    chromaOffsets AVChromaLocation.AVCHROMA_LOC_CENTER desc.log2_chroma_w desc.log2_chroma_h =
      (4 - 2 ^ desc.log2_chroma_w, 4 - 2 ^ desc.log2_chroma_h) ∧
    chromaOffsets AVChromaLocation.AVCHROMA_LOC_UNSPECIFIED desc.log2_chroma_w
        desc.log2_chroma_h = (4 - 2 ^ desc.log2_chroma_w, 4 - 2 ^ desc.log2_chroma_h) ∧
    (∀ n, chromaOffsets (AVChromaLocation.other n) desc.log2_chroma_w desc.log2_chroma_h =
      (4 - 2 ^ desc.log2_chroma_w, 4 - 2 ^ desc.log2_chroma_h)) := by
  refine ⟨rfl, rfl, ?_, rfl, rfl, fun _ => rfl⟩
  obtain ⟨x1, y1, hx1, hy1, h1⟩ := initChromaCoeffs_defined
    AVChromaLocation.AVCHROMA_LOC_TOPLEFT _ _ hw hh
  obtain ⟨x2, y2, hx2, hy2, h2⟩ := initChromaCoeffs_defined
    AVChromaLocation.AVCHROMA_LOC_LEFT _ _ hw hh
  obtain ⟨x3, y3, hx3, hy3, h3⟩ := initChromaCoeffs_defined
    AVChromaLocation.AVCHROMA_LOC_TOP _ _ hw hh
  obtain ⟨s1, pTL, e1, _, t1, _⟩ := hb_rendersub_init_result desc planes_count
    ⟨pix_fmt, AVChromaLocation.AVCHROMA_LOC_TOPLEFT⟩ list_subtitle _ h1
  obtain ⟨s2, pL, e2, _, t2, _⟩ := hb_rendersub_init_result desc planes_count
    ⟨pix_fmt, AVChromaLocation.AVCHROMA_LOC_LEFT⟩ list_subtitle _ h2
  obtain ⟨s3, pT, e3, _, t3, _⟩ := hb_rendersub_init_result desc planes_count
    ⟨pix_fmt, AVChromaLocation.AVCHROMA_LOC_TOP⟩ list_subtitle _ h3
  have hx : x1 = x2 := Option.some.inj (hx1.symm.trans hx2)
  have hy : y1 = y3 := Option.some.inj (hy1.symm.trans hy3)
  refine ⟨s1, s2, s3, pTL, pL, pT, e1, e2, e3, ?_, ?_⟩
  · intro x
    rw [t1, t2, hx]
    rfl
  · intro x
    rw [t1, t3, hy]
    rfl

theorem chroma_location_fall_through_witness :
    hb_rendersub_init true ⟨8, 1, 1⟩ 3
        ⟨AVPixelFormat.AV_PIX_FMT_YUV420P, AVChromaLocation.AVCHROMA_LOC_BOTTOM⟩
        [some ⟨subsource.SSASUB, true⟩] =
      hb_rendersub_init true ⟨8, 1, 1⟩ 3
        ⟨AVPixelFormat.AV_PIX_FMT_YUV420P, AVChromaLocation.AVCHROMA_LOC_TOP⟩
        [some ⟨subsource.SSASUB, true⟩] :=
  (chroma_location_fall_through ⟨8, 1, 1⟩ 3 AVPixelFormat.AV_PIX_FMT_YUV420P
    [some ⟨subsource.SSASUB, true⟩] (by decide) (by decide)).1

/-! ## Text overlay: rounding, alignment, format -/

theorem div255_exact (x : Nat) (h : x ≤ 65025) : div255 x = (x + 127) / 255 := by
  unfold div255
  have e1 : u32 (x + 128) = x + 128 := Nat.mod_eq_of_lt (by omega)
  have e2 : (x + 128) >>> 8 = (x + 128) / 256 := by simp [Nat.shiftRight_eq_div_pow]
  rw [e1, e2]
  have e3 : u32 (x + (x + 128) / 256) = x + (x + 128) / 256 := Nat.mod_eq_of_lt (by omega)
  rw [e3]
  have e4 : u32 (x + (x + 128) / 256 + 128) = x + (x + 128) / 256 + 128 :=
    Nat.mod_eq_of_lt (by omega)
  rw [e4]
  have e5 : (x + (x + 128) / 256 + 128) >>> 8 = (x + (x + 128) / 256 + 128) / 256 := by
    simp [Nat.shiftRight_eq_div_pow]
  rw [e5, div255_arith x h]

/-- C28. Rounded divide-by-255. For a fragment with frame alpha `fa = color & 0xff` and glyph
alpha `ga` in `0..255`, `ssaAlpha` returns `((255 - fa) * ga + 127) / 255` (integer division),
a value in `0..255`; and `div255 x = (x + 127) / 255` for every `x` with
`0 <= x <= 65025`. -/
theorem ssaAlpha_rounded (frame : ASS_Image) (x y : Int)
    (hg : frame.bitmap (y * frame.stride + x) < 256) :
    ssaAlpha frame x y =
      ((255 - frame.color % 256) * frame.bitmap (y * frame.stride + x) + 127) / 255 ∧
    ssaAlpha frame x y < 256 ∧
    ∀ v : Nat, v ≤ 65025 → div255 v = (v + 127) / 255 := by
  have hb : (255 - frame.color % 256) * frame.bitmap (y * frame.stride + x) ≤ 65025 := by
    have h1 : 255 - frame.color % 256 ≤ 255 := by omega
    have h2 : frame.bitmap (y * frame.stride + x) ≤ 255 := by omega
    calc (255 - frame.color % 256) * frame.bitmap (y * frame.stride + x)
        ≤ 255 * 255 := Nat.mul_le_mul h1 h2
      _ = 65025 := by norm_num
  have hv : ssaAlpha frame x y =
      ((255 - frame.color % 256) * frame.bitmap (y * frame.stride + x) + 127) / 255 := by
    unfold ssaAlpha
    simp only []
    have e : u32 ((255 - frame.color % 256) * frame.bitmap (y * frame.stride + x)) =
        (255 - frame.color % 256) * frame.bitmap (y * frame.stride + x) :=
      Nat.mod_eq_of_lt (by omega)
    rw [e, div255_round _ hb]
  refine ⟨hv, ?_, fun v h => div255_exact v h⟩
  rw [hv]
  omega

theorem ssaAlpha_rounded_witness :
    ssaAlpha { fragAt 0 0 0x00FF0080 with bitmap := fun _ => 200 } 0 0 =
      ((255 - 128) * 200 + 127) / 255 :=
  (ssaAlpha_rounded { fragAt 0 0 0x00FF0080 with bitmap := fun _ => 200 } 0 0
    (by decide)).1

theorem pad_aligned (x1 : Nat) (crop : Int) (s : Nat) (hs : s ≤ 1) :
    ((padOrigin x1 crop s : Nat) + crop) % 2 ^ s = 0 ∧
    (toSigned (padOrigin x1 crop s) + crop) % 2 ^ s = 0 := by
  unfold padOrigin toSigned u32 toUnsigned
  interval_cases s
  · simp
  · have e : ((2 : Int) ^ 1 - 1) % 4294967296 = 1 := by decide
    rw [e]
    have e2 : (1 : Int).toNat = 1 := rfl
    rw [e2, Nat.and_one_is_mod]
    simp only [pow_one]
    split_ifs <;> omega

theorem forN_inv {σ : Type} (P : σ → Prop) (body : Int → σ → σ)
    (h : ∀ i s, P s → P (body i s)) : ∀ (n : Nat) (i : Int) (s : σ), P s →
      P (forN body n i s) := by
  intro n
  induction n with
  | zero => intro i s hs; exact hs
  | succ n ih => intro i s hs; exact ih _ _ (h _ _ hs)

theorem forRange_inv {σ : Type} (P : σ → Prop) (body : Int → σ → σ)
    (h : ∀ i s, P s → P (body i s)) (lo hi : Int) (s : σ) (hs : P s) :
    P (forRange lo hi body s) :=
  forN_inv P body h _ _ _ hs

theorem forRange_geometry (body : Int → Buffer → Buffer)
    (h : ∀ i s, (body i s).f_x = s.f_x ∧ (body i s).f_y = s.f_y) (lo hi : Int) (s : Buffer) :
    (forRange lo hi body s).f_x = s.f_x ∧ (forRange lo hi body s).f_y = s.f_y :=
  forRange_inv (fun t => t.f_x = s.f_x ∧ t.f_y = s.f_y) body
    (fun i t ht => ⟨(h i t).1.trans ht.1, (h i t).2.trans ht.2⟩) lo hi s ⟨rfl, rfl⟩

theorem subsampleCompo_geometry (pv : hb_filter_private_t) (compo : Int → Nat)
    (flatStride : Int) (width height : Nat) (sub : Buffer) :
    (subsampleCompo pv compo flatStride width height sub).f_x = sub.f_x ∧
    (subsampleCompo pv compo flatStride width height sub).f_y = sub.f_y := by
  unfold subsampleCompo
  refine forRange_geometry _ ?_ _ _ _
  intro yy s
  refine forRange_geometry _ ?_ _ _ _
  intro xx s
  simp only []
  split_ifs <;> exact ⟨rfl, rfl⟩

theorem boundingBox_x2_mono (l : List ASS_Image) (b : Nat × Nat × Nat × Nat) :
    b.2.2.1 ≤ (l.foldl (fun (b : Nat × Nat × Nat × Nat) frame =>
      if frame.w ≠ 0 ∧ frame.h ≠ 0 then
        let x2 := if b.2.2.1 > toUnsigned (frame.dst_x + frame.w) then b.2.2.1
          else toUnsigned (frame.dst_x + frame.w)
        let y2 := if b.2.2.2 > toUnsigned (frame.dst_y + frame.h) then b.2.2.2
          else toUnsigned (frame.dst_y + frame.h)
        let x1 := if b.1 > toUnsigned frame.dst_x then toUnsigned frame.dst_x else b.1
        let y1 := if b.2.1 > toUnsigned frame.dst_y then toUnsigned frame.dst_y else b.2.1
        (x1, y1, x2, y2)
      else b) b).2.2.1 := by
  induction l generalizing b with
  | nil => exact le_refl _
  | cons f l ih =>
    rw [List.foldl_cons]
    refine le_trans ?_ (ih _)
    split_ifs <;> (try simp only []) <;> omega

theorem boundingBox_x2_pos (l : List ASS_Image) (f : ASS_Image) (hf : f ∈ l)
    (hw : f.w ≠ 0) (hh : f.h ≠ 0) (hx : 0 < toUnsigned (f.dst_x + f.w)) :
    0 < (boundingBox l).2.2.1 := by
  unfold boundingBox
  generalize ((4294967295, 4294967295, 0, 0) : Nat × Nat × Nat × Nat) = b
  induction l generalizing b with
  | nil => cases hf
  | cons a l ih =>
    rw [List.foldl_cons]
    rcases List.mem_cons.mp hf with h | h
    · subst h
      refine lt_of_lt_of_le ?_ (boundingBox_x2_mono l _)
      rw [if_pos ⟨hw, hh⟩]
      split_ifs <;> (try simp only []) <;> omega
    · exact ih h _

/-- C23. Bounding-box alignment in `render_ssa_subs`, for `wshift`, `hshift` in `{0, 1}` and
every crop: whatever the box origin `(x1, y1)` before the padding step, after it
`(x1 + crop_left) mod (1 << wshift) = 0` and `(y1 + crop_top) mod (1 << hshift) = 0`.  When
libass reports a change, the box is not empty (`x2 > 0`, which one non-empty fragment with
`dst_x + w > 0` ensures) and the allocations succeed, the overlay that is cached and returned
has `f.x = x1 + crop_left` and `f.y = y1 + crop_top` (the `unsigned` origin converted to
`int`), both multiples of the chroma block size of their axis. -/
theorem render_ssa_subs_aligned (env : Externals) (pv : hb_filter_private_t) (start : Int)
    (hw : pv.wshift ≤ 1) (hh : pv.hshift ≤ 1) :
    (∀ x1 y1 : Nat,
      ((padOrigin x1 (pv.crop 2) pv.wshift : Nat) + pv.crop 2) % 2 ^ pv.wshift = 0 ∧
      ((padOrigin y1 (pv.crop 0) pv.hshift : Nat) + pv.crop 0) % 2 ^ pv.hshift = 0) ∧
    (∀ (l : List ASS_Image) (f : ASS_Image), f ∈ l → f.w ≠ 0 → f.h ≠ 0 →
      0 < toUnsigned (f.dst_x + f.w) → 0 < (boundingBox l).2.2.1) ∧
    (∀ frame frames,
      env.ass_render_frame pv.ssaTrack (Int.tdiv start 90) = (frame :: frames, true) →
      0 < (boundingBox (frame :: frames)).2.2.1 → env.calloc_ok = true →
      (∀ w h, env.hb_frame_buffer_init pv.pix_fmt_alpha w h ≠ none) →
      ∃ sub, (render_ssa_subs env pv start).1 = some sub ∧
        (render_ssa_subs env pv start).2.last_render = some sub ∧
        sub.f_x = toSigned (padOrigin (boundingBox (frame :: frames)).1 (pv.crop 2) pv.wshift)
          + pv.crop 2 ∧
        sub.f_y = toSigned (padOrigin (boundingBox (frame :: frames)).2.1 (pv.crop 0)
          pv.hshift) + pv.crop 0 ∧
        sub.f_x % 2 ^ pv.wshift = 0 ∧ sub.f_y % 2 ^ pv.hshift = 0) := by
  refine ⟨fun x1 y1 => ⟨(pad_aligned x1 _ _ hw).1, (pad_aligned y1 _ _ hh).1⟩,
    boundingBox_x2_pos, ?_⟩
  intro frame frames hr hx2 hc ha
  unfold render_ssa_subs
  simp only [hr, if_true]
  rw [if_pos (by omega)]
  simp only [ComposeSubsampleASS, hc, Bool.true_eq_false, if_false]
  cases hfb : env.hb_frame_buffer_init pv.pix_fmt_alpha
      (u32 ((boundingBox (frame :: frames)).2.2.1 + 4294967296 -
        padOrigin (boundingBox (frame :: frames)).1 (pv.crop 2) pv.wshift))
      (u32 ((boundingBox (frame :: frames)).2.2.2 + 4294967296 -
        padOrigin (boundingBox (frame :: frames)).2.1 (pv.crop 0) pv.hshift)) with
  | none => exact absurd hfb (ha _ _)
  | some fb =>
    simp only [hfb, Option.map_some']
    refine ⟨_, rfl, rfl, ?_, ?_, ?_, ?_⟩
    · simp only [(subsampleCompo_geometry _ _ _ _ _ _).1]
    · simp only [(subsampleCompo_geometry _ _ _ _ _ _).2]
    · simp only [(subsampleCompo_geometry _ _ _ _ _ _).1]
      exact (pad_aligned _ _ _ hw).2
    · simp only [(subsampleCompo_geometry _ _ _ _ _ _).2]
      exact (pad_aligned _ _ _ hh).2

theorem render_ssa_subs_aligned_witness :
    ∃ sub, (render_ssa_subs (envAss [fragAt 3 5 0xFF000000]) pv420 0).1 = some sub ∧
      sub.f_x % 2 ^ pv420.wshift = 0 ∧ sub.f_y % 2 ^ pv420.hshift = 0 :=
  let ⟨sub, h1, _, _, _, h5, h6⟩ := (render_ssa_subs_aligned (envAss [fragAt 3 5 0xFF000000])
    pv420 0 (by decide) (by decide)).2.2 (fragAt 3 5 0xFF000000) [] rfl (by decide) rfl
    (fun w h => by simp [envAss, envOk])
  ⟨sub, h1, h5, h6⟩

theorem rescale_fmt (env : Externals) (sub buf : Buffer)
    (hw : sub.f_window_width = 1920) (hh : sub.f_window_height = 1080)
    (bw : buf.f_width = 1280) (bh : buf.f_height = 720)
    (ha : ∀ f w h, ∃ fb, env.hb_frame_buffer_init f w h = some fb ∧ fb.f_fmt = f) :
    ∃ scaled, rescaleSubtitle env sub buf = Run.done (some scaled) ∧
      scaled.f_fmt = AVPixelFormat.AV_PIX_FMT_YUVA420P := by
  have hf : scaleFactors sub buf = (2 / 3, 2 / 3) := by
    unfold scaleFactors
    rw [hw, hh, bw, bh]
    norm_num
  unfold rescaleSubtitle
  simp only [hf]
  rw [if_pos (by norm_num [ABS])]
  obtain ⟨fb, h1, h2⟩ := ha AVPixelFormat.AV_PIX_FMT_YUVA420P
    (truncToInt ((sub.f_width : ℚ) * (2 / 3))) (truncToInt ((sub.f_height : ℚ) * (2 / 3)))
  rw [h1]
  exact ⟨_, rfl, h2⟩

/-- C24. The buffer `ScaleSubtitle` allocates when it rescales is always `AV_PIX_FMT_YUVA420P`.
For 4:4:4 video (`pix_fmt_alpha = YUVA444P`) and an incoming overlay of format YUVA444P
authored for a 1920x1080 window, shown on a 1280x720 frame, the buffer returned by
`ScaleSubtitle`, which the bitmap tracks hand to the blender, has format YUVA420P and not
`pix_fmt_alpha`. -/
theorem ScaleSubtitle_format_mismatch :
    pv444.pix_fmt_alpha = AVPixelFormat.AV_PIX_FMT_YUVA444P ∧
    winSub444.buf.f_fmt = pv444.pix_fmt_alpha ∧
    ∃ out, ScaleSubtitle envOk pv444 winSub444.buf (frame720 0) = Run.done (some out) ∧
      out.f_fmt = AVPixelFormat.AV_PIX_FMT_YUVA420P ∧ out.f_fmt ≠ pv444.pix_fmt_alpha := by
  refine ⟨rfl, rfl, ?_⟩
  obtain ⟨scaled, h1, h2⟩ := rescale_fmt envOk winSub444.buf (frame720 0) rfl rfl rfl rfl
    (fun f w h => ⟨_, rfl, rfl⟩)
  unfold ScaleSubtitle
  rw [h1]
  refine ⟨_, rfl, h2, ?_⟩
  show scaled.f_fmt ≠ pv444.pix_fmt_alpha
  rw [h2]
  decide

/-! ## The deep semi-planar blender -/

theorem blend8onbi1x_rd1 (dst src : Buffer) (left top : Int) (shift : Nat) (r c : Int) :
    (blend8onbi1x dst src left top shift).rd 1 r c =
      let hs := chromaShift (dst.plane 1).height (dst.plane 0).height
      let ws := chromaShift (dst.plane 1).width (dst.plane 0).width
      let yy := r - top >>> hs
      let xx := c / 2 - left >>> ws
      if (clipStart top >>> hs ≤ yy ∧
            yy < clipEnd src.f_height dst.f_height top (clipStart top) >>> hs) ∧
         (clipStart left >>> ws ≤ xx ∧
            xx < clipEnd src.f_width dst.f_width left (clipStart left) >>> ws)
      then blendSample16 (deepMax shift) (dst.rd 1 r c)
             (av_bswap16 (src.rd (if c % 2 = 0 then 1 else 2) yy xx))
             (deepAlpha (src.rd 3 (yy * 2 ^ hs) (xx * 2 ^ ws)) shift)
      else dst.rd 1 r c := by
  unfold blend8onbi1x
  simp only []
  generalize chromaShift (dst.plane 1).height (dst.plane 0).height = hs
  generalize chromaShift (dst.plane 1).width (dst.plane 0).width = ws
  rw [nest_rd _ (fun yy xx w =>
          if r = yy + top >>> hs ∧ c / 2 = left >>> ws + xx then
            blendSample16 (deepMax shift) w
              (av_bswap16 (src.rd (if c % 2 = 0 then 1 else 2) yy xx))
              (deepAlpha (src.rd 3 (yy * 2 ^ hs) (xx * 2 ^ ws)) shift) else w)
        1 r c (r - top >>> hs) (c / 2 - left >>> ws) _ _ _ _ _
        (by
          intro yy xx s
          simp only [rd_store, true_and]
          by_cases h1 : r = yy + top >>> hs ∧ c = (left >>> ws + xx) * 2
          · have h2 : ¬ (r = yy + top >>> hs ∧ c = (left >>> ws + xx) * 2 + 1) := by omega
            have h3 : r = yy + top >>> hs ∧ c / 2 = left >>> ws + xx := by omega
            have h4 : c % 2 = 0 := by omega
            rw [if_neg h2, if_pos h1, if_pos h3, if_pos h4, h1.1, h1.2]
          · by_cases h2 : r = yy + top >>> hs ∧ c = (left >>> ws + xx) * 2 + 1
            · have h3 : r = yy + top >>> hs ∧ c / 2 = left >>> ws + xx := by omega
              have h4 : ¬ (c % 2 = 0) := by omega
              rw [if_pos h2, if_pos h3, if_neg h4, if_neg (by omega), h2.1, h2.2]
            · have h3 : ¬ (r = yy + top >>> hs ∧ c / 2 = left >>> ws + xx) := by omega
              rw [if_neg h2, if_neg h1, if_neg h3])
        (by
          intro yy xx w h
          have : ¬ (r = yy + top >>> hs ∧ c / 2 = left >>> ws + xx) := by omega
          simp only [this, if_false])]
  rw [nest_rd_id _ 1 r c _ _ _ _ _ (by intro yy xx d; simp [rd_store])]
  have e : r = r - top >>> hs + top >>> hs ∧ c / 2 = left >>> ws + (c / 2 - left >>> ws) := by
    omega
  rw [if_pos e]

/-- The planar blenders leave the planes from 3 on alone. -/
theorem blend8on8_rd_other (dst src : Buffer) (left top : Int) (shift : Nat) (p : Nat)
    (hp : 3 ≤ p) (r c : Int) : (blend8on8 dst src left top shift).rd p r c = dst.rd p r c := by
  have h0 : p ≠ 0 := by omega
  have h1 : p ≠ 1 := by omega
  have h2 : p ≠ 2 := by omega
  unfold blend8on8
  simp only []
  rw [nest_rd_id _ p r c _ _ _ _ _ (by intro yy xx d; simp [rd_store, h1, h2])]
  rw [nest_rd_id _ p r c _ _ _ _ _ (by intro yy xx d; simp [rd_store, h0])]

theorem blend8on1x_rd_other (dst src : Buffer) (left top : Int) (shift : Nat) (p : Nat)
    (hp : 3 ≤ p) (r c : Int) : (blend8on1x dst src left top shift).rd p r c = dst.rd p r c := by
  have h0 : p ≠ 0 := by omega
  have h1 : p ≠ 1 := by omega
  have h2 : p ≠ 2 := by omega
  unfold blend8on1x
  simp only []
  rw [nest_rd_id _ p r c _ _ _ _ _ (by intro yy xx d; simp [rd_store, h1, h2])]
  rw [nest_rd_id _ p r c _ _ _ _ _ (by intro yy xx d; simp [rd_store, h0])]

/-- The semi-planar blenders leave the planes from 2 on alone. -/
theorem blend8onbi8_rd_other (dst src : Buffer) (left top : Int) (shift : Nat) (p : Nat)
    (hp : 2 ≤ p) (r c : Int) :
    (blend8onbi8 dst src left top shift).rd p r c = dst.rd p r c := by
  have h0 : p ≠ 0 := by omega
  have h1 : p ≠ 1 := by omega
  unfold blend8onbi8
  simp only []
  rw [nest_rd_id _ p r c _ _ _ _ _ (by intro yy xx d; simp [rd_store, h1])]
  rw [nest_rd_id _ p r c _ _ _ _ _ (by intro yy xx d; simp [rd_store, h0])]

theorem blend8onbi1x_rd_other (dst src : Buffer) (left top : Int) (shift : Nat) (p : Nat)
    (hp : 2 ≤ p) (r c : Int) :
    (blend8onbi1x dst src left top shift).rd p r c = dst.rd p r c := by
  have h0 : p ≠ 0 := by omega
  have h1 : p ≠ 1 := by omega
  unfold blend8onbi1x
  simp only []
  rw [nest_rd_id _ p r c _ _ _ _ _ (by intro yy xx d; simp [rd_store, h1])]
  rw [nest_rd_id _ p r c _ _ _ _ _ (by intro yy xx d; simp [rd_store, h0])]

theorem av_bswap16_byte (s : Nat) (h : s < 256) : av_bswap16 s = s * 256 := by
  unfold av_bswap16
  have e1 : s % 65536 = s := Nat.mod_eq_of_lt (by omega)
  rw [e1]
  have e2 : s >>> 8 = 0 := by
    rw [Nat.shiftRight_eq_div_pow]
    exact Nat.div_eq_of_lt (by norm_num; omega)
  have e3 : s <<< 8 = s * 256 := by rw [Nat.shiftLeft_eq]
  rw [e2, e3, Nat.zero_or]
  exact Nat.mod_eq_of_lt (by omega)

theorem deep_swap_exact (shift old y a : Nat) (hshift : shift ≤ 8)
    (ho : old < 65536) (hy : y < 256) (ha : a < 256) :
    blendSample16 (deepMax shift) old (av_bswap16 y) (deepAlpha a shift) =
      (old * ((256 <<< shift) - 1 - (a <<< shift)) + (y * 256) * (a <<< shift)) /
        ((256 <<< shift) - 1) := by
  have h1 : deepAlpha a shift = a <<< shift := by
    unfold deepAlpha
    apply Nat.mod_eq_of_lt
    interval_cases shift <;> simp only [Nat.shiftLeft_eq] <;> omega
  rw [h1, av_bswap16_byte y hy]
  unfold deepMax
  apply blendSample16_exact
  · interval_cases shift <;> simp only [Nat.shiftLeft_eq] <;> omega
  · interval_cases shift <;> simp only [Nat.shiftLeft_eq] <;> omega
  · exact ho
  · omega
  · interval_cases shift <;> simp only [Nat.shiftLeft_eq] <;> omega

/-- C27. The deep semi-planar blender `blend8onbi1x` with `shift = depth - 8 <= 8`, a 16-bit
destination and an 8-bit source.  First part: a source sample `s` enters the blend as
`av_bswap16(s) = s * 256`, whatever `shift`.  Second part: when every store of the call lies
inside the planes of `dst` (`StoresInside`), every luma sample it stores is
`(old*(max - alpha) + (s*256)*alpha) / max` with `alpha = srcA << shift` and
`max = (256 << shift) - 1`, and so are the U samples (even columns of plane 1, from source
plane 1) and the V samples (odd columns, from source plane 2), with the alpha sample at
`(xx << wshift, yy << hshift)`.  Third part: its luma plane equals the luma plane of
`blend8on1x` for every input exactly when `shift = 8`; and for `shift = 8` the two luma loops
leave the same memory, whatever the row pitch.  Fourth part: under the condition on the luma
stores, the luma samples of `blend8onbi1x` are the 16-bit samples of the luma plane after the
loop of lines 415-431, for every row pitch of at least `2 * plane[0].width` bytes.
Fifth part: without the condition the per-sample formula fails on the code.  For a 128x72
destination of row pitch 256 bytes, all zero, and a 130x2 source of Y = 255, A = 128 at
`left = -1`, `top = 0`, `shift = 2`: `x0 = 1`, `ww = 130`, `hh = 2`; the iteration `yy = 0`,
`xx = 129` stores 32671 to `y_out[128]`, the sample of row 1, column 0 at byte offset 256,
and the iteration `yy = 1`, `xx = 1` blends that sample again: it ends as 48991, where the
claim (and the grid of cells) gives `(0*511 + 65280*512) / 1023 = 32671`. -/
theorem blend8onbi1x_byte_swap :
    (∀ s, s < 256 → av_bswap16 s = s * 256) ∧
    (∀ (dst src : Buffer) (left top : Int) (shift : Nat), shift ≤ 8 → dst.IsU16 → src.IsU8 →
      StoresInside true dst src left top →
      (∀ xx yy : Int,
        clipStart left ≤ xx → xx < clipEnd src.f_width dst.f_width left (clipStart left) →
        clipStart top ≤ yy → yy < clipEnd src.f_height dst.f_height top (clipStart top) →
        (blend8onbi1x dst src left top shift).rd 0 (yy + top) (left + xx) =
          (dst.rd 0 (yy + top) (left + xx) *
              ((256 <<< shift) - 1 - (src.rd 3 yy xx <<< shift)) +
            (src.rd 0 yy xx * 256) * (src.rd 3 yy xx <<< shift)) / ((256 <<< shift) - 1)) ∧
      (∀ xx yy : Int,
        clipStart left >>> chromaShift (dst.plane 1).width (dst.plane 0).width ≤ xx →
        xx < clipEnd src.f_width dst.f_width left (clipStart left) >>>
              chromaShift (dst.plane 1).width (dst.plane 0).width →
        clipStart top >>> chromaShift (dst.plane 1).height (dst.plane 0).height ≤ yy →
        yy < clipEnd src.f_height dst.f_height top (clipStart top) >>>
              chromaShift (dst.plane 1).height (dst.plane 0).height →
        ∀ k : Nat, k < 2 →
        (blend8onbi1x dst src left top shift).rd 1
            (yy + top >>> chromaShift (dst.plane 1).height (dst.plane 0).height)
            ((left >>> chromaShift (dst.plane 1).width (dst.plane 0).width + xx) * 2 + k) =
          (dst.rd 1 (yy + top >>> chromaShift (dst.plane 1).height (dst.plane 0).height)
                ((left >>> chromaShift (dst.plane 1).width (dst.plane 0).width + xx) * 2 + k) *
              ((256 <<< shift) - 1 -
                (src.rd 3 (yy * 2 ^ chromaShift (dst.plane 1).height (dst.plane 0).height)
                      (xx * 2 ^ chromaShift (dst.plane 1).width (dst.plane 0).width) <<<
                    shift)) +
            (src.rd (1 + k) yy xx * 256) *
              (src.rd 3 (yy * 2 ^ chromaShift (dst.plane 1).height (dst.plane 0).height)
                      (xx * 2 ^ chromaShift (dst.plane 1).width (dst.plane 0).width) <<<
                  shift)) /
            ((256 <<< shift) - 1))) ∧
    (∀ shift : Nat, shift ≤ 8 →
      ((∀ (d s : Buffer) (l t r c : Int), d.IsU16 → s.IsU8 →
          (blend8onbi1x d s l t shift).rd 0 r c = (blend8on1x d s l t shift).rd 0 r c) ↔
        shift = 8)) ∧
    (∀ (src : Buffer) (mem : Int → Nat) (stride dstW dstH left top : Int), src.IsU8 →
      blend8onbi1x_luma_mem mem stride dstW dstH src left top 8 =
        blend8on1x_luma_mem mem stride dstW dstH src left top 8) ∧
    (∀ (dst src : Buffer) (left top stride : Int) (shift : Nat) (mem : Int → Nat),
      LumaStoresInside dst src left top → 2 * (dst.plane 0).width ≤ stride →
      (∀ r c, 0 ≤ c ∧ 2 * c + 2 ≤ stride → mem (r * stride + 2 * c) = dst.rd 0 r c) →
      ∀ r c, 0 ≤ c ∧ 2 * c + 2 ≤ stride →
        blend8onbi1x_luma_mem mem stride dst.f_width dst.f_height src left top shift
            (r * stride + 2 * c) =
          (blend8onbi1x dst src left top shift).rd 0 r c) ∧
    (clipStart (-1) = 1 ∧ clipEnd 130 128 (-1) 1 = 130 ∧ clipEnd 2 72 0 0 = 2 ∧
      (0 + 0) * 256 + 2 * (-1 + 129) = ((1 + 0) * 256 + 2 * (-1 + 1) : Int) ∧
      blend8onbi1x_luma_mem (fun _ => 0) 256 128 72 (constBuffer 130 2 65 1 255 128 128 128)
          (-1) 0 2 ((1 + 0) * 256 + 2 * (-1 + 1)) = 48991 ∧
      (0 * ((256 <<< 2) - 1 - (128 <<< 2)) + (255 * 256) * (128 <<< 2)) / ((256 <<< 2) - 1) =
        32671 ∧
      (blend8onbi1x (constSemiPlanar 128 72 64 36 0 512 512)
          (constBuffer 130 2 65 1 255 128 128 128) (-1) 0 2).rd 0 (1 + 0) (-1 + 1) = 32671) := by
  have e1 : ∀ a b : Int, a + b - b = a := by intros; omega
  have e2 : ∀ a b : Int, b + a - b = a := by intros; omega
  refine ⟨av_bswap16_byte, fun dst src left top shift hshift hd hs _ => ⟨?_, ?_⟩,
    fun shift hshift => ?_, ?_, ?_, ?_⟩
  · intro xx yy h1 h2 h3 h4
    rw [blend8onbi1x_rd0, e1, e2, if_pos ⟨⟨h3, h4⟩, h1, h2⟩]
    exact deep_swap_exact _ _ _ _ hshift (hd _ _ _) (hs _ _ _) (hs _ _ _)
  · intro xx yy h1 h2 h3 h4 k hk
    rw [blend8onbi1x_rd1]
    simp only []
    have e3 : ∀ a : Int, (a * 2 + (k : Int)) / 2 = a := by intro a; omega
    rw [e1, e3, e2, if_pos ⟨⟨h3, h4⟩, h1, h2⟩]
    have e4 : (if ((left >>> chromaShift (dst.plane 1).width (dst.plane 0).width + xx) * 2 +
        (k : Int)) % 2 = 0 then 1 else 2) = 1 + k := by
      interval_cases k
      · rw [if_pos (by omega)]
      · rw [if_neg (by omega)]
    rw [e4]
    exact deep_swap_exact _ _ _ _ hshift (hd _ _ _) (hs _ _ _) (hs _ _ _)
  · constructor
    · intro h
      by_contra hne
      have hlt : shift < 8 := by omega
      have h1 := h (constBuffer 1 1 1 1 0 0 0 0) (constBuffer 1 1 1 1 255 0 0 255) 0 0 0 0
        (fun p r c => by rw [constBuffer_rd]; split_ifs <;> omega)
        (fun p r c => by rw [constBuffer_rd]; split_ifs <;> omega)
      rw [blend8onbi1x_rd0, blend8on1x_rd0] at h1
      simp only [constBuffer_rd] at h1
      interval_cases shift <;> revert h1 <;> decide
    · intro h8 d s l t r c hd2 hs2
      subst h8
      rw [blend8onbi1x_rd0, blend8on1x_rd0]
      have : av_bswap16 (s.rd 0 (r - t) (c - l)) = s.rd 0 (r - t) (c - l) <<< 8 := by
        rw [av_bswap16_byte _ (hs2 _ _ _), Nat.shiftLeft_eq]
      rw [this]
  · intro src mem stride dstW dstH left top hs
    have hsw : ∀ yy xx, av_bswap16 (src.rd 0 yy xx) = src.rd 0 yy xx <<< 8 := by
      intro yy xx
      rw [av_bswap16_byte _ (hs _ _ _), Nat.shiftLeft_eq]
    unfold blend8onbi1x_luma_mem blend8on1x_luma_mem
    simp only [hsw]
  · intro dst src left top stride shift mem hin hw hrep
    refine blend8onbi1x_luma_agrees dst src left top stride shift mem ?_ hrep
    intro yy xx h1 h2 h3 h4
    have h := hin xx yy h3 h4 h1 h2
    unfold Buffer.Inside at h
    simp only [Bool.false_eq_true, false_and, if_false] at h
    omega
  · refine ⟨by decide, by decide, by decide, by decide, ?_, by decide, ?_⟩
    · set_option maxRecDepth 100000 in decide
    rw [blend8onbi1x_rd0]
    have e0 : ∀ r c, (constSemiPlanar 128 72 64 36 0 512 512).rd 0 r c = 0 := fun _ _ => rfl
    simp only [constBuffer_rd, e0]
    decide

theorem blend8onbi1x_byte_swap_witness :
    StoresInside true (constSemiPlanar 16 16 8 8 64 512 512)
      (constBuffer 10 10 5 5 235 90 240 128) 3 4 ∧
    (blend8onbi1x (constSemiPlanar 16 16 8 8 64 512 512) (constBuffer 10 10 5 5 235 90 240 128)
        3 4 2).rd 0 (2 + 4) (3 + 1) =
      (64 * ((256 <<< 2) - 1 - (128 <<< 2)) + (235 * 256) * (128 <<< 2)) / ((256 <<< 2) - 1) := by
  have hin : StoresInside true (constSemiPlanar 16 16 8 8 64 512 512)
      (constBuffer 10 10 5 5 235 90 240 128) 3 4 :=
    storesInside_of_range _ _ _ _ _ (by decide) (by decide) (by decide) (by decide)
      (by decide) (by decide) (fun hb => by cases hb)
  have h := (blend8onbi1x_byte_swap.2.1 (constSemiPlanar 16 16 8 8 64 512 512)
    (constBuffer 10 10 5 5 235 90 240 128) 3 4 2 (by decide)
    (fun p r c => by
      simp only [Buffer.rd, constSemiPlanar]
      split_ifs <;> simp)
    (fun p r c => by rw [constBuffer_rd]; split_ifs <;> omega) hin).1 1 2
    (by decide) (by decide) (by decide) (by decide)
  have e0 : (constSemiPlanar 16 16 8 8 64 512 512).rd 0 (2 + 4) (3 + 1) = 64 := rfl
  have e1 : (constBuffer 10 10 5 5 235 90 240 128).rd 3 2 1 = 128 := rfl
  have e2 : (constBuffer 10 10 5 5 235 90 240 128).rd 0 2 1 = 235 := rfl
  rw [e0, e1, e2] at h
  exact ⟨hin, h⟩

/-! ## Index safety of the blenders -/

theorem luma_inside (w W left c : Int) (hl : 0 ≤ left) (h1 : clipStart left ≤ c - left)
    (h2 : c - left < clipEnd w W left (clipStart left)) :
    (0 ≤ c ∧ c < W) ∧ 0 ≤ c - left ∧ c - left < w := by
  unfold clipEnd at h2
  unfold clipStart at h1 h2
  split_ifs at h1 h2 <;> omega

theorem chroma_inside (fw : Nat) (hfw : fw ≤ 1) (w W left x cW : Int) (hl : 0 ≤ left)
    (hcW : cW = (W + 2 ^ fw - 1) / 2 ^ fw)
    (h1 : clipStart left >>> chromaShift cW W ≤ x)
    (h2 : x < clipEnd w W left (clipStart left) >>> chromaShift cW W) :
    (0 ≤ left >>> chromaShift cW W + x ∧ left >>> chromaShift cW W + x < cW) ∧
    (0 ≤ x ∧ x < (w + 2 ^ fw - 1) / 2 ^ fw) ∧
    0 ≤ x * 2 ^ chromaShift cW W ∧ x * 2 ^ chromaShift cW W < w := by
  have hc0 : clipStart left = 0 := by unfold clipStart; rw [if_neg (by omega)]
  rw [hc0] at h1 h2
  unfold clipEnd at h2
  unfold chromaShift at *
  interval_cases fw <;> split_ifs at * <;>
    simp only [Int.shiftRight_eq_div_pow, pow_zero, pow_one, Int.ediv_one, mul_one] at * <;>
    omega

theorem luma_empty (w W left c : Int) (hl : 0 ≤ left) (h : W ≤ left) :
    ¬ (clipStart left ≤ c - left ∧ c - left < clipEnd w W left (clipStart left)) := by
  unfold clipEnd clipStart
  split_ifs <;> omega

theorem chroma_empty (s : Nat) (hs : s = 0 ∨ s = 1) (w W left x : Int) (hl : 0 ≤ left)
    (h : W ≤ left) :
    ¬ (clipStart left >>> s ≤ x ∧ x < clipEnd w W left (clipStart left) >>> s) := by
  unfold clipEnd clipStart
  rcases hs with hs | hs <;> subst hs <;>
    simp only [Int.shiftRight_eq_div_pow, pow_zero, pow_one, Int.ediv_one] <;>
    split_ifs <;> omega

theorem inside_planar (b : Buffer) (p : Nat) (r c : Int) (W H : Int)
    (hw : (b.plane p).width = W) (hh : (b.plane p).height = H)
    (h : (0 ≤ r ∧ r < H) ∧ 0 ≤ c ∧ c < W) : b.Inside false p r c := by
  unfold Buffer.Inside
  simp only [Bool.false_eq_true, false_and, if_false]
  rw [hw, hh]
  exact h

/-- Index safety of a planar blender, from the characterisation of the samples it
leaves in the destination. -/
theorem safe_planar (blend : Buffer → Buffer → Int → Int → Nat → Buffer)
    (f : Nat → Nat → Nat → Nat → Nat)
    (h0 : ∀ (dst src : Buffer) (left top : Int) (shift : Nat) (r c : Int),
      (blend dst src left top shift).rd 0 r c =
        if (clipStart top ≤ r - top ∧
              r - top < clipEnd src.f_height dst.f_height top (clipStart top)) ∧
           (clipStart left ≤ c - left ∧
              c - left < clipEnd src.f_width dst.f_width left (clipStart left))
        then f shift (dst.rd 0 r c) (src.rd 0 (r - top) (c - left))
               (src.rd 3 (r - top) (c - left))
        else dst.rd 0 r c)
    (hc : ∀ (dst src : Buffer) (left top : Int) (shift : Nat) (p : Nat), p = 1 ∨ p = 2 →
      ∀ r c : Int, (blend dst src left top shift).rd p r c =
        if (clipStart top >>> chromaShift (dst.plane 1).height (dst.plane 0).height ≤
              r - top >>> chromaShift (dst.plane 1).height (dst.plane 0).height ∧
            r - top >>> chromaShift (dst.plane 1).height (dst.plane 0).height <
              clipEnd src.f_height dst.f_height top (clipStart top) >>>
                chromaShift (dst.plane 1).height (dst.plane 0).height) ∧
           (clipStart left >>> chromaShift (dst.plane 1).width (dst.plane 0).width ≤
              c - left >>> chromaShift (dst.plane 1).width (dst.plane 0).width ∧
            c - left >>> chromaShift (dst.plane 1).width (dst.plane 0).width <
              clipEnd src.f_width dst.f_width left (clipStart left) >>>
                chromaShift (dst.plane 1).width (dst.plane 0).width)
        then f shift (dst.rd p r c)
               (src.rd p (r - top >>> chromaShift (dst.plane 1).height (dst.plane 0).height)
                 (c - left >>> chromaShift (dst.plane 1).width (dst.plane 0).width))
               (src.rd 3
                 ((r - top >>> chromaShift (dst.plane 1).height (dst.plane 0).height) *
                   2 ^ chromaShift (dst.plane 1).height (dst.plane 0).height)
                 ((c - left >>> chromaShift (dst.plane 1).width (dst.plane 0).width) *
                   2 ^ chromaShift (dst.plane 1).width (dst.plane 0).width))
        else dst.rd p r c)
    (ho : ∀ (dst src : Buffer) (left top : Int) (shift : Nat) (p : Nat), 3 ≤ p →
      ∀ r c : Int, (blend dst src left top shift).rd p r c = dst.rd p r c)
    (dst src : Buffer) (left top : Int) (shift fw fh : Nat) (hfw : fw ≤ 1) (hfh : fh ≤ 1)
    (hl : 0 ≤ left) (ht : 0 ≤ top)
    (hd0 : dst.LumaSized 0) (hd1 : dst.ChromaSized fw fh 1) (hd2 : dst.ChromaSized fw fh 2)
    (hs0 : src.LumaSized 0) (hs3 : src.LumaSized 3)
    (hs1 : src.ChromaSized fw fh 1) (hs2 : src.ChromaSized fw fh 2) :
    IndexSafe blend false dst src left top shift := by
  have hdc : ∀ p, p = 1 ∨ p = 2 → dst.ChromaSized fw fh p := by
    rintro p (h | h) <;> subst h <;> assumption
  have hsc : ∀ p, p = 1 ∨ p = 2 → src.ChromaSized fw fh p := by
    rintro p (h | h) <;> subst h <;> assumption
  have hp3 : ∀ p : Nat, p = 0 ∨ (p = 1 ∨ p = 2) ∨ 3 ≤ p := by intro p; omega
  refine ⟨?_, ?_, ?_⟩
  · intro p r c hout
    rcases hp3 p with hp | hp | hp
    · subst hp
      rw [h0, if_neg]
      rintro ⟨hr, hcc⟩
      have a := luma_inside _ _ _ _ hl hcc.1 hcc.2
      have b := luma_inside _ _ _ _ ht hr.1 hr.2
      exact hout (inside_planar dst 0 r c _ _ hd0.1 hd0.2 ⟨b.1, a.1⟩)
    · rw [hc _ _ _ _ _ p hp, if_neg]
      rintro ⟨hr, hcc⟩
      rw [hd0.1] at hcc
      rw [hd0.2] at hr
      have a := chroma_inside fw hfw _ _ _ _ _ hl hd1.1 hcc.1 hcc.2
      have b := chroma_inside fh hfh _ _ _ _ _ ht hd1.2 hr.1 hr.2
      refine hout (inside_planar dst p r c _ _ ((hdc p hp).1.trans hd1.1.symm)
        ((hdc p hp).2.trans hd1.2.symm) ⟨?_, ?_⟩)
      · omega
      · omega
    · exact ho _ _ _ _ _ p hp r c
  · intro src2 hw hh hag p r c
    rcases hp3 p with hp | hp | hp
    · subst hp
      rw [h0, h0, hw, hh]
      by_cases hcond : (clipStart top ≤ r - top ∧
            r - top < clipEnd src.f_height dst.f_height top (clipStart top)) ∧
          (clipStart left ≤ c - left ∧
            c - left < clipEnd src.f_width dst.f_width left (clipStart left))
      · rw [if_pos hcond, if_pos hcond]
        have a := luma_inside _ _ _ _ hl hcond.2.1 hcond.2.2
        have b := luma_inside _ _ _ _ ht hcond.1.1 hcond.1.2
        rw [hag 0 _ _ (inside_planar src 0 _ _ _ _ hs0.1 hs0.2 ⟨b.2, a.2⟩),
          hag 3 _ _ (inside_planar src 3 _ _ _ _ hs3.1 hs3.2 ⟨b.2, a.2⟩)]
      · rw [if_neg hcond, if_neg hcond]
    · rw [hc _ _ _ _ _ p hp, hc _ _ _ _ _ p hp, hw, hh]
      split_ifs with hcond
      · obtain ⟨hr, hcc⟩ := hcond
        rw [hd0.1] at hcc
        rw [hd0.2] at hr
        have a := chroma_inside fw hfw _ _ _ _ _ hl hd1.1 hcc.1 hcc.2
        have b := chroma_inside fh hfh _ _ _ _ _ ht hd1.2 hr.1 hr.2
        rw [hd0.1, hd0.2]
        rw [hag p _ _ (inside_planar src p _ _ _ _ (hsc p hp).1 (hsc p hp).2 ⟨b.2.1, a.2.1⟩),
          hag 3 _ _ (inside_planar src 3 _ _ _ _ hs3.1 hs3.2 ⟨b.2.2, a.2.2⟩)]
      · rfl
    · rw [ho _ _ _ _ _ p hp, ho _ _ _ _ _ p hp]
  · intro hout p r c
    rcases hp3 p with hp | hp | hp
    · subst hp
      rw [h0, if_neg]
      rintro ⟨hr, hcc⟩
      rcases hout with h | h
      · exact luma_empty _ _ _ _ hl h hcc
      · exact luma_empty _ _ _ _ ht h hr
    · rw [hc _ _ _ _ _ p hp, if_neg]
      rintro ⟨hr, hcc⟩
      rcases hout with h | h
      · exact chroma_empty _ (chromaShift_cases _ _) _ _ _ _ hl h hcc
      · exact chroma_empty _ (chromaShift_cases _ _) _ _ _ _ ht h hr
    · exact ho _ _ _ _ _ p hp r c

theorem inside_bi (b : Buffer) (r c : Int) (W H : Int)
    (hw : (b.plane 1).width = W) (hh : (b.plane 1).height = H)
    (h : (0 ≤ r ∧ r < H) ∧ 0 ≤ c ∧ c < 2 * W) : b.Inside true 1 r c := by
  unfold Buffer.Inside
  simp only [true_and, if_true]
  rw [hw, hh]
  exact h

theorem inside_luma_bi (b : Buffer) (r c : Int) (W H : Int)
    (hw : (b.plane 0).width = W) (hh : (b.plane 0).height = H)
    (h : (0 ≤ r ∧ r < H) ∧ 0 ≤ c ∧ c < W) : b.Inside true 0 r c := by
  unfold Buffer.Inside
  simp only [true_and, if_false, OfNat.zero_ne_ofNat]
  rw [hw, hh]
  exact h

/-- Index safety of a semi-planar blender, from the characterisation of the samples
it leaves in the destination. -/
theorem safe_bi (blend : Buffer → Buffer → Int → Int → Nat → Buffer)
    (f : Nat → Nat → Nat → Nat → Nat)
    (h0 : ∀ (dst src : Buffer) (left top : Int) (shift : Nat) (r c : Int),
      (blend dst src left top shift).rd 0 r c =
        if (clipStart top ≤ r - top ∧
              r - top < clipEnd src.f_height dst.f_height top (clipStart top)) ∧
           (clipStart left ≤ c - left ∧
              c - left < clipEnd src.f_width dst.f_width left (clipStart left))
        then f shift (dst.rd 0 r c) (src.rd 0 (r - top) (c - left))
               (src.rd 3 (r - top) (c - left))
        else dst.rd 0 r c)
    (h1 : ∀ (dst src : Buffer) (left top : Int) (shift : Nat) (r c : Int),
      (blend dst src left top shift).rd 1 r c =
        if (clipStart top >>> chromaShift (dst.plane 1).height (dst.plane 0).height ≤
              r - top >>> chromaShift (dst.plane 1).height (dst.plane 0).height ∧
            r - top >>> chromaShift (dst.plane 1).height (dst.plane 0).height <
              clipEnd src.f_height dst.f_height top (clipStart top) >>>
                chromaShift (dst.plane 1).height (dst.plane 0).height) ∧
           (clipStart left >>> chromaShift (dst.plane 1).width (dst.plane 0).width ≤
              c / 2 - left >>> chromaShift (dst.plane 1).width (dst.plane 0).width ∧
            c / 2 - left >>> chromaShift (dst.plane 1).width (dst.plane 0).width <
              clipEnd src.f_width dst.f_width left (clipStart left) >>>
                chromaShift (dst.plane 1).width (dst.plane 0).width)
        then f shift (dst.rd 1 r c)
               (src.rd (if c % 2 = 0 then 1 else 2)
                 (r - top >>> chromaShift (dst.plane 1).height (dst.plane 0).height)
                 (c / 2 - left >>> chromaShift (dst.plane 1).width (dst.plane 0).width))
               (src.rd 3
                 ((r - top >>> chromaShift (dst.plane 1).height (dst.plane 0).height) *
                   2 ^ chromaShift (dst.plane 1).height (dst.plane 0).height)
                 ((c / 2 - left >>> chromaShift (dst.plane 1).width (dst.plane 0).width) *
                   2 ^ chromaShift (dst.plane 1).width (dst.plane 0).width))
        else dst.rd 1 r c)
    (ho : ∀ (dst src : Buffer) (left top : Int) (shift : Nat) (p : Nat), 2 ≤ p →
      ∀ r c : Int, (blend dst src left top shift).rd p r c = dst.rd p r c)
    (dst src : Buffer) (left top : Int) (shift fw fh : Nat) (hfw : fw ≤ 1) (hfh : fh ≤ 1)
    (hl : 0 ≤ left) (ht : 0 ≤ top)
    (hd0 : dst.LumaSized 0) (hd1 : dst.ChromaSized fw fh 1)
    (hs0 : src.LumaSized 0) (hs3 : src.LumaSized 3)
    (hs1 : src.ChromaSized fw fh 1) (hs2 : src.ChromaSized fw fh 2) :
    IndexSafe blend true dst src left top shift := by
  have hsc : ∀ c : Int, src.ChromaSized fw fh (if c % 2 = 0 then 1 else 2) := by
    intro c; split_ifs <;> assumption
  have hp3 : ∀ p : Nat, p = 0 ∨ p = 1 ∨ 2 ≤ p := by intro p; omega
  refine ⟨?_, ?_, ?_⟩
  · intro p r c hout
    rcases hp3 p with hp | hp | hp
    · subst hp
      rw [h0, if_neg]
      rintro ⟨hr, hcc⟩
      have a := luma_inside _ _ _ _ hl hcc.1 hcc.2
      have b := luma_inside _ _ _ _ ht hr.1 hr.2
      exact hout (inside_luma_bi dst r c _ _ hd0.1 hd0.2 ⟨b.1, a.1⟩)
    · subst hp
      rw [h1, if_neg]
      rintro ⟨hr, hcc⟩
      rw [hd0.1] at hcc
      rw [hd0.2] at hr
      have a := chroma_inside fw hfw _ _ _ _ _ hl hd1.1 hcc.1 hcc.2
      have b := chroma_inside fh hfh _ _ _ _ _ ht hd1.2 hr.1 hr.2
      refine hout (inside_bi dst r c _ _ rfl rfl ⟨?_, ?_⟩)
      · omega
      · omega
    · exact ho _ _ _ _ _ p hp r c
  · intro src2 hw hh hag p r c
    rcases hp3 p with hp | hp | hp
    · subst hp
      rw [h0, h0, hw, hh]
      by_cases hcond : (clipStart top ≤ r - top ∧
            r - top < clipEnd src.f_height dst.f_height top (clipStart top)) ∧
          (clipStart left ≤ c - left ∧
            c - left < clipEnd src.f_width dst.f_width left (clipStart left))
      · rw [if_pos hcond, if_pos hcond]
        have a := luma_inside _ _ _ _ hl hcond.2.1 hcond.2.2
        have b := luma_inside _ _ _ _ ht hcond.1.1 hcond.1.2
        rw [hag 0 _ _ (inside_planar src 0 _ _ _ _ hs0.1 hs0.2 ⟨b.2, a.2⟩),
          hag 3 _ _ (inside_planar src 3 _ _ _ _ hs3.1 hs3.2 ⟨b.2, a.2⟩)]
      · rw [if_neg hcond, if_neg hcond]
    · subst hp
      rw [h1, h1, hw, hh]
      have hq := hsc c
      generalize (if c % 2 = 0 then 1 else 2) = q at hq ⊢
      split_ifs with hcond
      · obtain ⟨hr, hcc⟩ := hcond
        rw [hd0.1] at hcc
        rw [hd0.2] at hr
        have a := chroma_inside fw hfw _ _ _ _ _ hl hd1.1 hcc.1 hcc.2
        have b := chroma_inside fh hfh _ _ _ _ _ ht hd1.2 hr.1 hr.2
        rw [hd0.1, hd0.2]
        rw [hag q _ _ (inside_planar src q _ _ _ _ hq.1 hq.2 ⟨b.2.1, a.2.1⟩),
          hag 3 _ _ (inside_planar src 3 _ _ _ _ hs3.1 hs3.2 ⟨b.2.2, a.2.2⟩)]
      · rfl
    · rw [ho _ _ _ _ _ p hp, ho _ _ _ _ _ p hp]
  · intro hout p r c
    rcases hp3 p with hp | hp | hp
    · subst hp
      rw [h0, if_neg]
      rintro ⟨hr, hcc⟩
      rcases hout with h | h
      · exact luma_empty _ _ _ _ hl h hcc
      · exact luma_empty _ _ _ _ ht h hr
    · subst hp
      rw [h1, if_neg]
      rintro ⟨hr, hcc⟩
      rcases hout with h | h
      · exact chroma_empty _ (chromaShift_cases _ _) _ _ _ _ hl h hcc
      · exact chroma_empty _ (chromaShift_cases _ _) _ _ _ _ ht h hr
    · exact ho _ _ _ _ _ p hp r c

/-- C30. Index safety of the four blenders for `left >= 0` and `top >= 0`.  The luma plane of
`dst` has the extents `W x H` of `dst` and its chroma planes those of a format with chroma
shifts `(fw, fh)` in `{0, 1}` (one interleaved plane of `2 * width` samples per row for the
semi-planar blenders); `src` has luma and alpha planes of its extents `w x h` and chroma
planes of the same subsampling.  Then for each blender, whatever the size of `src`: no sample
outside the planes of `dst` is changed; the result does not depend on anything outside the
planes of `src` (luma, chroma and alpha reads, the alpha read of the chroma loop included);
and when `src` is placed at or beyond the right or the bottom edge of `dst`, nothing is
changed. -/
theorem blenders_index_safe (dst src : Buffer) (left top : Int) (shift fw fh : Nat)
    (hfw : fw ≤ 1) (hfh : fh ≤ 1) (hl : 0 ≤ left) (ht : 0 ≤ top)
    (hd0 : dst.LumaSized 0) (hd1 : dst.ChromaSized fw fh 1)
    (hs0 : src.LumaSized 0) (hs3 : src.LumaSized 3)
    (hs1 : src.ChromaSized fw fh 1) (hs2 : src.ChromaSized fw fh 2) :
    (dst.ChromaSized fw fh 2 →
      IndexSafe blend8on8 false dst src left top shift ∧
      IndexSafe blend8on1x false dst src left top shift) ∧
    IndexSafe blend8onbi8 true dst src left top shift ∧
    IndexSafe blend8onbi1x true dst src left top shift := by
  refine ⟨fun hd2 => ⟨?_, ?_⟩, ?_, ?_⟩
  · exact safe_planar blend8on8 (fun _ old s a => blendSample8 old s a)
      blend8on8_rd0 blend8on8_rdc blend8on8_rd_other
      dst src left top shift fw fh hfw hfh hl ht hd0 hd1 hd2 hs0 hs3 hs1 hs2
  · exact safe_planar blend8on1x
      (fun shift old s a => blendSample16 (deepMax shift) old (s <<< shift) (deepAlpha a shift))
      blend8on1x_rd0 blend8on1x_rdc blend8on1x_rd_other
      dst src left top shift fw fh hfw hfh hl ht hd0 hd1 hd2 hs0 hs3 hs1 hs2
  · exact safe_bi blend8onbi8 (fun _ old s a => blendSample8 old s a)
      blend8onbi8_rd0 blend8onbi8_rd1 blend8onbi8_rd_other
      dst src left top shift fw fh hfw hfh hl ht hd0 hd1 hs0 hs3 hs1 hs2
  · exact safe_bi blend8onbi1x
      (fun shift old s a => blendSample16 (deepMax shift) old (av_bswap16 s) (deepAlpha a shift))
      blend8onbi1x_rd0 blend8onbi1x_rd1 blend8onbi1x_rd_other
      dst src left top shift fw fh hfw hfh hl ht hd0 hd1 hs0 hs3 hs1 hs2

theorem blenders_index_safe_witness :
    IndexSafe blend8on8 false (constBuffer 100 100 50 50 16 128 128 0)
      (constBuffer 120 40 60 20 235 90 240 255) 10 80 0 ∧
    IndexSafe blend8onbi8 true (constBuffer 100 100 50 50 16 128 128 0)
      (constBuffer 120 40 60 20 235 90 240 255) 10 80 0 :=
  let h := blenders_index_safe (constBuffer 100 100 50 50 16 128 128 0)
    (constBuffer 120 40 60 20 235 90 240 255) 10 80 0 1 1 (by decide) (by decide) (by decide)
    (by decide) ⟨rfl, rfl⟩ ⟨rfl, rfl⟩ ⟨rfl, rfl⟩ ⟨rfl, rfl⟩ ⟨rfl, rfl⟩ ⟨rfl, rfl⟩
  ⟨(h.1 ⟨rfl, rfl⟩).1, h.2.1⟩

/-! ## The scratch array of the text composer -/

theorem forN_inv_bounded {σ : Type} (P : σ → Prop) (body : Int → σ → σ) :
    ∀ (n : Nat) (i : Int) (s : σ), (∀ j t, i ≤ j → j < i + n → P t → P (body j t)) → P s →
      P (forN body n i s) := by
  intro n
  induction n with
  | zero => intro i s _ hs; exact hs
  | succ n ih =>
    intro i s h hs
    simp only [forN]
    refine ih (i + 1) _ (fun j t h1 h2 ht => h j t (by omega) (by push_cast; omega) ht) ?_
    exact h i s (le_refl _) (by push_cast; omega) hs

theorem forRange_inv_bounded {σ : Type} (P : σ → Prop) (body : Int → σ → σ) (lo hi : Int)
    (s : σ) (h : ∀ j t, lo ≤ j → j < hi → P t → P (body j t)) (hs : P s) :
    P (forRange lo hi body s) :=
  forN_inv_bounded P body _ _ _ (fun j t h1 h2 ht => h j t h1 (by omega) ht) hs

theorem forN_congr_bounded {σ : Type} (b1 b2 : Int → σ → σ) :
    ∀ (n : Nat) (i : Int) (s : σ), (∀ j t, i ≤ j → j < i + n → b1 j t = b2 j t) →
      forN b1 n i s = forN b2 n i s := by
  intro n
  induction n with
  | zero => intro i s _; rfl
  | succ n ih =>
    intro i s h
    simp only [forN]
    rw [h i s (le_refl _) (by push_cast; omega)]
    exact ih (i + 1) _ (fun j t h1 h2 => h j t (by omega) (by push_cast; omega))

theorem forRange_congr_bounded {σ : Type} (b1 b2 : Int → σ → σ) (lo hi : Int) (s : σ)
    (h : ∀ j t, lo ≤ j → j < hi → b1 j t = b2 j t) :
    forRange lo hi b1 s = forRange lo hi b2 s :=
  forN_congr_bounded b1 b2 _ _ _ (fun j t h1 h2 => h j t h1 (by omega))

/-- An `unsigned` value and its conversion to `int` differ by a multiple of 2^32. -/
theorem toSigned_congr (n : Nat) : ∃ q : Int, (n : Int) = toSigned n + 4294967296 * q := by
  unfold toSigned
  split_ifs
  · exact ⟨(n : Int) / 4294967296, by push_cast; omega⟩
  · exact ⟨(n : Int) / 4294967296 + 1, by push_cast; omega⟩

theorem wrap_eq (e v k : Int) (h : e = v + 4294967296 * k) (hv0 : 0 ≤ v)
    (hv : v < 4294967296) : e % 4294967296 = v := by
  rw [h, Int.add_mul_emod_self_left]
  exact Int.emod_eq_of_lt hv0 hv

/-- The pitch `flatStride = width << 2` of the scratch array does not wrap when the array has
at least one row and at most 2^31 bytes. -/
theorem flatStride_eq (W H : Nat) (hsize : 4 * W * H ≤ 2147483648) (hH : 0 < H) :
    (((W <<< 2) % 4294967296 : Nat) : Int) = 4 * (W : Int) := by
  have h1 : 4 * W * 1 ≤ 4 * W * H := Nat.mul_le_mul_left _ hH
  rw [Nat.shiftLeft_eq, Nat.mod_eq_of_lt (by omega)]
  push_cast
  ring

/-- A cell `(col, row)` of a `W x H` picture of four bytes per pixel lies inside the array. -/
theorem cell_inside (W H : Nat) (col row : Int) (hc0 : 0 ≤ col) (hc : col < W)
    (hr0 : 0 ≤ row) (hr : row < H) :
    0 ≤ 4 * (col + row * W) ∧ 4 * (col + row * W) + 3 < 4 * W * H := by
  have h1 : 0 ≤ row * (W : Int) := Int.mul_nonneg hr0 (by omega)
  have h2 : row * (W : Int) ≤ ((H : Int) - 1) * W :=
    Int.mul_le_mul_of_nonneg_right (by omega) (by omega)
  have h3 : ((H : Int) - 1) * W = (W : Int) * H - W := by ring
  have h4 : (4 : Int) * W * H = 4 * ((W : Int) * H) := by ring
  constructor
  · omega
  · rw [h4]; omega

/-- The offset `fx` at which pixel `(xx, yy)` of a fragment that lies inside the target
rectangle is composed. -/
theorem compose_index (W H x y : Nat) (fs : Int) (f : ASS_Image) (xx yy : Int)
    (hfs : fs = (((W <<< 2) % 4294967296 : Nat) : Int))
    (hsize : 4 * W * H ≤ 2147483648)
    (hx1 : toSigned x ≤ f.dst_x) (hx2 : f.dst_x + f.w ≤ toSigned x + W)
    (hy1 : toSigned y ≤ f.dst_y) (hy2 : f.dst_y + f.h ≤ toSigned y + H)
    (hxx0 : 0 ≤ xx) (hxx : xx < f.w) (hyy0 : 0 ≤ yy) (hyy : yy < f.h) :
    (((f.dst_x - x) * 4 + (f.dst_y - y) * fs) % 4294967296 + yy * fs) % 4294967296 + 4 * xx =
      4 * ((f.dst_x - toSigned x + xx) + (f.dst_y - toSigned y + yy) * W) ∧
    0 ≤ 4 * ((f.dst_x - toSigned x + xx) + (f.dst_y - toSigned y + yy) * W) ∧
    4 * ((f.dst_x - toSigned x + xx) + (f.dst_y - toSigned y + yy) * W) + 3 <
      4 * (W : Int) * H := by
  have hH : 0 < H := by omega
  rw [hfs, flatStride_eq W H hsize hH]
  obtain ⟨qx, hqx⟩ := toSigned_congr x
  obtain ⟨qy, hqy⟩ := toSigned_congr y
  have hin := cell_inside W H (f.dst_x - toSigned x + xx) (f.dst_y - toSigned y + yy)
    (by omega) (by omega) (by omega) (by omega)
  have hrow := cell_inside W H (f.dst_x - toSigned x) (f.dst_y - toSigned y + yy)
    (by omega) (by omega) (by omega) (by omega)
  have hs : (4 : Int) * W * H ≤ 2147483648 := by exact_mod_cast hsize
  refine ⟨?_, hin.1, hin.2⟩
  rw [Int.emod_add_emod]
  rw [wrap_eq _ (4 * ((f.dst_x - toSigned x) + (f.dst_y - toSigned y + yy) * W))
    (-(4 * qx + 4 * W * qy)) (by rw [hqx, hqy]; ring) hrow.1 (by omega)]
  ring

theorem composePixel_outside (compo : Int → Nat) (fx : Int) (Y U V a : Nat) (j : Int)
    (hj : j < fx ∨ fx + 3 < j) : composePixel compo fx Y U V a j = compo j := by
  have m0 : ¬ (j = fx) := by omega
  have m1 : ¬ (j = fx + 1) := by omega
  have m2 : ¬ (j = fx + 2) := by omega
  have m3 : ¬ (j = fx + 3) := by omega
  unfold composePixel
  split_ifs <;> simp [poke, m0, m1, m2, m3]

/-- Composing a fragment that lies inside the target rectangle changes no byte outside the
scratch array. -/
theorem composeFrame_confined (rgb2yuv : Nat → Nat) (W H x y : Nat) (fs : Int)
    (f : ASS_Image) (hfs : fs = (((W <<< 2) % 4294967296 : Nat) : Int))
    (hsize : 4 * W * H ≤ 2147483648)
    (hfit : f.w ≠ 0 ∧ f.h ≠ 0 → toSigned x ≤ f.dst_x ∧ f.dst_x + f.w ≤ toSigned x + W ∧
      toSigned y ≤ f.dst_y ∧ f.dst_y + f.h ≤ toSigned y + H)
    (compo : Int → Nat) (i : Int) (hi : i < 0 ∨ 4 * (W : Int) * H ≤ i) :
    composeFrame rgb2yuv fs x y compo f i = compo i := by
  unfold composeFrame
  split_ifs with hne
  · obtain ⟨hx1, hx2, hy1, hy2⟩ := hfit hne
    simp only []
    refine forRange_inv_bounded (fun c : Int → Nat => c i = compo i) _ _ _ _ ?_ rfl
    intro yy t hyy0 hyy ht
    refine forRange_inv_bounded (fun c : Int → Nat => c i = compo i) _ _ _ _ ?_ ht
    intro xx t2 hxx0 hxx ht2
    have e := compose_index W H x y fs f xx yy hfs hsize hx1 hx2 hy1 hy2 hxx0 hxx hyy0 hyy
    rw [composePixel_outside _ _ _ _ _ _ _ (by rw [e.1]; omega)]
    exact ht2
  · rfl

theorem compose_confined (rgb2yuv : Nat → Nat) (W H x y : Nat) (fs : Int)
    (hfs : fs = (((W <<< 2) % 4294967296 : Nat) : Int))
    (hsize : 4 * W * H ≤ 2147483648) :
    ∀ (frameList : List ASS_Image),
      (∀ f ∈ frameList, f.w ≠ 0 ∧ f.h ≠ 0 →
        toSigned x ≤ f.dst_x ∧ f.dst_x + f.w ≤ toSigned x + W ∧
        toSigned y ≤ f.dst_y ∧ f.dst_y + f.h ≤ toSigned y + H) →
      ∀ (compo : Int → Nat) (i : Int), (i < 0 ∨ 4 * (W : Int) * H ≤ i) →
        frameList.foldl (composeFrame rgb2yuv fs x y) compo i = compo i := by
  intro frameList
  induction frameList with
  | nil => intro _ compo i _; rfl
  | cons f l ih =>
    intro hfit compo i hi
    rw [List.foldl_cons, ih (fun g hg => hfit g (List.mem_cons_of_mem _ hg)) _ i hi]
    exact composeFrame_confined rgb2yuv W H x y fs f hfs hsize (hfit f (List.mem_cons_self _ _))
      compo i hi

/-- The offsets read by the subsampling pass for the pixel `(xx, yy)` and the row `yz` of its
chroma block. -/
theorem subsample_index (W H : Nat) (fs : Int) (xx yy yz : Int)
    (hfs : fs = (((W <<< 2) % 4294967296 : Nat) : Int)) (hsize : 4 * W * H ≤ 2147483648)
    (hxx0 : 0 ≤ xx) (hxx : xx < W) (hyy0 : 0 ≤ yy) (hyz0 : 0 ≤ yz) (hyz : yz + yy < H) :
    (yy * fs) % 4294967296 + 4 * xx + yz * fs = 4 * (xx + (yy + yz) * W) ∧
    0 ≤ 4 * (xx + (yy + yz) * W) ∧ 4 * (xx + (yy + yz) * W) + 3 < 4 * (W : Int) * H := by
  have hH : 0 < H := by omega
  rw [hfs, flatStride_eq W H hsize hH]
  have hin := cell_inside W H xx (yy + yz) hxx0 hxx (by omega) (by omega)
  have hrow := cell_inside W H 0 yy (le_refl _) (by omega) hyy0 (by omega)
  have hs : (4 : Int) * W * H ≤ 2147483648 := by exact_mod_cast hsize
  refine ⟨?_, hin.1, hin.2⟩
  rw [wrap_eq _ (4 * (0 + yy * W)) 0 (by ring) hrow.1 (by omega)]
  ring

theorem chromaAccumulate_congr (pv : hb_filter_private_t) (compo compo2 : Int → Nat)
    (W H : Nat) (fs : Int) (xx yy : Int) (hfs : fs = (((W <<< 2) % 4294967296 : Nat) : Int))
    (hsize : 4 * W * H ≤ 2147483648)
    (hagree : ∀ i : Int, 0 ≤ i → i < 4 * (W : Int) * H → compo2 i = compo i)
    (hxx0 : 0 ≤ xx) (hxx : xx < W) (hyy0 : 0 ≤ yy) :
    chromaAccumulate pv compo2 fs W H xx yy ((yy * fs) % 4294967296 + 4 * xx) =
      chromaAccumulate pv compo fs W H xx yy ((yy * fs) % 4294967296 + 4 * xx) := by
  unfold chromaAccumulate
  refine forRange_congr_bounded _ _ _ _ _ ?_
  intro yz acc hyz0 hyz
  refine forRange_congr_bounded _ _ _ _ _ ?_
  intro xz acc2 _ _
  have e := subsample_index W H fs xx yy yz hfs hsize hxx0 hxx hyy0 hyz0 (by omega)
  have e1 := hagree (yy * fs % 4294967296 + 4 * xx + yz * fs + 1)
    (by rw [e.1]; omega) (by rw [e.1]; omega)
  have e2 := hagree (yy * fs % 4294967296 + 4 * xx + yz * fs + 2)
    (by rw [e.1]; omega) (by rw [e.1]; omega)
  have e3 := hagree (yy * fs % 4294967296 + 4 * xx + yz * fs + 3)
    (by rw [e.1]; omega) (by rw [e.1]; omega)
  simp only [e1, e2, e3]

/-- The subsampling pass reads the scratch array inside its bounds only: its result is the
same for two arrays that agree there. -/
theorem subsampleCompo_confined (pv : hb_filter_private_t) (compo compo2 : Int → Nat)
    (W H : Nat) (fs : Int) (sub : Buffer) (hfs : fs = (((W <<< 2) % 4294967296 : Nat) : Int))
    (hsize : 4 * W * H ≤ 2147483648)
    (hagree : ∀ i : Int, 0 ≤ i → i < 4 * (W : Int) * H → compo2 i = compo i) :
    subsampleCompo pv compo2 fs W H sub = subsampleCompo pv compo fs W H sub := by
  unfold subsampleCompo
  refine forRange_congr_bounded _ _ _ _ _ ?_
  intro yy s hyy0 hyy
  refine forRange_congr_bounded _ _ _ _ _ ?_
  intro xx s2 hxx0 hxx
  have e := subsample_index W H fs xx yy 0 hfs hsize hxx0 hxx hyy0 (le_refl _) (by omega)
  simp only [zero_mul, add_zero] at e
  have e0 := hagree (yy * fs % 4294967296 + 4 * xx) (by rw [e.1]; omega) (by rw [e.1]; omega)
  have e3 := hagree (yy * fs % 4294967296 + 4 * xx + 3)
    (by rw [e.1]; omega) (by rw [e.1]; omega)
  have ec := chromaAccumulate_congr pv compo compo2 W H fs xx yy hfs hsize hagree hxx0 hxx
    hyy0
  simp only [e0, e3, ec]

/-- The box that the loop of `render_ssa_subs` computes from a start box `b`: it grows only,
contains every non-empty fragment, and its far corner stays below any bound that the start
box and the fragments respect. -/
theorem boundingBox_fold_spec (B : Nat) (l : List ASS_Image) :
    ∀ b r : Nat × Nat × Nat × Nat,
    r = l.foldl (fun (b : Nat × Nat × Nat × Nat) frame =>
      if frame.w ≠ 0 ∧ frame.h ≠ 0 then
        let x2 := if b.2.2.1 > toUnsigned (frame.dst_x + frame.w) then b.2.2.1
          else toUnsigned (frame.dst_x + frame.w)
        let y2 := if b.2.2.2 > toUnsigned (frame.dst_y + frame.h) then b.2.2.2
          else toUnsigned (frame.dst_y + frame.h)
        let x1 := if b.1 > toUnsigned frame.dst_x then toUnsigned frame.dst_x else b.1
        let y1 := if b.2.1 > toUnsigned frame.dst_y then toUnsigned frame.dst_y else b.2.1
        (x1, y1, x2, y2)
      else b) b →
    (∀ f ∈ l, f.w ≠ 0 ∧ f.h ≠ 0 →
      toUnsigned (f.dst_x + f.w) ≤ B ∧ toUnsigned (f.dst_y + f.h) ≤ B) →
    b.2.2.1 ≤ B → b.2.2.2 ≤ B →
    (r.1 ≤ b.1 ∧ r.2.1 ≤ b.2.1 ∧ b.2.2.1 ≤ r.2.2.1 ∧ b.2.2.2 ≤ r.2.2.2) ∧
    (r.2.2.1 ≤ B ∧ r.2.2.2 ≤ B) ∧
    ∀ f ∈ l, f.w ≠ 0 ∧ f.h ≠ 0 →
      r.1 ≤ toUnsigned f.dst_x ∧ r.2.1 ≤ toUnsigned f.dst_y ∧
      toUnsigned (f.dst_x + f.w) ≤ r.2.2.1 ∧ toUnsigned (f.dst_y + f.h) ≤ r.2.2.2 := by
  induction l with
  | nil =>
    intro b r hr _ h1 h2
    subst hr
    exact ⟨⟨le_refl _, le_refl _, le_refl _, le_refl _⟩, ⟨h1, h2⟩,
      fun f hf => absurd hf (List.not_mem_nil f)⟩
  | cons a l ih =>
    intro b r hr hB h1 h2
    subst hr
    simp only [List.foldl_cons]
    by_cases hne : a.w ≠ 0 ∧ a.h ≠ 0
    · have hBa := hB a (List.mem_cons_self _ _) hne
      rw [if_pos hne]
      have key := ih
        ((if b.1 > toUnsigned a.dst_x then toUnsigned a.dst_x else b.1),
         (if b.2.1 > toUnsigned a.dst_y then toUnsigned a.dst_y else b.2.1),
         (if b.2.2.1 > toUnsigned (a.dst_x + a.w) then b.2.2.1
           else toUnsigned (a.dst_x + a.w)),
         (if b.2.2.2 > toUnsigned (a.dst_y + a.h) then b.2.2.2
           else toUnsigned (a.dst_y + a.h))) _ rfl
        (fun f hf => hB f (List.mem_cons_of_mem _ hf))
        (by simp only []; split_ifs <;> omega) (by simp only []; split_ifs <;> omega)
      simp only [] at key ⊢
      obtain ⟨⟨k1, k2, k3, k4⟩, k5, k6⟩ := key
      refine ⟨⟨?_, ?_, ?_, ?_⟩, k5, ?_⟩
      · refine le_trans k1 ?_; split_ifs <;> omega
      · refine le_trans k2 ?_; split_ifs <;> omega
      · refine le_trans ?_ k3; split_ifs <;> omega
      · refine le_trans ?_ k4; split_ifs <;> omega
      · intro f hf hfne
        rcases List.mem_cons.mp hf with h | h
        · subst h
          refine ⟨?_, ?_, ?_, ?_⟩
          · refine le_trans k1 ?_; split_ifs <;> omega
          · refine le_trans k2 ?_; split_ifs <;> omega
          · refine le_trans ?_ k3; split_ifs <;> omega
          · refine le_trans ?_ k4; split_ifs <;> omega
        · exact k6 f h hfne
    · rw [if_neg hne]
      have key := ih b _ rfl (fun f hf => hB f (List.mem_cons_of_mem _ hf)) h1 h2
      simp only [] at key ⊢
      obtain ⟨k1, k5, k6⟩ := key
      refine ⟨k1, k5, ?_⟩
      intro f hf hfne
      rcases List.mem_cons.mp hf with h | h
      · subst h; exact absurd hfne hne
      · exact k6 f h hfne

/-- One axis of the padded box of `render_ssa_subs`: the padded origin `x1`, read as an `int`,
is not to the right of a fragment that starts at `d >= x1`, and `x1 + (x2 - x1)` is not to the
left of a fragment end `e <= x2`. -/
theorem pad_fits (x1 x2 : Nat) (crop : Int) (s : Nat) (d e : Int) (hs : s ≤ 2)
    (h1 : (x1 : Int) ≤ d) (hd : d < 2147483648) (h2 : e ≤ x2) (hx2 : x2 < 2147483648) :
    toSigned (padOrigin x1 crop s) ≤ d ∧
    e ≤ toSigned (padOrigin x1 crop s) + u32 (x2 + 4294967296 - padOrigin x1 crop s) := by
  have hm : toUnsigned (x1 + crop) &&& toUnsigned (2 ^ s - 1) ≤ 3 := by
    refine le_trans Nat.and_le_right ?_
    interval_cases s <;> decide
  unfold padOrigin
  generalize toUnsigned (x1 + crop) &&& toUnsigned (2 ^ s - 1) = m at hm
  unfold toSigned u32
  constructor
  · split_ifs <;> push_cast <;> omega
  · split_ifs <;> push_cast <;> omega

/-- The padded bounding box of `render_ssa_subs` contains every non-empty fragment. -/
theorem box_fits (l : List ASS_Image) (cropx cropy : Int) (ws hs : Nat) (hws : ws ≤ 2)
    (hhs : hs ≤ 2)
    (hl : ∀ f ∈ l, f.w ≠ 0 ∧ f.h ≠ 0 →
      (0 ≤ f.dst_x ∧ 0 ≤ f.dst_x + f.w ∧ f.dst_x + f.w < 2147483648 ∧
        f.dst_x < 2147483648) ∧
      (0 ≤ f.dst_y ∧ 0 ≤ f.dst_y + f.h ∧ f.dst_y + f.h < 2147483648 ∧
        f.dst_y < 2147483648)) :
    ∀ f ∈ l, f.w ≠ 0 ∧ f.h ≠ 0 →
      toSigned (padOrigin (boundingBox l).1 cropx ws) ≤ f.dst_x ∧
      f.dst_x + f.w ≤ toSigned (padOrigin (boundingBox l).1 cropx ws) +
        u32 ((boundingBox l).2.2.1 + 4294967296 - padOrigin (boundingBox l).1 cropx ws) ∧
      toSigned (padOrigin (boundingBox l).2.1 cropy hs) ≤ f.dst_y ∧
      f.dst_y + f.h ≤ toSigned (padOrigin (boundingBox l).2.1 cropy hs) +
        u32 ((boundingBox l).2.2.2 + 4294967296 - padOrigin (boundingBox l).2.1 cropy hs) := by
  have hu : ∀ i : Int, 0 ≤ i → i < 2147483648 → (toUnsigned i : Int) = i := by
    intro i h0 h1
    unfold toUnsigned
    omega
  have spec := boundingBox_fold_spec 2147483647 l (4294967295, 4294967295, 0, 0)
    (boundingBox l) rfl
    (by
      intro f hf hne
      obtain ⟨⟨a1, a2, a3, a4⟩, b1, b2, b3, b4⟩ := hl f hf hne
      have e1 := hu _ a2 a3
      have e2 := hu _ b2 b3
      omega)
    (by decide) (by decide)
  obtain ⟨_, ⟨hx2, hy2⟩, hall⟩ := spec
  intro f hf hne
  obtain ⟨c1, c2, c3, c4⟩ := hall f hf hne
  obtain ⟨⟨a1, a2, a3, a4⟩, b1, b2, b3, b4⟩ := hl f hf hne
  have e1 := hu _ a2 a3
  have e2 := hu _ b2 b3
  have e3 := hu _ a1 a4
  have e4 := hu _ b1 b4
  have px := pad_fits (boundingBox l).1 (boundingBox l).2.2.1 cropx ws f.dst_x
    (f.dst_x + f.w) hws (by omega) a4 (by omega)
    (by omega)
  have py := pad_fits (boundingBox l).2.1 (boundingBox l).2.2.2 cropy hs f.dst_y
    (f.dst_y + f.h) hhs (by omega) b4 (by omega)
    (by omega)
  exact ⟨px.1, px.2, py.1, py.2⟩

/-- C31. `ComposeSubsampleASS` stays inside its scratch array of `width*height*4` bytes
(at most 2^31, so that the `int` offsets do not wrap).  With `flatStride = width << 2` and the
`unsigned` origin `(x, y)` read as `int`: if every non-empty fragment lies within the target
rectangle (`x <= dst_x`, `dst_x + w <= x + width`, `y <= dst_y`, `dst_y + h <= y + height`),
then for every pixel `(xx, yy)` of such a fragment the offset `fx` satisfies `0 <= fx` and
`fx + 3 < width*height*4`, and composing the fragments changes no byte outside the array; in
the subsampling pass, for `0 <= xx < width` and `yz + yy < height`, the offsets
`fx + yz*flatStride` to `fx + yz*flatStride + 3` lie in the array, and the pass gives the same
result for two arrays that agree inside these bounds.  The padded bounding box that
`render_ssa_subs` passes on contains every non-empty fragment whose corners have coordinates
in `0 .. 2^31 - 1`. -/
theorem ComposeSubsampleASS_scratch_safe :
    (∀ (W H x y : Nat) (fs : Int) (frameList : List ASS_Image),
      fs = (((W <<< 2) % 4294967296 : Nat) : Int) → 4 * W * H ≤ 2147483648 →
      (∀ f ∈ frameList, f.w ≠ 0 ∧ f.h ≠ 0 →
        toSigned x ≤ f.dst_x ∧ f.dst_x + f.w ≤ toSigned x + W ∧
        toSigned y ≤ f.dst_y ∧ f.dst_y + f.h ≤ toSigned y + H) →
      (∀ f ∈ frameList, f.w ≠ 0 ∧ f.h ≠ 0 →
        ∀ xx yy : Int, 0 ≤ xx → xx < f.w → 0 ≤ yy → yy < f.h →
          0 ≤ (((f.dst_x - x) * 4 + (f.dst_y - y) * fs) % 4294967296 + yy * fs)
              % 4294967296 + 4 * xx ∧
          (((f.dst_x - x) * 4 + (f.dst_y - y) * fs) % 4294967296 + yy * fs)
              % 4294967296 + 4 * xx + 3 < 4 * (W : Int) * H) ∧
      (∀ (rgb2yuv : Nat → Nat) (compo : Int → Nat) (i : Int),
        (i < 0 ∨ 4 * (W : Int) * H ≤ i) →
        frameList.foldl (composeFrame rgb2yuv fs x y) compo i = compo i) ∧
      (∀ xx yy yz : Int, 0 ≤ xx → xx < W → 0 ≤ yy → 0 ≤ yz → yz + yy < H →
        0 ≤ (yy * fs) % 4294967296 + 4 * xx + yz * fs ∧
        (yy * fs) % 4294967296 + 4 * xx + yz * fs + 3 < 4 * (W : Int) * H) ∧
      (∀ (pv : hb_filter_private_t) (compo compo2 : Int → Nat) (sub : Buffer),
        (∀ i : Int, 0 ≤ i → i < 4 * (W : Int) * H → compo2 i = compo i) →
        subsampleCompo pv compo2 fs W H sub = subsampleCompo pv compo fs W H sub)) ∧
    (∀ (l : List ASS_Image) (cropx cropy : Int) (ws hs : Nat), ws ≤ 2 → hs ≤ 2 →
      (∀ f ∈ l, f.w ≠ 0 ∧ f.h ≠ 0 →
        (0 ≤ f.dst_x ∧ 0 ≤ f.dst_x + f.w ∧ f.dst_x + f.w < 2147483648 ∧
          f.dst_x < 2147483648) ∧
        (0 ≤ f.dst_y ∧ 0 ≤ f.dst_y + f.h ∧ f.dst_y + f.h < 2147483648 ∧
          f.dst_y < 2147483648)) →
      ∀ f ∈ l, f.w ≠ 0 ∧ f.h ≠ 0 →
        toSigned (padOrigin (boundingBox l).1 cropx ws) ≤ f.dst_x ∧
        f.dst_x + f.w ≤ toSigned (padOrigin (boundingBox l).1 cropx ws) +
          u32 ((boundingBox l).2.2.1 + 4294967296 - padOrigin (boundingBox l).1 cropx ws) ∧
        toSigned (padOrigin (boundingBox l).2.1 cropy hs) ≤ f.dst_y ∧
        f.dst_y + f.h ≤ toSigned (padOrigin (boundingBox l).2.1 cropy hs) +
          u32 ((boundingBox l).2.2.2 + 4294967296 -
            padOrigin (boundingBox l).2.1 cropy hs)) := by
  refine ⟨?_, box_fits⟩
  intro W H x y fs frameList hfs hsize hfit
  refine ⟨?_, ?_, ?_, ?_⟩
  · intro f hf hne xx yy hxx0 hxx hyy0 hyy
    obtain ⟨hx1, hx2, hy1, hy2⟩ := hfit f hf hne
    have e := compose_index W H x y fs f xx yy hfs hsize hx1 hx2 hy1 hy2 hxx0 hxx hyy0 hyy
    rw [e.1]
    exact ⟨e.2.1, e.2.2⟩
  · intro rgb2yuv compo i hi
    exact compose_confined rgb2yuv W H x y fs hfs hsize frameList hfit compo i hi
  · intro xx yy yz hxx0 hxx hyy0 hyz0 hyz
    have e := subsample_index W H fs xx yy yz hfs hsize hxx0 hxx hyy0 hyz0 hyz
    rw [e.1]
    exact ⟨e.2.1, e.2.2⟩
  · intro pv compo compo2 sub hagree
    exact subsampleCompo_confined pv compo compo2 W H fs sub hfs hsize hagree

theorem ComposeSubsampleASS_scratch_safe_witness :
    0 ≤ ((((fragAt 3 5 0xFF000000).dst_x - (2 : Nat)) * 4 +
        ((fragAt 3 5 0xFF000000).dst_y - (4 : Nat)) * 8) % 4294967296 + 0 * 8)
          % 4294967296 + 4 * 0 ∧
    ((((fragAt 3 5 0xFF000000).dst_x - (2 : Nat)) * 4 +
        ((fragAt 3 5 0xFF000000).dst_y - (4 : Nat)) * 8) % 4294967296 + 0 * 8)
          % 4294967296 + 4 * 0 + 3 < 4 * ((2 : Nat) : Int) * (2 : Nat) :=
  (ComposeSubsampleASS_scratch_safe.1 2 2 2 4 8 [fragAt 3 5 0xFF000000] (by decide)
    (by decide)
    (by
      intro f hf _
      rw [List.mem_singleton.mp hf]
      decide)).1 (fragAt 3 5 0xFF000000) (List.mem_singleton.mpr rfl) (by decide) 0 0
    (by decide) (by decide) (by decide) (by decide)

/-! ## Sample range of the deep blend -/

/-- A weighted mean with weights `M - A` and `A`, divided by `M` and rounded down, lies
between its two arguments. -/
theorem weighted_between (M old S A : Nat) (hM : 0 < M) (hA : A ≤ M) :
    min old S ≤ (old * (M - A) + S * A) / M ∧ (old * (M - A) + S * A) / M ≤ max old S := by
  constructor
  · rw [Nat.le_div_iff_mul_le hM]
    have h1 : min old S * (M - A) ≤ old * (M - A) := Nat.mul_le_mul_right _ (min_le_left _ _)
    have h2 : min old S * A ≤ S * A := Nat.mul_le_mul_right _ (min_le_right _ _)
    have h3 : min old S * (M - A) + min old S * A = min old S * M := by
      rw [← Nat.mul_add, Nat.sub_add_cancel hA]
    omega
  · apply Nat.div_le_of_le_mul
    have h1 : old * (M - A) ≤ max old S * (M - A) := Nat.mul_le_mul_right _ (le_max_left _ _)
    have h2 : S * A ≤ max old S * A := Nat.mul_le_mul_right _ (le_max_right _ _)
    have h3 : max old S * (M - A) + max old S * A = max old S * M := by
      rw [← Nat.mul_add, Nat.sub_add_cancel hA]
    rw [Nat.mul_comm M]
    omega

/-- The facts on `max`, `alpha` and the shifted source sample that the deep blenders rely
on. -/
theorem deep_operands (shift s a : Nat) (hshift : shift = 2 ∨ shift = 4 ∨ shift = 8)
    (hs : s < 256) (ha : a < 256) :
    0 < deepMax shift ∧ deepMax shift ≤ 65535 ∧ deepAlpha a shift ≤ deepMax shift ∧
      s <<< shift ≤ deepMax shift := by
  unfold deepAlpha deepMax
  rcases hshift with h | h | h <;> subst h <;> simp only [Nat.shiftLeft_eq] <;> omega

theorem deep_sample_range (shift old s a : Nat) (hshift : shift = 2 ∨ shift = 4 ∨ shift = 8)
    (ho : old ≤ deepMax shift) (hs : s < 256) (ha : a < 256) :
    old * (deepMax shift - deepAlpha a shift) + (s <<< shift) * deepAlpha a shift
        < 4294967296 ∧
    blendSample16 (deepMax shift) old (s <<< shift) (deepAlpha a shift) ≤ deepMax shift ∧
    min old (s <<< shift) ≤
      blendSample16 (deepMax shift) old (s <<< shift) (deepAlpha a shift) ∧
    blendSample16 (deepMax shift) old (s <<< shift) (deepAlpha a shift) ≤
      max old (s <<< shift) := by
  obtain ⟨h0, h1, h2, h3⟩ := deep_operands shift s a hshift hs ha
  have hb := weighted_between (deepMax shift) old (s <<< shift) (deepAlpha a shift) h0 h2
  rw [blendSample16_exact _ _ _ _ h0 h1 (by omega) (by omega) h2]
  refine ⟨?_, ?_, hb.1, hb.2⟩
  · have e1 : old * (deepMax shift - deepAlpha a shift) ≤
        deepMax shift * (deepMax shift - deepAlpha a shift) := Nat.mul_le_mul_right _ ho
    have e2 : (s <<< shift) * deepAlpha a shift ≤ deepMax shift * deepAlpha a shift :=
      Nat.mul_le_mul_right _ h3
    have e3 : deepMax shift * (deepMax shift - deepAlpha a shift) +
        deepMax shift * deepAlpha a shift = deepMax shift * deepMax shift := by
      rw [← Nat.mul_add, Nat.sub_add_cancel h2]
    have e4 : deepMax shift * deepMax shift ≤ 65535 * 65535 := Nat.mul_le_mul h1 h1
    omega
  · exact le_trans hb.2 (max_le ho h3)

/-- C32. The deep planar blend never leaves the sample range nor overflows.  For `shift` in
{2, 4, 8} and `max = (256 << shift) - 1`: for every old sample `old <= max`, 8-bit source
sample `s` and 8-bit alpha `a`, the intermediate `old*(max - alpha) + (s << shift)*alpha`
with `alpha = a << shift` is below 2^32, and the value the blend expression stores is at most
`max` and lies between `min(old, s << shift)` and `max(old, s << shift)`; and `blend8on1x`
applied to an 8-bit source and a destination whose samples are all at most `max` leaves every
sample of planes 0, 1 and 2 either as it was or equal to that blend expression of the old
sample, hence at most `max`. -/
theorem blend8on1x_sample_range (shift : Nat) (hshift : shift = 2 ∨ shift = 4 ∨ shift = 8) :
    (∀ old s a : Nat, old ≤ deepMax shift → s < 256 → a < 256 →
      old * (deepMax shift - deepAlpha a shift) + (s <<< shift) * deepAlpha a shift
          < 4294967296 ∧
      blendSample16 (deepMax shift) old (s <<< shift) (deepAlpha a shift) ≤ deepMax shift ∧
      min old (s <<< shift) ≤
        blendSample16 (deepMax shift) old (s <<< shift) (deepAlpha a shift) ∧
      blendSample16 (deepMax shift) old (s <<< shift) (deepAlpha a shift) ≤
        max old (s <<< shift)) ∧
    (∀ (dst src : Buffer) (left top : Int), src.IsU8 →
      (∀ p r c, dst.rd p r c ≤ deepMax shift) →
      ∀ (p : Nat) (r c : Int),
        ((blend8on1x dst src left top shift).rd p r c = dst.rd p r c ∨
          ∃ s a : Nat, s < 256 ∧ a < 256 ∧
            (blend8on1x dst src left top shift).rd p r c =
              blendSample16 (deepMax shift) (dst.rd p r c) (s <<< shift)
                (deepAlpha a shift)) ∧
        (blend8on1x dst src left top shift).rd p r c ≤ deepMax shift) := by
  refine ⟨fun old s a ho hs ha => deep_sample_range shift old s a hshift ho hs ha, ?_⟩
  intro dst src left top hsrc hdst p r c
  have hcell : (blend8on1x dst src left top shift).rd p r c = dst.rd p r c ∨
      ∃ s a : Nat, s < 256 ∧ a < 256 ∧
        (blend8on1x dst src left top shift).rd p r c =
          blendSample16 (deepMax shift) (dst.rd p r c) (s <<< shift) (deepAlpha a shift) := by
    by_cases hp0 : p = 0
    · subst hp0
      rw [blend8on1x_rd0]
      split_ifs
      · exact Or.inr ⟨_, _, hsrc 0 _ _, hsrc 3 _ _, rfl⟩
      · exact Or.inl rfl
    · by_cases hp : p = 1 ∨ p = 2
      · rw [blend8on1x_rdc dst src left top shift p hp]
        simp only []
        split_ifs
        · exact Or.inr ⟨_, _, hsrc p _ _, hsrc 3 _ _, rfl⟩
        · exact Or.inl rfl
      · exact Or.inl (blend8on1x_rd_other dst src left top shift p (by omega) r c)
  refine ⟨hcell, ?_⟩
  rcases hcell with h | ⟨s, a, hs, ha, h⟩
  · rw [h]; exact hdst p r c
  · rw [h]; exact (deep_sample_range shift _ s a hshift (hdst p r c) hs ha).2.1

theorem blend8on1x_sample_range_witness :
    ((2 : Nat) = 2 ∨ (2 : Nat) = 4 ∨ (2 : Nat) = 8) ∧
    1000 * (deepMax 2 - deepAlpha 128 2) + (200 <<< 2) * deepAlpha 128 2 < 4294967296 ∧
    blendSample16 (deepMax 2) 1000 (200 <<< 2) (deepAlpha 128 2) ≤ deepMax 2 ∧
    min 1000 (200 <<< 2) ≤ blendSample16 (deepMax 2) 1000 (200 <<< 2) (deepAlpha 128 2) ∧
    blendSample16 (deepMax 2) 1000 (200 <<< 2) (deepAlpha 128 2) ≤ max 1000 (200 <<< 2) :=
  ⟨by decide, (blend8on1x_sample_range 2 (by decide)).1 1000 200 128 (by decide) (by decide)
    (by decide)⟩

/-! ## Byte range of the composed values -/

/-- The operands of the over-operator for 8-bit alphas: none of them wraps, the divisor is
positive and at most `255 * 255`, and it is at least 255 times each alpha. -/
theorem over_operands (a dstA : Nat) (ha0 : 0 < a) (ha : a < 256) (hd : dstA < 256) :
    u32 (a * 255) = a * 255 ∧ u32 (dstA * (255 - a)) = dstA * (255 - a) ∧
    u32 (u32 (a * 255) + u32 (dstA * (255 - a))) = a * 255 + dstA * (255 - a) ∧
    0 < a * 255 + dstA * (255 - a) ∧ a * 255 + dstA * (255 - a) ≤ 65025 ∧
    255 * a ≤ a * 255 + dstA * (255 - a) ∧ 255 * dstA ≤ a * 255 + dstA * (255 - a) := by
  have hB : dstA * (255 - a) ≤ 255 * (255 - a) := Nat.mul_le_mul_right _ (by omega)
  have h1 : dstA * (255 - a) + dstA * a = dstA * 255 := by
    rw [← Nat.mul_add, Nat.sub_add_cancel (by omega)]
  have h2 : dstA * a ≤ 255 * a := Nat.mul_le_mul_right _ (by omega)
  have e1 : u32 (a * 255) = a * 255 := Nat.mod_eq_of_lt (by omega)
  have e2 : u32 (dstA * (255 - a)) = dstA * (255 - a) := Nat.mod_eq_of_lt (by omega)
  have e3 : u32 (a * 255 + dstA * (255 - a)) = a * 255 + dstA * (255 - a) :=
    Nat.mod_eq_of_lt (by omega)
  refine ⟨e1, e2, ?_, ?_, ?_, ?_, ?_⟩
  · rw [e1, e2, e3]
  · omega
  · omega
  · omega
  · omega

/-- The macro `ALPHA_BLEND` with a divisor that is the sum of its two weights returns a value
between its two colour arguments. -/
theorem ALPHA_BLEND_between (A B Y c : Nat) (hpos : 0 < A + B) (hA : A ≤ 65025)
    (hB : B ≤ 65025) (hY : Y < 256) (hc : c < 256) :
    min Y c ≤ ALPHA_BLEND A Y B c (A + B) ∧ ALPHA_BLEND A Y B c (A + B) ≤ max Y c := by
  unfold ALPHA_BLEND
  simp only [Nat.shiftRight_eq_div_pow, pow_one]
  have h1 : A * Y ≤ A * 255 := Nat.mul_le_mul_left _ (by omega)
  have h2 : c * B ≤ 255 * B := Nat.mul_le_mul_right _ (by omega)
  have e : u32 (A * Y + c * B + (A + B) / 2) = A * Y + c * B + (A + B) / 2 :=
    Nat.mod_eq_of_lt (by omega)
  rw [e]
  have l1 : A * min Y c ≤ A * Y := Nat.mul_le_mul_left _ (min_le_left _ _)
  have l2 : min Y c * B ≤ c * B := Nat.mul_le_mul_right _ (min_le_right _ _)
  have l3 : min Y c * (A + B) = A * min Y c + min Y c * B := by ring
  have u1 : A * Y ≤ A * max Y c := Nat.mul_le_mul_left _ (le_max_left _ _)
  have u2 : c * B ≤ max Y c * B := Nat.mul_le_mul_right _ (le_max_right _ _)
  have u3 : (max Y c + 1) * (A + B) = A * max Y c + max Y c * B + (A + B) := by ring
  constructor
  · rw [Nat.le_div_iff_mul_le hpos]
    omega
  · apply Nat.le_of_lt_succ
    rw [Nat.div_lt_iff_lt_mul hpos]
    show _ < (max Y c + 1) * (A + B)
    omega

theorem poke_bytes (compo : Int → Nat) (i : Int) (v : Nat) (hc : ∀ j, compo j < 256) :
    ∀ j, poke compo i v j < 256 := by
  intro j
  unfold poke
  split_ifs
  · exact Nat.mod_lt _ (by decide)
  · exact hc j

theorem composePixel_bytes (compo : Int → Nat) (fx : Int) (Y U V a : Nat)
    (hc : ∀ j, compo j < 256) : ∀ j, composePixel compo fx Y U V a j < 256 := by
  unfold composePixel
  split_ifs
  · simp only []
    exact poke_bytes _ _ _ (poke_bytes _ _ _ (poke_bytes _ _ _ (poke_bytes _ _ _ hc)))
  · exact poke_bytes _ _ _ (poke_bytes _ _ _ (poke_bytes _ _ _ (poke_bytes _ _ _ hc)))
  · exact hc

theorem composeFrame_bytes (rgb2yuv : Nat → Nat) (flatStride : Int) (x y : Nat)
    (compo : Int → Nat) (frame : ASS_Image) (hc : ∀ j, compo j < 256) :
    ∀ j, composeFrame rgb2yuv flatStride x y compo frame j < 256 := by
  unfold composeFrame
  split_ifs
  · simp only []
    refine forRange_inv (fun c : Int → Nat => ∀ j, c j < 256) _ ?_ _ _ _ hc
    intro yy c hcc
    refine forRange_inv (fun c : Int → Nat => ∀ j, c j < 256) _ ?_ _ _ _ hcc
    intro xx c2 hc2
    exact composePixel_bytes _ _ _ _ _ _ hc2
  · exact hc

theorem compose_bytes (rgb2yuv : Nat → Nat) (flatStride : Int) (x y : Nat) :
    ∀ (frameList : List ASS_Image) (compo : Int → Nat), (∀ j, compo j < 256) →
    ∀ j, frameList.foldl (composeFrame rgb2yuv flatStride x y) compo j < 256 := by
  intro frameList
  induction frameList with
  | nil => intro compo hc; exact hc
  | cons f l ih =>
    intro compo hc
    exact ih _ (composeFrame_bytes rgb2yuv flatStride x y compo f hc)

/-- A loop invariant indexed by the number of iterations made so far. -/
theorem forN_count {σ : Type} (P : Nat → σ → Prop) (body : Int → σ → σ) (N : Nat)
    (h : ∀ k i s, k < N → P k s → P (k + 1) (body i s)) :
    ∀ (n : Nat) (i : Int) (s : σ) (k : Nat), k + n ≤ N → P k s →
      P (k + n) (forN body n i s) := by
  intro n
  induction n with
  | zero => intro i s k _ hs; exact hs
  | succ n ih =>
    intro i s k hk hs
    simp only [forN]
    have := ih (i + 1) (body i s) (k + 1) (by omega) (h k i s (by omega) hs)
    rw [show k + (n + 1) = k + 1 + n by omega]
    exact this

theorem accuBound_mono (k k2 : Nat) (acc : Nat × Nat × Nat) (h : k ≤ k2)
    (ha : accuBound k acc) : accuBound k2 acc := by
  have := Nat.mul_le_mul_right 185895 h
  exact ⟨by have := ha.1; omega, ha.2.1, ha.2.2⟩

theorem accuBound_step (k : Nat) (acc : Nat × Nat × Nat) (cx cy al u v : Nat) (hk : k < 16)
    (ha : accuBound k acc) (hcx : cx ≤ 27) (hcy : cy ≤ 27) (hal : al < 256) (hu : u < 256)
    (hv : v < 256) :
    accuBound (k + 1)
      (u32 (acc.1 + u32 (cx * cy * al) * u), u32 (acc.2.1 + u32 (cx * cy * al) * v),
        u32 (acc.2.2 + u32 (cx * cy * al))) := by
  obtain ⟨h1, h2, h3⟩ := ha
  have hcc : cx * cy ≤ 27 * 27 := Nat.mul_le_mul hcx hcy
  have hco : cx * cy * al ≤ 27 * 27 * 255 := Nat.mul_le_mul hcc (by omega)
  have e0 : u32 (cx * cy * al) = cx * cy * al := Nat.mod_eq_of_lt (by omega)
  rw [e0]
  generalize cx * cy * al = co at hco ⊢
  have hu2 : co * u ≤ co * 255 := Nat.mul_le_mul_left _ (by omega)
  have hv2 : co * v ≤ co * 255 := Nat.mul_le_mul_left _ (by omega)
  have hk2 : k * 185895 ≤ 15 * 185895 := Nat.mul_le_mul_right _ (by omega)
  have e1 : u32 (acc.2.2 + co) = acc.2.2 + co := Nat.mod_eq_of_lt (by omega)
  have e2 : u32 (acc.1 + co * u) = acc.1 + co * u := Nat.mod_eq_of_lt (by omega)
  have e3 : u32 (acc.2.1 + co * v) = acc.2.1 + co * v := Nat.mod_eq_of_lt (by omega)
  rw [e1, e2, e3]
  refine ⟨?_, ?_, ?_⟩
  · simp only []; omega
  · simp only []; omega
  · simp only []; omega

theorem chromaAccumulate_bound (pv : hb_filter_private_t) (compo : Int → Nat)
    (flatStride : Int) (width height : Nat) (xx yy fx : Int)
    (hco : ∀ axis x, pv.chromaCoeffs axis x ≤ 27) (hh : pv.hshift ≤ 2) (hw : pv.wshift ≤ 2)
    (hc : ∀ j, compo j < 256) :
    accuBound 16 (chromaAccumulate pv compo flatStride width height xx yy fx) := by
  have p2 : ∀ s : Nat, s ≤ 2 → (2 : Int) ^ s ≤ 4 := by
    intro s hs; interval_cases s <;> norm_num
  have hny : (min ((2 : Int) ^ pv.hshift) ((height : Int) - yy) - 0).toNat ≤ 4 := by
    have := p2 _ hh
    omega
  have hnx : (min ((2 : Int) ^ pv.wshift) ((width : Int) - xx) - 0).toNat ≤ 4 := by
    have := p2 _ hw
    omega
  unfold chromaAccumulate forRange
  have outer := forN_count (fun j acc => accuBound (4 * j) acc)
    (fun yz acc =>
      forN (fun xz acc =>
        (u32 (acc.1 + u32 (pv.chromaCoeffs 0 xz.toNat * pv.chromaCoeffs 1 yz.toNat *
            compo (fx + yz * flatStride + 3)) * compo (fx + yz * flatStride + 1)),
         u32 (acc.2.1 + u32 (pv.chromaCoeffs 0 xz.toNat * pv.chromaCoeffs 1 yz.toNat *
            compo (fx + yz * flatStride + 3)) * compo (fx + yz * flatStride + 2)),
         u32 (acc.2.2 + u32 (pv.chromaCoeffs 0 xz.toNat * pv.chromaCoeffs 1 yz.toNat *
            compo (fx + yz * flatStride + 3)))))
        (min ((2 : Int) ^ pv.wshift) ((width : Int) - xx) - 0).toNat 0 acc) 4
    (by
      intro j yz acc hj hacc
      have inner := forN_count (fun k acc => accuBound k acc)
        (fun xz acc =>
          (u32 (acc.1 + u32 (pv.chromaCoeffs 0 xz.toNat * pv.chromaCoeffs 1 yz.toNat *
              compo (fx + yz * flatStride + 3)) * compo (fx + yz * flatStride + 1)),
           u32 (acc.2.1 + u32 (pv.chromaCoeffs 0 xz.toNat * pv.chromaCoeffs 1 yz.toNat *
              compo (fx + yz * flatStride + 3)) * compo (fx + yz * flatStride + 2)),
           u32 (acc.2.2 + u32 (pv.chromaCoeffs 0 xz.toNat * pv.chromaCoeffs 1 yz.toNat *
              compo (fx + yz * flatStride + 3))))) 16
        (by
          intro k xz acc hk hacc
          exact accuBound_step k acc _ _ _ _ _ hk hacc (hco _ _) (hco _ _) (hc _) (hc _)
            (hc _))
        (min ((2 : Int) ^ pv.wshift) ((width : Int) - xx) - 0).toNat 0 acc (4 * j)
        (by omega) hacc
      exact accuBound_mono _ _ _ (by omega) inner)
    (min ((2 : Int) ^ pv.hshift) ((height : Int) - yy) - 0).toNat 0 (0, 0, 0) 0 (by omega)
    ⟨by simp, by simp, by simp⟩
  exact accuBound_mono _ _ _ (by omega) outer

theorem ceil_div_byte (accuA accuC : Nat) (hC : accuC ≠ 0) (hb : accuC ≤ 16 * 185895)
    (hA : accuA ≤ 255 * accuC) : u32 (accuA + (accuC - 1)) / accuC ≤ 255 := by
  have e : u32 (accuA + (accuC - 1)) = accuA + (accuC - 1) := Nat.mod_eq_of_lt (by omega)
  rw [e]
  apply Nat.le_of_lt_succ
  rw [Nat.div_lt_iff_lt_mul (by omega)]
  show _ < (255 + 1) * accuC
  omega

theorem initChromaCoeffs_le (loc : AVChromaLocation) (w h : Nat) (hw : w ≤ 2) (hh : h ≤ 2) :
    ∃ t, initChromaCoeffs (chromaOffsets loc w h).1 (chromaOffsets loc w h).2 = some t ∧
      ∀ axis x : Nat, t axis x ≤ 27 := by
  have key : ∀ o : Int, o = 0 ∨ o = 2 ∨ o = 3 →
      ∃ cx, [0, 1, 2, 3].mapM (chromaCoeff o) = some cx ∧ ∀ x : Nat, cx.getD x 0 ≤ 27 := by
    intro o ho
    have hb : ∀ a b c d : Nat, a ≤ 27 → b ≤ 27 → c ≤ 27 → d ≤ 27 →
        ∀ x : Nat, [a, b, c, d].getD x 0 ≤ 27 := by
      intro a b c d ha hb hc hd x
      rcases x with _ | _ | _ | _ | x <;> simp <;> assumption
    rcases ho with rfl | rfl | rfl
    · exact ⟨[2, 6, 18, 18], rfl, hb _ _ _ _ (by decide) (by decide) (by decide) (by decide)⟩
    · exact ⟨[18, 18, 6, 2], rfl, hb _ _ _ _ (by decide) (by decide) (by decide) (by decide)⟩
    · exact ⟨[27, 9, 3, 1], rfl, hb _ _ _ _ (by decide) (by decide) (by decide) (by decide)⟩
  have hr : ((chromaOffsets loc w h).1 = 0 ∨ (chromaOffsets loc w h).1 = 2 ∨
        (chromaOffsets loc w h).1 = 3) ∧
      ((chromaOffsets loc w h).2 = 0 ∨ (chromaOffsets loc w h).2 = 2 ∨
        (chromaOffsets loc w h).2 = 3) := by
    interval_cases w <;> interval_cases h <;> cases loc <;> simp [chromaOffsets]
  obtain ⟨cx, hx, hxb⟩ := key _ hr.1
  obtain ⟨cy, hy, hyb⟩ := key _ hr.2
  refine ⟨fun axis x => if axis = 0 then cx.getD x 0 else if axis = 1 then cy.getD x 0 else 0,
    ?_, ?_⟩
  · unfold initChromaCoeffs
    rw [hx, hy]
  · intro axis x
    simp only []
    split_ifs
    · exact hxb x
    · exact hyb x
    · omega

/-- C33. No 8-bit truncation in the composer.  For 8-bit inputs every value that
`ComposeSubsampleASS` stores into a byte is at most 255 before the store.  With a fragment
alpha `a > 0`, an accumulator alpha `dstA` and `resAlpha = a*255 + dstA*(255 - a)`: the
divisor `resAlpha` is positive, each `ALPHA_BLEND` result lies between the smaller and the
larger of the fragment component and the accumulator component, and `div255(resAlpha)` is at
most 255 and at least `a` and `dstA`; so the four bytes `composePixel` writes hold these
values themselves (or the components of the fragment when the accumulator alpha is 0), and the
scratch array holds bytes only.  With chroma coefficients of at most 27 and chroma shifts of
at most 2, as `hb_rendersub_init` produces them, the accumulators do not wrap and, when
`accuC` is not 0, both ceiling divisions `(accuA + accuC - 1) / accuC` and
`(accuB + accuC - 1) / accuC` are at most 255. -/
theorem compose_no_truncation :
    (∀ a dstA Y c : Nat, 0 < a → a < 256 → dstA < 256 → Y < 256 → c < 256 →
      0 < u32 (u32 (a * 255) + u32 (dstA * (255 - a))) ∧
      min Y c ≤ ALPHA_BLEND (u32 (a * 255)) Y (u32 (dstA * (255 - a))) c
        (u32 (u32 (a * 255) + u32 (dstA * (255 - a)))) ∧
      ALPHA_BLEND (u32 (a * 255)) Y (u32 (dstA * (255 - a))) c
        (u32 (u32 (a * 255) + u32 (dstA * (255 - a)))) ≤ max Y c ∧
      div255 (u32 (u32 (a * 255) + u32 (dstA * (255 - a)))) ≤ 255 ∧
      a ≤ div255 (u32 (u32 (a * 255) + u32 (dstA * (255 - a)))) ∧
      dstA ≤ div255 (u32 (u32 (a * 255) + u32 (dstA * (255 - a))))) ∧
    (∀ (compo : Int → Nat) (fx : Int) (Y U V a : Nat), Y < 256 → U < 256 → V < 256 →
      0 < a → a < 256 → (∀ i, compo i < 256) →
      (compo (fx + 3) ≠ 0 →
        composePixel compo fx Y U V a fx =
          ALPHA_BLEND (u32 (a * 255)) Y (u32 (compo (fx + 3) * (255 - a))) (compo fx)
            (u32 (u32 (a * 255) + u32 (compo (fx + 3) * (255 - a)))) ∧
        composePixel compo fx Y U V a (fx + 1) =
          ALPHA_BLEND (u32 (a * 255)) U (u32 (compo (fx + 3) * (255 - a))) (compo (fx + 1))
            (u32 (u32 (a * 255) + u32 (compo (fx + 3) * (255 - a)))) ∧
        composePixel compo fx Y U V a (fx + 2) =
          ALPHA_BLEND (u32 (a * 255)) V (u32 (compo (fx + 3) * (255 - a))) (compo (fx + 2))
            (u32 (u32 (a * 255) + u32 (compo (fx + 3) * (255 - a)))) ∧
        composePixel compo fx Y U V a (fx + 3) =
          div255 (u32 (u32 (a * 255) + u32 (compo (fx + 3) * (255 - a))))) ∧
      (compo (fx + 3) = 0 →
        composePixel compo fx Y U V a fx = Y ∧ composePixel compo fx Y U V a (fx + 1) = U ∧
        composePixel compo fx Y U V a (fx + 2) = V ∧
        composePixel compo fx Y U V a (fx + 3) = a)) ∧
    (∀ (rgb2yuv : Nat → Nat) (flatStride : Int) (x y : Nat) (frameList : List ASS_Image)
      (i : Int), frameList.foldl (composeFrame rgb2yuv flatStride x y) (fun _ => 0) i < 256) ∧
    (∀ (pv : hb_filter_private_t) (compo : Int → Nat) (flatStride : Int) (width height : Nat)
      (xx yy fx : Int), (∀ axis x, pv.chromaCoeffs axis x ≤ 27) → pv.hshift ≤ 2 →
      pv.wshift ≤ 2 → (∀ i, compo i < 256) →
      accuBound 16 (chromaAccumulate pv compo flatStride width height xx yy fx) ∧
      ((chromaAccumulate pv compo flatStride width height xx yy fx).2.2 ≠ 0 →
        u32 ((chromaAccumulate pv compo flatStride width height xx yy fx).1 +
            ((chromaAccumulate pv compo flatStride width height xx yy fx).2.2 - 1)) /
          (chromaAccumulate pv compo flatStride width height xx yy fx).2.2 ≤ 255 ∧
        u32 ((chromaAccumulate pv compo flatStride width height xx yy fx).2.1 +
            ((chromaAccumulate pv compo flatStride width height xx yy fx).2.2 - 1)) /
          (chromaAccumulate pv compo flatStride width height xx yy fx).2.2 ≤ 255)) ∧
    (∀ (loc : AVChromaLocation) (w h : Nat), w ≤ 2 → h ≤ 2 →
      ∃ t, initChromaCoeffs (chromaOffsets loc w h).1 (chromaOffsets loc w h).2 = some t ∧
        ∀ axis x : Nat, t axis x ≤ 27) := by
  have sample : ∀ a dstA Y c : Nat, 0 < a → a < 256 → dstA < 256 → Y < 256 → c < 256 →
      0 < u32 (u32 (a * 255) + u32 (dstA * (255 - a))) ∧
      min Y c ≤ ALPHA_BLEND (u32 (a * 255)) Y (u32 (dstA * (255 - a))) c
        (u32 (u32 (a * 255) + u32 (dstA * (255 - a)))) ∧
      ALPHA_BLEND (u32 (a * 255)) Y (u32 (dstA * (255 - a))) c
        (u32 (u32 (a * 255) + u32 (dstA * (255 - a)))) ≤ max Y c ∧
      div255 (u32 (u32 (a * 255) + u32 (dstA * (255 - a)))) ≤ 255 ∧
      a ≤ div255 (u32 (u32 (a * 255) + u32 (dstA * (255 - a)))) ∧
      dstA ≤ div255 (u32 (u32 (a * 255) + u32 (dstA * (255 - a)))) := by
    intro a dstA Y c ha0 ha hd hY hc
    obtain ⟨e1, e2, e3, h0, h1, h2, h3⟩ := over_operands a dstA ha0 ha hd
    have hB : dstA * (255 - a) ≤ 255 * (255 - a) := Nat.mul_le_mul_right _ (by omega)
    have hb := ALPHA_BLEND_between (a * 255) (dstA * (255 - a)) Y c h0 (by omega) (by omega)
      hY hc
    rw [e3, e1, e2, div255_exact _ h1]
    exact ⟨h0, hb.1, hb.2, by omega, by omega, by omega⟩
  refine ⟨sample, ?_, ?_, ?_, initChromaCoeffs_le⟩
  · intro compo fx Y U V a hY hU hV ha0 ha hc
    have n1 : ¬ (fx = fx + 1) := by omega
    have n2 : ¬ (fx = fx + 2) := by omega
    have n3 : ¬ (fx = fx + 3) := by omega
    have n4 : ¬ (fx + 1 = fx + 2) := by omega
    have n5 : ¬ (fx + 1 = fx + 3) := by omega
    have n6 : ¬ (fx + 2 = fx + 3) := by omega
    have n7 : ¬ (fx + 1 = fx) := by omega
    have n8 : ¬ (fx + 2 = fx) := by omega
    have n9 : ¬ (fx + 2 = fx + 1) := by omega
    have h0 : a ≠ 0 := by omega
    have hbyte : ∀ C c : Nat, C < 256 → c < 256 →
        ALPHA_BLEND (u32 (a * 255)) C (u32 (compo (fx + 3) * (255 - a))) c
          (u32 (u32 (a * 255) + u32 (compo (fx + 3) * (255 - a)))) % 256 =
        ALPHA_BLEND (u32 (a * 255)) C (u32 (compo (fx + 3) * (255 - a))) c
          (u32 (u32 (a * 255) + u32 (compo (fx + 3) * (255 - a)))) := by
      intro C c hC hc2
      have := (sample a (compo (fx + 3)) C c ha0 ha (hc _) hC hc2).2.2.1
      exact Nat.mod_eq_of_lt (lt_of_le_of_lt this (max_lt hC hc2))
    constructor
    · intro hz
      refine ⟨?_, ?_, ?_, ?_⟩
      · simp only [composePixel, h0, hz, ne_eq, not_false_eq_true, if_true, poke, n1, n2, n3,
          if_false]
        exact hbyte Y _ hY (hc _)
      · simp only [composePixel, h0, hz, ne_eq, not_false_eq_true, if_true, poke, n4, n5, n7,
          if_false]
        exact hbyte U _ hU (hc _)
      · simp only [composePixel, h0, hz, ne_eq, not_false_eq_true, if_true, poke, n6, n8, n9,
          if_false]
        exact hbyte V _ hV (hc _)
      · simp only [composePixel, h0, hz, ne_eq, not_false_eq_true, if_true, poke]
        have := (sample a (compo (fx + 3)) Y Y ha0 ha (hc _) hY hY).2.2.2.1
        exact Nat.mod_eq_of_lt (by omega)
    · intro hz
      simp only [composePixel, h0, hz, ne_eq, not_false_eq_true, not_true_eq_false, if_true,
        if_false, poke, n1, n2, n3, n4, n5, n6, n7, n8, n9]
      refine ⟨?_, ?_, ?_, ?_⟩ <;> omega
  · intro rgb2yuv flatStride x y frameList i
    exact compose_bytes rgb2yuv flatStride x y frameList _ (fun _ => by decide) i
  · intro pv compo flatStride width height xx yy fx hco hh hw hc
    have hb := chromaAccumulate_bound pv compo flatStride width height xx yy fx hco hh hw hc
    refine ⟨hb, fun hne => ?_⟩
    exact ⟨ceil_div_byte _ _ hne hb.1 hb.2.1, ceil_div_byte _ _ hne hb.1 hb.2.2⟩

theorem compose_no_truncation_witness :
    0 < u32 (u32 (128 * 255) + u32 (200 * (255 - 128))) ∧
    min 16 235 ≤ ALPHA_BLEND (u32 (128 * 255)) 16 (u32 (200 * (255 - 128))) 235
      (u32 (u32 (128 * 255) + u32 (200 * (255 - 128)))) ∧
    ALPHA_BLEND (u32 (128 * 255)) 16 (u32 (200 * (255 - 128))) 235
      (u32 (u32 (128 * 255) + u32 (200 * (255 - 128)))) ≤ max 16 235 ∧
    div255 (u32 (u32 (128 * 255) + u32 (200 * (255 - 128)))) ≤ 255 ∧
    128 ≤ div255 (u32 (u32 (128 * 255) + u32 (200 * (255 - 128)))) ∧
    200 ≤ div255 (u32 (u32 (128 * 255) + u32 (200 * (255 - 128)))) :=
  compose_no_truncation.1 128 200 16 235 (by decide) (by decide) (by decide) (by decide)
    (by decide)

/-! ## Post-state of the PGS/DVB policy -/

/-- Every non-empty list splits at its last started entry of index at least 1, or at its
head when no such entry exists. -/
theorem split_last_started (t : Int) (a : Subtitle) (l : List Subtitle) :
    ∃ pre e post, a :: l = pre ++ e :: post ∧ (pre ≠ [] → e.buf.s_start ≤ t) ∧
      ∀ x ∈ post, t < x.buf.s_start := by
  by_cases hl : ∃ x ∈ l, x.buf.s_start ≤ t
  · obtain ⟨pre, e, post, h1, h2, h3⟩ := last_started t l hl
    exact ⟨a :: pre, e, post, by rw [h1]; rfl, fun _ => h2, h3⟩
  · refine ⟨[], a, l, rfl, fun h => absurd rfl h, ?_⟩
    intro y hy
    by_contra hc
    exact hl ⟨y, hy, by omega⟩

theorem dropClear_head : ∀ (l : List Subtitle) (e : Subtitle), (dropClear l).head? = some e →
    e.buf.f_width ≠ 0 ∧ e.buf.f_height ≠ 0 := by
  intro l
  induction l with
  | nil => intro e h; simp [dropClear] at h
  | cons a l ih =>
    intro e h
    unfold dropClear at h
    split_ifs at h with hz
    · simp only [List.head?_cons, Option.some.injEq] at h
      rw [← h]; exact hz
    · exact ih e h

theorem dropClear_tail (e : Subtitle) (post : List Subtitle) :
    ∀ x ∈ (dropClear (e :: post)).tail, x ∈ post := by
  intro x hx
  unfold dropClear at hx
  split_ifs at hx
  · exact hx
  · exact (dropClear_suffix post).subset (List.mem_of_mem_tail hx)

/-- C34. Post-state of the PGS/DVB policy.  For every active list, sorted or not, and
every frame time `t`, in the list that `ApplyPGSSubs` leaves every entry at an index of at
least 1 starts after `t`, and the head entry, if there is one, has a width and a height
other than zero; so an entry of that list that has started can only be its head. -/
theorem ApplyPGSSubs_post_state {φ : Type} (render : φ → Buffer → φ) (t : Int)
    (l : List Subtitle) (buf : φ) :
    (∀ (i : Nat) (e : Subtitle), 1 ≤ i → (ApplyPGSSubs render t l buf).1[i]? = some e →
      t < e.buf.s_start) ∧
    (∀ e : Subtitle, (ApplyPGSSubs render t l buf).1.head? = some e →
      e.buf.f_width ≠ 0 ∧ e.buf.f_height ≠ 0) ∧
    (∀ (i : Nat) (e : Subtitle), (ApplyPGSSubs render t l buf).1[i]? = some e →
      e.buf.s_start ≤ t → i = 0) := by
  have key : (ApplyPGSSubs render t l buf).1 = [] ∨
      ∃ e post, (∀ x ∈ post, t < x.buf.s_start) ∧
        (ApplyPGSSubs render t l buf).1 = dropClear (e :: post) := by
    cases l with
    | nil => exact Or.inl rfl
    | cons a l =>
      obtain ⟨pre, e, post, h1, h2, h3⟩ := split_last_started t a l
      refine Or.inr ⟨e, post, h3, ?_⟩
      rw [h1, ApplyPGSSubs_decomp render t pre e post buf h2 h3]
  have htail : ∀ (i : Nat) (e : Subtitle), 1 ≤ i →
      (ApplyPGSSubs render t l buf).1[i]? = some e → t < e.buf.s_start := by
    intro i e hi hget
    rcases key with h | ⟨e0, post, hpost, h⟩
    · rw [h] at hget; simp at hget
    · rw [h] at hget
      obtain ⟨j, rfl⟩ : ∃ j, i = j + 1 := ⟨i - 1, by omega⟩
      have hmem : e ∈ (dropClear (e0 :: post)).tail := by
        rw [← List.getElem?_tail] at hget
        obtain ⟨hj, he⟩ := List.getElem?_eq_some_iff.mp hget
        rw [← he]
        exact List.getElem_mem hj
      exact hpost e (dropClear_tail e0 post e hmem)
  refine ⟨htail, ?_, ?_⟩
  · intro e hhead
    rcases key with h | ⟨e0, post, _, h⟩
    · rw [h] at hhead; simp at hhead
    · rw [h] at hhead
      exact dropClear_head _ e hhead
  · intro i e hget hs
    by_contra hi
    have := htail i e (by omega) hget
    omega

theorem ApplyPGSSubs_post_state_witness :
    (ApplyPGSSubs (fun (tr : List Buffer) s => tr ++ [s]) 20
      [pgsAt 50 60 10 10, pgsAt 10 20 10 10, pgsAt 100 110 10 10] []).1.length = 2 ∧
    (20 : Int) < (pgsAt 100 110 10 10).buf.s_start :=
  ⟨rfl, (ApplyPGSSubs_post_state (fun (tr : List Buffer) s => tr ++ [s]) 20
    [pgsAt 50 60 10 10, pgsAt 10 20 10 10, pgsAt 100 110 10 10] []).1 1
    (pgsAt 100 110 10 10) (le_refl 1) rfl⟩

/-! ## Coverage of an open-ended text subtitle -/

theorem tickSlices_positive (data : List Nat) : ∀ (fs : List Int) (prev : Int),
    List.Chain (fun a b => a < b) (prev - 1) fs →
    ∀ k ∈ tickSlices data prev fs, 0 < k.duration := by
  intro fs
  induction fs with
  | nil => intro prev _ k hk; simp [tickSlices] at hk
  | cons f fs ih =>
    intro prev hch k hk
    rw [List.chain_cons] at hch
    simp only [tickSlices, List.mem_cons] at hk
    rcases hk with hk | hk
    · rw [hk]; simp only []; omega
    · exact ih (f + 1) (by simpa using hch.2) k hk

theorem textsub_ticks_spec : ∀ (fs : List Int) (pv : hb_filter_private_t) (c : Buffer),
    pv.current_sub = some c → c.s_start ≤ c.s_stop →
    List.Chain (fun a b => a < b) (c.s_stop - 1) fs →
    (∀ f ∈ fs, -2147483648 ≤ f ∧ f < 2147483647) →
    (fs.foldl textsub_tick pv).ssaTrack = pv.ssaTrack ++ tickSlices c.data c.s_stop fs ∧
    ∃ cn, (fs.foldl textsub_tick pv).current_sub = some cn ∧ cn.data = c.data ∧
      cn.s_start ≤ cn.s_stop ∧ (fs = [] → cn = c) ∧
      ∀ k, (tickSlices c.data c.s_stop fs).getLast? = some k →
        cn.s_start = k.timecode ∧ cn.s_stop = k.timecode + k.duration := by
  intro fs
  induction fs with
  | nil =>
    intro pv c hc hcs _ _
    refine ⟨by simp [tickSlices], c, hc, rfl, hcs, fun _ => rfl, ?_⟩
    intro k hk
    simp [tickSlices] at hk
  | cons f fs ih =>
    intro pv c hc hcs hch hint
    rw [List.chain_cons] at hch
    have hf := hint f (List.mem_cons_self _ _)
    have hstep : textsub_tick pv f =
        { pv with
          ssaTrack := pv.ssaTrack ++ [⟨c.data, c.s_stop, f + 1 - c.s_stop⟩]
          current_sub := some { c with s_start := c.s_stop, s_stop := f + 1 } } := by
      simp only [textsub_tick, hc, process_sub]
      rw [if_pos (by omega), toInt_id (f + 1) (by omega) (by omega)]
    obtain ⟨h1, cn, h2, h3, h4, _, h6⟩ :=
      ih (textsub_tick pv f) { c with s_start := c.s_stop, s_stop := f + 1 }
        (by rw [hstep]) (by simp only []; omega) (by simpa using hch.2)
        (fun g hg => hint g (List.mem_cons_of_mem _ hg))
    rw [List.foldl_cons]
    refine ⟨?_, cn, h2, h3, h4, fun h => absurd h (List.cons_ne_nil _ _), ?_⟩
    · rw [h1, hstep]
      simp [tickSlices]
    · intro k hk
      simp only [tickSlices, List.getLast?_cons, Option.some.injEq] at hk
      cases hl : (tickSlices c.data (f + 1) fs).getLast? with
      | none =>
        rw [hl] at hk
        simp only [Option.getD_none] at hk
        have hfs : fs = [] := by
          cases fs with
          | nil => rfl
          | cons g gs => simp [tickSlices, List.getLast?_cons] at hl
        subst hfs
        simp only [List.foldl_nil] at h2
        rw [hstep] at h2
        simp only [Option.some.injEq] at h2
        rw [← hk, ← h2]
        simp
      | some k2 =>
        rw [hl] at hk
        simp only [Option.getD_some] at hk
        rw [← hk]
        exact h6 k2 hl

/-- C35 (as stated). E1 (start 1000 ms, stop unknown) is read with the frame at 2000 ms, the
next frame is at 3000 ms, and E2 (start 5000 ms, EOS) is read with the frame at 5040 ms.  The
two ticks submit `[1000, 2001)` and `[2001, 3001)`; the chunk submitted when E2 closes E1 is
`[2001, 5000)`, which starts at the start of the last slice and covers it again, and not
`[3001, 5000)`.  Moreover a later frame whose time does not fit the `int` of line 1204 gets
no slice: after the first frame, a frame at `90 * 2^31` ticks (`2^31` ms, kept as `-2^31`)
leaves the track and the pending event as they were. -/
theorem textsub_closure_overlaps_last_slice :
    ∃ pv1 pv2 pv3 out1 out2 out3,
      textsub_work envOk pvText [textEv 90000 AV_NOPTS_VALUE 0 [65]] (frame720 180000) =
        Run.done (HB_FILTER_OK, pv1, [], out1) ∧
      textsub_work envOk pv1 [] (frame720 270000) = Run.done (HB_FILTER_OK, pv2, [], out2) ∧
      textsub_work envOk pv2 [textEv 450000 AV_NOPTS_VALUE HB_BUF_FLAG_EOS []]
          (frame720 453600) =
        Run.done (HB_FILTER_OK, pv3, [], out3) ∧
      pv2.ssaTrack = [⟨[65], 1000, 1001⟩, ⟨[65], 2001, 1000⟩] ∧
      pv3.ssaTrack = [⟨[65], 1000, 1001⟩, ⟨[65], 2001, 1000⟩, ⟨[65], 2001, 2999⟩] ∧
      pv3.current_sub = none ∧
      textsub_tick pv1 (toInt (Int.tdiv (90 * 2147483648) 90)) = pv1 :=
  ⟨_, _, _, _, _, _, rfl, rfl, rfl, rfl, rfl, rfl, rfl⟩

/-- C35 (amended). Coverage of an open-ended text subtitle.  Let `current_sub` hold a pending
event `c` with `c.start <= c.stop` (after its ingestion `c.start = c.stop = s`), and let the
following frames have strictly increasing times `f1 < f2 < ... < fn` (ms) with `c.stop <= f1`,
each of them an `int` below `2^31 - 1` as the function keeps it.
The per-frame ticks submit exactly the slices `[c.stop, f1+1)`, `[f1+1, f2+1)`, ...,
`[f(n-1)+1, fn+1)`, each starting where the previous one stopped and each of positive
duration.  Afterwards an event with the same payload is still pending with `start <= stop`;
with no tick it is `c`, otherwise its `start` and `stop` are the two ends of the last slice,
and `start < stop`.  When an event that is not the EOF marker arrives with start `S` (ms), the
chunk submitted for the pending event is `[start, S)` from the start of the last slice, so it
covers the last slice again; it is the only chunk submitted for it and nothing stays
pending from it.  Its duration `S - start` is not negative as soon as `S` is not before the
pending `stop`. -/
theorem textsub_open_ended_cover (pv : hb_filter_private_t) (c : Buffer) (fs : List Int)
    (hc : pv.current_sub = some c) (hcs : c.s_start ≤ c.s_stop)
    (hfs : List.Chain (fun a b => a < b) (c.s_stop - 1) fs)
    (hint : ∀ f ∈ fs, -2147483648 ≤ f ∧ f < 2147483647) :
    (fs.foldl textsub_tick pv).ssaTrack = pv.ssaTrack ++ tickSlices c.data c.s_stop fs ∧
    (∀ k ∈ tickSlices c.data c.s_stop fs, 0 < k.duration) ∧
    ∃ cn, (fs.foldl textsub_tick pv).current_sub = some cn ∧ cn.data = c.data ∧
      cn.s_start ≤ cn.s_stop ∧ (fs = [] → cn = c) ∧
      (∀ k, (tickSlices c.data c.s_stop fs).getLast? = some k →
        cn.s_start = k.timecode ∧ cn.s_stop = k.timecode + k.duration ∧
        cn.s_start < cn.s_stop) ∧
      ∀ (E2 : Subtitle) (fifo : List Subtitle), E2.buf.s_flags &&& HB_BUF_FLAG_EOF = 0 →
        textsub_ingest (E2 :: fifo) (fs.foldl textsub_tick pv) =
          textsub_ingest (E2 :: fifo)
            { fs.foldl textsub_tick pv with
              ssaTrack := (fs.foldl textsub_tick pv).ssaTrack ++
                [⟨c.data, cn.s_start, Int.tdiv E2.buf.s_start 90 - cn.s_start⟩]
              current_sub := none } ∧
        (cn.s_stop ≤ Int.tdiv E2.buf.s_start 90 →
          0 ≤ Int.tdiv E2.buf.s_start 90 - cn.s_start) := by
  obtain ⟨h1, cn, h2, h3, h4, h5, h6⟩ := textsub_ticks_spec fs pv c hc hcs hfs hint
  have hpos := tickSlices_positive c.data fs c.s_stop hfs
  refine ⟨h1, hpos, cn, h2, h3, h4, h5, ?_, ?_⟩
  · intro k hk
    obtain ⟨e1, e2⟩ := h6 k hk
    have := hpos k (List.mem_of_getLast?_eq_some hk)
    exact ⟨e1, e2, by omega⟩
  · intro E2 fifo hE
    refine ⟨?_, fun h => by omega⟩
    have hne : ¬ (E2.buf.s_flags &&& HB_BUF_FLAG_EOF ≠ 0) := by simpa using hE
    simp only [textsub_ingest]
    rw [if_neg hne, if_neg hne]
    simp only [h2, process_sub, h3]

theorem textsub_open_ended_cover_witness :
    ([2000, 3000].foldl textsub_tick
        (textsub_ingest [textEv 90000 AV_NOPTS_VALUE 0 [65]] pvText).2).ssaTrack =
      [] ++ tickSlices [65] 1000 [2000, 3000] ∧
    tickSlices [65] 1000 [2000, 3000] = [⟨[65], 1000, 1001⟩, ⟨[65], 2001, 1000⟩] :=
  ⟨(textsub_open_ended_cover (textsub_ingest [textEv 90000 AV_NOPTS_VALUE 0 [65]] pvText).2
      { (textEv 90000 AV_NOPTS_VALUE 0 [65]).buf with s_start := 1000, s_stop := 1000 }
      [2000, 3000] rfl (by decide)
      (List.Chain.cons (by decide) (List.Chain.cons (by decide) List.Chain.nil))
      (by decide)).1, rfl⟩

/-! ## Index safety of the chroma coefficients -/

theorem baseAt_some_iff (i : Int) : (∃ a, baseAt i = some a) ↔ 0 ≤ i ∧ i ≤ 6 := by
  constructor
  · rintro ⟨a, h⟩
    unfold baseAt at h
    split_ifs at h with h0
    · refine ⟨h0, ?_⟩
      have hlt := (List.getElem?_eq_some_iff.mp h).1
      simp only [baseCoefficients, List.length_cons, List.length_nil] at hlt
      omega
  · rintro ⟨h0, h6⟩
    interval_cases i <;> exact ⟨_, rfl⟩

theorem chromaOffsets_range (loc : AVChromaLocation) (w h : Nat) (hw : w ≤ 1) (hh : h ≤ 1) :
    ((chromaOffsets loc w h).1 = 2 ∨ (chromaOffsets loc w h).1 = 3) ∧
    ((chromaOffsets loc w h).2 = 2 ∨ (chromaOffsets loc w h).2 = 3) := by
  interval_cases w <;> interval_cases h <;> cases loc <;> simp [chromaOffsets]

theorem chromaCoeff_positive (o x : Int) (ho : o = 2 ∨ o = 3) (h0 : 0 ≤ x) (h4 : x < 4) :
    ∃ a b, baseAt (x + o) = some a ∧ baseAt (x + o + (if o % 2 = 0 then 1 else 0)) = some b ∧
      chromaCoeff o x = some (u32 (a + b) >>> 1) ∧ 1 ≤ u32 (a + b) >>> 1 := by
  rcases ho with rfl | rfl <;> interval_cases x <;> exact ⟨_, _, rfl, rfl, rfl, by decide⟩

/-- C36. The coefficient derivation of `hb_rendersub_init` is index-safe and gives positive
weights: for every chroma location and horizontal and vertical chroma shifts of 0 or 1, the
offsets `wX` and `wY` are 2 or 3; for each of them and each `x` in `0..3`, the two indices
`x + w` and `x + w + !(w & 1)` lie in `0..6`, both reads of `baseCoefficients` succeed and
the coefficient computed from them is at least 1; so the table is produced and all its eight
entries are at least 1. -/
theorem chroma_coefficients_index_safe (loc : AVChromaLocation) (wshift hshift : Nat)
    (hw : wshift ≤ 1) (hh : hshift ≤ 1) :
    ((chromaOffsets loc wshift hshift).1 = 2 ∨ (chromaOffsets loc wshift hshift).1 = 3) ∧
    ((chromaOffsets loc wshift hshift).2 = 2 ∨ (chromaOffsets loc wshift hshift).2 = 3) ∧
    (∀ o : Int, o = (chromaOffsets loc wshift hshift).1 ∨
        o = (chromaOffsets loc wshift hshift).2 →
      ∀ x : Int, 0 ≤ x → x < 4 →
        (0 ≤ x + o ∧ x + o ≤ 6) ∧
        (0 ≤ x + o + (if o % 2 = 0 then 1 else 0) ∧
          x + o + (if o % 2 = 0 then 1 else 0) ≤ 6) ∧
        ∃ a b, baseAt (x + o) = some a ∧
          baseAt (x + o + (if o % 2 = 0 then 1 else 0)) = some b ∧
          chromaCoeff o x = some (u32 (a + b) >>> 1) ∧ 1 ≤ u32 (a + b) >>> 1) ∧
    ∃ t, initChromaCoeffs (chromaOffsets loc wshift hshift).1
        (chromaOffsets loc wshift hshift).2 = some t ∧
      ∀ axis x : Nat, axis < 2 → x < 4 → 1 ≤ t axis x := by
  have hr := chromaOffsets_range loc wshift hshift hw hh
  refine ⟨hr.1, hr.2, ?_, ?_⟩
  · intro o ho x h0 h4
    have ho2 : o = 2 ∨ o = 3 := by
      rcases ho with rfl | rfl
      · exact hr.1
      · exact hr.2
    obtain ⟨a, b, ha, hb, hc, hp⟩ := chromaCoeff_positive o x ho2 h0 h4
    exact ⟨(baseAt_some_iff _).mp ⟨a, ha⟩, (baseAt_some_iff _).mp ⟨b, hb⟩, a, b, ha, hb, hc, hp⟩
  · rcases hr.1 with h1 | h1 <;> rcases hr.2 with h2 | h2 <;> rw [h1, h2] <;>
      refine ⟨_, rfl, ?_⟩ <;> intro axis x ha hx <;>
      interval_cases axis <;> interval_cases x <;> decide

theorem chroma_coefficients_index_safe_witness :
    ((chromaOffsets AVChromaLocation.AVCHROMA_LOC_LEFT 1 1).1 = 2 ∨
      (chromaOffsets AVChromaLocation.AVCHROMA_LOC_LEFT 1 1).1 = 3) ∧
    ∃ t, initChromaCoeffs (chromaOffsets AVChromaLocation.AVCHROMA_LOC_LEFT 1 1).1
        (chromaOffsets AVChromaLocation.AVCHROMA_LOC_LEFT 1 1).2 = some t ∧
      ∀ axis x : Nat, axis < 2 → x < 4 → 1 ≤ t axis x :=
  ⟨(chroma_coefficients_index_safe AVChromaLocation.AVCHROMA_LOC_LEFT 1 1 (by decide)
      (by decide)).1,
   (chroma_coefficients_index_safe AVChromaLocation.AVCHROMA_LOC_LEFT 1 1 (by decide)
      (by decide)).2.2.2⟩

end RenderSub
